import Mathlib

/-!
# CSpydr: the type checker, the parser and the C code generator

A shallow embedding of `src/compiler/parser/typechecker.c`, of the
expression, statement, type and declaration parser and the top-level loop of
`src/compiler/parser/parser.c`, of the C back end
`src/compiler/codegen/transpiler/c_codegen.c`, and of the token functions of
`src/api/token.c` and `src/compiler/lexer/token.c`.  C
structs become Lean structures with the same field names, nullable pointers
become `Option`,
`List_T*` slots become lists, and the diagnostics that `throw_error` receives
are collected in an explicit log.  A function that dereferences a null pointer
or reads past a list has no result (`none`); a function that `throw_error`
leaves by its non-local jump hands back the state it had reached, marked
`halted`.  The stream the C back end writes to is a string with a write
position.
-/

namespace CSpydr

/-! ## Data model -/

/-- Type kinds (`ASTTypeKind_T`): every `TY_*` name the sources mention. -/
inductive ASTTypeKind where
  | TY_I8 | TY_I16 | TY_I32 | TY_I64
  | TY_U8 | TY_U16 | TY_U32 | TY_U64
  | TY_F32 | TY_F64 | TY_F80
  | TY_BOOL | TY_VOID | TY_CHAR
  | TY_PTR | TY_ARRAY | TY_VLA | TY_C_ARRAY | TY_STRUCT | TY_ENUM
  | TY_FN | TY_UNDEF | TY_TYPEOF
  | TY_ARR | TY_LAMBDA
  deriving DecidableEq, Repr

/-- Node kinds (`ASTNodeKind_T`): every `ND_*` name the sources mention. -/
inductive ASTNodeKind where
  | ND_NOOP | ND_ID | ND_INT | ND_LONG | ND_ULONG | ND_FLOAT | ND_DOUBLE | ND_BOOL
  | ND_CHAR | ND_STR | ND_NIL | ND_ARRAY | ND_STRUCT | ND_STRUCT_MEMBER
  | ND_ADD | ND_SUB | ND_MUL | ND_DIV | ND_MOD | ND_NEG | ND_BIT_NEG | ND_NOT
  | ND_REF | ND_DEREF | ND_EQ | ND_NE | ND_GT | ND_GE | ND_LT | ND_LE
  | ND_AND | ND_OR | ND_LSHIFT | ND_RSHIFT | ND_XOR | ND_BIT_OR | ND_BIT_AND
  | ND_INC | ND_DEC | ND_CLOSURE | ND_ASSIGN | ND_MEMBER | ND_CALL | ND_INDEX
  | ND_CAST | ND_SIZEOF | ND_ALIGNOF | ND_LEN | ND_PIPE | ND_HOLE
  | ND_TYPE_EXPR | ND_IF_EXPR | ND_TERNARY | ND_ASM
  | ND_BLOCK | ND_IF | ND_LOOP | ND_WHILE | ND_DO_WHILE | ND_DO_UNLESS | ND_FOR
  | ND_FOR_RANGE | ND_MATCH | ND_MATCH_TYPE | ND_CASE | ND_CASE_TYPE | ND_RETURN
  | ND_EXPR_STMT | ND_BREAK | ND_CONTINUE | ND_USING | ND_WITH
  deriving DecidableEq, Repr

/-- Diagnostic kinds (`ErrorType_T`): every `ERR_*` name the sources pass to
`throw_error`. -/
inductive ErrorType where
  | ERR_SYNTAX_ERROR | ERR_SYNTAX_WARNING | ERR_REDEFINITION | ERR_UNDEFINED
  | ERR_TYPE_ERROR | ERR_TYPE_ERROR_UNCR | ERR_TYPE_CAST_WARN | ERR_CODEGEN
  deriving DecidableEq, Repr

/-- Source file handle (`SrcFile_T`), as read by the token API. -/
structure SrcFile where
  path : Option String
  short_path : Option String
  deriving DecidableEq, Repr

/-- Token types (`TokenType_T`): every `TOKEN_*` name the compiler sources
mention. -/
inductive TokenType where
  | TOKEN_ADD | TOKEN_ALIGNOF | TOKEN_AND | TOKEN_ARROW | TOKEN_ASM | TOKEN_ASSIGN
  | TOKEN_BANG | TOKEN_BIT_AND_ASSIGN | TOKEN_BIT_OR | TOKEN_BIT_OR_ASSIGN | TOKEN_BREAK
  | TOKEN_BUILTIN_IS_ARRAY | TOKEN_BUILTIN_IS_FLOAT | TOKEN_BUILTIN_IS_INT
  | TOKEN_BUILTIN_IS_POINTER | TOKEN_BUILTIN_IS_STRUCT | TOKEN_BUILTIN_IS_UINT
  | TOKEN_BUILTIN_IS_UNION | TOKEN_BUILTIN_REG_CLASS | TOKEN_BUILTIN_TO_STR | TOKEN_CHAR
  | TOKEN_COLON | TOKEN_COMMA | TOKEN_CONST | TOKEN_CONTINUE | TOKEN_CURRENT_FN | TOKEN_DEC
  | TOKEN_DIV | TOKEN_DOLLAR | TOKEN_DOT | TOKEN_ELSE | TOKEN_ENUM | TOKEN_EOF | TOKEN_EQ
  | TOKEN_ERROR | TOKEN_EXTERN | TOKEN_FALSE | TOKEN_FLOAT | TOKEN_FN | TOKEN_FOR | TOKEN_GT
  | TOKEN_GT_EQ | TOKEN_ID | TOKEN_IF | TOKEN_IMPORT | TOKEN_INC | TOKEN_INFIX_CALL
  | TOKEN_INT | TOKEN_LBRACE | TOKEN_LBRACKET | TOKEN_LEN | TOKEN_LET | TOKEN_LOOP
  | TOKEN_LPAREN | TOKEN_LSHIFT | TOKEN_LSHIFT_ASSIGN | TOKEN_LT | TOKEN_LT_EQ | TOKEN_MATCH
  | TOKEN_MINUS | TOKEN_MOD | TOKEN_MULT | TOKEN_NAMESPACE | TOKEN_NIL | TOKEN_NOOP
  | TOKEN_NOT_EQ | TOKEN_OR | TOKEN_PERCENT | TOKEN_PIPE | TOKEN_PLUS | TOKEN_POW_2
  | TOKEN_POW_3 | TOKEN_RBRACE | TOKEN_RBRACKET | TOKEN_REF | TOKEN_RETURN | TOKEN_RPAREN
  | TOKEN_RSHIFT | TOKEN_RSHIFT_ASSIGN | TOKEN_SEMICOLON | TOKEN_SIZE | TOKEN_SIZEOF
  | TOKEN_SLASH | TOKEN_STAR | TOKEN_STATIC_MEMBER | TOKEN_STRING | TOKEN_STRUCT | TOKEN_SUB
  | TOKEN_TILDE | TOKEN_TRUE | TOKEN_TYPE | TOKEN_TYPEOF | TOKEN_UNDERSCORE | TOKEN_UNION
  | TOKEN_USING | TOKEN_VA_LIST | TOKEN_WHILE | TOKEN_WITH | TOKEN_XOR | TOKEN_XOR_ASSIGN
  deriving DecidableEq, Repr

/-- A token (`Token_T`). -/
structure Token where
  type : TokenType
  value : String
  line : Nat
  pos : Nat
  source : Option SrcFile
  deriving DecidableEq, Repr

/-- An identifier (`ASTIdentifier_T`): a name, its optional outer identifier,
and the `global_scope` flag. -/
structure ASTIdentifier where
  callee : String
  outer : Option ASTIdentifier
  global_scope : Bool

/-- A member of a struct, union or enum type.  Struct and union members are
`ASTNode_T` items (read: `id`, `data_type`); enum members are `ASTObj_T` items
(read: `id`, `value`).  `value` holds the 64-bit constant that `const_i64`
yields for the member's value expression (optimizer/constexpr.c is not part of
the sources). -/
structure ASTMember (τ : Type) where
  id : ASTIdentifier
  data_type : Option τ
  value : Int

/-- A type (`ASTType_T`).  `base` may be null; `members` and `arg_types` are
the items of the corresponding `List_T`; `id` is read for `TY_UNDEF` only. -/
structure ASTType where
  kind : ASTTypeKind
  is_constant : Bool
  is_primitive : Bool
  base : Option ASTType
  num_indices : Nat
  members : List (ASTMember ASTType)
  arg_types : List ASTType
  is_union : Bool
  is_variadic : Bool
  id : ASTIdentifier

/-- An AST node (`ASTNode_T`) with the slots the type checker and the parser
read and write. -/
structure ASTNode where
  kind : ASTNodeKind
  tok : Option Token
  data_type : Option ASTType
  id : Option ASTIdentifier
  left : Option ASTNode
  right : Option ASTNode
  expr : Option ASTNode
  args : List ASTNode
  is_constant : Bool
  is_assigning : Bool
  int_val : Int
  long_val : Int
  ulong_val : Nat
  the_type : Option ASTType
  condition : Option ASTNode
  if_branch : Option ASTNode
  else_branch : Option ASTNode
  body : Option ASTNode
  return_val : Option ASTNode
  stmts : List ASTNode
  cases : List ASTNode
  default_case : Option ASTNode
  is_default_case : Bool
  init_stmt : Option ASTNode
  exprs : List ASTNode
  str_val : String
  bool_val : Bool

/-! ## Identifiers -/

/-- The chain of names of an identifier, innermost first. -/
def ASTIdentifier.chain : ASTIdentifier → List String
  | ⟨c, none, _⟩ => [c]
  | ⟨c, some o, _⟩ => c :: o.chain
termination_by structural x => x

/-- Modelled from the spec: `identifiers_equal` (ast/ast.c is not part of the
sources).  "Identifiers compare by full chain equality." -/
def identifiers_equal (a b : ASTIdentifier) : Bool :=
  a.chain == b.chain

/-! ## types_equal -/

/-- The `TY_ENUM` loop of `types_equal`: identifiers and constant values of
the members at the same index agree. -/
def enum_members_equal {τ : Type} : List (ASTMember τ) → List (ASTMember τ) → Bool
  | am :: as, bm :: bs =>
    if !identifiers_equal am.id bm.id || am.value != bm.value then false
    else enum_members_equal as bs
  | _, _ => true

mutual
/-- The body of `types_equal` once both pointers are known to be non-null. -/
def types_equal_at : ASTType → ASTType → Bool
  | ⟨ka, ca, _, ba, _, ma, ata, ua, _, ida⟩, b =>
    if ka != b.kind || ca != b.is_constant then false
    else
      match ka with
      | .TY_C_ARRAY | .TY_PTR => types_equal ba b.base
      | .TY_STRUCT =>
        if ma.length != b.members.length || ua != b.is_union then false
        else struct_members_equal ma b.members
      | .TY_ENUM =>
        if ma.length != b.members.length then false
        else enum_members_equal ma b.members
      | .TY_UNDEF => identifiers_equal ida b.id
      | .TY_FN =>
        if ata.length != b.arg_types.length || !types_equal ba b.base then false
        else arg_types_equal ata b.arg_types
      | _ => true
termination_by structural x => x
/-- The function `types_equal(a, b)` of typechecker.c on nullable pointers. -/
def types_equal : Option ASTType → Option ASTType → Bool
  | some a, some b => types_equal_at a b
  | _, _ => false
termination_by structural x => x
/-- The `TY_STRUCT` loop of `types_equal`. -/
def struct_members_equal : List (ASTMember ASTType) → List (ASTMember ASTType) → Bool
  | am :: as, bm :: bs =>
    if struct_member_differs am bm then false else struct_members_equal as bs
  | _, _ => true
termination_by structural x => x
/-- The test of one iteration of the `TY_STRUCT` loop. -/
def struct_member_differs : ASTMember ASTType → ASTMember ASTType → Bool
  | ⟨ia, ta, _⟩, bm => !identifiers_equal ia bm.id || !types_equal ta bm.data_type
termination_by structural x => x
/-- The `TY_FN` loop of `types_equal` over the argument types. -/
def arg_types_equal : List ASTType → List ASTType → Bool
  | a :: as, b :: bs =>
    if !types_equal_at a b then false else arg_types_equal as bs
  | _, _ => true
termination_by structural x => x
end

/-! ## Well-formedness -/

mutual
/-- A type is fully built when every pointer that `types_equal` follows from
it is non-null. -/
def fully_built : ASTType → Bool
  | ⟨k, _, _, b, _, m, ats, _, _, _⟩ =>
    match k with
    | .TY_C_ARRAY | .TY_PTR => base_built b
    | .TY_STRUCT => members_built m
    | .TY_FN => base_built b && arg_types_built ats
    | _ => true
termination_by structural x => x
/-- A base pointer is built when it is non-null and points to a fully built type. -/
def base_built : Option ASTType → Bool
  | some t => fully_built t
  | none => false
termination_by structural x => x
/-- Every struct member carries a fully built type. -/
def members_built : List (ASTMember ASTType) → Bool
  | m :: ms => member_built m && members_built ms
  | [] => true
termination_by structural x => x
/-- A struct member carries a fully built type. -/
def member_built : ASTMember ASTType → Bool
  | ⟨_, t, _⟩ => base_built t
termination_by structural x => x
/-- Every argument type is fully built. -/
def arg_types_built : List ASTType → Bool
  | t :: ts => fully_built t && arg_types_built ts
  | [] => true
termination_by structural x => x
end

/-! ## Collaborators that are not part of the sources -/

/-- The helpers that typechecker.c calls and whose code is not part of the
sources: `unpack`, `is_integer`, `is_flonum` (codegen/codegen_utils.c) on
non-null types, and the table of error/error.c that tells for which error
kinds `throw_error` leaves the compilation instead of returning. -/
structure Helpers where
  unpack : ASTType → Option ASTType
  is_integer : ASTType → Bool
  is_flonum : ASTType → Bool
  force_exit : ErrorType → Bool

/-- Peeling named references from a nullable pointer: `unpack(ty)`; a null
pointer has nothing to peel. -/
def unpack_ptr (env : Helpers) : Option ASTType → Option ASTType
  | none => none
  | some t => env.unpack t

/-- A diagnostic handed to `throw_error`: its kind and the token it is
reported at (the message text is not modelled). -/
structure Diagnostic where
  kind : ErrorType
  tok : Option Token
  deriving DecidableEq, Repr

/-- Modelled from the spec: the warning kinds of the error taxonomy
(error/error.h is not part of the sources): syntax-warning and
type-cast-warning. -/
def is_warning : ErrorType → Bool
  | .ERR_SYNTAX_WARNING => true
  | .ERR_TYPE_CAST_WARN => true
  | _ => false

/-- Modelled from the spec: whether `throw_error(kind, ...)` leaves the
compilation (error/error.c is not part of the sources).  "Warnings are printed
and execution continues"; for an error kind the table `force_exit` decides. -/
def throw_error_halts (env : Helpers) (kind : ErrorType) : Bool :=
  !is_warning kind && env.force_exit kind

/-- The state in which control leaves a checking function: the node as it
has been written so far, the diagnostics reported in order, and whether
`throw_error` left the compilation. -/
structure Checked (α : Type) where
  val : α
  log : List Diagnostic
  halted : Bool

/-- Modelled from the spec: `init_ast_node(kind, tok)` (ast/ast.c is not part
of the sources) allocates a node of the given kind at the given token; every
other slot is empty. -/
def init_ast_node (kind : ASTNodeKind) (tok : Option Token) : ASTNode :=
  { kind := kind, tok := tok, data_type := none, id := none, left := none, right := none,
    expr := none, args := [], is_constant := false, is_assigning := false, int_val := 0,
    long_val := 0, ulong_val := 0, the_type := none, condition := none, if_branch := none,
    else_branch := none, body := none, return_val := none, stmts := [], cases := [],
    default_case := none, is_default_case := false, init_stmt := none, exprs := [],
    str_val := "", bool_val := false }

/-! ## Implicit casts -/

/-- The function `implicitly_castable(tok, from, to)`: the verdict and the
diagnostics it reports; `none` when the code dereferences a null pointer
(`unpack(from->base)->kind` for a pointer whose base peels to null).  Its only
diagnostic is a warning, after which `throw_error` returns. -/
def implicitly_castable (env : Helpers) (tok : Option Token) (from_ to_ : Option ASTType) :
    Option (Bool × List Diagnostic) :=
  match unpack_ptr env from_, unpack_ptr env to_ with
  | some f, some t =>
    if env.is_integer f && env.is_integer t then some (true, [])
    else if env.is_flonum f && env.is_flonum t then some (true, [])
    else if env.is_integer f && env.is_flonum t then some (true, [])
    else if env.is_flonum f && env.is_integer t then
      some (true, [⟨.ERR_TYPE_CAST_WARN, tok⟩])
    else if (f.kind == .TY_PTR || f.kind == .TY_C_ARRAY) && t.kind == .TY_PTR then
      some (true, [])
    else if f.kind == .TY_ARRAY && t.kind == .TY_VLA then some (true, [])
    else if f.kind == .TY_PTR then
      match unpack_ptr env f.base with
      | none => none
      | some fb =>
        if fb.kind == .TY_ARRAY && t.kind == .TY_VLA then some (types_equal fb.base t.base, [])
        else some (false, [])
    else some (false, [])
  | _, _ => some (false, [])

/-- The function `implicit_cast(tok, expr, to)`: the node it builds; `none`
when the code dereferences a null pointer (`unpack(expr->data_type)->kind`,
or `to->kind` once the expression is a sized array). -/
def implicit_cast (env : Helpers) (tok : Option Token) (expr : ASTNode) (to_ : Option ASTType) :
    Option ASTNode :=
  match unpack_ptr env expr.data_type with
  | none => none
  | some et =>
    if et.kind == .TY_ARRAY then
      match to_ with
      | none => none
      | some t =>
        if t.kind == .TY_VLA then
          some { init_ast_node .ND_REF tok with data_type := to_, right := some expr }
        else some { init_ast_node .ND_CAST tok with data_type := to_, left := some expr }
    else some { init_ast_node .ND_CAST tok with data_type := to_, left := some expr }

/-! ## Node-level rules -/

/-- The function `typecheck_assignment(assignment)`; `none` when the code
dereferences a null pointer. -/
def typecheck_assignment (env : Helpers) (assignment : ASTNode) : Option (Checked ASTNode) :=
  match assignment.left, assignment.right with
  | some l, some r =>
    if types_equal l.data_type r.data_type then some ⟨assignment, [], false⟩
    else
      match implicitly_castable env assignment.tok r.data_type l.data_type with
      | none => none
      | some (true, w) =>
        match implicit_cast env assignment.tok r l.data_type with
        | none => none
        | some c => some ⟨{ assignment with right := some c }, w, false⟩
      | some (false, w) =>
        -- the empty `if` of lines 54-58 still evaluates its condition
        match unpack_ptr env r.data_type with
        | none => none
        | some rt =>
          if rt.kind == .TY_ARRAY && (unpack_ptr env l.data_type).isNone then none
          else
            some ⟨assignment, w ++ [⟨.ERR_TYPE_ERROR_UNCR, assignment.tok⟩],
              throw_error_halts env .ERR_TYPE_ERROR_UNCR⟩
  | _, _ => none

/-- The function `typecheck_arg_pass(expected, received)`; `none` when the
code dereferences a null pointer.  When `throw_error` does not return, the
node handed back is never stored by the caller. -/
def typecheck_arg_pass (env : Helpers) (expected : Option ASTType) (received : ASTNode) :
    Option (Checked ASTNode) :=
  if types_equal expected received.data_type then some ⟨received, [], false⟩
  else
    match implicitly_castable env received.tok received.data_type expected with
    | none => none
    | some (true, w) =>
      match implicit_cast env received.tok received expected with
      | none => none
      | some c => some ⟨c, w, false⟩
    | some (false, w) =>
      some ⟨received, w ++ [⟨.ERR_TYPE_ERROR_UNCR, received.tok⟩],
        throw_error_halts env .ERR_TYPE_ERROR_UNCR⟩

/-- The loop of `typecheck_call` from index `i` on: `expected` holds the
parameter types not yet visited, `args` the argument list as written so far.
`none` when `call->args->items[i]` lies outside the list. -/
def typecheck_call_loop (env : Helpers) :
    List ASTType → Nat → List ASTNode → Option (Checked (List ASTNode))
  | [], _, args => some ⟨args, [], false⟩
  | e :: es, i, args =>
    match args[i]? with
    | none => none
    | some received =>
      match typecheck_arg_pass env (some e) received with
      | none => none
      | some r =>
        if r.halted then some ⟨args, r.log, true⟩
        else
          match typecheck_call_loop env es (i + 1) (args.set i r.val) with
          | none => none
          | some rest => some ⟨rest.val, r.log ++ rest.log, rest.halted⟩

/-- The function `typecheck_call(call)`; `none` when the code dereferences a
null pointer or reads past the argument list. -/
def typecheck_call (env : Helpers) (call : ASTNode) : Option (Checked ASTNode) :=
  match call.expr with
  | none => none
  | some callee =>
    match unpack_ptr env callee.data_type with
    | none => none
    | some call_type =>
      match typecheck_call_loop env call_type.arg_types 0 call.args with
      | none => none
      | some r => some ⟨{ call with args := r.val }, r.log, r.halted⟩

/-! ## Conditions used in the statements -/

/-- The type `ty`, once peeled, is no pointer or has a base that peels to a
type: then `implicitly_castable(_, ty, _)` dereferences no null pointer. -/
def base_resolves (env : Helpers) (ty : Option ASTType) : Bool :=
  match unpack_ptr env ty with
  | some f => f.kind != .TY_PTR || (unpack_ptr env f.base).isSome
  | none => true

/-- What `typecheck_call` leaves in the slot of argument `a` for the parameter
type `p`, and in the log. -/
def arg_pass_rule (env : Helpers) (p : ASTType) (a : ASTNode) (slot : Option ASTNode)
    (log : List Diagnostic) : Prop :=
  (types_equal (some p) a.data_type = true → slot = some a) ∧
  (types_equal (some p) a.data_type = false →
    ∀ w, implicitly_castable env a.tok a.data_type (some p) = some (true, w) →
      slot.isSome = true ∧ slot = implicit_cast env a.tok a (some p)) ∧
  (types_equal (some p) a.data_type = false →
    ∀ w, implicitly_castable env a.tok a.data_type (some p) = some (false, w) →
      slot = some a ∧ (⟨.ERR_TYPE_ERROR_UNCR, a.tok⟩ : Diagnostic) ∈ log)

/-! ## Concrete inputs -/

/-- An identifier without outer chain. -/
def plain_id (name : String) : ASTIdentifier :=
  { callee := name, outer := none, global_scope := false }

/-- A type of the given kind and base; every other slot is empty. -/
def type_of_kind (kind : ASTTypeKind) (base : Option ASTType) : ASTType :=
  { kind := kind, is_constant := false, is_primitive := false, base := base, num_indices := 0,
    members := [], arg_types := [], is_union := false, is_variadic := false,
    id := plain_id "" }

/-- The primitive type of the given kind, as in the `primitives` table. -/
def primitive (kind : ASTTypeKind) : ASTType :=
  { type_of_kind kind none with is_primitive := true }

/-- The sized array type `i32[2]`. -/
def array_of_i32 : ASTType :=
  { type_of_kind .TY_ARRAY (some (primitive .TY_I32)) with num_indices := 2 }

/-- The sized array type `f64[2]`. -/
def array_of_f64 : ASTType :=
  { type_of_kind .TY_ARRAY (some (primitive .TY_F64)) with num_indices := 2 }

/-- The variable-length array type `i32[]`. -/
def vla_of_i32 : ASTType := type_of_kind .TY_VLA (some (primitive .TY_I32))

/-- The variable-length array type `f64[]`. -/
def vla_of_f64 : ASTType := type_of_kind .TY_VLA (some (primitive .TY_F64))

/-- The struct type `struct { x: i32, next: &u8 }`. -/
def sample_struct : ASTType :=
  { type_of_kind .TY_STRUCT none with
    members := [⟨plain_id "x", some (primitive .TY_I32), 0⟩,
                ⟨plain_id "next", some (type_of_kind .TY_PTR (some (primitive .TY_U8))), 0⟩] }

/-- The function type `fn(i32, struct { .. }): &i32`. -/
def sample_fn_type : ASTType :=
  { type_of_kind .TY_FN (some (type_of_kind .TY_PTR (some (primitive .TY_I32)))) with
    arg_types := [primitive .TY_I32, sample_struct] }

/-- The same function type, marked variadic and built a second time. -/
def sample_fn_type_variadic : ASTType :=
  { sample_fn_type with is_variadic := true }

/-- A concrete instance of the collaborators, to run the model on examples:
a named reference peels to its `base`, the integer and float kinds are the
ones `c_init_zero` (c_codegen.c) groups together, and every error kind but
`ERR_TYPE_ERROR_UNCR` leaves the compilation. -/
def sample_helpers : Helpers where
  unpack := fun t => if t.kind == .TY_UNDEF then t.base else some t
  is_integer := fun t =>
    match t.kind with
    | .TY_U8 | .TY_I8 | .TY_U16 | .TY_I16 | .TY_U32 | .TY_I32 | .TY_U64 | .TY_I64
    | .TY_BOOL | .TY_CHAR | .TY_ENUM => true
    | _ => false
  is_flonum := fun t =>
    match t.kind with
    | .TY_F32 | .TY_F64 | .TY_F80 => true
    | _ => false
  force_exit := fun k => k != .ERR_TYPE_ERROR_UNCR

/-- The token of an identifier `name` at line 1. -/
def sample_tok (name : String) : Option Token :=
  some { type := .TOKEN_ID, value := name, line := 1, pos := 0, source := none }

/-- An identifier expression `name` of the given type. -/
def id_node (name : String) (ty : ASTType) : ASTNode :=
  { init_ast_node .ND_ID (sample_tok name) with
    data_type := some ty, id := some (plain_id name) }

/-- The assignment `left = right`. -/
def assign_node (left right : ASTNode) : ASTNode :=
  { init_ast_node .ND_ASSIGN (sample_tok "=") with
    data_type := left.data_type, left := some left, right := some right }

/-- The call `callee(args)`. -/
def call_node (callee : ASTNode) (args : List ASTNode) : ASTNode :=
  { init_ast_node .ND_CALL (sample_tok "(") with expr := some callee, args := args }

/-- The pointer type `&i32[2]` (pointer to a sized array). -/
def ptr_to_array_of_i32 : ASTType := type_of_kind .TY_PTR (some array_of_i32)

/-- The function type `fn(i32, f64[]): void` of the callee in `sample_call`. -/
def sample_callee_type : ASTType :=
  { type_of_kind .TY_FN (some (primitive .TY_VOID)) with
    arg_types := [primitive .TY_I32, vla_of_f64] }

/-- The call `f(x, a, s)` with `x: i32`, `a: f64[2]` and a surplus argument
`s` of struct type. -/
def sample_call : ASTNode :=
  call_node (id_node "f" sample_callee_type)
    [id_node "x" (primitive .TY_I32), id_node "a" array_of_f64, id_node "s" sample_struct]

/-! ## Node-level rules: explicit casts and array literals -/

/-- The function `typecheck_explicit_cast(cast)`; `none` when the code
dereferences a null pointer (`cast->left`, or the peeled types `from` and
`to`). -/
def typecheck_explicit_cast (env : Helpers) (cast : ASTNode) : Option (Checked ASTNode) :=
  match cast.left with
  | none => none
  | some l =>
    if types_equal l.data_type cast.data_type then
      some ⟨cast, [⟨.ERR_TYPE_CAST_WARN, cast.tok⟩], false⟩
    else
      match unpack_ptr env l.data_type with
      | none => none
      | some from_ =>
        let log1 : List Diagnostic :=
          if from_.kind == .TY_VOID then [⟨.ERR_TYPE_ERROR_UNCR, cast.tok⟩] else []
        if from_.kind == .TY_VOID && throw_error_halts env .ERR_TYPE_ERROR_UNCR then
          some ⟨cast, log1, true⟩
        else
          match unpack_ptr env cast.data_type with
          | none => none
          | some to_ =>
            if to_.kind == .TY_VOID then
              some ⟨cast, log1 ++ [⟨.ERR_TYPE_ERROR_UNCR, cast.tok⟩],
                throw_error_halts env .ERR_TYPE_ERROR_UNCR⟩
            else some ⟨cast, log1, false⟩

/-- The loop of `typecheck_array_lit`: `n` elements are still to be visited,
starting at index `i`; `args` is the element list as written so far. -/
def typecheck_array_lit_loop (env : Helpers) (base_ty : Option ASTType) :
    Nat → Nat → List ASTNode → Option (Checked (List ASTNode))
  | 0, _, args => some ⟨args, [], false⟩
  | n + 1, i, args =>
    match args[i]? with
    | none => none
    | some arg =>
      match implicitly_castable env arg.tok arg.data_type base_ty with
      | none => none
      | some (true, w) =>
        match implicit_cast env arg.tok arg base_ty with
        | none => none
        | some c =>
          match typecheck_array_lit_loop env base_ty n (i + 1) (args.set i c) with
          | none => none
          | some rest => some ⟨rest.val, w ++ rest.log, rest.halted⟩
      | some (false, w) =>
        if throw_error_halts env .ERR_TYPE_ERROR_UNCR then
          some ⟨args, w ++ [⟨.ERR_TYPE_ERROR_UNCR, arg.tok⟩], true⟩
        else
          match typecheck_array_lit_loop env base_ty n (i + 1) args with
          | none => none
          | some rest =>
            some ⟨rest.val, w ++ [⟨.ERR_TYPE_ERROR_UNCR, arg.tok⟩] ++ rest.log, rest.halted⟩

/-- The function `typecheck_array_lit(a_lit)`; `none` when the code
dereferences a null pointer (`a_lit->data_type`). -/
def typecheck_array_lit (env : Helpers) (a_lit : ASTNode) : Option (Checked ASTNode) :=
  match a_lit.data_type with
  | none => none
  | some ty =>
    match typecheck_array_lit_loop env (unpack_ptr env ty.base) a_lit.args.length 0
        a_lit.args with
    | none => none
    | some r => some ⟨{ a_lit with args := r.val }, r.log, r.halted⟩

/-- The integer literal `1` of type `i32`. -/
def int_one : ASTNode :=
  { init_ast_node .ND_INT (sample_tok "1") with
    data_type := some (primitive .TY_I32), int_val := 1, is_constant := true }

/-- The array literal `[1]` with the inferred type `i32[2]`. -/
def sample_array_lit : ASTNode :=
  { init_ast_node .ND_ARRAY (sample_tok "[") with
    data_type := some array_of_i32, args := [int_one], is_constant := true }

/-- The explicit cast `v: void` of an expression `v` whose type is `void`. -/
def void_to_void_cast : ASTNode :=
  { init_ast_node .ND_CAST (sample_tok ":") with
    data_type := some (primitive .TY_VOID), left := some (id_node "v" (primitive .TY_VOID)) }

/-- The explicit cast `x: void` of an expression `x` of type `i32`. -/
def i32_to_void_cast : ASTNode :=
  { init_ast_node .ND_CAST (sample_tok ":") with
    data_type := some (primitive .TY_VOID), left := some (id_node "x" (primitive .TY_I32)) }

/-! ## The parser: data model

A shallow embedding of `src/compiler/parser/parser.c`.  The parser state is
passed explicitly; the program's root object list (`root_ref->objs`) and the
diagnostics handed to `throw_error` are part of it.  The recursion of the C
functions is bounded by a fuel argument. -/

/-- Object kinds (`ASTObjKind_T`): every `OBJ_*` name the sources mention. -/
inductive ASTObjKind where
  | OBJ_GLOBAL | OBJ_LOCAL | OBJ_FUNCTION | OBJ_FN_ARG | OBJ_TYPEDEF | OBJ_NAMESPACE
  | OBJ_ENUM_MEMBER | OBJ_STRUCT
  deriving DecidableEq, Repr

/-- An object (`ASTObj_T`) with the slots the parser writes and the C back
end reads. -/
structure ASTObj where
  kind : ASTObjKind
  tok : Option Token
  id : Option ASTIdentifier
  data_type : Option ASTType
  return_type : Option ASTType
  args : List ASTObj
  body : Option ASTNode
  value : Option ASTNode
  objs : List ASTObj
  is_extern : Bool

/-- Compile types (`global.ct`). -/
inductive CompileType where
  | CT_TRANSPILE | CT_ASM | CT_LLVM
  deriving DecidableEq, Repr

/-- Precedence classes (`Precedence_T`), in the order of the enumeration. -/
inductive Precedence_T where
  | LOWEST | ASSIGN | PIPE | LOGIC_OR | LOGIC_AND | INFIX_CALL | BIT_OR | BIT_XOR | BIT_AND
  | EQUALS | LT | BIT_SHIFT | PLUS | MULT | MOD | POWER | INC | X_OF | CAST | CALL | ARRAY
  | MEMBER | HIGHEST
  deriving DecidableEq, Repr

/-- The alias `GT = LT` of the enumeration. -/
abbrev Precedence_T.GT : Precedence_T := .LT
/-- The alias `MINUS = PLUS` of the enumeration. -/
abbrev Precedence_T.MINUS : Precedence_T := .PLUS
/-- The alias `DIV = MULT` of the enumeration. -/
abbrev Precedence_T.DIV : Precedence_T := .MULT
/-- The alias `DEC = INC` of the enumeration. -/
abbrev Precedence_T.DEC : Precedence_T := .INC

/-- The integer value of a precedence class. -/
def Precedence_T.val : Precedence_T → Nat
  | .LOWEST => 0 | .ASSIGN => 1 | .PIPE => 2 | .LOGIC_OR => 3 | .LOGIC_AND => 4
  | .INFIX_CALL => 5 | .BIT_OR => 6 | .BIT_XOR => 7 | .BIT_AND => 8 | .EQUALS => 9
  | .LT => 10 | .BIT_SHIFT => 11 | .PLUS => 12 | .MULT => 13 | .MOD => 14 | .POWER => 15
  | .INC => 16 | .X_OF => 17 | .CAST => 18 | .CALL => 19 | .ARRAY => 20 | .MEMBER => 21
  | .HIGHEST => 22

/-- The prefix parse functions that `expr_parse_fns` points to. -/
inductive PrefixParseFn_T where
  | parse_id | parse_int_lit | parse_inline_asm | parse_float_lit | parse_nil_lit
  | parse_bool_lit | parse_char_lit | parse_str_lit | parse_unary | parse_closure
  | parse_array_lit | parse_anonymous_struct_lit | parse_lambda_lit | parse_if_expr
  | parse_sizeof | parse_alignof | parse_len | parse_hole | parse_current_fn_token
  deriving DecidableEq, Repr

/-- The infix parse functions that `expr_parse_fns` points to;
`parse_postfix_op` stands for the C function `parse_postfix`. -/
inductive InfixParseFn_T where
  | parse_num_op | parse_bit_op | parse_bool_op | parse_assignment | parse_postfix_op
  | parse_index | parse_infix_call | parse_cast | parse_member | parse_pipe
  | parse_pow_2 | parse_pow_3
  deriving DecidableEq, Repr

/-- One row of the table `expr_parse_fns`. -/
structure ExprParseFns where
  pfn : Option PrefixParseFn_T
  ifn : Option InfixParseFn_T
  prec : Precedence_T

/-- The table `expr_parse_fns`; a token type without a row has the zero
row `{NULL, NULL, LOWEST}`. -/
def expr_parse_fns : TokenType → ExprParseFns
  | .TOKEN_ID => ⟨some .parse_id, none, .LOWEST⟩
  | .TOKEN_INT => ⟨some .parse_int_lit, none, .LOWEST⟩
  | .TOKEN_ASM => ⟨some .parse_inline_asm, none, .LOWEST⟩
  | .TOKEN_FLOAT => ⟨some .parse_float_lit, none, .LOWEST⟩
  | .TOKEN_NIL => ⟨some .parse_nil_lit, none, .LOWEST⟩
  | .TOKEN_TRUE => ⟨some .parse_bool_lit, none, .LOWEST⟩
  | .TOKEN_FALSE => ⟨some .parse_bool_lit, none, .LOWEST⟩
  | .TOKEN_CHAR => ⟨some .parse_char_lit, none, .LOWEST⟩
  | .TOKEN_STRING => ⟨some .parse_str_lit, none, .LOWEST⟩
  | .TOKEN_BANG => ⟨some .parse_unary, none, .LOWEST⟩
  | .TOKEN_MINUS => ⟨some .parse_unary, some .parse_num_op, .MINUS⟩
  | .TOKEN_LPAREN => ⟨some .parse_closure, none, .CALL⟩
  | .TOKEN_LBRACKET => ⟨some .parse_array_lit, some .parse_index, .ARRAY⟩
  | .TOKEN_LBRACE => ⟨some .parse_anonymous_struct_lit, none, .LOWEST⟩
  | .TOKEN_STAR => ⟨some .parse_unary, some .parse_num_op, .MULT⟩
  | .TOKEN_PERCENT => ⟨none, some .parse_num_op, .DIV⟩
  | .TOKEN_MOD => ⟨none, some .parse_assignment, .ASSIGN⟩
  | .TOKEN_REF => ⟨some .parse_unary, some .parse_bit_op, .BIT_AND⟩
  | .TOKEN_TILDE => ⟨some .parse_unary, none, .LOWEST⟩
  | .TOKEN_PLUS => ⟨none, some .parse_num_op, .PLUS⟩
  | .TOKEN_SLASH => ⟨none, some .parse_num_op, .DIV⟩
  | .TOKEN_EQ => ⟨none, some .parse_bool_op, .EQUALS⟩
  | .TOKEN_NOT_EQ => ⟨none, some .parse_bool_op, .EQUALS⟩
  | .TOKEN_GT => ⟨none, some .parse_bool_op, .GT⟩
  | .TOKEN_GT_EQ => ⟨none, some .parse_bool_op, .GT⟩
  | .TOKEN_LT => ⟨none, some .parse_bool_op, .LT⟩
  | .TOKEN_LT_EQ => ⟨none, some .parse_bool_op, .LT⟩
  | .TOKEN_OR => ⟨some .parse_lambda_lit, some .parse_bool_op, .LOGIC_OR⟩
  | .TOKEN_AND => ⟨none, some .parse_bool_op, .LOGIC_AND⟩
  | .TOKEN_INC => ⟨none, some .parse_postfix_op, .INC⟩
  | .TOKEN_DEC => ⟨none, some .parse_postfix_op, .DEC⟩
  | .TOKEN_ASSIGN => ⟨none, some .parse_assignment, .ASSIGN⟩
  | .TOKEN_ADD => ⟨none, some .parse_assignment, .ASSIGN⟩
  | .TOKEN_SUB => ⟨none, some .parse_assignment, .ASSIGN⟩
  | .TOKEN_DIV => ⟨none, some .parse_assignment, .ASSIGN⟩
  | .TOKEN_MULT => ⟨none, some .parse_assignment, .ASSIGN⟩
  | .TOKEN_DOT => ⟨none, some .parse_member, .MEMBER⟩
  | .TOKEN_COLON => ⟨none, some .parse_cast, .CAST⟩
  | .TOKEN_SIZEOF => ⟨some .parse_sizeof, none, .X_OF⟩
  | .TOKEN_ALIGNOF => ⟨some .parse_alignof, none, .X_OF⟩
  | .TOKEN_LEN => ⟨some .parse_len, none, .LOWEST⟩
  | .TOKEN_POW_2 => ⟨none, some .parse_pow_2, .POWER⟩
  | .TOKEN_POW_3 => ⟨none, some .parse_pow_3, .POWER⟩
  | .TOKEN_BIT_OR => ⟨some .parse_lambda_lit, some .parse_bit_op, .BIT_OR⟩
  | .TOKEN_LSHIFT => ⟨none, some .parse_bit_op, .BIT_SHIFT⟩
  | .TOKEN_RSHIFT => ⟨none, some .parse_bit_op, .BIT_SHIFT⟩
  | .TOKEN_XOR => ⟨none, some .parse_bit_op, .BIT_XOR⟩
  | .TOKEN_PIPE => ⟨none, some .parse_pipe, .PIPE⟩
  | .TOKEN_DOLLAR => ⟨some .parse_hole, none, .LOWEST⟩
  | .TOKEN_LSHIFT_ASSIGN => ⟨none, some .parse_assignment, .ASSIGN⟩
  | .TOKEN_RSHIFT_ASSIGN => ⟨none, some .parse_assignment, .ASSIGN⟩
  | .TOKEN_XOR_ASSIGN => ⟨none, some .parse_assignment, .ASSIGN⟩
  | .TOKEN_BIT_AND_ASSIGN => ⟨none, some .parse_assignment, .ASSIGN⟩
  | .TOKEN_BIT_OR_ASSIGN => ⟨none, some .parse_assignment, .ASSIGN⟩
  | .TOKEN_INFIX_CALL => ⟨none, some .parse_infix_call, .INFIX_CALL⟩
  | .TOKEN_STATIC_MEMBER => ⟨some .parse_id, none, .LOWEST⟩
  | .TOKEN_IF => ⟨some .parse_if_expr, none, .LOWEST⟩
  | .TOKEN_CURRENT_FN => ⟨some .parse_current_fn_token, none, .LOWEST⟩
  | _ => ⟨none, none, .LOWEST⟩

/-- The table `unary_ops`; `none` for a token type without an entry. -/
def unary_ops : TokenType → Option ASTNodeKind
  | .TOKEN_MINUS => some .ND_NEG
  | .TOKEN_BANG => some .ND_NOT
  | .TOKEN_TILDE => some .ND_BIT_NEG
  | .TOKEN_REF => some .ND_REF
  | .TOKEN_STAR => some .ND_DEREF
  | _ => none

/-- The table `assign_to_op`; `none` for a token type without an entry. -/
def assign_to_op : TokenType → Option TokenType
  | .TOKEN_RSHIFT_ASSIGN => some .TOKEN_RSHIFT
  | .TOKEN_LSHIFT_ASSIGN => some .TOKEN_LSHIFT
  | .TOKEN_XOR_ASSIGN => some .TOKEN_XOR
  | .TOKEN_BIT_OR_ASSIGN => some .TOKEN_BIT_OR
  | .TOKEN_BIT_AND_ASSIGN => some .TOKEN_REF
  | .TOKEN_MOD => some .TOKEN_PERCENT
  | .TOKEN_ADD => some .TOKEN_PLUS
  | .TOKEN_SUB => some .TOKEN_MINUS
  | .TOKEN_MULT => some .TOKEN_STAR
  | .TOKEN_DIV => some .TOKEN_SLASH
  | _ => none

/-- The table `infix_ops`; `none` for a token type without an entry. -/
def infix_ops : TokenType → Option ASTNodeKind
  | .TOKEN_MINUS => some .ND_SUB
  | .TOKEN_PLUS => some .ND_ADD
  | .TOKEN_STAR => some .ND_MUL
  | .TOKEN_SLASH => some .ND_DIV
  | .TOKEN_EQ => some .ND_EQ
  | .TOKEN_NOT_EQ => some .ND_NE
  | .TOKEN_GT => some .ND_GT
  | .TOKEN_GT_EQ => some .ND_GE
  | .TOKEN_LT => some .ND_LT
  | .TOKEN_LT_EQ => some .ND_LE
  | .TOKEN_AND => some .ND_AND
  | .TOKEN_OR => some .ND_OR
  | .TOKEN_ASSIGN => some .ND_ASSIGN
  | .TOKEN_ADD => some .ND_ADD
  | .TOKEN_SUB => some .ND_SUB
  | .TOKEN_MULT => some .ND_MUL
  | .TOKEN_DIV => some .ND_DIV
  | .TOKEN_RSHIFT_ASSIGN => some .ND_RSHIFT
  | .TOKEN_LSHIFT_ASSIGN => some .ND_LSHIFT
  | .TOKEN_MOD => some .ND_MOD
  | .TOKEN_XOR_ASSIGN => some .ND_XOR
  | .TOKEN_BIT_OR_ASSIGN => some .ND_BIT_OR
  | .TOKEN_BIT_AND_ASSIGN => some .ND_BIT_AND
  | .TOKEN_LSHIFT => some .ND_LSHIFT
  | .TOKEN_RSHIFT => some .ND_RSHIFT
  | .TOKEN_XOR => some .ND_XOR
  | .TOKEN_BIT_OR => some .ND_BIT_OR
  | .TOKEN_REF => some .ND_BIT_AND
  | .TOKEN_PERCENT => some .ND_MOD
  | .TOKEN_INC => some .ND_INC
  | .TOKEN_DEC => some .ND_DEC
  | _ => none

/-- The accessor `get_PrefixParseFn_T(tt)`. -/
def get_PrefixParseFn_T (tt : TokenType) : Option PrefixParseFn_T := (expr_parse_fns tt).pfn

/-- The accessor `get_InfixParseFn_T(tt)`. -/
def get_InfixParseFn_T (tt : TokenType) : Option InfixParseFn_T := (expr_parse_fns tt).ifn

/-- The accessor `get_precedence(tt)`. -/
def get_precedence (tt : TokenType) : Precedence_T := (expr_parse_fns tt).prec

/-- The parser state (`Parser_T`), together with the root object list
`root_ref->objs` and the diagnostics that `throw_error` has received.
`cur_block` and `cur_fn` hold the node and the object as they were when they
became current. -/
structure Parser where
  tokens : List Token
  token_i : Nat
  tok : Token
  cur_block : Option ASTNode
  cur_fn : Option ASTObj
  cur_lambda_id : Nat
  cur_tuple_id : Nat
  holes_enabled : Bool
  objs : List ASTObj
  log : List Diagnostic

/-- What the parser needs from outside parser.c: the helpers of the type
checker, the compile type `global.ct`, the table `primitives` and the function
`get_primitive_type` (ast/types.c is not part of the sources), and the C
library function `atoll`. -/
structure ParserEnv where
  helpers : Helpers
  ct : CompileType
  primitives : ASTTypeKind → ASTType
  get_primitive_type : String → Option ASTType
  atoll : String → Int

/-- How a parse function ends: it returns a value in a new state, or
`throw_error` leaves the compilation in the state reached, or the code
dereferences a null pointer or reads past the token list, or it meets a
construct that this model does not cover, or the fuel is used up. -/
inductive Res (α : Type) where
  | ok (val : α) (p : Parser)
  | aborted (p : Parser)
  | undefined
  | unsupported
  | out_of_fuel

/-- A parse function: a function of the parser state. -/
def PM (α : Type) : Type := Parser → Res α

/-- Sequencing of parse functions. -/
def PM.bind {α β : Type} (m : PM α) (f : α → PM β) : PM β := fun p =>
  match m p with
  | .ok v p1 => f v p1
  | .aborted p1 => .aborted p1
  | .undefined => .undefined
  | .unsupported => .unsupported
  | .out_of_fuel => .out_of_fuel

instance : Monad PM where
  pure v := fun p => .ok v p
  bind := PM.bind

/-- The current parser state. -/
def get_state : PM Parser := fun p => .ok p p

/-- The assignment `p->cur_block = block`. -/
def set_cur_block (block : Option ASTNode) : PM Unit := fun p =>
  .ok () { p with cur_block := block }

/-- The assignment `p->cur_fn = fn`. -/
def set_cur_fn (fn : Option ASTObj) : PM Unit := fun p => .ok () { p with cur_fn := fn }

/-- The expression `p->cur_lambda_id++`. -/
def next_lambda_id : PM Nat := fun p =>
  .ok p.cur_lambda_id { p with cur_lambda_id := p.cur_lambda_id + 1 }

/-- The call `list_push(p->root_ref->objs, obj)`. -/
def push_obj (obj : ASTObj) : PM Unit := fun p => .ok () { p with objs := p.objs ++ [obj] }

/-- A statement under an `if` without `else`; its value is dropped. -/
def PM.when {α : Type} (c : Bool) (m : PM α) : PM Unit :=
  if c then m >>= fun _ => pure () else pure ()

/-- A construct that the model does not cover. -/
def PM.unsupported {α : Type} : PM α := fun _ => .unsupported

/-- A null dereference or a read outside the token list. -/
def PM.undefined {α : Type} : PM α := fun _ => .undefined

/-- The fuel is used up. -/
def PM.out_of_fuel {α : Type} : PM α := fun _ => .out_of_fuel

/-- Modelled from the spec: `throw_error(kind, tok, ...)` as seen from the
parser: the diagnostic is recorded, and the compilation is left when
`throw_error_halts` says so. -/
def throw_error (env : ParserEnv) (kind : ErrorType) (tok : Option Token) : PM Unit := fun p =>
  let p1 := { p with log := p.log ++ [⟨kind, tok⟩] }
  if throw_error_halts env.helpers kind then .aborted p1 else .ok () p1

/-- Modelled from the spec: `init_ast_obj(kind, tok)` (ast/ast.c is not part
of the sources) allocates an object of the given kind at the given token;
every other slot is empty. -/
def init_ast_obj (kind : ASTObjKind) (tok : Option Token) : ASTObj :=
  { kind := kind, tok := tok, id := none, data_type := none, return_type := none, args := [],
    body := none, value := none, objs := [], is_extern := false }

/-- Modelled from the spec: `init_ast_type(kind, tok)` (ast/ast.c is not part
of the sources) allocates a type of the given kind; every other slot is
empty. -/
def init_ast_type (kind : ASTTypeKind) (_tok : Option Token) : ASTType :=
  type_of_kind kind none

/-- Modelled from the spec: `init_ast_identifier(tok, callee)` (ast/ast.c is
not part of the sources) allocates an identifier with the given name, without
outer identifier. -/
def init_ast_identifier (_tok : Option Token) (callee : String) : ASTIdentifier :=
  { callee := callee, outer := none, global_scope := false }

/-! ## The parser: helper functions -/

/-- The function `init_parser(parser, tokens)`, with the object list of the
program that `parse` attaches right after it; undefined for an empty token
list. -/
def init_parser_state (tokens : List Token) (objs : List ASTObj) : Option Parser :=
  match tokens[0]? with
  | none => none
  | some t =>
    some { tokens := tokens, token_i := 0, tok := t, cur_block := none, cur_fn := none,
           cur_lambda_id := 0, cur_tuple_id := 0, holes_enabled := false, objs := objs,
           log := [] }

/-- The function `parser_advance(p)`; `"\u037e"` is the Greek question mark
that the code compares with. -/
def parser_advance (env : ParserEnv) : PM Token := fun p =>
  match p.tokens[p.token_i + 1]? with
  | none => .undefined
  | some t =>
    let p1 := { p with token_i := p.token_i + 1, tok := t }
    if t.type == .TOKEN_SEMICOLON && t.value == "\u037e" then
      (do throw_error env .ERR_SYNTAX_WARNING (some t); pure t : PM Token) p1
    else .ok t p1

/-- The function `parser_peek(p, level)`: the index is computed in `size_t`,
and index 0 is never handed out. -/
def parser_peek (p : Parser) (level : Int) : Option Token :=
  let idx := (((p.token_i : Int) + level) % (2 ^ 64 : Int)).toNat
  if idx ≥ p.tokens.length || idx == 0 then none else p.tokens[idx]?

/-- The function `tok_is(p, type)`. -/
def tok_is (p : Parser) (type : TokenType) : Bool := p.tok.type == type

/-- The function `parser_consume(p, type, msg)`. -/
def parser_consume (env : ParserEnv) (type : TokenType) : PM Token := do
  let p ← get_state
  PM.when (!tok_is p type) (throw_error env .ERR_SYNTAX_ERROR (some p.tok))
  parser_advance env

/-- The function `parser_enable_holes(p)`. -/
def parser_enable_holes : PM Unit := fun p => .ok () { p with holes_enabled := true }

/-- The function `parser_disable_holes(p)`. -/
def parser_disable_holes : PM Unit := fun p => .ok () { p with holes_enabled := false }

/-- The function `parser_holes_enabled(p)`. -/
def parser_holes_enabled (p : Parser) : Bool := p.holes_enabled

/-! ## The parser: identifiers and tuple types -/

/-- The function `__parse_identifier(p, outer, is_simple)`; the kind tag that
the code sets on an outer identifier is not modelled. -/
def __parse_identifier (env : ParserEnv) :
    Nat → Option ASTIdentifier → Bool → PM ASTIdentifier
  | 0, _, _ => PM.out_of_fuel
  | n + 1, outer, is_simple => do
    let p ← get_state
    let global_scope ←
      (if tok_is p .TOKEN_STATIC_MEMBER then
        match parser_peek p 1 with
        | none => PM.undefined
        | some t =>
          if t.type == .TOKEN_ID then do
            let _t ← parser_advance env
            pure true
          else pure false
      else pure false : PM Bool)
    let p ← get_state
    let id : ASTIdentifier :=
      { init_ast_identifier (some p.tok) p.tok.value with
        outer := outer, global_scope := global_scope }
    let _t ← parser_consume env .TOKEN_ID
    let p ← get_state
    if tok_is p .TOKEN_STATIC_MEMBER && !is_simple then
      match parser_peek p 1 with
      | none => PM.undefined
      | some t =>
        if t.type == .TOKEN_ID then
          if t.type == .TOKEN_LT then pure id
          else do
            let _t ← parser_advance env
            __parse_identifier env n (some id) false
        else pure id
    else pure id

/-- The macro `parse_identifier(p)`. -/
def parse_identifier (env : ParserEnv) (fuel : Nat) : PM ASTIdentifier :=
  __parse_identifier env fuel none false

/-- The macro `parse_simple_identifier(p)`. -/
def parse_simple_identifier (env : ParserEnv) (fuel : Nat) : PM ASTIdentifier :=
  __parse_identifier env fuel none true

/-- The function `check_type(a, b)`. -/
def check_type : ASTType → ASTType → Bool
  | ⟨ka, _, pa, ba, _, _, _, _, _, _⟩, b =>
    if ka != b.kind then false
    else if pa != b.is_primitive then false
    else
      match ba, b.base with
      | none, some _ => false
      | some _, none => false
      | some x, some y => check_type x y
      | none, none => true
termination_by structural x => x

/-- Modelled from the spec: `str_starts_with(s, start)` (util.c is not part of
the sources): `s` begins with the characters of `start`. -/
def str_starts_with (s start : String) : Bool := start.data.isPrefixOf s.data

/-- The inner loop of `get_compatible_tuple`: the member types at the same
index pass `check_type`; `none` when a member has no type. -/
def tuple_members_compatible :
    List (ASTMember ASTType) → List (ASTMember ASTType) → Option Bool
  | om :: oms, tm :: tms =>
    match om.data_type, tm.data_type with
    | some a, some b =>
      if !check_type a b then some false else tuple_members_compatible oms tms
    | _, _ => none
  | _, _ => some true

/-- The function `get_compatible_tuple(p, tuple)` over the root object list:
the outer `none` stands for a null dereference (`obj->id`, `obj->data_type`, or
a member without type), the inner one for the result `NULL`. -/
def get_compatible_tuple : List ASTObj → ASTType → Option (Option ASTObj)
  | [], _ => some none
  | obj :: objs, tuple =>
    if obj.kind == .OBJ_TYPEDEF then
      match obj.id with
      | none => none
      | some id =>
        if str_starts_with id.callee "__csp_tuple_" then
          match obj.data_type with
          | none => none
          | some ty =>
            if ty.members.length == tuple.members.length then
              match tuple_members_compatible ty.members tuple.members with
              | none => none
              | some true => some (some obj)
              | some false => get_compatible_tuple objs tuple
            else get_compatible_tuple objs tuple
        else get_compatible_tuple objs tuple
    else get_compatible_tuple objs tuple

/-- The name `__csp_tuple_<N>__` that `sprintf` writes. -/
def tuple_callee (n : Nat) : String := "__csp_tuple_" ++ toString n ++ "__"

/-- The function `parser_generate_tuple_type(p, tuple)`; next to the object
it hands back the tuple type as rewritten in place. -/
def parser_generate_tuple_type (tuple : ASTType) (tuple_tok : Option Token) :
    PM (ASTObj × ASTType) := fun p =>
  match get_compatible_tuple p.objs tuple with
  | none => .undefined
  | some (some existing_tydef) =>
    match existing_tydef.id with
    | none => .undefined
    | some id => .ok (existing_tydef, { tuple with kind := .TY_UNDEF, id := id }) p
  | some none =>
    let id := { init_ast_identifier tuple_tok "" with callee := tuple_callee p.cur_tuple_id }
    let tydef : ASTObj :=
      { init_ast_obj .OBJ_TYPEDEF tuple_tok with data_type := some tuple, id := some id }
    .ok (tydef, { tuple with kind := .TY_UNDEF, id := id })
      { p with cur_tuple_id := p.cur_tuple_id + 1, objs := p.objs ++ [tydef] }

/-! ## The parser: types, expressions and statements

The mutually recursive functions `parse_expr`, `parse_stmt` and `parse_type`
are reached through a record of functions; `parse_fns` ties the knot by
recursion on the fuel.  Constructs that need parts of the program this model
does not carry (enum types, `const` types, type expressions, float, bool, nil,
char and string literals, inline assembly, `for`, `match`, `with`, local
variables, `using`) end in `Res.unsupported`. -/

/-- The functions that the parse functions call recursively, with the fuel
that is left for the loops. -/
structure ParseFns where
  fuel : Nat
  parse_expr : Precedence_T → TokenType → PM ASTNode
  parse_stmt : Bool → PM ASTNode
  parse_type : PM ASTType

/-- The loop of `parse_struct_type` over the members. -/
def parse_struct_members (env : ParserEnv) (fs : ParseFns) :
    Nat → List (ASTMember ASTType) → PM (List (ASTMember ASTType))
  | 0, _ => PM.out_of_fuel
  | n + 1, members => do
    let p ← get_state
    if !tok_is p .TOKEN_RBRACE && !tok_is p .TOKEN_EOF then do
      let id ← parse_simple_identifier env fs.fuel
      let _t ← parser_consume env .TOKEN_COLON
      let ty ← fs.parse_type
      let p ← get_state
      PM.when (!tok_is p .TOKEN_RBRACE) (parser_consume env .TOKEN_COMMA)
      parse_struct_members env fs n (members ++ [⟨id, some ty, 0⟩])
    else pure members

/-- The function `parse_struct_type(p)`. -/
def parse_struct_type (env : ParserEnv) (fs : ParseFns) : PM ASTType := do
  let p ← get_state
  let struct_type := init_ast_type .TY_STRUCT (some p.tok)
  let is_union ←
    (if tok_is p .TOKEN_STRUCT then do
      let _t ← parser_consume env .TOKEN_STRUCT
      pure false
    else do
      let _t ← parser_consume env .TOKEN_UNION
      pure true : PM Bool)
  let _t ← parser_consume env .TOKEN_LBRACE
  let members ← parse_struct_members env fs fs.fuel []
  let _t ← parser_consume env .TOKEN_RBRACE
  pure { struct_type with is_union := is_union, members := members }

/-- The loop of `parse_lambda_type` over the argument types. -/
def parse_lambda_arg_types (env : ParserEnv) (fs : ParseFns) :
    Nat → List ASTType → PM (List ASTType)
  | 0, _ => PM.out_of_fuel
  | n + 1, arg_types => do
    let p ← get_state
    if !tok_is p .TOKEN_RPAREN && !tok_is p .TOKEN_EOF then do
      let ty ← fs.parse_type
      let p ← get_state
      PM.when (!tok_is p .TOKEN_RPAREN) (parser_consume env .TOKEN_COMMA)
      parse_lambda_arg_types env fs n (arg_types ++ [ty])
    else pure arg_types

/-- The function `parse_lambda_type(p)`. -/
def parse_lambda_type (env : ParserEnv) (fs : ParseFns) : PM ASTType := do
  let p ← get_state
  let lambda := init_ast_type .TY_LAMBDA (some p.tok)
  let _t ← parser_consume env .TOKEN_FN
  let p ← get_state
  let base ←
    (if tok_is p .TOKEN_LT then do
      let _t ← parser_consume env .TOKEN_LT
      let b ← fs.parse_type
      let _t ← parser_consume env .TOKEN_GT
      pure b
    else pure (env.primitives .TY_VOID) : PM ASTType)
  let _t ← parser_consume env .TOKEN_LPAREN
  let arg_types ← parse_lambda_arg_types env fs fs.fuel []
  let _t ← parser_consume env .TOKEN_RPAREN
  pure { lambda with base := some base, arg_types := arg_types }

/-- The name `_<i>` that `sprintf` writes for the member at index `i` of a
tuple type. -/
def tuple_member_name (i : Nat) : String := "_" ++ toString i

/-- The loop of the `TOKEN_LBRACE` case of `parse_type` over the members of a
tuple type; `i` is the loop counter. -/
def parse_tuple_members (env : ParserEnv) (fs : ParseFns) :
    Nat → Nat → List (ASTMember ASTType) → PM (List (ASTMember ASTType))
  | 0, _, _ => PM.out_of_fuel
  | n + 1, i, members => do
    let p ← get_state
    if !tok_is p .TOKEN_RBRACE && !tok_is p .TOKEN_EOF then do
      let ty ← fs.parse_type
      let p ← get_state
      let id := { init_ast_identifier (some p.tok) "" with callee := tuple_member_name i }
      PM.when (!tok_is p .TOKEN_RBRACE) (parser_consume env .TOKEN_COMMA)
      parse_tuple_members env fs n (i + 1) (members ++ [⟨id, some ty, 0⟩])
    else pure members

/-- The loop `parse_array_ty` at the end of `parse_type`.  The length
expression is parsed for what it does to the parser state; the type model
keeps the length as a number, so the node is not stored. -/
def parse_array_ty (env : ParserEnv) (fs : ParseFns) : Nat → ASTType → PM ASTType
  | 0, _ => PM.out_of_fuel
  | n + 1, type => do
    let p ← get_state
    if tok_is p .TOKEN_LBRACKET then do
      let arr_type := init_ast_type .TY_ARR (some p.tok)
      let _t ← parser_advance env
      let p ← get_state
      PM.when (!tok_is p .TOKEN_RBRACKET) (fs.parse_expr .LOWEST .TOKEN_RBRACKET)
      let _t ← parser_consume env .TOKEN_RBRACKET
      parse_array_ty env fs n { arr_type with base := some type }
    else pure type

/-- The `switch` of `parse_type(p)` for a token that names no primitive type;
`const` types (the code writes through the shared type) and enum types are
outside the model, and the expression of a `typeof` type is parsed and not
stored. -/
def parse_type_switch (env : ParserEnv) (fs : ParseFns) : PM ASTType := do
  let p ← get_state
  match p.tok.type with
  | .TOKEN_CONST => PM.unsupported
  | .TOKEN_LPAREN => do
    let _t ← parser_advance env
    let ty ← fs.parse_type
    let _t ← parser_consume env .TOKEN_RPAREN
    pure ty
  | .TOKEN_FN => parse_lambda_type env fs
  | .TOKEN_UNION => parse_struct_type env fs
  | .TOKEN_STRUCT => parse_struct_type env fs
  | .TOKEN_ENUM => PM.unsupported
  | .TOKEN_AND => do
    let _t ← parser_advance env
    let inner ← fs.parse_type
    pure { init_ast_type .TY_PTR (some p.tok) with
      base := some { init_ast_type .TY_PTR (some p.tok) with base := some inner } }
  | .TOKEN_REF => do
    let _t ← parser_advance env
    let inner ← fs.parse_type
    pure { init_ast_type .TY_PTR (some p.tok) with base := some inner }
  | .TOKEN_LBRACE => do
    let _t ← parser_advance env
    let members ← parse_tuple_members env fs fs.fuel 0 []
    let _t ← parser_consume env .TOKEN_RBRACE
    let r ← parser_generate_tuple_type
      { init_ast_type .TY_STRUCT (some p.tok) with members := members } (some p.tok)
    pure r.2
  | .TOKEN_TYPEOF => do
    let _t ← parser_advance env
    let _e ← fs.parse_expr .X_OF .TOKEN_SEMICOLON
    pure (init_ast_type .TY_TYPEOF (some p.tok))
  | _ => do
    let id ← parse_identifier env fs.fuel
    pure { init_ast_type .TY_UNDEF (some p.tok) with id := id }

/-- The function `parse_type(p)`. -/
def parse_type_body (env : ParserEnv) (fs : ParseFns) : PM ASTType := do
  let p ← get_state
  let type ←
    (match env.get_primitive_type p.tok.value with
    | some ty => do
      let _t ← parser_advance env
      pure ty
    | none => parse_type_switch env fs : PM ASTType)
  parse_array_ty env fs fs.fuel type

/-- The function `parse_expr_list(p, end_tok)`. -/
def parse_expr_list (env : ParserEnv) (fs : ParseFns) (end_tok : TokenType) :
    Nat → List ASTNode → PM (List ASTNode)
  | 0, _ => PM.out_of_fuel
  | n + 1, list => do
    let p ← get_state
    if !tok_is p end_tok && !tok_is p .TOKEN_EOF then do
      let e ← fs.parse_expr .LOWEST .TOKEN_COMMA
      let p ← get_state
      PM.when (!tok_is p end_tok) (parser_consume env .TOKEN_COMMA)
      parse_expr_list env fs end_tok n (list ++ [e])
    else pure list

/-- The function `parse_call(p, left)`. -/
def parse_call (env : ParserEnv) (fs : ParseFns) (left : ASTNode) : PM ASTNode := do
  let p ← get_state
  let call := init_ast_node .ND_CALL (some p.tok)
  PM.when (left.kind != .ND_ID) (throw_error env .ERR_SYNTAX_ERROR (some p.tok))
  let _t ← parser_consume env .TOKEN_LPAREN
  let args ← parse_expr_list env fs .TOKEN_RPAREN fs.fuel []
  let _t ← parser_consume env .TOKEN_RPAREN
  pure { call with expr := some left, args := args }

/-- The function `parse_struct_lit(p, id)`. -/
def parse_struct_lit (env : ParserEnv) (fs : ParseFns) (id : ASTNode) : PM ASTNode := do
  let _t ← parser_consume env .TOKEN_STATIC_MEMBER
  let p ← get_state
  let struct_lit := init_ast_node .ND_STRUCT (some p.tok)
  let _t ← parser_consume env .TOKEN_LBRACE
  let args ← parse_expr_list env fs .TOKEN_RBRACE fs.fuel []
  let _t ← parser_consume env .TOKEN_RBRACE
  match id.id with
  | none => PM.undefined
  | some ident =>
    pure { struct_lit with
      args := args, data_type := some { init_ast_type .TY_UNDEF id.tok with id := ident } }

/-- The function `parse_id(p)`. -/
def parse_id (env : ParserEnv) (fs : ParseFns) : PM ASTNode := do
  let p ← get_state
  let ident ← parse_identifier env fs.fuel
  let id := { init_ast_node .ND_ID (some p.tok) with id := some ident }
  let p ← get_state
  if p.tok.type == .TOKEN_LPAREN then parse_call env fs id
  else if p.tok.type == .TOKEN_STATIC_MEMBER then
    match parser_peek p 1 with
    | none => PM.undefined
    | some t => if t.type == .TOKEN_LBRACE then parse_struct_lit env fs id else pure id
  else pure id

/-- The conversion `(i32) num` of a 128-bit integer. -/
def to_i32 (num : Int) : Int := (num + 2 ^ 31) % 2 ^ 32 - 2 ^ 31

/-- The conversion `(i64) num` of a 128-bit integer. -/
def to_i64 (num : Int) : Int := (num + 2 ^ 63) % 2 ^ 64 - 2 ^ 63

/-- The function `parse_int_lit(p)`. -/
def parse_int_lit (env : ParserEnv) : PM ASTNode := do
  let p ← get_state
  let lit := init_ast_node .ND_INT (some p.tok)
  let _t ← parser_consume env .TOKEN_INT
  let num := env.atoll p.tok.value
  if num ≤ 2 ^ 31 - 1 then
    pure { lit with kind := .ND_INT, int_val := to_i32 num,
                    data_type := env.get_primitive_type "i32", is_constant := true }
  else if num ≤ 2 ^ 63 - 1 then
    pure { lit with kind := .ND_LONG, long_val := to_i64 num,
                    data_type := env.get_primitive_type "i64", is_constant := true }
  else
    pure { lit with kind := .ND_ULONG, ulong_val := (num % 2 ^ 64).toNat,
                    data_type := env.get_primitive_type "u64", is_constant := true }

/-- The function `parse_array_lit(p)`. -/
def parse_array_lit (env : ParserEnv) (fs : ParseFns) : PM ASTNode := do
  let p ← get_state
  let arr_lit := init_ast_node .ND_ARRAY (some p.tok)
  let _t ← parser_consume env .TOKEN_LBRACKET
  let args ← parse_expr_list env fs .TOKEN_RBRACKET fs.fuel []
  let _t ← parser_consume env .TOKEN_RBRACKET
  pure { arr_lit with is_constant := true, args := args }

/-- The function `parse_anonymous_struct_lit(p)`. -/
def parse_anonymous_struct_lit (env : ParserEnv) (fs : ParseFns) : PM ASTNode := do
  let p ← get_state
  let struct_lit := init_ast_node .ND_STRUCT (some p.tok)
  let _t ← parser_consume env .TOKEN_LBRACE
  let args ← parse_expr_list env fs .TOKEN_RBRACE fs.fuel []
  let _t ← parser_consume env .TOKEN_RBRACE
  pure { struct_lit with args := args }

/-- The loop of `parse_lambda_lit` over the arguments. -/
def parse_lambda_args (env : ParserEnv) (fs : ParseFns) : Nat → List ASTObj → PM (List ASTObj)
  | 0, _ => PM.out_of_fuel
  | n + 1, args => do
    let p ← get_state
    if !tok_is p .TOKEN_BIT_OR && !tok_is p .TOKEN_EOF then do
      let arg := init_ast_obj .OBJ_FN_ARG (some p.tok)
      let id ← parse_simple_identifier env fs.fuel
      let _t ← parser_consume env .TOKEN_COLON
      let ty ← fs.parse_type
      let p ← get_state
      PM.when (!tok_is p .TOKEN_BIT_OR) (parser_consume env .TOKEN_COMMA)
      parse_lambda_args env fs n (args ++ [{ arg with id := some id, data_type := some ty }])
    else pure args

/-- The name `__csp_lambda_lit_<N>__` that `sprintf` writes. -/
def lambda_callee (n : Nat) : String := "__csp_lambda_lit_" ++ toString n ++ "__"

/-- The first part of `parse_lambda_lit(p)`, up to the `=>`: the arguments
and the return type. -/
def parse_lambda_signature (env : ParserEnv) (fs : ParseFns) : PM (List ASTObj × ASTType) := do
  let p ← get_state
  let args ←
    (if tok_is p .TOKEN_BIT_OR then do
      let _t ← parser_advance env
      let args ← parse_lambda_args env fs fs.fuel []
      let _t ← parser_consume env .TOKEN_BIT_OR
      pure args
    else if tok_is p .TOKEN_OR then do
      let _t ← parser_advance env
      pure []
    else do
      throw_error env .ERR_SYNTAX_ERROR (some p.tok)
      pure [] : PM (List ASTObj))
  let p ← get_state
  let return_type ←
    (if tok_is p .TOKEN_ARROW then pure (env.primitives .TY_VOID) else fs.parse_type : PM ASTType)
  let _t ← parser_consume env .TOKEN_ARROW
  pure (args, return_type)

/-- The function object of a lambda literal at the token `tok`, with the
number `n`, before its body is parsed. -/
def lambda_obj (env : ParserEnv) (tok : Option Token) (sig : List ASTObj × ASTType) (n : Nat) :
    ASTObj :=
  { init_ast_obj .OBJ_FUNCTION tok with
    args := sig.1, return_type := some sig.2,
    id := some (init_ast_identifier tok (lambda_callee n)),
    data_type := some (env.primitives .TY_FN) }

/-- The function `parse_lambda_lit(p)`.  The slots `alloca_bottom` and `objs`
that the code fills for the assembly back end are not modelled. -/
def parse_lambda_lit (env : ParserEnv) (fs : ParseFns) : PM ASTNode := do
  let p ← get_state
  let sig ← parse_lambda_signature env fs
  let n ← next_lambda_id
  let prev ← get_state
  set_cur_fn (some (lambda_obj env (some p.tok) sig n))
  let body ← fs.parse_stmt false
  set_cur_fn prev.cur_fn
  push_obj { lambda_obj env (some p.tok) sig n with body := some body }
  pure { init_ast_node .ND_ID (some p.tok) with id := (lambda_obj env (some p.tok) sig n).id }

/-- The function `parse_if_expr(p)`. -/
def parse_if_expr (env : ParserEnv) (fs : ParseFns) : PM ASTNode := do
  let p ← get_state
  let if_expr := init_ast_node .ND_IF_EXPR (some p.tok)
  let _t ← parser_consume env .TOKEN_IF
  let condition ← fs.parse_expr .LOWEST .TOKEN_ARROW
  let _t ← parser_consume env .TOKEN_ARROW
  let if_branch ← fs.parse_expr .LOWEST .TOKEN_ELSE
  let _t ← parser_consume env .TOKEN_ELSE
  let else_branch ← fs.parse_expr .LOWEST .TOKEN_SEMICOLON
  pure { if_expr with
    condition := some condition, if_branch := some if_branch, else_branch := some else_branch }

/-- The function `parse_unary(p)`; a token type without entry in `unary_ops`
is outside the model. -/
def parse_unary (env : ParserEnv) (fs : ParseFns) : PM ASTNode := do
  let p ← get_state
  match unary_ops p.tok.type with
  | none => PM.unsupported
  | some kind => do
    let unary := init_ast_node kind (some p.tok)
    let _t ← parser_advance env
    let right ← fs.parse_expr .LOWEST .TOKEN_ASSIGN
    pure { unary with right := some right }

/-- The function `parse_num_op(p, left)`; a token type without entry in
`infix_ops` is outside the model. -/
def parse_num_op (env : ParserEnv) (fs : ParseFns) (left : ASTNode) : PM ASTNode := do
  let p ← get_state
  match infix_ops p.tok.type with
  | none => PM.unsupported
  | some kind => do
    let node := init_ast_node kind (some p.tok)
    let _t ← parser_advance env
    let right ← fs.parse_expr (expr_parse_fns p.tok.type).prec .TOKEN_EOF
    pure { node with left := some left, right := some right }

/-- The function `parse_bit_op(p, left)`. -/
def parse_bit_op (env : ParserEnv) (fs : ParseFns) (left : ASTNode) : PM ASTNode :=
  parse_num_op env fs left

/-- The function `parse_bool_op(p, left)`. -/
def parse_bool_op (env : ParserEnv) (fs : ParseFns) (left : ASTNode) : PM ASTNode := do
  let p ← get_state
  match infix_ops p.tok.type with
  | none => PM.unsupported
  | some kind => do
    let node := init_ast_node kind (some p.tok)
    let _t ← parser_advance env
    let right ← fs.parse_expr (expr_parse_fns p.tok.type).prec .TOKEN_EOF
    pure { node with
      left := some left, right := some right, data_type := some (env.primitives .TY_BOOL) }

/-- The function `generate_assignment_op_rval(p, left, op)`. -/
def generate_assignment_op_rval (env : ParserEnv) (fs : ParseFns) (left : ASTNode)
    (op : TokenType) : PM ASTNode := do
  let p ← get_state
  match infix_ops op with
  | none => PM.unsupported
  | some kind => do
    let rval := init_ast_node kind (some p.tok)
    let _t ← parser_advance env
    let right ← fs.parse_expr (expr_parse_fns op).prec .TOKEN_EOF
    pure { rval with left := some left, right := some right }

/-- The function `parse_assignment(p, left)`; a token type without entry in
`assign_to_op` is outside the model. -/
def parse_assignment (env : ParserEnv) (fs : ParseFns) (left : ASTNode) : PM ASTNode := do
  let p ← get_state
  let assign := { init_ast_node .ND_ASSIGN (some p.tok) with left := some left }
  match p.tok.type with
  | .TOKEN_ASSIGN => do
    let _t ← parser_advance env
    let p ← get_state
    let right ← fs.parse_expr (expr_parse_fns p.tok.type).prec .TOKEN_EOF
    pure { assign with
      right := some { right with
        is_assigning := right.kind == .ND_ARRAY || right.kind == .ND_STRUCT } }
  | t =>
    match assign_to_op t with
    | none => PM.unsupported
    | some op => do
      let right ← generate_assignment_op_rval env fs left op
      pure { assign with right := some right }

/-- The function `parse_postfix(p, left)`. -/
def parse_postfix_op (env : ParserEnv) (left : ASTNode) : PM ASTNode := do
  let p ← get_state
  match infix_ops p.tok.type with
  | none => PM.unsupported
  | some kind => do
    let _t ← parser_advance env
    pure { init_ast_node kind (some p.tok) with left := some left }

/-- The function `parse_index(p, left)`. -/
def parse_index (env : ParserEnv) (fs : ParseFns) (left : ASTNode) : PM ASTNode := do
  let p ← get_state
  let index := init_ast_node .ND_INDEX (some p.tok)
  let _t ← parser_consume env .TOKEN_LBRACKET
  let expr ← fs.parse_expr .LOWEST .TOKEN_RBRACKET
  let _t ← parser_consume env .TOKEN_RBRACKET
  pure { index with left := some left, expr := some expr }

/-- The function `parse_pipe(p, left)`. -/
def parse_pipe (env : ParserEnv) (fs : ParseFns) (left : ASTNode) : PM ASTNode := do
  let p ← get_state
  let pipe := init_ast_node .ND_PIPE (some p.tok)
  let _t ← parser_consume env .TOKEN_PIPE
  parser_enable_holes
  let right ← fs.parse_expr .PIPE .TOKEN_SEMICOLON
  parser_disable_holes
  pure { pipe with left := some left, right := some right }

/-- The function `parse_hole(p)`. -/
def parse_hole (env : ParserEnv) : PM ASTNode := do
  let p ← get_state
  let tok := p.tok
  PM.when (!parser_holes_enabled p) (throw_error env .ERR_SYNTAX_ERROR (some tok))
  let _t ← parser_consume env .TOKEN_DOLLAR
  pure (init_ast_node .ND_HOLE (some tok))

/-- The function `parse_closure(p)`; a type expression `(type) ...` is outside
the model. -/
def parse_closure (env : ParserEnv) (fs : ParseFns) : PM ASTNode := do
  let p ← get_state
  match parser_peek p 1 with
  | none => PM.undefined
  | some t =>
    if t.type == .TOKEN_TYPE then PM.unsupported
    else if env.ct == .CT_TRANSPILE then do
      let closure := init_ast_node .ND_CLOSURE (some p.tok)
      let _t ← parser_consume env .TOKEN_LPAREN
      let expr ← fs.parse_expr .LOWEST .TOKEN_RPAREN
      let _t ← parser_consume env .TOKEN_RPAREN
      pure { closure with expr := some expr }
    else do
      let _t ← parser_consume env .TOKEN_LPAREN
      let expr ← fs.parse_expr .LOWEST .TOKEN_RPAREN
      let _t ← parser_consume env .TOKEN_RPAREN
      pure expr

/-- The function `parse_cast(p, left)`. -/
def parse_cast (env : ParserEnv) (fs : ParseFns) (left : ASTNode) : PM ASTNode := do
  let p ← get_state
  let cast := init_ast_node .ND_CAST (some p.tok)
  let _t ← parser_consume env .TOKEN_COLON
  let ty ← fs.parse_type
  pure { cast with left := some left, data_type := some ty, is_constant := left.is_constant }

/-- The function `parse_sizeof(p)`. -/
def parse_sizeof (env : ParserEnv) (fs : ParseFns) : PM ASTNode := do
  let p ← get_state
  let size_of := init_ast_node .ND_SIZEOF (some p.tok)
  let _t ← parser_consume env .TOKEN_SIZEOF
  let ty ← fs.parse_type
  pure { size_of with the_type := some ty, data_type := some (env.primitives .TY_U64) }

/-- The function `parse_alignof(p)`. -/
def parse_alignof (env : ParserEnv) (fs : ParseFns) : PM ASTNode := do
  let p ← get_state
  let align_of := init_ast_node .ND_ALIGNOF (some p.tok)
  let _t ← parser_consume env .TOKEN_ALIGNOF
  let ty ← fs.parse_type
  pure { align_of with the_type := some ty, data_type := some (env.primitives .TY_U64) }

/-- The function `parse_len(p)`. -/
def parse_len (env : ParserEnv) (fs : ParseFns) : PM ASTNode := do
  let p ← get_state
  let len := init_ast_node .ND_LEN (some p.tok)
  let _t ← parser_consume env .TOKEN_LEN
  let expr ← fs.parse_expr .LOWEST .TOKEN_SEMICOLON
  pure { len with expr := some expr, data_type := some (env.primitives .TY_U64) }

/-- The function `parse_member(p, left)`. -/
def parse_member (env : ParserEnv) (fs : ParseFns) (left : ASTNode) : PM ASTNode := do
  let p ← get_state
  let member := init_ast_node .ND_MEMBER (some p.tok)
  let _t ← parser_consume env .TOKEN_DOT
  let right ← fs.parse_expr .MEMBER .TOKEN_SEMICOLON
  PM.when (right.kind != .ND_ID) (throw_error env .ERR_SYNTAX_ERROR right.tok)
  pure { member with left := some left, right := some right }

/-- The function `parse_infix_call_expr(p)`. -/
def parse_infix_call_expr (env : ParserEnv) (fs : ParseFns) : PM ASTNode := do
  let p ← get_state
  let callee_id := init_ast_node .ND_ID (some p.tok)
  let _t ← parser_consume env .TOKEN_INFIX_CALL
  let ident ← parse_identifier env fs.fuel
  let _t ← parser_consume env .TOKEN_INFIX_CALL
  pure { callee_id with id := some ident }

/-- The function `parse_infix_call(p, left)`. -/
def parse_infix_call (env : ParserEnv) (fs : ParseFns) (left : ASTNode) : PM ASTNode := do
  let p ← get_state
  let call := init_ast_node .ND_CALL (some p.tok)
  let expr ← parse_infix_call_expr env fs
  let right ← fs.parse_expr .INFIX_CALL .TOKEN_SEMICOLON
  pure { call with expr := some expr, args := [left, right] }

/-- The function `parse_pow_2(p, left)`. -/
def parse_pow_2 (env : ParserEnv) (left : ASTNode) : PM ASTNode := do
  let p ← get_state
  let mult := init_ast_node .ND_MUL (some p.tok)
  let _t ← parser_consume env .TOKEN_POW_2
  let mult := { mult with left := some left, right := some left }
  let p ← get_state
  if env.ct == .CT_TRANSPILE then
    pure { init_ast_node .ND_CLOSURE (some p.tok) with expr := some mult }
  else pure mult

/-- The function `parse_pow_3(p, left)`. -/
def parse_pow_3 (env : ParserEnv) (left : ASTNode) : PM ASTNode := do
  let p ← get_state
  let mult_a := init_ast_node .ND_MUL (some p.tok)
  let mult_b := init_ast_node .ND_MUL (some p.tok)
  let _t ← parser_consume env .TOKEN_POW_3
  let mult_b := { mult_b with left := some left, right := some left }
  let mult_a := { mult_a with left := some left, right := some mult_b }
  let p ← get_state
  if env.ct == .CT_TRANSPILE then
    pure { init_ast_node .ND_CLOSURE (some p.tok) with expr := some mult_a }
  else pure mult_a

/-- The call `prefix(p)` through the function pointer of the table; literals
of other kinds than integer, inline assembly and `__current_fn` are outside
the model. -/
def call_PrefixParseFn_T (env : ParserEnv) (fs : ParseFns) : PrefixParseFn_T → PM ASTNode
  | .parse_id => parse_id env fs
  | .parse_int_lit => parse_int_lit env
  | .parse_unary => parse_unary env fs
  | .parse_closure => parse_closure env fs
  | .parse_array_lit => parse_array_lit env fs
  | .parse_anonymous_struct_lit => parse_anonymous_struct_lit env fs
  | .parse_lambda_lit => parse_lambda_lit env fs
  | .parse_if_expr => parse_if_expr env fs
  | .parse_sizeof => parse_sizeof env fs
  | .parse_alignof => parse_alignof env fs
  | .parse_len => parse_len env fs
  | .parse_hole => parse_hole env
  | .parse_inline_asm => PM.unsupported
  | .parse_float_lit => PM.unsupported
  | .parse_nil_lit => PM.unsupported
  | .parse_bool_lit => PM.unsupported
  | .parse_char_lit => PM.unsupported
  | .parse_str_lit => PM.unsupported
  | .parse_current_fn_token => PM.unsupported

/-- The call `infix(p, left)` through the function pointer of the table. -/
def call_InfixParseFn_T (env : ParserEnv) (fs : ParseFns) :
    InfixParseFn_T → ASTNode → PM ASTNode
  | .parse_num_op, left => parse_num_op env fs left
  | .parse_bit_op, left => parse_bit_op env fs left
  | .parse_bool_op, left => parse_bool_op env fs left
  | .parse_assignment, left => parse_assignment env fs left
  | .parse_postfix_op, left => parse_postfix_op env left
  | .parse_index, left => parse_index env fs left
  | .parse_infix_call, left => parse_infix_call env fs left
  | .parse_cast, left => parse_cast env fs left
  | .parse_member, left => parse_member env fs left
  | .parse_pipe, left => parse_pipe env fs left
  | .parse_pow_2, left => parse_pow_2 env left
  | .parse_pow_3, left => parse_pow_3 env left

/-- The `while` loop of `parse_expr`. -/
def parse_expr_loop (env : ParserEnv) (fs : ParseFns) (prec : Precedence_T)
    (end_tok : TokenType) : Nat → ASTNode → PM ASTNode
  | 0, _ => PM.out_of_fuel
  | n + 1, left_expr => do
    let p ← get_state
    if !tok_is p end_tok && decide (prec.val < (get_precedence p.tok.type).val) then
      match get_InfixParseFn_T p.tok.type with
      | none => pure left_expr
      | some ifn => do
        let left_expr ← call_InfixParseFn_T env fs ifn left_expr
        parse_expr_loop env fs prec end_tok n left_expr
    else pure left_expr

/-- The function `parse_expr(p, prec, end_tok)`.  Without a prefix function
the code reports the error and, when `throw_error` returns, calls through the
null pointer. -/
def parse_expr_body (env : ParserEnv) (fs : ParseFns) (prec : Precedence_T)
    (end_tok : TokenType) : PM ASTNode := do
  let p ← get_state
  match get_PrefixParseFn_T p.tok.type with
  | none => do
    throw_error env .ERR_SYNTAX_ERROR (some p.tok)
    PM.undefined
  | some pfn => do
    let left_expr ← call_PrefixParseFn_T env fs pfn
    parse_expr_loop env fs prec end_tok fs.fuel left_expr

/-- The function `is_executable(n)`; `none` when it follows a null pointer. -/
def is_executable : ASTNode → Option Bool
  | ⟨kind, _, _, _, _, right, expr, _, _, _, _, _, _, _, _, if_branch, else_branch, _, _, _,
      _, _, _, _, _, _, _⟩ =>
    if kind == .ND_CLOSURE then
      match expr with
      | none => none
      | some e => is_executable e
    else if kind == .ND_PIPE then
      match right with
      | none => none
      | some r => is_executable r
    else if kind == .ND_IF_EXPR then
      match if_branch with
      | none => none
      | some a =>
        match is_executable a with
        | none => none
        | some false => some false
        | some true =>
          match else_branch with
          | none => none
          | some b => is_executable b
    else
      some (kind == .ND_CALL || kind == .ND_ASSIGN || kind == .ND_INC || kind == .ND_DEC
        || kind == .ND_CAST || kind == .ND_MEMBER || kind == .ND_ASM)
termination_by structural x => x

/-- The `while` loop of `parse_block`; `using` is outside the model. -/
def parse_block_stmts (fs : ParseFns) : Nat → List ASTNode → PM (List ASTNode)
  | 0, _ => PM.out_of_fuel
  | n + 1, stmts => do
    let p ← get_state
    if p.tok.type != .TOKEN_RBRACE then
      if tok_is p .TOKEN_USING then PM.unsupported
      else do
        let stmt ← fs.parse_stmt true
        parse_block_stmts fs n (stmts ++ [stmt])
    else pure stmts

/-- The function `parse_block(p)`; the list of locals, which only the
statements outside the model fill, is not modelled. -/
def parse_block (env : ParserEnv) (fs : ParseFns) : PM ASTNode := do
  let p ← get_state
  let block := init_ast_node .ND_BLOCK (some p.tok)
  let _t ← parser_consume env .TOKEN_LBRACE
  let p ← get_state
  set_cur_block (some block)
  let stmts ← parse_block_stmts fs fs.fuel []
  set_cur_block p.cur_block
  let _t ← parser_consume env .TOKEN_RBRACE
  pure { block with stmts := stmts }

/-- The function `parse_return(p, needs_semicolon)`. -/
def parse_return (env : ParserEnv) (fs : ParseFns) (needs_semicolon : Bool) : PM ASTNode := do
  let p ← get_state
  let ret := init_ast_node .ND_RETURN (some p.tok)
  let _t ← parser_consume env .TOKEN_RETURN
  let p ← get_state
  let return_val ←
    (if !tok_is p .TOKEN_SEMICOLON then do
      match p.cur_fn with
      | none => pure ()
      | some cur_fn =>
        match cur_fn.return_type with
        | none => PM.undefined
        | some rt => PM.when (rt.kind == .TY_VOID) (throw_error env .ERR_TYPE_CAST_WARN ret.tok)
      let e ← fs.parse_expr .LOWEST .TOKEN_SEMICOLON
      pure (some e)
    else pure none : PM (Option ASTNode))
  PM.when needs_semicolon (parser_consume env .TOKEN_SEMICOLON)
  pure { ret with return_val := return_val }

/-- The function `parse_if(p, needs_semicolon)`. -/
def parse_if (env : ParserEnv) (fs : ParseFns) (needs_semicolon : Bool) : PM ASTNode := do
  let p ← get_state
  let if_stmt := init_ast_node .ND_IF (some p.tok)
  let _t ← parser_consume env .TOKEN_IF
  let condition ← fs.parse_expr .LOWEST .TOKEN_EOF
  let if_branch ← fs.parse_stmt needs_semicolon
  let p ← get_state
  let else_branch ←
    (if tok_is p .TOKEN_ELSE then do
      let _t ← parser_advance env
      let s ← fs.parse_stmt needs_semicolon
      pure (some s)
    else pure none : PM (Option ASTNode))
  pure { if_stmt with
    condition := some condition, if_branch := some if_branch, else_branch := else_branch }

/-- The function `parse_loop(p, needs_semicolon)`. -/
def parse_loop (env : ParserEnv) (fs : ParseFns) (needs_semicolon : Bool) : PM ASTNode := do
  let p ← get_state
  let loop := init_ast_node .ND_LOOP (some p.tok)
  let _t ← parser_consume env .TOKEN_LOOP
  let body ← fs.parse_stmt needs_semicolon
  pure { loop with body := some body }

/-- The function `parse_while(p, needs_semicolon)`. -/
def parse_while (env : ParserEnv) (fs : ParseFns) (needs_semicolon : Bool) : PM ASTNode := do
  let p ← get_state
  let loop := init_ast_node .ND_WHILE (some p.tok)
  let _t ← parser_consume env .TOKEN_WHILE
  let condition ← fs.parse_expr .LOWEST .TOKEN_SEMICOLON
  let body ← fs.parse_stmt needs_semicolon
  pure { loop with condition := some condition, body := some body }

/-- The function `parse_expr_stmt(p, needs_semicolon)`. -/
def parse_expr_stmt (env : ParserEnv) (fs : ParseFns) (needs_semicolon : Bool) :
    PM ASTNode := do
  let p ← get_state
  let stmt := init_ast_node .ND_EXPR_STMT (some p.tok)
  let expr ← fs.parse_expr .LOWEST .TOKEN_SEMICOLON
  match is_executable expr with
  | none => PM.undefined
  | some executable => do
    PM.when (!executable) (throw_error env .ERR_SYNTAX_ERROR expr.tok)
    PM.when needs_semicolon (parser_consume env .TOKEN_SEMICOLON)
    pure { stmt with expr := some expr }

/-- The function `parse_break(p, needs_semicolon)`. -/
def parse_break (env : ParserEnv) (needs_semicolon : Bool) : PM ASTNode := do
  let p ← get_state
  let break_stmt := init_ast_node .ND_BREAK (some p.tok)
  let _t ← parser_consume env .TOKEN_BREAK
  PM.when needs_semicolon (parser_consume env .TOKEN_SEMICOLON)
  pure break_stmt

/-- The function `parse_continue(p, needs_semicolon)`. -/
def parse_continue (env : ParserEnv) (needs_semicolon : Bool) : PM ASTNode := do
  let p ← get_state
  let continue_stmt := init_ast_node .ND_CONTINUE (some p.tok)
  let _t ← parser_consume env .TOKEN_CONTINUE
  PM.when needs_semicolon (parser_consume env .TOKEN_SEMICOLON)
  pure continue_stmt

/-- The function `parse_case(p)`. -/
def parse_case (env : ParserEnv) (fs : ParseFns) : PM ASTNode := do
  let p ← get_state
  let case_stmt := init_ast_node .ND_CASE (some p.tok)
  let case_stmt ←
    (if tok_is p .TOKEN_UNDERSCORE then do
      let _t ← parser_advance env
      pure { case_stmt with is_default_case := true }
    else do
      let condition ← fs.parse_expr .LOWEST .TOKEN_ARROW
      pure { case_stmt with condition := some condition } : PM ASTNode)
  let _t ← parser_consume env .TOKEN_ARROW
  let body ← fs.parse_stmt true
  pure { case_stmt with body := some body }

/-- The function `parse_type_case(p)`. -/
def parse_type_case (env : ParserEnv) (fs : ParseFns) : PM ASTNode := do
  let p ← get_state
  let case_stmt := init_ast_node .ND_CASE_TYPE (some p.tok)
  let case_stmt ←
    (if tok_is p .TOKEN_UNDERSCORE then do
      let _t ← parser_advance env
      pure { case_stmt with is_default_case := true }
    else do
      let data_type ← fs.parse_type
      pure { case_stmt with data_type := some data_type } : PM ASTNode)
  let _t ← parser_consume env .TOKEN_ARROW
  let body ← fs.parse_stmt true
  pure { case_stmt with body := some body }

/-- The `while` loop of `parse_match` and of `parse_type_match`: the two
copies differ only in the function `parse_one` that parses one case
(`parse_case`, `parse_type_case`). -/
def parse_match_cases (env : ParserEnv) (parse_one : PM ASTNode) : Nat → ASTNode → PM ASTNode
  | 0, _ => PM.out_of_fuel
  | n + 1, m => do
    let p ← get_state
    if !tok_is p .TOKEN_RBRACE && !tok_is p .TOKEN_EOF then do
      let case_stmt ← parse_one
      if case_stmt.is_default_case then do
        let p ← get_state
        PM.when m.default_case.isSome (throw_error env .ERR_REDEFINITION (some p.tok))
        parse_match_cases env parse_one n { m with default_case := some case_stmt }
      else
        parse_match_cases env parse_one n { m with cases := m.cases ++ [case_stmt] }
    else pure m

/-- The function `parse_type_match(p, match)`. -/
def parse_type_match (env : ParserEnv) (fs : ParseFns) (m : ASTNode) : PM ASTNode := do
  let _t ← parser_advance env
  let _t ← parser_advance env
  let _t ← parser_consume env .TOKEN_RPAREN
  let data_type ← fs.parse_type
  let _t ← parser_consume env .TOKEN_LBRACE
  let m ← parse_match_cases env (parse_type_case env fs) fs.fuel
    { m with kind := .ND_MATCH_TYPE, data_type := some data_type }
  let _t ← parser_consume env .TOKEN_RBRACE
  pure m

/-- The function `parse_match(p)`. -/
def parse_match (env : ParserEnv) (fs : ParseFns) : PM ASTNode := do
  let p ← get_state
  let m := { init_ast_node .ND_MATCH (some p.tok) with cases := [], default_case := none }
  let _t ← parser_consume env .TOKEN_MATCH
  let p ← get_state
  let is_type_match ←
    (if tok_is p .TOKEN_LPAREN then
      match parser_peek p 1 with
      | none => PM.undefined
      | some t => pure (t.type == .TOKEN_TYPE)
    else pure false : PM Bool)
  if is_type_match then parse_type_match env fs m
  else do
    let condition ← fs.parse_expr .LOWEST .TOKEN_LBRACE
    let _t ← parser_consume env .TOKEN_LBRACE
    let m ← parse_match_cases env (parse_case env fs) fs.fuel
      { m with condition := some condition }
    let _t ← parser_consume env .TOKEN_RBRACE
    pure m

/-- The function `parse_stmt(p, needs_semicolon)`; `for`, `with` and
local variable definitions are outside the model. -/
def parse_stmt_body (env : ParserEnv) (fs : ParseFns) (needs_semicolon : Bool) :
    PM ASTNode := do
  let p ← get_state
  match p.tok.type with
  | .TOKEN_LBRACE => parse_block env fs
  | .TOKEN_RETURN => parse_return env fs needs_semicolon
  | .TOKEN_IF => parse_if env fs needs_semicolon
  | .TOKEN_LOOP => parse_loop env fs needs_semicolon
  | .TOKEN_FOR => PM.unsupported
  | .TOKEN_WHILE => parse_while env fs needs_semicolon
  | .TOKEN_MATCH => parse_match env fs
  | .TOKEN_WITH => PM.unsupported
  | .TOKEN_CONST => PM.unsupported
  | .TOKEN_LET => PM.unsupported
  | .TOKEN_BREAK => parse_break env needs_semicolon
  | .TOKEN_CONTINUE => parse_continue env needs_semicolon
  | .TOKEN_SEMICOLON => do
    let _t ← parser_advance env
    pure (init_ast_node .ND_NOOP (some p.tok))
  | .TOKEN_NOOP => do
    let _t ← parser_advance env
    PM.when needs_semicolon (parser_consume env .TOKEN_SEMICOLON)
    pure (init_ast_node .ND_NOOP (some p.tok))
  | _ => parse_expr_stmt env fs needs_semicolon

/-- The parse functions with `fuel` levels of recursion left. -/
def parse_fns (env : ParserEnv) : Nat → ParseFns
  | 0 =>
    { fuel := 0, parse_expr := fun _ _ => PM.out_of_fuel, parse_stmt := fun _ => PM.out_of_fuel,
      parse_type := PM.out_of_fuel }
  | n + 1 =>
    { fuel := n, parse_expr := parse_expr_body env (parse_fns env n),
      parse_stmt := parse_stmt_body env (parse_fns env n),
      parse_type := parse_type_body env (parse_fns env n) }

/-- The function `parse_expr(p, prec, end_tok)` with the given fuel. -/
def parse_expr (env : ParserEnv) (fuel : Nat) (prec : Precedence_T) (end_tok : TokenType) :
    PM ASTNode :=
  (parse_fns env fuel).parse_expr prec end_tok

/-- The function `parse_stmt(p, needs_semicolon)` with the given fuel. -/
def parse_stmt (env : ParserEnv) (fuel : Nat) (needs_semicolon : Bool) : PM ASTNode :=
  (parse_fns env fuel).parse_stmt needs_semicolon

/-- The function `parse_type(p)` with the given fuel. -/
def parse_type (env : ParserEnv) (fuel : Nat) : PM ASTType :=
  (parse_fns env fuel).parse_type

/-! ## Concrete inputs for the parser -/

/-- A token of the given type and text at line 1. -/
def mk_tok (type : TokenType) (value : String) : Token :=
  { type := type, value := value, line := 1, pos := 0, source := none }

/-- A sample of `get_primitive_type`: the names `i32`, `i64`, `u64`, `bool`
and `void`. -/
def sample_get_primitive_type (name : String) : Option ASTType :=
  if name == "i32" then some (primitive .TY_I32)
  else if name == "i64" then some (primitive .TY_I64)
  else if name == "u64" then some (primitive .TY_U64)
  else if name == "bool" then some (primitive .TY_BOOL)
  else if name == "void" then some (primitive .TY_VOID)
  else none

/-- A sample of `atoll` on a string of decimal digits. -/
def sample_atoll (s : String) : Int :=
  s.data.foldl (fun n c => 10 * n + ((c.toNat - 48 : Nat) : Int)) 0

/-- A concrete parser environment: the C back end, and syntax errors leave
the compilation. -/
def sample_env : ParserEnv :=
  { helpers := sample_helpers, ct := .CT_TRANSPILE, primitives := primitive,
    get_primitive_type := sample_get_primitive_type, atoll := sample_atoll }

/-- The parser state at the first token of a non-empty token list, as
`init_parser` leaves it, with an empty program. -/
def start_state (t : Token) (ts : List Token) : Parser :=
  { tokens := t :: ts, token_i := 0, tok := t, cur_block := none, cur_fn := none,
    cur_lambda_id := 0, cur_tuple_id := 0, holes_enabled := false, objs := [], log := [] }

/-- The value that a parse function returns, if it returns. -/
def Res.val_of {α : Type} : Res α → Option α
  | .ok v _ => some v
  | _ => none

/-- The parser state in which a parse function returns or in which
`throw_error` leaves the compilation. -/
def Res.state_of {α : Type} : Res α → Option Parser
  | .ok _ p => some p
  | .aborted p => some p
  | _ => none

/-- Whether `throw_error` has left the compilation. -/
def Res.is_aborted {α : Type} : Res α → Bool
  | .aborted _ => true
  | _ => false

/-- The kind of a node, if there is one. -/
def node_kind (n : Option ASTNode) : Option ASTNodeKind := n.map fun x => x.kind

/-- The name in the identifier of a node, if there is one. -/
def node_name (n : Option ASTNode) : Option String :=
  (n.bind fun x => x.id).map fun i => i.callee

/-- The left operand of a node. -/
def node_left (n : Option ASTNode) : Option ASTNode := n.bind fun x => x.left

/-- The right operand of a node. -/
def node_right (n : Option ASTNode) : Option ASTNode := n.bind fun x => x.right

/-- The inner expression of a node. -/
def node_expr (n : Option ASTNode) : Option ASTNode := n.bind fun x => x.expr

/-- The tokens of `a + b * c;` after the first one. -/
def precedence_toks : List Token :=
  [mk_tok .TOKEN_PLUS "+", mk_tok .TOKEN_ID "b", mk_tok .TOKEN_STAR "*", mk_tok .TOKEN_ID "c",
   mk_tok .TOKEN_SEMICOLON ";", mk_tok .TOKEN_EOF ""]

/-- The tokens of `a * b % c;` after the first one. -/
def percent_toks : List Token :=
  [mk_tok .TOKEN_STAR "*", mk_tok .TOKEN_ID "b", mk_tok .TOKEN_PERCENT "%", mk_tok .TOKEN_ID "c",
   mk_tok .TOKEN_SEMICOLON ";", mk_tok .TOKEN_EOF ""]

/-- The tokens of `x = (a) + b;` after the first one. -/
def assign_paren_toks : List Token :=
  [mk_tok .TOKEN_ASSIGN "=", mk_tok .TOKEN_LPAREN "(", mk_tok .TOKEN_ID "a",
   mk_tok .TOKEN_RPAREN ")", mk_tok .TOKEN_PLUS "+", mk_tok .TOKEN_ID "b",
   mk_tok .TOKEN_SEMICOLON ";", mk_tok .TOKEN_EOF ""]

/-- The tokens of `x = a + b;` after the first one. -/
def assign_plain_toks : List Token :=
  [mk_tok .TOKEN_ASSIGN "=", mk_tok .TOKEN_ID "a", mk_tok .TOKEN_PLUS "+", mk_tok .TOKEN_ID "b",
   mk_tok .TOKEN_SEMICOLON ";", mk_tok .TOKEN_EOF ""]

/-- The tokens of `a |> f(b |> $, $);` after the first one. -/
def nested_pipe_toks : List Token :=
  [mk_tok .TOKEN_PIPE "|>", mk_tok .TOKEN_ID "f", mk_tok .TOKEN_LPAREN "(", mk_tok .TOKEN_ID "b",
   mk_tok .TOKEN_PIPE "|>", mk_tok .TOKEN_DOLLAR "$", mk_tok .TOKEN_COMMA ",",
   mk_tok .TOKEN_DOLLAR "$", mk_tok .TOKEN_RPAREN ")", mk_tok .TOKEN_SEMICOLON ";",
   mk_tok .TOKEN_EOF ""]

/-- The tokens of `a |> f($, $);` after the first one. -/
def single_pipe_toks : List Token :=
  [mk_tok .TOKEN_PIPE "|>", mk_tok .TOKEN_ID "f", mk_tok .TOKEN_LPAREN "(",
   mk_tok .TOKEN_DOLLAR "$", mk_tok .TOKEN_COMMA ",", mk_tok .TOKEN_DOLLAR "$",
   mk_tok .TOKEN_RPAREN ")", mk_tok .TOKEN_SEMICOLON ";", mk_tok .TOKEN_EOF ""]

/-- The tokens of `|a: i32[|| => noop]| => noop;` after the first one: a lambda
literal whose argument type holds another lambda literal. -/
def nested_lambda_toks : List Token :=
  [mk_tok .TOKEN_ID "a", mk_tok .TOKEN_COLON ":", mk_tok .TOKEN_ID "i32",
   mk_tok .TOKEN_LBRACKET "[", mk_tok .TOKEN_OR "||", mk_tok .TOKEN_ARROW "=>",
   mk_tok .TOKEN_NOOP "noop", mk_tok .TOKEN_RBRACKET "]", mk_tok .TOKEN_BIT_OR "|",
   mk_tok .TOKEN_ARROW "=>", mk_tok .TOKEN_NOOP "noop", mk_tok .TOKEN_SEMICOLON ";",
   mk_tok .TOKEN_EOF ""]

/-- The tokens of `{i32, bool} {i32, bool};` after the first one. -/
def tuple_toks : List Token :=
  [mk_tok .TOKEN_ID "i32", mk_tok .TOKEN_COMMA ",", mk_tok .TOKEN_ID "bool",
   mk_tok .TOKEN_RBRACE "\x7d", mk_tok .TOKEN_LBRACE "\x7b", mk_tok .TOKEN_ID "i32",
   mk_tok .TOKEN_COMMA ",", mk_tok .TOKEN_ID "bool", mk_tok .TOKEN_RBRACE "\x7d",
   mk_tok .TOKEN_SEMICOLON ";", mk_tok .TOKEN_EOF ""]

/-- The members of the tuple type `{i32, bool}` as the parser names them. -/
def sample_tuple_members : List (ASTMember ASTType) :=
  [⟨plain_id "_0", some (primitive .TY_I32), 0⟩, ⟨plain_id "_1", some (primitive .TY_BOOL), 0⟩]

/-- The parser on `{i32, bool} {i32, bool};` at the token of index `i`. -/
def tuple_state (i : Nat) (t : Token) : Parser :=
  { start_state (mk_tok .TOKEN_LBRACE "\x7b") tuple_toks with token_i := i, tok := t }

/-! ## Expected parse results

The trees that the claims about the expression parser speak of, written
down from the description of the language and not from the parse functions. -/

/-- Atoms: an identifier or an integer literal. -/
def is_atom (type : TokenType) : Bool := type == .TOKEN_ID || type == .TOKEN_INT

/-- The node of an integer literal token: `i32` up to `INT_MAX`, `i64` up to
`LONG_MAX`, else `u64`. -/
def int_lit_node (env : ParserEnv) (t : Token) : ASTNode :=
  let num := env.atoll t.value
  if num ≤ 2 ^ 31 - 1 then
    { init_ast_node .ND_INT (some t) with
      int_val := to_i32 num, data_type := env.get_primitive_type "i32", is_constant := true }
  else if num ≤ 2 ^ 63 - 1 then
    { init_ast_node .ND_LONG (some t) with
      long_val := to_i64 num, data_type := env.get_primitive_type "i64", is_constant := true }
  else
    { init_ast_node .ND_ULONG (some t) with
      ulong_val := (num % 2 ^ 64).toNat, data_type := env.get_primitive_type "u64",
      is_constant := true }

/-- The node of an atom: an identifier node named by the token, or the node
of the integer literal. -/
def atom_node (env : ParserEnv) (t : Token) : ASTNode :=
  if t.type == .TOKEN_ID then
    { init_ast_node .ND_ID (some t) with id := some (plain_id t.value) }
  else int_lit_node env t

/-- The binary infix operators of the arithmetic, shift, bitwise, comparison
and logical classes, with the node kind of each. -/
def binary_op_kind : TokenType → Option ASTNodeKind
  | .TOKEN_PLUS => some .ND_ADD
  | .TOKEN_MINUS => some .ND_SUB
  | .TOKEN_STAR => some .ND_MUL
  | .TOKEN_SLASH => some .ND_DIV
  | .TOKEN_PERCENT => some .ND_MOD
  | .TOKEN_LSHIFT => some .ND_LSHIFT
  | .TOKEN_RSHIFT => some .ND_RSHIFT
  | .TOKEN_REF => some .ND_BIT_AND
  | .TOKEN_BIT_OR => some .ND_BIT_OR
  | .TOKEN_XOR => some .ND_XOR
  | .TOKEN_EQ => some .ND_EQ
  | .TOKEN_NOT_EQ => some .ND_NE
  | .TOKEN_LT => some .ND_LT
  | .TOKEN_LT_EQ => some .ND_LE
  | .TOKEN_GT => some .ND_GT
  | .TOKEN_GT_EQ => some .ND_GE
  | .TOKEN_AND => some .ND_AND
  | .TOKEN_OR => some .ND_OR
  | _ => none

/-- The comparison and logical operators, whose result is always `bool`. -/
def is_bool_op (type : TokenType) : Bool :=
  match type with
  | .TOKEN_EQ | .TOKEN_NOT_EQ | .TOKEN_LT | .TOKEN_LT_EQ | .TOKEN_GT | .TOKEN_GT_EQ
  | .TOKEN_AND | .TOKEN_OR => true
  | _ => false

/-- The tree `op(l, r)` for the operator token `o`. -/
def binary_node (env : ParserEnv) (o : Token) (l r : ASTNode) : ASTNode :=
  { init_ast_node ((binary_op_kind o.type).getD .ND_NOOP) (some o) with
    left := some l, right := some r,
    data_type := if is_bool_op o.type then some (env.primitives .TY_BOOL) else none }

/-- The parser stands at index `i` of the token list `ts`, on the token `t`. -/
def At (ts : List Token) (i : Nat) (t : Token) (p : Parser) : Prop :=
  p.tokens = ts ∧ p.token_i = i ∧ p.tok = t

/-! ## What a parse function may do to the parser state -/

/-- The identifiers of the function objects among `l`. -/
def lambda_ids (l : List ASTObj) : List (Option ASTIdentifier) :=
  (l.filter (fun o => o.kind == .OBJ_FUNCTION)).map (fun o => o.id)

/-- The relation between the parser state `p` before and `q` after a
completed call of a parse function: the hole flag is not switched on, the
current function is the same, and the objects of the program are the old ones
followed by new ones, among which the function objects are the lambda literals
numbered by the values that the lambda counter has passed, each once. -/
structure Frame (p q : Parser) : Prop where
  holes : q.holes_enabled = true → p.holes_enabled = true
  cur_fn : q.cur_fn = p.cur_fn
  lambda_le : p.cur_lambda_id ≤ q.cur_lambda_id
  objs : ∃ (l : List ASTObj) (ks : List Nat), q.objs = p.objs ++ l
    ∧ lambda_ids l = ks.map (fun k => some (plain_id (lambda_callee k)))
    ∧ ks.Perm (List.range' p.cur_lambda_id (q.cur_lambda_id - p.cur_lambda_id))

/-- Every completed run of `m` respects `Frame`. -/
def Step {α : Type} (m : PM α) : Prop := ∀ p v q, m p = .ok v q → Frame p q

/-- The three recursive parse functions respect `Frame`. -/
structure Good (fs : ParseFns) : Prop where
  expr : ∀ prec end_tok, Step (fs.parse_expr prec end_tok)
  stmt : ∀ b, Step (fs.parse_stmt b)
  type : Step fs.parse_type

/-! ## Concrete inputs and specification-side notions for literals, `return`
and expression statements -/

/-- A sample of `atoll` as the C library has it: the result is a `long long`,
so a string of decimal digits whose value does not fit yields `LLONG_MAX`. -/
def saturating_atoll (s : String) : Int := min (sample_atoll s) (2 ^ 63 - 1)

/-- The sample environment with the saturating `atoll`. -/
def saturating_env : ParserEnv := { sample_env with atoll := saturating_atoll }

/-- The tokens `;` and end of file, which follow the first token of a
one-token statement. -/
def semicolon_eof : List Token := [mk_tok .TOKEN_SEMICOLON ";", mk_tok .TOKEN_EOF ""]

/-- A function object whose return type is `void`, as `parse_fn_def` leaves it
for a function without a declared return type. -/
def void_fn : ASTObj :=
  { init_ast_obj .OBJ_FUNCTION (some (mk_tok .TOKEN_FN "fn")) with
    id := some (plain_id "f"), return_type := some (primitive .TY_VOID),
    data_type := some (primitive .TY_FN) }

/-- The tokens of `ret 1;` after the first one. -/
def return_value_toks : List Token :=
  [mk_tok .TOKEN_INT "1", mk_tok .TOKEN_SEMICOLON ";", mk_tok .TOKEN_EOF ""]

/-- The tokens of `|| => ret 1;` after the first one: a lambda literal without
a return type, whose body returns a value. -/
def void_lambda_toks : List Token :=
  [mk_tok .TOKEN_ARROW "=>", mk_tok .TOKEN_RETURN "ret", mk_tok .TOKEN_INT "1",
   mk_tok .TOKEN_SEMICOLON ";", mk_tok .TOKEN_EOF ""]

/-- The value that a `return` node holds. -/
def node_return_val (n : Option ASTNode) : Option ASTNode := n.bind fun x => x.return_val

/-- The body of an object. -/
def obj_body (o : Option ASTObj) : Option ASTNode := o.bind fun x => x.body

/-- The executable expressions in the words of the specification: a call,
assignment, increment, decrement, cast, member access or asm node, a closure
whose inner expression is executable, a pipe whose right-hand side is
executable, or an if-expression both of whose branches are executable. -/
def executable_by_spec : ASTNode → Bool
  | ⟨kind, _, _, _, _, right, expr, _, _, _, _, _, _, _, _, if_branch, else_branch, _, _, _,
      _, _, _, _, _, _, _⟩ =>
    kind == .ND_CALL || kind == .ND_ASSIGN || kind == .ND_INC || kind == .ND_DEC
    || kind == .ND_CAST || kind == .ND_MEMBER || kind == .ND_ASM
    || (kind == .ND_CLOSURE &&
        match expr with
        | some e => executable_by_spec e
        | none => false)
    || (kind == .ND_PIPE &&
        match right with
        | some r => executable_by_spec r
        | none => false)
    || (kind == .ND_IF_EXPR &&
        (match if_branch with
         | some a => executable_by_spec a
         | none => false) &&
        (match else_branch with
         | some b => executable_by_spec b
         | none => false))
termination_by structural x => x

/-- The node kinds of the literals and of the arithmetic, shift, bitwise,
comparison and logical operators. -/
def literal_or_arithmetic (kind : ASTNodeKind) : Bool :=
  kind == .ND_ID || kind == .ND_INT || kind == .ND_LONG || kind == .ND_ULONG
  || kind == .ND_FLOAT || kind == .ND_DOUBLE || kind == .ND_BOOL || kind == .ND_CHAR
  || kind == .ND_STR || kind == .ND_NIL || kind == .ND_ARRAY || kind == .ND_STRUCT
  || kind == .ND_ADD || kind == .ND_SUB || kind == .ND_MUL || kind == .ND_DIV
  || kind == .ND_MOD || kind == .ND_NEG || kind == .ND_BIT_NEG || kind == .ND_NOT
  || kind == .ND_EQ || kind == .ND_NE || kind == .ND_GT || kind == .ND_GE || kind == .ND_LT
  || kind == .ND_LE || kind == .ND_AND || kind == .ND_OR || kind == .ND_LSHIFT
  || kind == .ND_RSHIFT || kind == .ND_XOR || kind == .ND_BIT_OR || kind == .ND_BIT_AND

/-! ## Concrete inputs and specification-side notions for `match` -/

/-- A run of the loop of `parse_match` over the cases `cs`: starting in the
state `p`, the case parser is entered once for each element of `cs`, in order,
each time on a token other than `}` and end of file, and returns that element;
`q` is the state after the last of these calls. -/
inductive CaseSeq (parse_one : PM ASTNode) : Parser → List ASTNode → Parser → Prop where
  | nil (p : Parser) : CaseSeq parse_one p [] p
  | cons {p p1 q : Parser} {c : ASTNode} {cs : List ASTNode} :
      (!tok_is p .TOKEN_RBRACE && !tok_is p .TOKEN_EOF) = true →
      parse_one p = .ok c p1 → CaseSeq parse_one p1 cs q → CaseSeq parse_one p (c :: cs) q

/-- The `_` cases among `cs`, in source order. -/
def default_cases (cs : List ASTNode) : List ASTNode := cs.filter fun c => c.is_default_case

/-- The cases other than `_` among `cs`, in source order. -/
def plain_cases (cs : List ASTNode) : List ASTNode := cs.filter fun c => !c.is_default_case

/-- The cases of a `match` node. -/
def node_cases (n : Option ASTNode) : List ASTNode :=
  match n with
  | some x => x.cases
  | none => []

/-- The default case of a `match` node. -/
def node_default_case (n : Option ASTNode) : Option ASTNode := n.bind fun x => x.default_case

/-- The condition of a node. -/
def node_condition (n : Option ASTNode) : Option ASTNode := n.bind fun x => x.condition

/-- The tokens of `match x { 1 => noop; _ => noop; 2 => noop; }` after the
first one: one default case between two other cases. -/
def match_toks : List Token :=
  [mk_tok .TOKEN_ID "x", mk_tok .TOKEN_LBRACE "\x7b",
   mk_tok .TOKEN_INT "1", mk_tok .TOKEN_ARROW "=>", mk_tok .TOKEN_NOOP "noop",
   mk_tok .TOKEN_SEMICOLON ";",
   mk_tok .TOKEN_UNDERSCORE "_", mk_tok .TOKEN_ARROW "=>", mk_tok .TOKEN_NOOP "noop",
   mk_tok .TOKEN_SEMICOLON ";",
   mk_tok .TOKEN_INT "2", mk_tok .TOKEN_ARROW "=>", mk_tok .TOKEN_NOOP "noop",
   mk_tok .TOKEN_SEMICOLON ";",
   mk_tok .TOKEN_RBRACE "\x7d", mk_tok .TOKEN_EOF ""]

/-- The tokens of `match x { _ => noop; 1 => noop; _ => noop; }` after the
first one: two default cases. -/
def match_two_defaults_toks : List Token :=
  [mk_tok .TOKEN_ID "x", mk_tok .TOKEN_LBRACE "\x7b",
   mk_tok .TOKEN_UNDERSCORE "_", mk_tok .TOKEN_ARROW "=>", mk_tok .TOKEN_NOOP "noop",
   mk_tok .TOKEN_SEMICOLON ";",
   mk_tok .TOKEN_INT "1", mk_tok .TOKEN_ARROW "=>", mk_tok .TOKEN_NOOP "noop",
   mk_tok .TOKEN_SEMICOLON ";",
   mk_tok .TOKEN_UNDERSCORE "_", mk_tok .TOKEN_ARROW "=>", mk_tok .TOKEN_NOOP "noop",
   mk_tok .TOKEN_SEMICOLON ";",
   mk_tok .TOKEN_RBRACE "\x7d", mk_tok .TOKEN_EOF ""]

/-- The tokens of `match (type) i32 { i32 => noop; _ => noop; bool => noop; }`
after the first one: a type match with one default case. -/
def type_match_toks : List Token :=
  [mk_tok .TOKEN_LPAREN "(", mk_tok .TOKEN_TYPE "type", mk_tok .TOKEN_RPAREN ")",
   mk_tok .TOKEN_ID "i32", mk_tok .TOKEN_LBRACE "\x7b",
   mk_tok .TOKEN_ID "i32", mk_tok .TOKEN_ARROW "=>", mk_tok .TOKEN_NOOP "noop",
   mk_tok .TOKEN_SEMICOLON ";",
   mk_tok .TOKEN_UNDERSCORE "_", mk_tok .TOKEN_ARROW "=>", mk_tok .TOKEN_NOOP "noop",
   mk_tok .TOKEN_SEMICOLON ";",
   mk_tok .TOKEN_ID "bool", mk_tok .TOKEN_ARROW "=>", mk_tok .TOKEN_NOOP "noop",
   mk_tok .TOKEN_SEMICOLON ";",
   mk_tok .TOKEN_RBRACE "\x7d", mk_tok .TOKEN_EOF ""]

/-- The tokens of `match (type) i32 { _ => noop; _ => noop; }` after the first
one: a type match with two default cases. -/
def type_match_two_defaults_toks : List Token :=
  [mk_tok .TOKEN_LPAREN "(", mk_tok .TOKEN_TYPE "type", mk_tok .TOKEN_RPAREN ")",
   mk_tok .TOKEN_ID "i32", mk_tok .TOKEN_LBRACE "\x7b",
   mk_tok .TOKEN_UNDERSCORE "_", mk_tok .TOKEN_ARROW "=>", mk_tok .TOKEN_NOOP "noop",
   mk_tok .TOKEN_SEMICOLON ";",
   mk_tok .TOKEN_UNDERSCORE "_", mk_tok .TOKEN_ARROW "=>", mk_tok .TOKEN_NOOP "noop",
   mk_tok .TOKEN_SEMICOLON ";",
   mk_tok .TOKEN_RBRACE "\x7d", mk_tok .TOKEN_EOF ""]

/-- The tokens of `_ => noop; _ => noop; }` after the first one: the body of
a `match` with two default cases. -/
def two_default_cases_toks : List Token :=
  [mk_tok .TOKEN_ARROW "=>", mk_tok .TOKEN_NOOP "noop", mk_tok .TOKEN_SEMICOLON ";",
   mk_tok .TOKEN_UNDERSCORE "_", mk_tok .TOKEN_ARROW "=>", mk_tok .TOKEN_NOOP "noop",
   mk_tok .TOKEN_SEMICOLON ";", mk_tok .TOKEN_RBRACE "\x7d", mk_tok .TOKEN_EOF ""]

/-- The default case `_ => noop;` as `parse_case` returns it. -/
def default_noop_case : ASTNode :=
  { init_ast_node .ND_CASE (some (mk_tok .TOKEN_UNDERSCORE "_")) with
    is_default_case := true,
    body := some (init_ast_node .ND_NOOP (some (mk_tok .TOKEN_NOOP "noop"))) }

/-- The tokens of `match x { _ => noop; _ => noop; }` after the first one. -/
def match_only_defaults_toks : List Token :=
  [mk_tok .TOKEN_ID "x", mk_tok .TOKEN_LBRACE "\x7b",
   mk_tok .TOKEN_UNDERSCORE "_", mk_tok .TOKEN_ARROW "=>", mk_tok .TOKEN_NOOP "noop",
   mk_tok .TOKEN_SEMICOLON ";",
   mk_tok .TOKEN_UNDERSCORE "_", mk_tok .TOKEN_ARROW "=>", mk_tok .TOKEN_NOOP "noop",
   mk_tok .TOKEN_SEMICOLON ";",
   mk_tok .TOKEN_RBRACE "\x7d", mk_tok .TOKEN_EOF ""]

/-- The parser state on `match x { _ => noop; _ => noop; }` at the token `tok`
of index `i`. -/
def match_state (i : Nat) (tok : Token) : Parser :=
  { start_state (mk_tok .TOKEN_MATCH "match") match_only_defaults_toks with
    token_i := i, tok := tok }

/-! ## The top level of the parser -/

/-- The kinds of `main` function (`MainFunctionKind_T`), in the order of the
table `c_start_text`. -/
inductive MainFunctionKind where
  | MFK_NO_ARGS | MFK_ARGV_PTR | MFK_ARGC_ARGV_PTR | MFK_ARGS_ARRAY
  deriving DecidableEq, Repr

/-- The program (`ASTProg_T`) with the slots the parser and the C back end
read and write. -/
structure ASTProg where
  main_file_path : String
  imports : List String
  objs : List ASTObj
  mfk : MainFunctionKind

/-- Modelled from the spec: `init_ast_prog(prog, main_file_path, target_binary, imports)`
  (ast/ast.c is not part of the sources): a program without objects,
with the list of imported files that is handed in, which is empty for a null
pointer. -/
def init_ast_prog (main_file_path : String) (_target_binary : Option String)
    (imports : Option (List String)) : ASTProg :=
  { main_file_path := main_file_path, imports := imports.getD [], objs := [],
    mfk := .MFK_NO_ARGS }

/-- The body of the `while` loop of `parse`: one `import` statement, or one
object, which `parse_obj` parses and appends to the objects of the program. -/
def parse_top_level (env : ParserEnv) (parse_obj : PM Unit) : PM Unit := do
  let p ← get_state
  if p.tok.type == .TOKEN_IMPORT then do
    let _t ← parser_advance env
    let _t ← parser_consume env .TOKEN_STRING
    let _t ← parser_consume env .TOKEN_SEMICOLON
    pure ()
  else parse_obj

/-- The `while` loop of `parse`. -/
def parse_top_level_loop (env : ParserEnv) (parse_obj : PM Unit) : Nat → PM Unit
  | 0 => PM.out_of_fuel
  | n + 1 => do
    let p ← get_state
    if !tok_is p .TOKEN_EOF then do
      parse_top_level env parse_obj
      parse_top_level_loop env parse_obj n
    else pure ()

/-- The function `parse(ast, files, is_silent)` from the token list that
`lex_and_preprocess_tokens` hands over up to the call of `validate_ast` (both
are not part of the sources): the program as the loop leaves it.  The
declaration parser `parse_obj` is a parameter. -/
def parse (env : ParserEnv) (parse_obj : PM Unit) (fuel : Nat) (main_file_path : String)
    (tokens : List Token) : Res ASTProg :=
  let ast := init_ast_prog main_file_path none none
  match init_parser_state tokens ast.objs with
  | none => .undefined
  | some p =>
    match parse_top_level_loop env parse_obj fuel p with
    | .ok _ q => .ok { ast with objs := q.objs } q
    | .aborted q => .aborted q
    | .undefined => .undefined
    | .unsupported => .unsupported
    | .out_of_fuel => .out_of_fuel

/-- The tokens of `import "std/io.csp"; import "std/mem.csp";`. -/
def import_toks : List Token :=
  [mk_tok .TOKEN_IMPORT "import", mk_tok .TOKEN_STRING "std/io.csp",
   mk_tok .TOKEN_SEMICOLON ";", mk_tok .TOKEN_IMPORT "import",
   mk_tok .TOKEN_STRING "std/mem.csp", mk_tok .TOKEN_SEMICOLON ";", mk_tok .TOKEN_EOF ""]

/-! ## The C code generator

A shallow embedding of `src/compiler/codegen/transpiler/c_codegen.c`.  The
memory stream `code_buffer` is a string with a write position; characters
stand for bytes.  The recursion of the C functions over the tree is bounded
by a fuel argument. -/

/-- The state of the generator (`CCodegenData_T`): the text of the memory
stream `code_buffer` and the position in it, the counter `unique_id`, the
addresses of the objects whose flag `generated` is set (the flag is a slot of
the object, which the code reaches through shared pointers), and the
diagnostics handed to `throw_error`. -/
structure CCodegenData where
  buf : String
  pos : Nat
  unique_id : Nat
  generated : List Nat
  log : List Diagnostic

/-- The outcome of a generator function: it returns, `throw_error` leaves the
compilation, `unreachable()` is reached after a logged error, the code
dereferences a null pointer or reads an empty table entry, the construct is
outside the model, or the fuel is used up. -/
inductive CRes (α : Type) where
  | ok (val : α) (cg : CCodegenData)
  | aborted (cg : CCodegenData)
  | fatal (cg : CCodegenData)
  | undefined
  | unsupported
  | out_of_fuel

/-- A generator function: it reads and writes the generator state. -/
def CM (α : Type) : Type := CCodegenData → CRes α

/-- Sequencing of generator functions. -/
def CM.bind {α β : Type} (m : CM α) (f : α → CM β) : CM β := fun cg =>
  match m cg with
  | .ok v cg1 => f v cg1
  | .aborted cg1 => .aborted cg1
  | .fatal cg1 => .fatal cg1
  | .undefined => .undefined
  | .unsupported => .unsupported
  | .out_of_fuel => .out_of_fuel

instance : Monad CM where
  pure v := fun cg => .ok v cg
  bind := CM.bind

/-- The current generator state. -/
def CM.get : CM CCodegenData := fun cg => .ok cg cg

/-- The guarded statement `if(c) m;`. -/
def CM.when (c : Bool) (m : CM Unit) : CM Unit := if c then m else pure ()

/-- A construct that the model does not cover. -/
def CM.unsupported {α : Type} : CM α := fun _ => .unsupported

/-- A null dereference or a read of an empty table entry. -/
def CM.undefined {α : Type} : CM α := fun _ => .undefined

/-- The fuel is used up. -/
def CM.out_of_fuel {α : Type} : CM α := fun _ => .out_of_fuel

/-- A logged error followed by `unreachable()`. -/
def CM.fatal {α : Type} : CM α := fun cg => .fatal cg

/-- The helpers that c_codegen.c calls and whose code is not part of the
sources, and the slots of types, nodes and objects that the structures of
this model do not hold: `unpack`, `should_emit` and `gen_identifier`
(codegen/codegen_utils.c), `throw_error`'s table (error/error.c), the slots
`size`, `align` and `referenced_obj` of a type, the member objects of an enum
type, the slot `locals` of a block, and the address of an object. -/
structure CEnv where
  helpers : Helpers
  should_emit : ASTObj → Bool
  gen_identifier : Option ASTIdentifier → String → String → String
  size : ASTType → Int
  align : ASTType → Int
  referenced_obj : ASTType → Option ASTObj
  enum_members : ASTType → List ASTObj
  locals : ASTNode → List ASTObj
  addr : ASTObj → Nat

/-- Modelled from the spec: `throw_error(kind, tok, ...)` as seen from the
generator: the diagnostic is recorded, and the compilation is left when
`throw_error_halts` says so. -/
def c_throw_error (env : CEnv) (kind : ErrorType) (tok : Option Token) : CM Unit := fun cg =>
  let cg1 := { cg with log := cg.log ++ [⟨kind, tok⟩] }
  if throw_error_halts env.helpers kind then .aborted cg1 else .ok () cg1

/-- A write of the text `s` to the stream at its position: the characters from
the position on are overwritten, the stream grows as needed, and a gap before
the position is filled with NUL characters. -/
def CCodegenData.write (cg : CCodegenData) (s : String) : CCodegenData :=
  { cg with
    buf := ⟨cg.buf.data.take cg.pos ++ List.replicate (cg.pos - cg.buf.length) '\x00'
            ++ s.data ++ cg.buf.data.drop (cg.pos + s.length)⟩,
    pos := cg.pos + s.length }

/-- The function `c_print(cg, fmt, ...)`; `s` is the text that `vfprintf`
makes of the format and its arguments. -/
def c_print (s : String) : CM Unit := fun cg => .ok () (cg.write s)

/-- The function `c_println(cg, fmt, ...)`. -/
def c_println (s : String) : CM Unit := fun cg => .ok () ((cg.write s).write "\n")

/-- The function `c_putc(cg, c)`. -/
def c_putc (c : Char) : CM Unit := fun cg => .ok () (cg.write (String.singleton c))

/-- The function `c_rewind(cg, amount)`: `fseek(cg->code_buffer, amount,
SEEK_END)`, which fails, leaving the position, when the target is negative. -/
def c_rewind (amount : Int) : CM Unit := fun cg =>
  let target := (cg.buf.length : Int) + amount
  .ok () (if 0 ≤ target then { cg with pos := target.toNat } else cg)

/-- The macro `ID_PREFIX`. -/
def ID_PREFIX : String := "__csp_"

/-- The macro `MAIN_FN_ID`. -/
def MAIN_FN_ID : String := ID_PREFIX ++ "main"

/-- The table `reg_names`; `C_NUM_REGISTERS` is the number of its entries. -/
def reg_names : List String :=
  ["%rax", "%rbx", "%rcx", "%rdx", "%rdi", "%rsi", "%rbp", "%rsp", "%r8", "%r9", "%r10",
   "%r11", "%r12", "%r13", "%r14", "%r15", "%rip"]

/-- The macro `C_NUM_REGISTERS`. -/
def C_NUM_REGISTERS : Nat := reg_names.length

/-- The table `op_symbols`. -/
def op_symbols : ASTNodeKind → Option String
  | .ND_ADD => some "+"
  | .ND_SUB => some "-"
  | .ND_MUL => some "*"
  | .ND_DIV => some "/"
  | .ND_MOD => some "%"
  | .ND_NEG => some "-"
  | .ND_BIT_NEG => some "~"
  | .ND_NOT => some "!"
  | .ND_REF => some "&"
  | .ND_DEREF => some "*"
  | .ND_EQ => some "=="
  | .ND_NE => some "!="
  | .ND_GT => some ">"
  | .ND_GE => some ">="
  | .ND_LT => some "<"
  | .ND_LE => some "<="
  | .ND_AND => some "&&"
  | .ND_OR => some "||"
  | .ND_LSHIFT => some "<<"
  | .ND_RSHIFT => some ">>"
  | .ND_XOR => some "^"
  | .ND_BIT_OR => some "|"
  | .ND_BIT_AND => some "&"
  | .ND_ASSIGN => some "="
  | _ => none

/-- The text `c_header_text`. -/
def c_header_text : String :=
  "// Automatically generated by the CSpydr compiler.\n" ++
  "\n" ++
  "#include <stdarg.h>\n" ++
  "\n" ++
  "static const _Bool _false = 0;\n" ++
  "static const _Bool _true = 1;\n" ++
  "\n" ++
  "static inline unsigned long _inline_strlen(const char* s) \x7b\n" ++
  "  unsigned long l;\n" ++
  "  for(l = 0; s[l]; l++);\n" ++
  "  return l;\n" ++
  "\x7d\n" ++
  "\n"

/-- The macro `_START_HEADER`. -/
def _START_HEADER : String :=
  "\n" ++
  "extern void _start(void);\n" ++
  "__asm__(\n" ++
  "  \".globl _start\\n\"\n" ++
  "  \"_start:\\n\"\n"

/-- The macro `_START_FOOTER`. -/
def _START_FOOTER : String := ");\n"

/-- The macro `_START_EXIT`. -/
def _START_EXIT : String :=
  "  \"  movq %rax, %rdi\\n\"\n" ++
  "  \"  movq $60, %rax\\n\"\n" ++
  "  \"  syscall\"\n" ++
  _START_FOOTER

/-- The table `c_start_text`. -/
def c_start_text : MainFunctionKind → String
  | .MFK_NO_ARGS =>
    _START_HEADER ++
    "  \"  call " ++ MAIN_FN_ID ++ "\\n\"\n" ++
    _START_EXIT
  | .MFK_ARGV_PTR =>
    _START_HEADER ++
    "  \"  xorl %ebp, %ebp\\n\"\n" ++
    "  \"  popq %rdi\\n\"\n" ++
    "  \"  movq %rsp, %rdi\\n\"\n" ++
    "  \"  call " ++ MAIN_FN_ID ++ "\\n\"\n" ++
    _START_EXIT
  | .MFK_ARGC_ARGV_PTR =>
    _START_HEADER ++
    "  \"  xorl %ebp, %ebp\\n\"\n" ++
    "  \"  popq %rdi\\n\"\n" ++
    "  \"  movq %rsp, %rdi\\n\"\n" ++
    "  \"  andq $~15, %rsp\\n\"\n" ++
    "  \"  call " ++ MAIN_FN_ID ++ "\\n\"\n" ++
    _START_EXIT
  | .MFK_ARGS_ARRAY =>
    _START_HEADER ++
    "  \"  call " ++ MAIN_FN_ID ++ "\\n\"\n" ++
    _START_EXIT

/-- The table `c_primitive_types`. -/
def c_primitive_types : ASTTypeKind → Option String
  | .TY_U8 => some "unsigned char"
  | .TY_U16 => some "unsigned short"
  | .TY_U32 => some "unsigned int"
  | .TY_U64 => some "unsigned long"
  | .TY_I8 => some "signed char"
  | .TY_I16 => some "signed short"
  | .TY_I32 => some "signed int"
  | .TY_I64 => some "signed long"
  | .TY_F32 => some "float"
  | .TY_F64 => some "double"
  | .TY_F80 => some "long double"
  | .TY_VOID => some "void"
  | .TY_CHAR => some "char"
  | .TY_BOOL => some "_Bool"
  | _ => none

/-- The function `init_c_cg(cg, ast)`: an empty stream and the counter 0. -/
def init_c_cg : CCodegenData :=
  { buf := "", pos := 0, unique_id := 0, generated := [], log := [] }

/-- The function `c_gen_identifier(id)`. -/
def c_gen_identifier (env : CEnv) (id : Option ASTIdentifier) : String :=
  env.gen_identifier id "_" ID_PREFIX

/-! ### Inline assembly -/

/-- The function `isalnum` of the C library in the "C" locale. -/
def isalnum (c : Char) : Bool := c.isAlphanum

/-- The test `strncmp(a, b, n) == 0` on strings without NUL characters, whose
end stands for the terminating NUL. -/
def strncmp_eq : List Char → List Char → Nat → Bool
  | _, _, 0 => true
  | [], [], _ + 1 => true
  | a :: as, b :: bs, n + 1 => a == b && strncmp_eq as bs n
  | _, _, _ + 1 => false

/-- The character `str[i]`, which is the terminating NUL at the end. -/
def char_at (str : List Char) (i : Nat) : Char := str.getD i '\x00'

/-- The loop `for(; isalnum(str[i]); i++, reg_len++);` of `c_detect_registers`:
the values of `i` and `reg_len` after it.  The fuel bounds the number of
steps; the length of the string is enough. -/
def alnum_run (str : List Char) : Nat → Nat → Nat → Nat × Nat
  | 0, i, reg_len => (i, reg_len)
  | n + 1, i, reg_len =>
    if isalnum (char_at str i) then alnum_run str n (i + 1) (reg_len + 1) else (i, reg_len)

/-- The loop over the table `reg_names` of `c_detect_registers`, from the
index `j` on, over the entries `names` left: the array `used_registers` and
the value of `reg` after it (`none` for `REG_NUM`). -/
def match_registers (seq : List Char) (reg_len : Nat) :
    List String → Nat → List Bool → Option Nat → List Bool × Option Nat
  | [], _, used_registers, reg => (used_registers, reg)
  | name :: names, j, used_registers, reg =>
    if strncmp_eq name.data seq reg_len then
      match_registers seq reg_len names (j + 1) (used_registers.set j true) (some j)
    else match_registers seq reg_len names (j + 1) used_registers reg

/-- The outcome of the scan of `c_detect_registers`: the array
`used_registers` and the counter `num_percent`, or the sequence that is
reported as an unknown register before `unreachable()`. -/
inductive DetectRes where
  | ok (used_registers : List Bool) (num_percent : Nat)
  | unknown_register (name : String)
  | out_of_fuel
  deriving DecidableEq, Repr

/-- The outer loop of `c_detect_registers` from the index `i` on. -/
def detect_loop (str : List Char) : Nat → Nat → List Bool → Nat → DetectRes
  | 0, _, _, _ => .out_of_fuel
  | n + 1, i, used_registers, num_percent =>
    if i < str.length then
      if char_at str i != '%' then detect_loop str n (i + 1) used_registers num_percent
      else
        let i := i + 1
        let num_percent := num_percent + 1
        let (i, reg_len) := alnum_run str str.length i 1
        let (used_registers, reg) :=
          match_registers (str.drop (i - reg_len)) reg_len reg_names 0 used_registers none
        match reg with
        | none => .unknown_register ⟨(str.drop (i - reg_len)).take reg_len⟩
        | some _ => detect_loop str n (i + 1) used_registers num_percent
    else .ok used_registers num_percent

/-- Modelled from the spec: the text that `str_replace(copy, str, "%", "%%")`
leaves in `copy` (util.c is not part of the sources): "Replaces `%` with `%%`
in the emitted text". -/
def escape_percent (str : String) : String :=
  ⟨str.data.flatMap fun c => if c == '%' then ['%', '%'] else [c]⟩

/-- The outcome of `c_detect_registers`: the array `used_registers` as the
scan has left it and the string returned; the sequence that is reported as an
unknown register before `unreachable()`; or a write past the end of the
buffer `copy`, with the array `used_registers` of the caller as the scan has
left it. -/
inductive DetectOut where
  | ok (used_registers : List Bool) (copy : String)
  | unknown_register (name : String)
  | overflow (used_registers : List Bool)
  | out_of_fuel
  deriving DecidableEq, Repr

/-- The array `used_registers` of the caller once the scan of
`c_detect_registers` has come to its end. -/
def DetectOut.marked : DetectOut → Option (List Bool)
  | .ok used_registers _ => some used_registers
  | .overflow used_registers => some used_registers
  | _ => none

/-- The function `c_detect_registers(cg, str, used_registers)`.  After the
scan the code allocates `copy = calloc(strlen(str) + num_percent, 1)`;
`strcpy(copy, str)` writes the text of `str` and its terminating NUL into it,
and `str_replace` the escaped text and its NUL.  A character stands for a
byte. -/
def c_detect_registers (str : String) (used_registers : List Bool) : DetectOut :=
  match detect_loop str.data (str.length + 1) 0 used_registers 0 with
  | .ok used_registers num_percent =>
    let size := str.length + num_percent
    if str.length + 1 ≤ size ∧ (escape_percent str).length + 1 ≤ size then
      .ok used_registers (escape_percent str)
    else .overflow used_registers
  | .unknown_register name => .unknown_register name
  | .out_of_fuel => .out_of_fuel

/-- The registers whose entry of `used_registers` is set. -/
def used_names (used_registers : List Bool) : List String :=
  (reg_names.zip used_registers).filterMap fun x => if x.2 then some x.1 else none

/-- The array `used_registers` as `c_gen_inline_asm` initialises it. -/
def no_registers : List Bool := List.replicate C_NUM_REGISTERS false

/-! ### Formats -/

/-- The text of the conversion `%lu` for a 64-bit unsigned value. -/
def fmt_lu (n : Nat) : String := Nat.repr (n % 2 ^ 64)

/-- The text of the conversions `%d` and `%ld`. -/
def fmt_d (i : Int) : String :=
  if i < 0 then "-" ++ Nat.repr i.natAbs else Nat.repr i.natAbs

/-- The text of the conversion `%04lu`: at least four digits, padded with
zeros on the left. -/
def fmt_04lu (n : Nat) : String :=
  ⟨List.replicate (4 - (fmt_lu n).length) '0'⟩ ++ fmt_lu n

/-- The text that the format `_unique_id_%04lux` yields for the number `id`. -/
def unique_id_name (id : Nat) : String := "_unique_id_" ++ fmt_04lu id ++ "x"

/-- The expression `cg->unique_id++` on the 64-bit counter. -/
def next_unique_id : CM Nat := fun cg =>
  .ok cg.unique_id { cg with unique_id := (cg.unique_id + 1) % 2 ^ 64 }

/-! ### Types -/

/-- The three recursive generator functions with the fuel left for them; a
null pointer is `none`. -/
structure CGFns where
  fuel : Nat
  c_gen_type : Option ASTType → CM Unit
  c_gen_expr : Option ASTNode → CM Unit
  c_gen_stmt : Option ASTNode → CM Unit

/-- The loop over `type->arg_types` of `c_gen_type` and `c_gen_typed_name`. -/
def c_gen_arg_types (fs : CGFns) : List ASTType → CM Unit
  | [] => pure ()
  | t :: rest => do
    fs.c_gen_type (some t)
    CM.when (rest.length > 0) (c_putc ',')
    c_gen_arg_types fs rest

/-- The function `c_gen_typed_name(cg, id, type)`. -/
def c_gen_typed_name (env : CEnv) (fs : CGFns) (id : Option ASTIdentifier)
    (type : Option ASTType) : CM Unit :=
  match type with
  | none => CM.undefined
  | some type =>
    match type.kind with
    | .TY_C_ARRAY => do
      fs.c_gen_type type.base
      c_putc ' '
      c_print (c_gen_identifier env id)
      c_print ("[" ++ fmt_lu type.num_indices ++ "]")
    | .TY_FN => do
      fs.c_gen_type type.base
      c_print ("(*" ++ c_gen_identifier env id ++ ")(")
      c_gen_arg_types fs type.arg_types
      c_putc ')'
    | _ => do
      fs.c_gen_type (some type)
      c_putc ' '
      c_print (c_gen_identifier env id)

/-- The loop over `type->members` of `c_gen_struct`. -/
def c_gen_struct_members (env : CEnv) (fs : CGFns) : List (ASTMember ASTType) → CM Unit
  | [] => pure ()
  | member :: rest => do
    c_print "  "
    c_gen_typed_name env fs (some member.id) member.data_type
    c_println ";"
    c_gen_struct_members env fs rest

/-- The function `c_gen_struct(cg, type, name)`. -/
def c_gen_struct (env : CEnv) (fs : CGFns) (type : ASTType) (name : Option String) :
    CM Unit := do
  c_println ((if type.is_union then "union" else "struct") ++ " " ++ name.getD "" ++ "\x7b")
  c_gen_struct_members env fs type.members
  c_putc '\x7d'

/-- The function `c_gen_type(cg, type)` on a non-null type; for a kind
without case the code logs an error and returns. -/
def c_gen_type_body (env : CEnv) (fs : CGFns) (type : ASTType) : CM Unit := do
  CM.when type.is_constant (c_print "const ")
  if type.is_primitive && type.kind != .TY_FN then
    match c_primitive_types type.kind with
    | none => CM.undefined
    | some name => c_print name
  else
    match type.kind with
    | .TY_PTR => do
      fs.c_gen_type type.base
      c_putc '*'
    | .TY_ARRAY => do
      c_print "struct \x7b unsigned long __s; "
      fs.c_gen_type type.base
      c_print (" __v[" ++ fmt_lu type.num_indices ++ "]; \x7d")
    | .TY_C_ARRAY => do
      fs.c_gen_type type.base
      c_print ("[" ++ fmt_d (to_i64 type.num_indices) ++ "]")
    | .TY_FN => do
      fs.c_gen_type type.base
      c_print "(*)("
      c_gen_arg_types fs type.arg_types
      c_print ")"
    | .TY_UNDEF => c_print (c_gen_identifier env (some type.id))
    | .TY_STRUCT => c_gen_struct env fs type none
    | .TY_ENUM => c_print "int"
    | _ => pure ()

/-! ### Expressions -/

/-- The loops over the arguments of an array literal and of a call: the
expressions, separated by commas. -/
def c_gen_expr_list (fs : CGFns) : List ASTNode → CM Unit
  | [] => pure ()
  | arg :: rest => do
    fs.c_gen_expr (some arg)
    CM.when (rest.length > 0) (c_putc ',')
    c_gen_expr_list fs rest

/-- The loops over the arguments of a struct literal and over the expressions
of a closure: each expression is followed by a comma, the last one by the
character `last`. -/
def c_gen_expr_list_closed (fs : CGFns) (last : Char) : List ASTNode → CM Unit
  | [] => pure ()
  | arg :: rest => do
    fs.c_gen_expr (some arg)
    c_putc (if rest.length > 0 then ',' else last)
    c_gen_expr_list_closed fs last rest

/-- The function `c_gen_index(cg, node)`. -/
def c_gen_index (env : CEnv) (fs : CGFns) (node : ASTNode) : CM Unit :=
  match node.left with
  | none => CM.undefined
  | some left =>
    match unpack_ptr env.helpers left.data_type with
    | none => CM.undefined
    | some ty =>
      match ty.kind with
      | .TY_PTR | .TY_FN | .TY_C_ARRAY => do
        c_print "("
        fs.c_gen_expr node.left
        c_print ")["
        fs.c_gen_expr node.expr
        c_print "]"
      | .TY_VLA | .TY_ARRAY => do
        c_print "("
        fs.c_gen_expr node.left
        c_print (")" ++ (if ty.kind == .TY_ARRAY then "." else "->") ++ "__v[")
        fs.c_gen_expr node.expr
        c_putc ']'
      | _ => c_throw_error env .ERR_CODEGEN node.tok

/-- The first loop of `c_gen_inline_asm` over the arguments: the array
`used_registers` and the counter `num_vars` after it. -/
def c_gen_asm_args (used_registers : List Bool) (num_vars : Nat) :
    List ASTNode → CM (List Bool × Nat)
  | [] => pure (used_registers, num_vars)
  | arg :: rest => do
    let (used_registers, num_vars) ←
      (match arg.kind with
       | .ND_STR =>
         if arg.str_val.data.contains '%' then
           match c_detect_registers arg.str_val used_registers with
           | .ok used_registers new => do
             c_print ("\"" ++ new ++ "\"")
             pure (used_registers, num_vars)
           | .unknown_register _ => CM.fatal
           | .overflow _ => CM.undefined
           | .out_of_fuel => CM.out_of_fuel
         else do
           c_print ("\"" ++ arg.str_val ++ "\"")
           pure (used_registers, num_vars)
       | .ND_INT => do
         c_print ("\"$" ++ fmt_d arg.int_val ++ "\"")
         pure (used_registers, num_vars)
       | .ND_LONG => do
         c_print ("\"$" ++ fmt_d arg.long_val ++ "\"")
         pure (used_registers, num_vars)
       | .ND_ULONG => do
         c_print ("\"$" ++ fmt_lu arg.ulong_val ++ "\"")
         pure (used_registers, num_vars)
       | .ND_ID => do
         c_print ("\"%" ++ fmt_lu num_vars ++ "\"")
         pure (used_registers, (num_vars + 1) % 2 ^ 64)
       | _ => CM.fatal : CM (List Bool × Nat))
    c_putc ' '
    c_gen_asm_args used_registers num_vars rest

/-- The second loop of `c_gen_inline_asm`: the input operands. -/
def c_gen_asm_inputs (env : CEnv) (num_vars : Nat) : List ASTNode → CM Unit
  | [] => pure ()
  | arg :: rest =>
    if arg.kind != .ND_ID then c_gen_asm_inputs env num_vars rest
    else do
      let num_vars := (num_vars + 2 ^ 64 - 1) % 2 ^ 64
      c_print ("\"r\"((unsigned long)" ++ c_gen_identifier env arg.id ++ ")"
        ++ (if num_vars != 0 then "," else "\n"))
      c_gen_asm_inputs env num_vars rest

/-- The third loop of `c_gen_inline_asm`: the clobbered registers. -/
def c_gen_asm_clobbers : List (String × Bool) → CM Unit
  | [] => pure ()
  | (name, used) :: rest => do
    CM.when used (c_print ("\"" ++ name ++ "\","))
    c_gen_asm_clobbers rest

/-- The function `c_gen_inline_asm(cg, node)`. -/
def c_gen_inline_asm (env : CEnv) (node : ASTNode) : CM Unit := do
  c_print "__asm__ volatile(\n  "
  let (used_registers, num_vars) ← c_gen_asm_args no_registers 0 node.args
  c_print "\n  ::"
  c_gen_asm_inputs env num_vars node.args
  c_print "  :"
  c_gen_asm_clobbers (reg_names.zip used_registers)
  c_rewind (-1)
  c_print "\n)"

/-- The case `ND_LEN` of `c_gen_expr`. -/
def c_gen_len (env : CEnv) (fs : CGFns) (node : ASTNode) : CM Unit :=
  match node.expr with
  | none => CM.undefined
  | some expr =>
    match unpack_ptr env.helpers expr.data_type with
    | none => CM.undefined
    | some ty =>
      match ty.kind with
      | .TY_C_ARRAY => c_print (fmt_lu ty.num_indices)
      | .TY_ARRAY => do
        c_putc '('
        fs.c_gen_expr node.expr
        c_print ".__s)"
      | .TY_VLA => do
        c_putc '('
        fs.c_gen_expr node.expr
        c_print "->__s)"
      | .TY_PTR =>
        match unpack_ptr env.helpers ty.base with
        | none => CM.undefined
        | some base =>
          if base.kind == .TY_CHAR then do
            c_print "_inline_strlen("
            fs.c_gen_expr node.expr
            c_putc ')'
          else CM.fatal
      | _ => CM.fatal

/-- The function `c_gen_expr(cg, node)` on a non-null node; floating-point
literals are outside the model. -/
def c_gen_expr_body (env : CEnv) (fs : CGFns) (node : ASTNode) : CM Unit :=
  match node.kind with
  | .ND_FLOAT => CM.unsupported
  | .ND_DOUBLE => CM.unsupported
  | .ND_INT => c_print (fmt_d node.int_val)
  | .ND_BOOL => c_print (if node.bool_val then "_true" else "_false")
  | .ND_LONG => c_print (fmt_d node.long_val ++ "l")
  | .ND_ULONG => c_print (fmt_lu node.ulong_val ++ "lu")
  | .ND_CHAR => c_print ("((char) " ++ fmt_d node.int_val ++ ")")
  | .ND_STR => c_print ("\"" ++ node.str_val ++ "\"")
  | .ND_NIL => c_print "((void*) 0)"
  | .ND_SIZEOF =>
    match node.the_type with
    | none => CM.undefined
    | some the_type => c_print ("((unsigned long) " ++ fmt_d (env.size the_type) ++ ")")
  | .ND_ALIGNOF =>
    match node.the_type with
    | none => CM.undefined
    | some the_type => c_print ("((unsigned long) " ++ fmt_d (env.align the_type) ++ ")")
  | .ND_LEN => c_gen_len env fs node
  | .ND_NEG | .ND_BIT_NEG | .ND_NOT | .ND_REF | .ND_DEREF =>
    match op_symbols node.kind with
    | none => CM.undefined
    | some op => do
      c_print ("(" ++ op)
      fs.c_gen_expr node.right
      c_putc ')'
  | .ND_INC | .ND_DEC => do
    c_putc '('
    fs.c_gen_expr node.left
    c_print ((if node.kind == .ND_INC then "++" else "--") ++ ")")
  | .ND_ADD | .ND_SUB | .ND_MUL | .ND_DIV | .ND_MOD | .ND_EQ | .ND_NE | .ND_GT | .ND_GE
  | .ND_LT | .ND_LE | .ND_AND | .ND_OR | .ND_LSHIFT | .ND_RSHIFT | .ND_XOR | .ND_BIT_OR
  | .ND_BIT_AND | .ND_ASSIGN =>
    match op_symbols node.kind with
    | none => CM.undefined
    | some op => do
      c_putc '('
      fs.c_gen_expr node.left
      c_print op
      fs.c_gen_expr node.right
      c_putc ')'
  | .ND_ARRAY =>
    match unpack_ptr env.helpers node.data_type with
    | none => CM.undefined
    | some ty => do
      c_print ("\x7b" ++ fmt_lu ty.num_indices ++ ",\x7b")
      c_gen_expr_list fs node.args
      c_print "\x7d\x7d"
  | .ND_STRUCT =>
    match node.data_type with
    | none => CM.undefined
    | some data_type => do
      CM.when (data_type.kind == .TY_UNDEF)
        (c_print ("(" ++ c_gen_identifier env (some data_type.id) ++ ")"))
      if node.args.length == 0 then c_print "\x7b0\x7d"
      else do
        c_putc '\x7b'
        c_gen_expr_list_closed fs '\x7d' node.args
  | .ND_CAST => do
    c_print "(("
    fs.c_gen_type node.data_type
    c_putc ')'
    fs.c_gen_expr node.left
    c_putc ')'
  | .ND_ID => c_print (c_gen_identifier env node.id)
  | .ND_CALL => do
    fs.c_gen_expr node.expr
    c_putc '('
    c_gen_expr_list fs node.args
    c_putc ')'
  | .ND_ASM => c_gen_inline_asm env node
  | .ND_CLOSURE => do
    c_putc '('
    c_gen_expr_list_closed fs ')' node.exprs
  | .ND_INDEX => c_gen_index env fs node
  | .ND_MEMBER => do
    c_print "(("
    fs.c_gen_expr node.left
    c_print ")."
    fs.c_gen_expr node.right
    c_putc ')'
  | .ND_TERNARY => do
    c_print "(("
    fs.c_gen_expr node.condition
    c_print ")?"
    fs.c_gen_expr node.if_branch
    c_putc ':'
    fs.c_gen_expr node.else_branch
    c_putc ')'
  | _ => CM.fatal

/-! ### Statements -/

/-- The function `c_init_zero(cg, var)`. -/
def c_init_zero (env : CEnv) (var : ASTObj) : CM Unit :=
  match unpack_ptr env.helpers var.data_type with
  | none => CM.undefined
  | some ty =>
    match ty.kind with
    | .TY_U8 | .TY_I8 | .TY_U16 | .TY_I16 | .TY_U32 | .TY_I32 | .TY_U64 | .TY_I64 | .TY_BOOL
    | .TY_CHAR | .TY_ENUM => c_putc '0'
    | .TY_F32 => c_print "0.0f"
    | .TY_F64 | .TY_F80 => c_print "0.0"
    | .TY_PTR | .TY_VLA | .TY_FN => c_print "(void*) 0"
    | .TY_ARRAY | .TY_C_ARRAY | .TY_STRUCT => c_print "\x7b0\x7d"
    | _ => CM.fatal

/-- The function `c_gen_local(cg, var)`. -/
def c_gen_local (env : CEnv) (fs : CGFns) (var : ASTObj) : CM Unit := do
  c_gen_typed_name env fs var.id var.data_type
  CM.when var.value.isNone (do
    c_putc '='
    c_init_zero env var)
  c_println ";"

/-- The loop over `node->locals` of the case `ND_BLOCK`. -/
def c_gen_locals (env : CEnv) (fs : CGFns) : List ASTObj → CM Unit
  | [] => pure ()
  | local_ :: rest => do
    c_gen_local env fs local_
    c_gen_locals env fs rest

/-- The loop over `node->stmts` of the case `ND_BLOCK`. -/
def c_gen_stmts (fs : CGFns) : List ASTNode → CM Unit
  | [] => pure ()
  | stmt :: rest => do
    fs.c_gen_stmt (some stmt)
    c_gen_stmts fs rest

/-- The loop over `node->cases` of the case `ND_MATCH`; `first` tells whether
the index is 0. -/
def c_gen_cases (fs : CGFns) (uid : Nat) : Bool → List ASTNode → CM Unit
  | _, [] => pure ()
  | first, _case :: rest => do
    c_print ((if first then "" else "else ") ++ "if(" ++ unique_id_name uid ++ " == (")
    fs.c_gen_expr _case.condition
    c_println "))\x7b"
    fs.c_gen_stmt _case.body
    c_println "\x7d"
    c_gen_cases fs uid false rest

/-- The function `c_gen_stmt(cg, node)` on a non-null node. -/
def c_gen_stmt_body (env : CEnv) (fs : CGFns) (node : ASTNode) : CM Unit :=
  match node.kind with
  | .ND_BLOCK => do
    c_println "\x7b"
    c_gen_locals env fs (env.locals node)
    c_gen_stmts fs node.stmts
    c_println "\x7d"
  | .ND_IF => do
    c_print "if("
    fs.c_gen_expr node.condition
    c_println ")\x7b"
    fs.c_gen_stmt node.if_branch
    CM.when node.else_branch.isSome (do
      c_println "\x7d else \x7b"
      fs.c_gen_stmt node.else_branch)
    c_println "\x7d"
  | .ND_LOOP => do
    c_println "for(;;)\x7b"
    fs.c_gen_stmt node.body
    c_println "\x7d"
  | .ND_WHILE => do
    c_print "while("
    fs.c_gen_expr node.condition
    c_println ")\x7b"
    fs.c_gen_stmt node.body
    c_println "\x7d"
  | .ND_DO_WHILE => do
    c_println "do\x7b"
    fs.c_gen_stmt node.body
    c_print "\x7d while("
    fs.c_gen_expr node.condition
    c_println ");"
  | .ND_DO_UNLESS => do
    c_print "if(!("
    fs.c_gen_expr node.condition
    c_println "))\x7b"
    fs.c_gen_stmt node.body
    c_println "\x7d"
  | .ND_EXPR_STMT => do
    fs.c_gen_expr node.expr
    c_println ";"
  | .ND_BREAK => c_println "break;"
  | .ND_CONTINUE => c_println "continue;"
  | .ND_RETURN =>
    if node.return_val.isSome then do
      c_print "return "
      fs.c_gen_expr node.return_val
      c_println ";"
    else c_println "return;"
  | .ND_USING => CM.when node.body.isSome (fs.c_gen_stmt node.body)
  | .ND_FOR => do
    c_print "for("
    (if node.init_stmt.isSome then do
      fs.c_gen_stmt node.init_stmt
      c_print "    "
    else c_putc ';')
    CM.when node.condition.isSome (fs.c_gen_expr node.condition)
    c_putc ';'
    CM.when node.expr.isSome (fs.c_gen_expr node.expr)
    c_println ")\x7b"
    fs.c_gen_stmt node.body
    c_println "\x7d"
  | .ND_FOR_RANGE =>
    match c_primitive_types .TY_U64 with
    | none => CM.undefined
    | some u64 => do
      let low_id ← next_unique_id
      let high_id ← next_unique_id
      c_print ("for(" ++ u64 ++ " " ++ unique_id_name low_id ++ " = ")
      fs.c_gen_expr node.left
      c_print (", " ++ unique_id_name high_id ++ " = (" ++ u64 ++ ")")
      fs.c_gen_expr node.right
      c_println ("; " ++ unique_id_name low_id ++ " < " ++ unique_id_name high_id ++ "; "
        ++ unique_id_name low_id ++ "++)\x7b")
      fs.c_gen_stmt node.body
      c_println "\x7d"
  | .ND_MATCH =>
    match c_primitive_types .TY_U64 with
    | none => CM.undefined
    | some u64 => do
      let cg ← CM.get
      let uid := cg.unique_id
      c_print ("\x7b\n" ++ u64 ++ " " ++ unique_id_name uid ++ " =")
      fs.c_gen_expr node.condition
      c_println ";"
      c_gen_cases fs uid true node.cases
      (match node.default_case with
       | none => pure ()
       | some default_case => do
         c_println "else\x7b"
         fs.c_gen_stmt default_case.body
         c_putc '\x7d')
      c_println "\x7d"
  | .ND_WITH => do
    fs.c_gen_expr node.condition
    c_print ";\nif(("
    (match node.condition with
     | none => CM.undefined
     | some condition => fs.c_gen_expr condition.left)
    c_println ") != 0)\x7b"
    fs.c_gen_stmt node.if_branch
    CM.when node.else_branch.isSome (do
      c_println "\x7d else \x7b"
      fs.c_gen_stmt node.else_branch)
    c_println "\x7d"
  | .ND_NOOP => pure ()
  | _ => CM.fatal

/-- The generator functions with `fuel` levels of recursion left. -/
def cg_fns (env : CEnv) : Nat → CGFns
  | 0 =>
    { fuel := 0, c_gen_type := fun _ => CM.out_of_fuel, c_gen_expr := fun _ => CM.out_of_fuel,
      c_gen_stmt := fun _ => CM.out_of_fuel }
  | n + 1 =>
    { fuel := n,
      c_gen_type := fun type =>
        match type with
        | none => CM.undefined
        | some type => c_gen_type_body env (cg_fns env n) type,
      c_gen_expr := fun node =>
        match node with
        | none => CM.undefined
        | some node => c_gen_expr_body env (cg_fns env n) node,
      c_gen_stmt := fun node =>
        match node with
        | none => CM.undefined
        | some node => c_gen_stmt_body env (cg_fns env n) node }

/-- The function `c_gen_type(cg, type)` with the given fuel. -/
def c_gen_type (env : CEnv) (fuel : Nat) (type : Option ASTType) : CM Unit :=
  (cg_fns env fuel).c_gen_type type

/-- The function `c_gen_expr(cg, node)` with the given fuel. -/
def c_gen_expr (env : CEnv) (fuel : Nat) (node : Option ASTNode) : CM Unit :=
  (cg_fns env fuel).c_gen_expr node

/-- The function `c_gen_stmt(cg, node)` with the given fuel. -/
def c_gen_stmt (env : CEnv) (fuel : Nat) (node : Option ASTNode) : CM Unit :=
  (cg_fns env fuel).c_gen_stmt node

/-! ### Objects and the sections of the translation unit -/

/-- The flag `obj->generated`. -/
def is_generated (env : CEnv) (cg : CCodegenData) (obj : ASTObj) : Bool :=
  cg.generated.contains (env.addr obj)

/-- The assignment `obj->generated = flag`. -/
def set_generated (env : CEnv) (obj : ASTObj) (flag : Bool) : CM Unit := fun cg =>
  .ok () { cg with
    generated :=
      if flag then env.addr obj :: cg.generated
      else cg.generated.filter fun a => a != env.addr obj }

/-- A loop `for(size_t i = 0; i < objs->size; i++)` whose body is `f`. -/
def c_for_objs (f : ASTObj → CM Unit) : List ASTObj → CM Unit
  | [] => pure ()
  | obj :: rest => do
    f obj
    c_for_objs f rest

/-- The function `c_predefine_dependant_types(cg, type)`; `gen_typedef` is the
function `c_gen_typedef` that it calls. -/
def c_predefine_dependant_types (env : CEnv) (gen_typedef : ASTObj → CM Unit)
    (type : Option ASTType) : CM Unit :=
  match type with
  | none => CM.undefined
  | some type =>
    match type.kind with
    | .TY_UNDEF =>
      match env.referenced_obj type with
      | none => pure ()
      | some referenced_obj => do
        let cg ← CM.get
        CM.when (!is_generated env cg referenced_obj) (gen_typedef referenced_obj)
    | _ => pure ()

/-- The function `c_gen_typedef(cg, obj)`; the fuel bounds its recursion
through `c_predefine_dependant_types`. -/
def c_gen_typedef (env : CEnv) (fs : CGFns) : Nat → ASTObj → CM Unit
  | 0, _ => CM.out_of_fuel
  | n + 1, obj => do
    let cg ← CM.get
    if is_generated env cg obj then pure ()
    else do
      let callee := c_gen_identifier env obj.id
      set_generated env obj true
      c_predefine_dependant_types env (c_gen_typedef env fs n) obj.data_type
      c_print "typedef "
      match obj.data_type with
      | none => CM.undefined
      | some data_type =>
        if data_type.kind == .TY_STRUCT then
          c_println ((if data_type.is_union then "union" else "struct") ++ " " ++ callee
            ++ " " ++ callee ++ ";")
        else do
          c_gen_typed_name env fs obj.id obj.data_type
          c_println ";"

/-- The function `c_gen_typedefs(cg, objs)`; the fuel bounds the nesting of
namespaces and the recursion of `c_gen_typedef`. -/
def c_gen_typedefs (env : CEnv) (fs : CGFns) : Nat → List ASTObj → CM Unit
  | _, [] => pure ()
  | 0, _ :: _ => CM.out_of_fuel
  | n + 1, obj :: rest =>
    c_for_objs (fun obj =>
      match obj.kind with
      | .OBJ_NAMESPACE => c_gen_typedefs env fs n obj.objs
      | .OBJ_TYPEDEF => c_gen_typedef env fs (n + 1) obj
      | _ => pure ()) (obj :: rest)

/-- The loop over the members of `c_predefine_dependant_structs`. -/
def c_predefine_dependant_members (env : CEnv) (fs : CGFns) :
    List (ASTMember ASTType) → CM Unit
  | [] => pure ()
  | member :: rest => do
    (match member.data_type with
     | none => CM.undefined
     | some data_type =>
       if data_type.kind == .TY_UNDEF then
         match env.referenced_obj data_type with
         | none => pure ()
         | some referenced_obj => do
           let cg ← CM.get
           if is_generated env cg referenced_obj then
             match data_type.base with
             | none => CM.undefined
             | some base =>
               if base.kind == .TY_STRUCT then do
                 set_generated env referenced_obj false
                 c_gen_struct env fs base (some (c_gen_identifier env (some data_type.id)))
                 c_println ";"
               else pure ()
           else pure ()
       else pure () : CM Unit)
    c_predefine_dependant_members env fs rest

/-- The function `c_predefine_dependant_structs(cg, obj)`. -/
def c_predefine_dependant_structs (env : CEnv) (fs : CGFns) (obj : ASTObj) : CM Unit :=
  match obj.data_type with
  | none => CM.undefined
  | some s_type => c_predefine_dependant_members env fs s_type.members

/-- The function `c_gen_structs(cg, objs)`. -/
def c_gen_structs (env : CEnv) (fs : CGFns) : Nat → List ASTObj → CM Unit
  | _, [] => pure ()
  | 0, _ :: _ => CM.out_of_fuel
  | n + 1, obj :: rest =>
    c_for_objs (fun obj =>
      match obj.kind with
      | .OBJ_NAMESPACE => c_gen_structs env fs n obj.objs
      | .OBJ_TYPEDEF => do
        let cg ← CM.get
        if is_generated env cg obj then
          match obj.data_type with
          | none => CM.undefined
          | some data_type =>
            if data_type.kind == .TY_STRUCT then do
              set_generated env obj false
              c_predefine_dependant_structs env fs obj
              c_gen_struct env fs data_type (some (c_gen_identifier env obj.id))
              c_println ";"
            else pure ()
        else pure ()
      | _ => pure ()) (obj :: rest)

/-- The loop over the members of an enum type of `c_gen_globals`. -/
def c_gen_enum_members (env : CEnv) (fs : CGFns) : List ASTObj → CM Unit
  | [] => pure ()
  | member :: rest => do
    CM.when (env.should_emit member) (do
      c_print ("int " ++ c_gen_identifier env member.id ++ " = ")
      fs.c_gen_expr member.value
      c_println ";")
    c_gen_enum_members env fs rest

/-- The function `c_gen_globals(cg, objs)`. -/
def c_gen_globals (env : CEnv) (fs : CGFns) : Nat → List ASTObj → CM Unit
  | _, [] => pure ()
  | 0, _ :: _ => CM.out_of_fuel
  | n + 1, obj :: rest =>
    c_for_objs (fun obj =>
      match obj.kind with
      | .OBJ_NAMESPACE => c_gen_globals env fs n obj.objs
      | .OBJ_TYPEDEF =>
        match unpack_ptr env.helpers obj.data_type with
        | none => pure ()
        | some ty =>
          if ty.kind == .TY_ENUM then c_gen_enum_members env fs (env.enum_members ty)
          else pure ()
      | .OBJ_GLOBAL =>
        if !env.should_emit obj then pure ()
        else do
          CM.when (ASTObj.is_extern obj) (c_print "extern ")
          c_gen_typed_name env fs obj.id obj.data_type
          if obj.value.isSome then do
            c_print " = "
            fs.c_gen_expr obj.value
            c_println ";"
          else c_println ";"
      | _ => pure ()) (obj :: rest)

/-- The loop over `obj->args` of `c_gen_function_declaration`. -/
def c_gen_args (env : CEnv) (fs : CGFns) : List ASTObj → CM Unit
  | [] => pure ()
  | arg :: rest => do
    c_gen_typed_name env fs arg.id arg.data_type
    CM.when (rest.length > 0) (c_putc ',')
    c_gen_args env fs rest

/-- The function `c_gen_function_declaration(cg, obj)`. -/
def c_gen_function_declaration (env : CEnv) (fs : CGFns) (obj : ASTObj) : CM Unit := do
  CM.when (ASTObj.is_extern obj) (c_print "extern ")
  fs.c_gen_type obj.return_type
  c_print (" " ++ c_gen_identifier env obj.id ++ "(")
  c_gen_args env fs obj.args
  match obj.data_type with
  | none => CM.undefined
  | some data_type => if data_type.is_variadic then c_print ",...)" else c_print ")"

/-- The function `c_gen_function_definitions(cg, objs)`; `CSPYDR_OBJ_FUNCTION`
is the kind `OBJ_FUNCTION`. -/
def c_gen_function_definitions (env : CEnv) (fs : CGFns) : Nat → List ASTObj → CM Unit
  | _, [] => pure ()
  | 0, _ :: _ => CM.out_of_fuel
  | n + 1, obj :: rest =>
    c_for_objs (fun obj =>
      match obj.kind with
      | .OBJ_NAMESPACE => c_gen_function_definitions env fs n obj.objs
      | .OBJ_FUNCTION =>
        if !env.should_emit obj then pure ()
        else do
          c_gen_function_declaration env fs obj
          c_println ";"
      | _ => pure ()) (obj :: rest)

/-- The function `c_gen_function(cg, fn)`. -/
def c_gen_function (env : CEnv) (fs : CGFns) (fn : ASTObj) : CM Unit := do
  c_gen_function_declaration env fs fn
  c_println "\x7b"
  fs.c_gen_stmt fn.body
  c_println "\x7d"

/-- The function `c_gen_functions(cg, objs)`. -/
def c_gen_functions (env : CEnv) (fs : CGFns) : Nat → List ASTObj → CM Unit
  | _, [] => pure ()
  | 0, _ :: _ => CM.out_of_fuel
  | n + 1, obj :: rest =>
    c_for_objs (fun obj =>
      match obj.kind with
      | .OBJ_NAMESPACE => c_gen_functions env fs n obj.objs
      | .OBJ_FUNCTION =>
        if ASTObj.is_extern obj || !env.should_emit obj then pure ()
        else c_gen_function env fs obj
      | _ => pure ()) (obj :: rest)

/-- The function `c_gen_code(cg, target)` up to the call of `write_code`: the
text of the translation unit is generated into the stream.  The fuel bounds
the depth of the tree. -/
def c_gen_code (env : CEnv) (fuel : Nat) (ast : ASTProg) : CM Unit := do
  c_print c_header_text
  c_gen_typedefs env (cg_fns env fuel) fuel ast.objs
  c_gen_structs env (cg_fns env fuel) fuel ast.objs
  c_gen_globals env (cg_fns env fuel) fuel ast.objs
  c_gen_function_definitions env (cg_fns env fuel) fuel ast.objs
  c_gen_functions env (cg_fns env fuel) fuel ast.objs
  c_println (c_start_text ast.mfk)

/-- The text that `write_code` writes to the file: the stream up to its
position. -/
def CCodegenData.text (cg : CCodegenData) : String := ⟨cg.buf.data.take cg.pos⟩

/-- The state in which a generator function returns. -/
def CRes.state_of {α : Type} : CRes α → Option CCodegenData
  | .ok _ cg => some cg
  | _ => none

/-- The text in the stream when a generator function has returned. -/
def CRes.text_of {α : Type} (r : CRes α) : Option String := r.state_of.map fun cg => cg.text

/-- A generator function that only appends: entered with the position at the
end of the stream, it returns, if it returns, with the position at the end of
the stream, which holds the old text followed by new text. -/
def Appends {α : Type} (m : CM α) : Prop :=
  ∀ cg v cg1, cg.pos = cg.buf.length → m cg = .ok v cg1 →
    cg1.pos = cg1.buf.length ∧ ∃ t : String, cg1.buf = cg.buf ++ t

/-- The three recursive generator functions only append. -/
structure GoodCG (fs : CGFns) : Prop where
  type : ∀ t, Appends (fs.c_gen_type t)
  expr : ∀ n, Appends (fs.c_gen_expr n)
  stmt : ∀ n, Appends (fs.c_gen_stmt n)

/-! ### Concrete inputs for the generator -/

/-- A sample of `gen_identifier(id, sep, prefix)`: the prefix, then the chain
of names from the outermost one on, joined by the separator. -/
def sample_gen_identifier (id : Option ASTIdentifier) (sep pre : String) : String :=
  match id with
  | none => pre
  | some i => pre ++ sep.intercalate i.chain.reverse

/-- A concrete generator environment: every object is emitted, no type refers
to an object, a block has no locals, and an object is addressed by the
length of its name. -/
def sample_cenv : CEnv :=
  { helpers := sample_helpers, should_emit := fun _ => true,
    gen_identifier := sample_gen_identifier, size := fun _ => 0, align := fun _ => 0,
    referenced_obj := fun _ => none, enum_members := fun _ => [], locals := fun _ => [],
    addr := fun o => (o.id.map fun i => i.callee.length).getD 0 }

/-- The node of the integer literal `v` of type `i32`. -/
def int_node (v : Int) : ASTNode :=
  { init_ast_node .ND_INT none with int_val := v, data_type := some (primitive .TY_I32) }

/-- The node of the identifier `name`. -/
def name_node (name : String) : ASTNode :=
  { init_ast_node .ND_ID none with id := some (plain_id name) }

/-- A case `v => noop;` of a `match` statement. -/
def case_node (v : Int) : ASTNode :=
  { init_ast_node .ND_CASE none with
    condition := some (int_node v), body := some (init_ast_node .ND_NOOP none) }

/-- The statement `match <name> { 1 => noop; }`. -/
def match_node (name : String) : ASTNode :=
  { init_ast_node .ND_MATCH none with
    condition := some (name_node name), cases := [case_node 1] }

/-- A `for-range` statement over `0 .. 3` with the body `body`. -/
def for_range_node (body : ASTNode) : ASTNode :=
  { init_ast_node .ND_FOR_RANGE none with
    left := some (int_node 0), right := some (int_node 3), body := some body }

/-- The block of the two statements `match x { 1 => noop; }` and
`match y { 1 => noop; }`. -/
def two_matches : ASTNode :=
  { init_ast_node .ND_BLOCK none with stmts := [match_node "x", match_node "y"] }

/-- The block of `match x { 1 => noop; }` followed by a `for-range` statement
with an empty body. -/
def match_then_for_range : ASTNode :=
  { init_ast_node .ND_BLOCK none with
    stmts := [match_node "x", for_range_node (init_ast_node .ND_NOOP none)] }

/-- The function `fn main(): i32 { ret 0; }`. -/
def main_fn : ASTObj :=
  { init_ast_obj .OBJ_FUNCTION none with
    id := some (plain_id "main"), return_type := some (primitive .TY_I32),
    data_type := some (primitive .TY_FN),
    body := some { init_ast_node .ND_BLOCK none with
      stmts := [{ init_ast_node .ND_RETURN none with return_val := some (int_node 0) }] } }

/-- The program without objects whose `main` function kind is `mfk`. -/
def empty_prog (mfk : MainFunctionKind) : ASTProg :=
  { init_ast_prog "main.csp" none none with mfk := mfk }

/-- The program `fn main(): i32 { ret 0; }`. -/
def main_prog : ASTProg :=
  { init_ast_prog "main.csp" none none with objs := [main_fn] }


/-! ## The token API

A shallow embedding of `src/api/token.c` and of `init_token` of
`src/compiler/lexer/token.c`.  A token pointer that may be null is an
`Option`. -/

/-- The text of a C string: the characters before the first NUL. -/
def c_str (s : String) : String := ⟨s.data.takeWhile fun c => c != '\x00'⟩

/-- The call `strcpy(dest, src)` into a zeroed buffer of `size` bytes: the
text that the buffer holds afterwards, or nothing when the text and its
terminating NUL do not fit. -/
def strcpy (size : Nat) (src : String) : Option String :=
  if (c_str src).utf8ByteSize + 1 ≤ size then some (c_str src) else none

/-- The function `init_token(value, line, pos, type, source)`.  The
declaration of `Token_T` (lexer/token.h) is not part of the sources:
`value_size` is the size of its buffer `value`, and `line` and `pos` are
`unsigned int`. -/
def init_token (value_size : Nat) (value : String) (line pos : Nat) (type : TokenType)
    (source : Option SrcFile) : Option Token :=
  match strcpy value_size value with
  | none => none
  | some v =>
    some { type := type, value := v, line := line % 2 ^ 32, pos := pos % 2 ^ 32,
           source := source }

/-- Modelled from the spec: the constant `CSPYDR_TOKEN_ERROR` of the token
types of the API (api.h is not part of the sources), which are the token
types of the compiler under other names. -/
def CSPYDR_TOKEN_ERROR : TokenType := .TOKEN_ERROR

/-- The function `csp_new_token(type, line, pos, value)`. -/
def csp_new_token (value_size : Nat) (type : TokenType) (line pos : Nat) (value : String) :
    Option Token :=
  init_token value_size value line pos type none

/-- The function `csp_token_get_type(tok)`. -/
def csp_token_get_type (tok : Option Token) : TokenType :=
  match tok with
  | some tok => tok.type
  | none => CSPYDR_TOKEN_ERROR

/-- The function `csp_token_get_line(tok)`. -/
def csp_token_get_line (tok : Option Token) : Nat :=
  match tok with
  | some tok => tok.line
  | none => 0

/-- The function `csp_token_get_position(tok)`. -/
def csp_token_get_position (tok : Option Token) : Nat :=
  match tok with
  | some tok => tok.pos
  | none => 0

/-- The function `csp_token_get_value(tok)`. -/
def csp_token_get_value (tok : Option Token) : String :=
  match tok with
  | some tok => tok.value
  | none => "(null)"

/-- The function `csp_token_get_file(tok)`; the result is a null pointer when
the source file has neither path. -/
def csp_token_get_file (tok : Option Token) : Option String :=
  match tok with
  | some tok =>
    match tok.source with
    | some source =>
      match source.path with
      | some path => some path
      | none => source.short_path
    | none => some ""
  | none => some ""

/-! ## Concrete inputs for array literals and for types_equal -/

/-- The sized array type `struct { x: i32, next: &u8 }[1]`. -/
def array_of_struct : ASTType :=
  { type_of_kind .TY_ARRAY (some sample_struct) with num_indices := 1 }

/-- The array literal `[s]` with `s` of the struct type `sample_struct`, with
the inferred type `sample_struct[1]`. -/
def struct_array_lit : ASTNode :=
  { init_ast_node .ND_ARRAY (sample_tok "[") with
    data_type := some array_of_struct, args := [id_node "s" sample_struct] }

/-- The array literal `[1, 1]` with the inferred type `i32[2]`. -/
def full_array_lit : ASTNode :=
  { init_ast_node .ND_ARRAY (sample_tok "[") with
    data_type := some array_of_i32, args := [int_one, int_one], is_constant := true }

/-- The function type `sample_fn_type` with the `const` flag. -/
def sample_fn_type_const : ASTType :=
  { sample_fn_type with is_constant := true }

/-- The parameter types of two function types agree pairwise under
`types_equal`. -/
def params_equal : List ASTType → List ASTType → Bool
  | [], [] => true
  | a :: as, b :: bs => types_equal (some a) (some b) && params_equal as bs
  | _, _ => false

/-! ## Expected parse results: unary operators and compound assignments -/

/-- The tree `op(r)` for the prefix operator token `u`. -/
def unary_node (kind : ASTNodeKind) (u : Token) (r : ASTNode) : ASTNode :=
  { init_ast_node kind (some u) with right := some r }

/-- The tree `ASSIGN(x, op(x, r))` that the compound assignment token `c`
stands for, `kind` being the node kind of the operator. -/
def compound_node (kind : ASTNodeKind) (c : Token) (x r : ASTNode) : ASTNode :=
  { init_ast_node .ND_ASSIGN (some c) with
    left := some x,
    right := some { init_ast_node kind (some c) with left := some x, right := some r } }

/-- The name of a node kind, for the kinds of the operators and atoms. -/
def kind_name : ASTNodeKind → String
  | .ND_ASSIGN => "ASSIGN" | .ND_ADD => "ADD" | .ND_SUB => "SUB" | .ND_MUL => "MUL"
  | .ND_DIV => "DIV" | .ND_MOD => "MOD" | .ND_LSHIFT => "LSHIFT" | .ND_RSHIFT => "RSHIFT"
  | .ND_BIT_AND => "BIT_AND" | .ND_BIT_OR => "BIT_OR" | .ND_XOR => "XOR"
  | .ND_NEG => "NEG" | .ND_NOT => "NOT" | .ND_BIT_NEG => "BIT_NEG" | .ND_REF => "REF"
  | .ND_DEREF => "DEREF" | .ND_EXPR_STMT => "EXPR_STMT"
  | _ => "?"

/-- The shape of a tree, to the depth `n`: `OP(left, right)` for a node with
two operands, `OP(right)` for a node with a right operand only, the name for
an identifier and the value for an integer literal. -/
def node_shape : Nat → Option ASTNode → String
  | 0, _ => "..."
  | _ + 1, none => "-"
  | n + 1, some x =>
    match x.kind with
    | .ND_ID => (x.id.map fun i => i.callee).getD "?"
    | .ND_INT => toString x.int_val
    | .ND_EXPR_STMT => kind_name x.kind ++ "(" ++ node_shape n x.expr ++ ")"
    | _ =>
      match x.left with
      | none => kind_name x.kind ++ "(" ++ node_shape n x.right ++ ")"
      | some l =>
        kind_name x.kind ++ "(" ++ node_shape n (some l) ++ ", " ++ node_shape n x.right ++ ")"

/-- The prefix operator tokens `-`, `!`, `~`, `&` and `*`. -/
def unary_toks : List Token :=
  [mk_tok .TOKEN_MINUS "-", mk_tok .TOKEN_BANG "!", mk_tok .TOKEN_TILDE "~",
   mk_tok .TOKEN_REF "&", mk_tok .TOKEN_STAR "*"]

/-- The tokens of `a + b;`, which follow the prefix operator. -/
def unary_operand_toks : List Token :=
  [mk_tok .TOKEN_ID "a", mk_tok .TOKEN_PLUS "+", mk_tok .TOKEN_ID "b",
   mk_tok .TOKEN_SEMICOLON ";", mk_tok .TOKEN_EOF ""]

/-- The tokens of `*p += 1;` after the first one. -/
def deref_add_toks : List Token :=
  [mk_tok .TOKEN_ID "p", mk_tok .TOKEN_ADD "+=", mk_tok .TOKEN_INT "1",
   mk_tok .TOKEN_SEMICOLON ";", mk_tok .TOKEN_EOF ""]

/-- The tokens of `*p = 1;` after the first one. -/
def deref_assign_toks : List Token :=
  [mk_tok .TOKEN_ID "p", mk_tok .TOKEN_ASSIGN "=", mk_tok .TOKEN_INT "1",
   mk_tok .TOKEN_SEMICOLON ";", mk_tok .TOKEN_EOF ""]

/-- The compound assignment tokens, each with the token of its operator. -/
def compound_ops : List (Token × Token) :=
  [(mk_tok .TOKEN_ADD "+=", mk_tok .TOKEN_PLUS "+"),
   (mk_tok .TOKEN_SUB "-=", mk_tok .TOKEN_MINUS "-"),
   (mk_tok .TOKEN_MULT "*=", mk_tok .TOKEN_STAR "*"),
   (mk_tok .TOKEN_DIV "/=", mk_tok .TOKEN_SLASH "/"),
   (mk_tok .TOKEN_MOD "%=", mk_tok .TOKEN_PERCENT "%"),
   (mk_tok .TOKEN_LSHIFT_ASSIGN "<<=", mk_tok .TOKEN_LSHIFT "<<"),
   (mk_tok .TOKEN_RSHIFT_ASSIGN ">>=", mk_tok .TOKEN_RSHIFT ">>"),
   (mk_tok .TOKEN_BIT_AND_ASSIGN "&=", mk_tok .TOKEN_REF "&"),
   (mk_tok .TOKEN_BIT_OR_ASSIGN "|=", mk_tok .TOKEN_BIT_OR "|"),
   (mk_tok .TOKEN_XOR_ASSIGN "^=", mk_tok .TOKEN_XOR "^")]

/-- The tokens of `a c b o z;` after the first one. -/
def compound_toks (c o : Token) : List Token :=
  [c, mk_tok .TOKEN_ID "b", o, mk_tok .TOKEN_ID "z", mk_tok .TOKEN_SEMICOLON ";",
   mk_tok .TOKEN_EOF ""]

/-! ## Concrete inputs for tuple types -/

/-- The named type `name`, as `parse_type` builds it for an identifier. -/
def named_type (name : String) : ASTType :=
  { init_ast_type .TY_UNDEF none with id := plain_id name }

/-- The tuple type with the one member `_0` of type `ty`, as the tuple loop
of `parse_type` builds it. -/
def tuple_of (ty : ASTType) : ASTType :=
  { init_ast_type .TY_STRUCT none with members := [⟨plain_id (tuple_member_name 0), some ty, 0⟩] }

/-- The tokens of `{Foo} {Bar};` after the first one. -/
def named_tuple_toks : List Token :=
  [mk_tok .TOKEN_ID "Foo", mk_tok .TOKEN_RBRACE "\x7d", mk_tok .TOKEN_LBRACE "\x7b",
   mk_tok .TOKEN_ID "Bar", mk_tok .TOKEN_RBRACE "\x7d", mk_tok .TOKEN_SEMICOLON ";",
   mk_tok .TOKEN_EOF ""]

/-- The tokens of `{i32} {bool};` after the first one. -/
def primitive_tuple_toks : List Token :=
  [mk_tok .TOKEN_ID "i32", mk_tok .TOKEN_RBRACE "\x7d", mk_tok .TOKEN_LBRACE "\x7b",
   mk_tok .TOKEN_ID "bool", mk_tok .TOKEN_RBRACE "\x7d", mk_tok .TOKEN_SEMICOLON ";",
   mk_tok .TOKEN_EOF ""]

/-- The parser before any token of a program without objects, for calls that
read the object list only. -/
def empty_state : Parser := start_state (mk_tok .TOKEN_EOF "") []

/-- The typedef names that two tuple types get when
`parser_generate_tuple_type` is called for the first and then for the
second, and the number of typedefs in the program afterwards. -/
def tuple_typedefs (t1 t2 : ASTType) : Option (String × String × Nat) :=
  match (parser_generate_tuple_type t1 none >>= fun a =>
      parser_generate_tuple_type t2 none >>= fun b =>
        (pure (a.2.id.callee, b.2.id.callee) : PM (String × String))) empty_state with
  | .ok v q => some (v.1, v.2, q.objs.length)
  | _ => none

/-! ## The parser: definitions of objects -/

/-- The function `parse_argument_list(p, end_tok, variadic_id)`: the
arguments and the identifier written to `*variadic_id`; `n` bounds the number
of arguments.  The lookahead `parser_peek(p, 2)->type` is undefined when
`parser_peek` returns a null pointer. -/
def parse_argument_list (env : ParserEnv) (fs : ParseFns) (end_tok : TokenType) :
    Nat → List ASTObj → Option ASTIdentifier → PM (List ASTObj × Option ASTIdentifier)
  | 0, _, _ => PM.out_of_fuel
  | n + 1, arg_list, variadic_id => do
    let p ← get_state
    if p.tok.type != end_tok then
      match parser_peek p 2 with
      | none => PM.undefined
      | some t =>
        if t.type == .TOKEN_VA_LIST then do
          let id ← parse_simple_identifier env fs.fuel
          let _t ← parser_consume env .TOKEN_COLON
          let _t ← parser_advance env
          let p ← get_state
          PM.when (!tok_is p end_tok) (throw_error env .ERR_SYNTAX_ERROR (some p.tok))
          pure (arg_list, some id)
        else do
          let arg := init_ast_obj .OBJ_FN_ARG (some p.tok)
          let id ← parse_simple_identifier env fs.fuel
          let _t ← parser_consume env .TOKEN_COLON
          let data_type ← fs.parse_type
          let p ← get_state
          PM.when (p.tok.type != end_tok) (parser_consume env .TOKEN_COMMA)
          parse_argument_list env fs end_tok n
            (arg_list ++ [{ arg with id := some id, data_type := some data_type }]) variadic_id
    else pure (arg_list, variadic_id)

/-- The function `parse_fn_def(p)`; the area of a variadic function and the
slot `alloca_bottom` are not modelled. -/
def parse_fn_def (env : ParserEnv) (fs : ParseFns) : PM ASTObj := do
  let p ← get_state
  let fn := init_ast_obj .OBJ_FUNCTION (some p.tok)
  let _t ← parser_consume env .TOKEN_FN
  let id ← parse_simple_identifier env fs.fuel
  let _t ← parser_consume env .TOKEN_LPAREN
  let r ← parse_argument_list env fs .TOKEN_RPAREN fs.fuel [] none
  let _t ← parser_consume env .TOKEN_RPAREN
  let p ← get_state
  let return_type ←
    (if tok_is p .TOKEN_COLON then do
      let _t ← parser_advance env
      fs.parse_type
    else pure (env.primitives .TY_VOID) : PM ASTType)
  pure { fn with
    id := some id, args := r.1, return_type := some return_type,
    data_type := some (env.primitives .TY_FN) }

/-- The function `parse_fn(p)`; the collection of the locals for the assembly
back end is outside the model. -/
def parse_fn (env : ParserEnv) (fs : ParseFns) : PM ASTObj := do
  let fn ← parse_fn_def env fs
  set_cur_fn (some fn)
  let body ← fs.parse_stmt true
  if env.ct == .CT_ASM then PM.unsupported
  else pure { fn with body := some body }

/-- The function `parse_typedef(p)`. -/
def parse_typedef (env : ParserEnv) (fs : ParseFns) : PM ASTObj := do
  let p ← get_state
  let tydef := init_ast_obj .OBJ_TYPEDEF (some p.tok)
  let _t ← parser_consume env .TOKEN_TYPE
  let id ← parse_simple_identifier env fs.fuel
  let _t ← parser_consume env .TOKEN_COLON
  let data_type ← fs.parse_type
  let _t ← parser_consume env .TOKEN_SEMICOLON
  pure { tydef with id := some id, data_type := some data_type }

/-- The function `parse_obj(p, obj_list)` for the object list of the program;
global variables, `extern` blocks, namespaces and compiler directives are
outside the model. -/
def parse_obj (env : ParserEnv) (fs : ParseFns) : PM Unit := do
  let p ← get_state
  match p.tok.type with
  | .TOKEN_TYPE => do
    let obj ← parse_typedef env fs
    push_obj obj
  | .TOKEN_CONST => PM.unsupported
  | .TOKEN_LET => PM.unsupported
  | .TOKEN_FN => do
    let obj ← parse_fn env fs
    push_obj obj
  | .TOKEN_EXTERN => PM.unsupported
  | .TOKEN_NAMESPACE => PM.unsupported
  | .TOKEN_LBRACKET => PM.unsupported
  | _ => throw_error env .ERR_SYNTAX_ERROR (some p.tok)

/-- The function `parse(ast, files, is_silent)` with the declaration parser
`parse_obj`. -/
def parse_program (env : ParserEnv) (fuel : Nat) (tokens : List Token) : Res ASTProg :=
  parse env (parse_obj env (parse_fns env fuel)) fuel "main.csp" tokens

/-- The tokens of the truncated input `fn f(`. -/
def truncated_fn_toks : List Token :=
  [mk_tok .TOKEN_FN "fn", mk_tok .TOKEN_ID "f", mk_tok .TOKEN_LPAREN "(", mk_tok .TOKEN_EOF ""]

/-- The tokens of the truncated input `fn f(a`. -/
def truncated_arg_toks : List Token :=
  [mk_tok .TOKEN_FN "fn", mk_tok .TOKEN_ID "f", mk_tok .TOKEN_LPAREN "(", mk_tok .TOKEN_ID "a",
   mk_tok .TOKEN_EOF ""]

/-- The tokens of the truncated input `fn f(a: i32`. -/
def truncated_type_toks : List Token :=
  [mk_tok .TOKEN_FN "fn", mk_tok .TOKEN_ID "f", mk_tok .TOKEN_LPAREN "(", mk_tok .TOKEN_ID "a",
   mk_tok .TOKEN_COLON ":", mk_tok .TOKEN_ID "i32", mk_tok .TOKEN_EOF ""]

/-- The tokens of `fn f(a: i32) noop;`. -/
def complete_fn_toks : List Token :=
  [mk_tok .TOKEN_FN "fn", mk_tok .TOKEN_ID "f", mk_tok .TOKEN_LPAREN "(", mk_tok .TOKEN_ID "a",
   mk_tok .TOKEN_COLON ":", mk_tok .TOKEN_ID "i32", mk_tok .TOKEN_RPAREN ")",
   mk_tok .TOKEN_NOOP "noop", mk_tok .TOKEN_SEMICOLON ";", mk_tok .TOKEN_EOF ""]

/-- Whether a run ends in a null dereference or a read outside the token
list. -/
def Res.is_undefined {α : Type} : Res α → Bool
  | .undefined => true
  | _ => false

/-! ## Expected text of an inline assembly statement -/

/-- The state after the text `t` has been appended to the stream. -/
def CCodegenData.append (cg : CCodegenData) (t : String) : CCodegenData :=
  { cg with buf := cg.buf ++ t, pos := (cg.buf ++ t).length }

/-- A generator function that returns `v` after appending exactly the text
`t`, changing nothing else, whenever it is entered with the position at the
end of the stream. -/
def Emits {α : Type} (m : CM α) (v : α) (t : String) : Prop :=
  ∀ cg : CCodegenData, cg.pos = cg.buf.length → m cg = .ok v (cg.append t)

/-- The identifier arguments of an `asm` node, in argument order. -/
def asm_id_args (args : List ASTNode) : List ASTNode :=
  args.filter fun arg => arg.kind == .ND_ID

/-- The placeholder `"%i"` of the identifier argument with the slot `i`. -/
def asm_placeholder (i : Nat) : String := "\"%" ++ Nat.repr i ++ "\""

/-- The text of one argument in the assembly text; `i` is the number of
identifier arguments before it. -/
def asm_arg_text (i : Nat) (arg : ASTNode) : String :=
  match arg.kind with
  | .ND_ID => asm_placeholder i
  | .ND_STR =>
    "\"" ++ (if arg.str_val.data.contains '%' then escape_percent arg.str_val
      else arg.str_val) ++ "\""
  | .ND_INT => "\"$" ++ fmt_d arg.int_val ++ "\""
  | .ND_LONG => "\"$" ++ fmt_d arg.long_val ++ "\""
  | .ND_ULONG => "\"$" ++ fmt_lu arg.ulong_val ++ "\""
  | _ => ""

/-- The assembly text of the arguments: the text of each argument, followed
by a blank; the identifier arguments get the slots `i`, `i + 1`, ... in
argument order. -/
def asm_args_text : Nat → List ASTNode → String
  | _, [] => ""
  | i, arg :: rest =>
    asm_arg_text i arg ++ " " ++ asm_args_text (if arg.kind == .ND_ID then i + 1 else i) rest

/-- The entry of an identifier argument in the list of input operands. -/
def asm_input_entry (env : CEnv) (arg : ASTNode) : String :=
  "\"r\"((unsigned long)" ++ c_gen_identifier env arg.id ++ ")"

/-- The list of input operands: the entries in order, separated by commas,
with a newline after the last one. -/
def asm_inputs_text (env : CEnv) : List ASTNode → String
  | [] => ""
  | [arg] => asm_input_entry env arg ++ "\n"
  | arg :: next :: rest => asm_input_entry env arg ++ "," ++ asm_inputs_text env (next :: rest)

/-- The registers marked by the string arguments of an `asm` node, scanned in
argument order; nothing when `c_detect_registers` does not return for a
string or an argument is of a kind that `c_gen_inline_asm` does not know. -/
def asm_scan (used_registers : List Bool) : List ASTNode → Option (List Bool)
  | [] => some used_registers
  | arg :: rest =>
    match arg.kind with
    | .ND_STR =>
      if arg.str_val.data.contains '%' then
        match c_detect_registers arg.str_val used_registers with
        | .ok used_registers _ => asm_scan used_registers rest
        | _ => none
      else asm_scan used_registers rest
    | .ND_INT => asm_scan used_registers rest
    | .ND_LONG => asm_scan used_registers rest
    | .ND_ULONG => asm_scan used_registers rest
    | .ND_ID => asm_scan used_registers rest
    | _ => none

/-- The text that the loop over the registers writes: every marked register
in quotes, each followed by a comma. -/
def asm_clobbers_raw : List (String × Bool) → String
  | [] => ""
  | (name, used) :: rest =>
    (if used then "\"" ++ name ++ "\"," else "") ++ asm_clobbers_raw rest

/-- A list of clobbered registers: the names in quotes, separated by commas,
with no comma after the last one. -/
def asm_clobbers_text : List String → String
  | [] => ""
  | [name] => "\"" ++ name ++ "\""
  | name :: next :: rest => "\"" ++ name ++ "\"," ++ asm_clobbers_text (next :: rest)

/-- The text of a string without its last character. -/
def drop_last (s : String) : String := ⟨s.data.dropLast⟩

/-- The text of the statement that `c_gen_inline_asm` writes for the
arguments `args` when the registers `used_registers` are marked. -/
def asm_text (env : CEnv) (args : List ASTNode) (used_registers : List Bool) : String :=
  drop_last ("__asm__ volatile(\n  " ++ asm_args_text 0 args ++ "\n  ::"
    ++ asm_inputs_text env (asm_id_args args) ++ "  :"
    ++ asm_clobbers_raw (reg_names.zip used_registers)) ++ "\n)"

/-- An `asm` node with the given arguments. -/
def asm_node (args : List ASTNode) : ASTNode :=
  { init_ast_node .ND_ASM none with args := args }

/-- A string literal argument of an `asm` node. -/
def str_node (s : String) : ASTNode :=
  { init_ast_node .ND_STR none with str_val := s }

/-- The arguments of `asm "mov " x ", " y "; add " 1 ", " y`, without any
register name. -/
def plain_asm_args : List ASTNode :=
  [str_node "mov ", name_node "x", str_node ", ", name_node "y", str_node "; add ",
   int_node 1, str_node ", ", name_node "y"]

/-- The arguments of `asm "mov " x ", %rax; add " 1 ", " y`. -/
def sample_asm_args : List ASTNode :=
  [str_node "mov ", name_node "x", str_node ", %rax; add ", int_node 1, str_node ", ",
   name_node "y"]

/-! ## Expected output of the typedef section -/

/-- The declaration that `c_gen_typedef` writes for an object once the types
it depends on are declared: the statements after the call of
`c_predefine_dependant_types`. -/
def typedef_decl (env : CEnv) (fs : CGFns) (obj : ASTObj) : CM Unit := do
  c_print "typedef "
  match obj.data_type with
  | none => CM.undefined
  | some data_type =>
    if data_type.kind == .TY_STRUCT then
      c_println ((if data_type.is_union then "union" else "struct") ++ " "
        ++ c_gen_identifier env obj.id ++ " " ++ c_gen_identifier env obj.id ++ ";")
    else do
      c_gen_typed_name env fs obj.id obj.data_type
      c_println ";"

/-- The object that the type of a typedef object refers to by name: the one
that `c_predefine_dependant_types` looks at. -/
def typedef_dep (env : CEnv) (obj : ASTObj) : Option ASTObj :=
  match obj.data_type with
  | none => none
  | some type => if type.kind == .TY_UNDEF then env.referenced_obj type else none

/-- The typedef objects of a list of objects, namespaces included to the
depth `d`, in the order of the lists. -/
def typedef_objs : Nat → List ASTObj → List ASTObj
  | 0, _ => []
  | d + 1, objs =>
    objs.flatMap fun obj =>
      match obj.kind with
      | .OBJ_NAMESPACE => typedef_objs d obj.objs
      | .OBJ_TYPEDEF => [obj]
      | _ => []

/-- Whether the namespaces of a list of objects nest less than `d` deep: a
list without objects nests within every depth, a list of objects without
namespaces within depth 1. -/
def nests_within : Nat → List ASTObj → Bool
  | _, [] => true
  | 0, _ :: _ => false
  | d + 1, obj :: rest =>
    (obj :: rest).all fun o => o.kind != .OBJ_NAMESPACE || nests_within d o.objs

/-- The texts of the declarations of a list of objects, one after the
other. -/
def decls_text (decl : ASTObj → String) : List ASTObj → String
  | [] => ""
  | obj :: rest => decl obj ++ decls_text decl rest

/-- The number of objects of `objs` whose flag `generated` is not set. -/
def pending (env : CEnv) (objs : List ASTObj) (cg : CCodegenData) : Nat :=
  (objs.filter fun o => !is_generated env cg o).length

/-- A run of the typedef generator from the state `cg` to the state `cg1`
that has written the declarations of the objects `order`, in this order, each
object once, and has set the flag `generated` of exactly these objects. -/
structure TypedefRun (env : CEnv) (decl : ASTObj → String) (objs : List ASTObj)
    (cg cg1 : CCodegenData) (order : List ASTObj) : Prop where
  at_end : cg1.pos = cg1.buf.length
  text : cg1.buf = cg.buf ++ decls_text decl order
  known : ∀ o ∈ order, o ∈ objs
  once : order.Nodup
  fresh : ∀ o ∈ order, is_generated env cg o = false
  marked : ∀ o ∈ objs, (is_generated env cg1 o = true ↔ is_generated env cg o = true ∨ o ∈ order)

/-- The declaration of a typedef whose type is a name. -/
def alias_decl (env : CEnv) (obj : ASTObj) : String :=
  match obj.data_type with
  | none => ""
  | some type =>
    "typedef " ++ (if type.is_constant then "const " else "")
      ++ c_gen_identifier env (some type.id) ++ " " ++ c_gen_identifier env obj.id ++ ";\n"

/-- The declaration of a typedef whose type is a struct or union type. -/
def struct_decl (env : CEnv) (obj : ASTObj) : String :=
  match obj.data_type with
  | none => ""
  | some type =>
    "typedef " ++ (if type.is_union then "union" else "struct") ++ " "
      ++ c_gen_identifier env obj.id ++ " " ++ c_gen_identifier env obj.id ++ ";\n"

/-- The declaration of a typedef whose type is a name or a struct or union
type. -/
def sample_decl (env : CEnv) (obj : ASTObj) : String :=
  match obj.data_type with
  | none => ""
  | some type => if type.kind == .TY_STRUCT then struct_decl env obj else alias_decl env obj

/-- The typedef object `type name: target;` whose type is the name
`target`. -/
def alias_obj (name target : String) : ASTObj :=
  { init_ast_obj .OBJ_TYPEDEF none with
    id := some (plain_id name), data_type := some (named_type target) }

/-- The typedef object `type name: struct {};`. -/
def struct_obj (name : String) : ASTObj :=
  { init_ast_obj .OBJ_TYPEDEF none with
    id := some (plain_id name), data_type := some (type_of_kind .TY_STRUCT none) }

/-- The namespace `name` with the objects `objs`. -/
def namespace_obj (name : String) (objs : List ASTObj) : ASTObj :=
  { init_ast_obj .OBJ_NAMESPACE none with id := some (plain_id name), objs := objs }

/-- A program with typedefs that refer to each other in a cycle:
`type a: bb; type bb: a; type ccc: struct {}; namespace n { type dddd: ccc; }`
and a function. -/
def cyclic_objs : List ASTObj :=
  [alias_obj "a" "bb", alias_obj "bb" "a", struct_obj "ccc",
   namespace_obj "n" [alias_obj "dddd" "ccc"], main_fn]

/-- The typedef objects of `cyclic_objs`. -/
def cyclic_typedefs : List ASTObj :=
  [alias_obj "a" "bb", alias_obj "bb" "a", struct_obj "ccc", alias_obj "dddd" "ccc"]

/-- A generator environment for `cyclic_objs`: a name refers to the typedef
object of that name. -/
def cyclic_cenv : CEnv :=
  { sample_cenv with
    referenced_obj := fun type =>
      if type.id.callee == "a" then some (alias_obj "a" "bb")
      else if type.id.callee == "bb" then some (alias_obj "bb" "a")
      else if type.id.callee == "ccc" then some (struct_obj "ccc")
      else if type.id.callee == "dddd" then some (alias_obj "dddd" "ccc")
      else none }

/-! ## Named array types -/

/-- The named reference `V` to the variable-length array type `i32[]`: a type
of kind `TY_UNDEF` that peels to the array type. -/
def named_vla_of_i32 : ASTType :=
  { type_of_kind .TY_UNDEF (some vla_of_i32) with id := plain_id "V" }

/-- The named reference `A` to the sized array type `i32[2]`. -/
def named_array_of_i32 : ASTType :=
  { type_of_kind .TY_UNDEF (some array_of_i32) with id := plain_id "A" }
/-! ## Lemmas on types_equal -/

theorem identifiers_equal_refl (a : ASTIdentifier) : identifiers_equal a a = true := by
  simp [identifiers_equal]

theorem enum_members_equal_refl {τ : Type} (l : List (ASTMember τ)) :
    enum_members_equal l l = true := by
  induction l with
  | nil => simp [enum_members_equal]
  | cons m ms ih => simp [enum_members_equal, identifiers_equal_refl, ih]

theorem types_equal_at_refl (t : ASTType) : fully_built t = true → types_equal_at t t = true := by
  refine ASTType.rec
    (motive_1 := fun t => fully_built t = true → types_equal_at t t = true)
    (motive_2 := fun o => base_built o = true → types_equal o o = true)
    (motive_3 := fun l => members_built l = true → struct_members_equal l l = true)
    (motive_4 := fun l => arg_types_built l = true → arg_types_equal l l = true)
    (motive_5 := fun m => member_built m = true → struct_member_differs m m = false)
    ?_ ?_ ?_ ?_ ?_ ?_ ?_ ?_ t
  · intro k c p b n m ats u v i hb hm ha h
    cases k <;>
      simp_all [types_equal_at, fully_built, identifiers_equal_refl, enum_members_equal_refl]
  · intro h; simp [base_built] at h
  · intro t ih h; simp_all [base_built, types_equal]
  · intro _; simp [struct_members_equal]
  · intro m ms ihm ihms h; simp_all [members_built, struct_members_equal]
  · intro _; simp [arg_types_equal]
  · intro t ts iht ihts h; simp_all [arg_types_built, arg_types_equal]
  · intro i t v ih h; simp_all [member_built, struct_member_differs, identifiers_equal_refl]

theorem identifiers_equal_symm (a b : ASTIdentifier) :
    identifiers_equal a b = identifiers_equal b a := by
  unfold identifiers_equal
  by_cases h : a.chain = b.chain
  · rw [h]
  · have h2 : ¬ b.chain = a.chain := fun e => h e.symm
    simp [h, h2]

theorem identifiers_equal_trans (a b c : ASTIdentifier)
    (h1 : identifiers_equal a b = true) (h2 : identifiers_equal b c = true) :
    identifiers_equal a c = true := by
  simp only [identifiers_equal, beq_iff_eq] at *
  exact h1.trans h2

theorem bne_symm {α : Type} [DecidableEq α] (x y : α) : (x != y) = (y != x) := by
  by_cases h : x = y
  · subst h; rfl
  · have h2 : ¬ y = x := fun e => h e.symm
    simp [bne, h, h2]

theorem enum_members_equal_symm {τ : Type} (l1 l2 : List (ASTMember τ)) :
    enum_members_equal l1 l2 = enum_members_equal l2 l1 := by
  induction l1 generalizing l2 with
  | nil => cases l2 <;> simp [enum_members_equal]
  | cons m ms ih =>
    cases l2 with
    | nil => simp [enum_members_equal]
    | cons m2 ms2 =>
      simp only [enum_members_equal]
      rw [ih ms2, identifiers_equal_symm m.id m2.id, bne_symm m.value m2.value]

theorem types_equal_at_symm (a : ASTType) : ∀ b, types_equal_at a b = types_equal_at b a := by
  refine ASTType.rec
    (motive_1 := fun a => ∀ b, types_equal_at a b = types_equal_at b a)
    (motive_2 := fun o => ∀ o2, types_equal o o2 = types_equal o2 o)
    (motive_3 := fun l => ∀ l2, struct_members_equal l l2 = struct_members_equal l2 l)
    (motive_4 := fun l => ∀ l2, arg_types_equal l l2 = arg_types_equal l2 l)
    (motive_5 := fun m => ∀ m2, struct_member_differs m m2 = struct_member_differs m2 m)
    ?_ ?_ ?_ ?_ ?_ ?_ ?_ ?_ a
  · intro k c p b n m ats u v i hb hm ha b2
    obtain ⟨k2, c2, p2, b2, n2, m2, ats2, u2, v2, i2⟩ := b2
    by_cases hk : k = k2
    · subst hk
      simp only [types_equal_at]
      rw [hb b2, hm m2, ha ats2, identifiers_equal_symm i i2, enum_members_equal_symm m m2,
        bne_symm c c2, bne_symm m.length m2.length, bne_symm u u2,
        bne_symm ats.length ats2.length]
    · have hk2 : ¬ k2 = k := fun h => hk h.symm
      simp [types_equal_at, hk, hk2]
  · intro o2; cases o2 <;> simp [types_equal]
  · intro t ih o2
    cases o2 with
    | none => simp [types_equal]
    | some t2 => simp only [types_equal]; exact ih t2
  · intro l2; cases l2 <;> simp [struct_members_equal]
  · intro m ms ihm ihms l2
    cases l2 with
    | nil => simp [struct_members_equal]
    | cons m2 ms2 => simp only [struct_members_equal]; rw [ihm m2, ihms ms2]
  · intro l2; cases l2 <;> simp [arg_types_equal]
  · intro t ts iht ihts l2
    cases l2 with
    | nil => simp [arg_types_equal]
    | cons t2 ts2 => simp only [arg_types_equal]; rw [iht t2, ihts ts2]
  · intro i t v ih m2
    obtain ⟨i2, t2, v2⟩ := m2
    simp only [struct_member_differs]
    rw [ih t2, identifiers_equal_symm i i2]

theorem enum_members_equal_cons {τ : Type} (m m2 : ASTMember τ) (ms ms2 : List (ASTMember τ)) :
    enum_members_equal (m :: ms) (m2 :: ms2) = true ↔
      identifiers_equal m.id m2.id = true ∧ m.value = m2.value ∧
        enum_members_equal ms ms2 = true := by
  simp only [enum_members_equal]
  cases identifiers_equal m.id m2.id <;> by_cases hv : m.value = m2.value <;> simp [hv]

theorem enum_members_equal_trans {τ : Type} (l1 l2 l3 : List (ASTMember τ))
    (hl1 : l1.length = l2.length) (hl2 : l2.length = l3.length)
    (h1 : enum_members_equal l1 l2 = true) (h2 : enum_members_equal l2 l3 = true) :
    enum_members_equal l1 l3 = true := by
  induction l1 generalizing l2 l3 with
  | nil => cases l3 <;> simp [enum_members_equal]
  | cons m ms ih =>
    cases l2 with
    | nil => simp at hl1
    | cons m2 ms2 =>
      cases l3 with
      | nil => simp at hl2
      | cons m3 ms3 =>
        rw [enum_members_equal_cons] at h1 h2 ⊢
        simp only [List.length_cons, Nat.add_right_cancel_iff] at hl1 hl2
        exact ⟨identifiers_equal_trans _ _ _ h1.1 h2.1, h1.2.1.trans h2.2.1,
          ih ms2 ms3 hl1 hl2 h1.2.2 h2.2.2⟩

theorem struct_members_equal_cons (m m2 : ASTMember ASTType) (ms ms2 : List (ASTMember ASTType)) :
    struct_members_equal (m :: ms) (m2 :: ms2) = true ↔
      struct_member_differs m m2 = false ∧ struct_members_equal ms ms2 = true := by
  simp only [struct_members_equal]
  cases struct_member_differs m m2 <;> simp

theorem struct_member_differs_false (m m2 : ASTMember ASTType) :
    struct_member_differs m m2 = false ↔
      identifiers_equal m.id m2.id = true ∧ types_equal m.data_type m2.data_type = true := by
  obtain ⟨i, t, v⟩ := m
  simp only [struct_member_differs]
  cases identifiers_equal i m2.id <;> cases types_equal t m2.data_type <;> simp

theorem arg_types_equal_cons (t t2 : ASTType) (ts ts2 : List ASTType) :
    arg_types_equal (t :: ts) (t2 :: ts2) = true ↔
      types_equal_at t t2 = true ∧ arg_types_equal ts ts2 = true := by
  simp only [arg_types_equal]
  cases types_equal_at t t2 <;> simp

theorem types_equal_some (a b : ASTType) : types_equal (some a) (some b) = types_equal_at a b := by
  simp [types_equal]

/-- What `types_equal` decides after its null test, kind by kind. -/
theorem types_equal_at_iff (a b : ASTType) :
    types_equal_at a b = true ↔
      a.kind = b.kind ∧ a.is_constant = b.is_constant ∧
      (match a.kind with
        | .TY_C_ARRAY | .TY_PTR => types_equal a.base b.base = true
        | .TY_STRUCT => a.members.length = b.members.length ∧ a.is_union = b.is_union ∧
            struct_members_equal a.members b.members = true
        | .TY_ENUM => a.members.length = b.members.length ∧
            enum_members_equal a.members b.members = true
        | .TY_UNDEF => identifiers_equal a.id b.id = true
        | .TY_FN => a.arg_types.length = b.arg_types.length ∧
            types_equal a.base b.base = true ∧ arg_types_equal a.arg_types b.arg_types = true
        | _ => True) := by
  obtain ⟨k, c, p, ba, n, m, ats, u, v, i⟩ := a
  by_cases hk : k = b.kind
  · by_cases hc : c = b.is_constant
    · cases k <;> simp [types_equal_at, ← hk, ← hc, and_assoc]
    · simp [types_equal_at, hc]
  · simp [types_equal_at, hk]

theorem types_equal_at_trans (a : ASTType) :
    ∀ b c, types_equal_at a b = true → types_equal_at b c = true → types_equal_at a c = true := by
  refine ASTType.rec
    (motive_1 := fun a => ∀ b c, types_equal_at a b = true → types_equal_at b c = true →
      types_equal_at a c = true)
    (motive_2 := fun o => ∀ o2 o3, types_equal o o2 = true → types_equal o2 o3 = true →
      types_equal o o3 = true)
    (motive_3 := fun l => ∀ l2 l3, l.length = l2.length → l2.length = l3.length →
      struct_members_equal l l2 = true → struct_members_equal l2 l3 = true →
      struct_members_equal l l3 = true)
    (motive_4 := fun l => ∀ l2 l3, l.length = l2.length → l2.length = l3.length →
      arg_types_equal l l2 = true → arg_types_equal l2 l3 = true →
      arg_types_equal l l3 = true)
    (motive_5 := fun m => ∀ m2 m3, struct_member_differs m m2 = false →
      struct_member_differs m2 m3 = false → struct_member_differs m m3 = false)
    ?_ ?_ ?_ ?_ ?_ ?_ ?_ ?_ a
  · intro k c p ba n m ats u v i hb hm ha b2 c2 h1 h2
    rw [types_equal_at_iff] at h1 h2 ⊢
    obtain ⟨hk1, hc1, r1⟩ := h1
    obtain ⟨hk2, hc2, r2⟩ := h2
    refine ⟨hk1.trans hk2, hc1.trans hc2, ?_⟩
    rw [← hk1] at r2
    simp only at hk1 hc1 r1 r2 ⊢
    cases k
    case TY_PTR => exact hb _ _ r1 r2
    case TY_C_ARRAY => exact hb _ _ r1 r2
    case TY_STRUCT =>
      exact ⟨r1.1.trans r2.1, r1.2.1.trans r2.2.1, hm _ _ r1.1 r2.1 r1.2.2 r2.2.2⟩
    case TY_ENUM =>
      exact ⟨r1.1.trans r2.1, enum_members_equal_trans _ _ _ r1.1 r2.1 r1.2 r2.2⟩
    case TY_UNDEF => exact identifiers_equal_trans _ _ _ r1 r2
    case TY_FN =>
      exact ⟨r1.1.trans r2.1, hb _ _ r1.2.1 r2.2.1, ha _ _ r1.1 r2.1 r1.2.2 r2.2.2⟩
    all_goals trivial
  · intro o2 o3 h; simp [types_equal] at h
  · intro t ih o2 o3 h1 h2
    cases o2 with
    | none => simp [types_equal] at h1
    | some t2 =>
      cases o3 with
      | none => simp [types_equal] at h2
      | some t3 =>
        rw [types_equal_some] at h1 h2 ⊢
        exact ih t2 t3 h1 h2
  · intro l2 l3 hl1 hl2 _ _
    have : l3 = [] := by
      apply List.eq_nil_of_length_eq_zero
      rw [← hl2, ← hl1]; rfl
    subst this
    simp [struct_members_equal]
  · intro m ms ihm ihms l2 l3 hl1 hl2 h1 h2
    cases l2 with
    | nil => simp at hl1
    | cons m2 ms2 =>
      cases l3 with
      | nil => simp at hl2
      | cons m3 ms3 =>
        rw [struct_members_equal_cons] at h1 h2 ⊢
        simp only [List.length_cons, Nat.add_right_cancel_iff] at hl1 hl2
        exact ⟨ihm m2 m3 h1.1 h2.1, ihms ms2 ms3 hl1 hl2 h1.2 h2.2⟩
  · intro l2 l3 hl1 hl2 _ _
    have : l3 = [] := by
      apply List.eq_nil_of_length_eq_zero
      rw [← hl2, ← hl1]; rfl
    subst this
    simp [arg_types_equal]
  · intro t ts iht ihts l2 l3 hl1 hl2 h1 h2
    cases l2 with
    | nil => simp at hl1
    | cons t2 ts2 =>
      cases l3 with
      | nil => simp at hl2
      | cons t3 ts3 =>
        rw [arg_types_equal_cons] at h1 h2 ⊢
        simp only [List.length_cons, Nat.add_right_cancel_iff] at hl1 hl2
        exact ⟨iht t2 t3 h1.1 h2.1, ihts ts2 ts3 hl1 hl2 h1.2 h2.2⟩
  · intro i t v ih m2 m3 h1 h2
    rw [struct_member_differs_false] at h1 h2 ⊢
    exact ⟨identifiers_equal_trans _ _ _ h1.1 h2.1, ih _ _ h1.2 h2.2⟩

/-! ## Lemmas on implicit casts and the node-level rules -/

theorem base_resolves_some (env : Helpers) (ty : Option ASTType) (f : ASTType)
    (h : base_resolves env ty = true) (hf : unpack_ptr env ty = some f)
    (hk : f.kind = .TY_PTR) : unpack_ptr env f.base ≠ none := by
  unfold base_resolves at h
  rw [hf] at h
  intro hnone
  simp [hk, hnone] at h

/-- A positive verdict of `implicitly_castable` needs both types to peel to a
type. -/
theorem castable_true_peels (env : Helpers) (tok : Option Token) (from_ to_ : Option ASTType)
    (w : List Diagnostic) (h : implicitly_castable env tok from_ to_ = some (true, w)) :
    (∃ f, unpack_ptr env from_ = some f) ∧ ∃ t, to_ = some t := by
  unfold implicitly_castable at h
  split at h
  · rename_i f t hf ht
    refine ⟨⟨f, hf⟩, ?_⟩
    cases to_ with
    | none => simp [unpack_ptr] at ht
    | some t0 => exact ⟨t0, rfl⟩
  · simp at h

/-- After a positive verdict, `implicit_cast` builds a node. -/
theorem implicit_cast_defined (env : Helpers) (tok tok2 : Option Token) (expr : ASTNode)
    (to_ : Option ASTType) (w : List Diagnostic)
    (h : implicitly_castable env tok expr.data_type to_ = some (true, w)) :
    ∃ c, implicit_cast env tok2 expr to_ = some c := by
  obtain ⟨⟨f, hf⟩, t, ht⟩ := castable_true_peels env tok expr.data_type to_ w h
  subst ht
  unfold implicit_cast
  rw [hf]
  by_cases h1 : f.kind = .TY_ARRAY
  · by_cases h2 : t.kind = .TY_VLA
    · exact ⟨_, by simp [h1, h2]; rfl⟩
    · exact ⟨_, by simp [h1, h2]; rfl⟩
  · exact ⟨_, by simp [h1]; rfl⟩

/-- A sized array is implicitly castable to a VLA, and at most a cast warning
is reported on the way. -/
theorem castable_array_to_vla (env : Helpers) (tok : Option Token) (rt lt ru lu : ASTType)
    (hru : env.unpack rt = some ru) (hrk : ru.kind = .TY_ARRAY)
    (hlu : env.unpack lt = some lu) (hlk : lu.kind = .TY_VLA) :
    ∃ w, implicitly_castable env tok (some rt) (some lt) = some (true, w) ∧
      ∀ d ∈ w, d.kind = .ERR_TYPE_CAST_WARN := by
  unfold implicitly_castable
  simp only [unpack_ptr, hru, hlu]
  cases env.is_integer ru <;> cases env.is_integer lu <;> cases env.is_flonum ru <;>
    cases env.is_flonum lu <;> simp [hrk, hlk]

theorem implicitly_castable_total (env : Helpers) (tok : Option Token)
    (from_ to_ : Option ASTType) (hbase : base_resolves env from_ = true) :
    ∃ r log, implicitly_castable env tok from_ to_ = some (r, log) := by
  unfold implicitly_castable
  unfold base_resolves at hbase
  split
  · rename_i f t hf ht
    rw [hf] at hbase
    repeat' split
    all_goals first
      | exact ⟨_, _, rfl⟩
      | (rename_i hb; simp_all)
  · exact ⟨_, _, rfl⟩

/-- The three ways `typecheck_arg_pass` can go. -/
theorem typecheck_arg_pass_cases (env : Helpers) (p : ASTType) (a : ASTNode)
    (hbase : base_resolves env a.data_type = true) :
    (types_equal (some p) a.data_type = true ∧
      typecheck_arg_pass env (some p) a = some ⟨a, [], false⟩) ∨
    (types_equal (some p) a.data_type = false ∧
      ∃ w c, implicitly_castable env a.tok a.data_type (some p) = some (true, w) ∧
        implicit_cast env a.tok a (some p) = some c ∧
        typecheck_arg_pass env (some p) a = some ⟨c, w, false⟩) ∨
    (types_equal (some p) a.data_type = false ∧
      ∃ w, implicitly_castable env a.tok a.data_type (some p) = some (false, w) ∧
        typecheck_arg_pass env (some p) a =
          some ⟨a, w ++ [⟨.ERR_TYPE_ERROR_UNCR, a.tok⟩],
            throw_error_halts env .ERR_TYPE_ERROR_UNCR⟩) := by
  cases heq : types_equal (some p) a.data_type with
  | true => left; exact ⟨rfl, by simp [typecheck_arg_pass, heq]⟩
  | false =>
    right
    obtain ⟨r, w, hc⟩ := implicitly_castable_total env a.tok a.data_type (some p) hbase
    cases r with
    | true =>
      left
      obtain ⟨c, hcast⟩ := implicit_cast_defined env a.tok a.tok a (some p) w hc
      exact ⟨rfl, w, c, hc, hcast, by simp [typecheck_arg_pass, heq, hc, hcast]⟩
    | false =>
      right
      exact ⟨rfl, w, hc, by simp [typecheck_arg_pass, heq, hc]⟩

theorem arg_pass_rule_mono (env : Helpers) (p : ASTType) (a : ASTNode)
    (slot : Option ASTNode) (log log2 : List Diagnostic) (hsub : ∀ d, d ∈ log → d ∈ log2)
    (h : arg_pass_rule env p a slot log) : arg_pass_rule env p a slot log2 :=
  ⟨h.1, h.2.1, fun hne w hc => ⟨(h.2.2 hne w hc).1, hsub _ (h.2.2 hne w hc).2⟩⟩

/-- One pass of `typecheck_arg_pass`, seen from the slot of the caller: the
slot keeps the argument when `throw_error` does not return, and receives the
returned node otherwise. -/
theorem typecheck_arg_pass_rule (env : Helpers) (p : ASTType) (a : ASTNode)
    (hbase : base_resolves env a.data_type = true) :
    ∃ r, typecheck_arg_pass env (some p) a = some r ∧
      arg_pass_rule env p a (some (if r.halted = true then a else r.val)) r.log ∧
      (r.halted = true → throw_error_halts env .ERR_TYPE_ERROR_UNCR = true) := by
  rcases typecheck_arg_pass_cases env p a hbase with
    ⟨heq, hpass⟩ | ⟨heq, w, c, hc, hcast, hpass⟩ | ⟨heq, w, hc, hpass⟩
  · refine ⟨_, hpass, ⟨fun _ => rfl, ?_, ?_⟩, fun h => by cases h⟩
    · intro hne; rw [heq] at hne; cases hne
    · intro hne; rw [heq] at hne; cases hne
  · refine ⟨_, hpass, ⟨?_, ?_, ?_⟩, fun h => by cases h⟩
    · intro he; rw [heq] at he; cases he
    · intro _ w2 _
      exact ⟨rfl, by simp [hcast]⟩
    · intro _ w2 hc2; rw [hc] at hc2; cases hc2
  · refine ⟨_, hpass, ⟨?_, ?_, ?_⟩, fun h => h⟩
    · intro he; rw [heq] at he; cases he
    · intro _ w2 hc2; rw [hc] at hc2; cases hc2
    · intro _ w2 _
      exact ⟨by simp, by simp⟩

theorem typecheck_call_loop_spec (env : Helpers) :
    ∀ (es : List ASTType) (i : Nat) (args : List ASTNode),
      i + es.length ≤ args.length →
      (∀ k a, i ≤ k → args[k]? = some a → base_resolves env a.data_type = true) →
      ∃ res, typecheck_call_loop env es i args = some res ∧
        res.val.length = args.length ∧
        (∀ k, k < i ∨ i + es.length ≤ k → res.val[k]? = args[k]?) ∧
        (∀ k p a, es[k]? = some p → args[i + k]? = some a →
          (throw_error_halts env .ERR_TYPE_ERROR_UNCR = false ∨
            ∀ j pj aj, j < k → es[j]? = some pj → args[i + j]? = some aj →
              ∀ rj, typecheck_arg_pass env (some pj) aj = some rj → rj.halted = false) →
          arg_pass_rule env p a res.val[i + k]? res.log) := by
  intro es
  induction es with
  | nil =>
    intro i args _ _
    refine ⟨⟨args, [], false⟩, rfl, rfl, fun _ _ => rfl, ?_⟩
    intro k p a hp
    simp at hp
  | cons e es ih =>
    intro i args hlen hdef
    have hi : i < args.length := by
      simp only [List.length_cons] at hlen; omega
    obtain ⟨received, hrec⟩ : ∃ a, args[i]? = some a := ⟨args[i], List.getElem?_eq_getElem hi⟩
    have hb := hdef i received (Nat.le_refl i) hrec
    obtain ⟨r, hpass, hrule0, hhalt⟩ := typecheck_arg_pass_rule env e received hb
    cases hh : r.halted with
    | true =>
      -- `throw_error` left the compilation: the list stays as it is
      rw [hh] at hrule0
      refine ⟨⟨args, r.log, true⟩, by simp [typecheck_call_loop, hrec, hpass, hh], rfl,
        fun _ _ => rfl, ?_⟩
      intro k p a hp ha hguard
      cases k with
      | zero =>
        simp only [List.getElem?_cons_zero, Option.some.injEq] at hp
        simp only [Nat.add_zero] at ha ⊢
        rw [hrec] at ha
        cases ha; subst hp
        rw [hrec]
        simpa using hrule0
      | succ k =>
        exfalso
        rcases hguard with h | h
        · rw [hhalt hh] at h; cases h
        · have := h 0 e received (Nat.succ_pos k) (by simp) (by simpa using hrec) r hpass
          rw [hh] at this; cases this
    | false =>
      rw [hh] at hrule0
      have hlen2 : (i + 1) + es.length ≤ (args.set i r.val).length := by
        simp only [List.length_set, List.length_cons] at hlen ⊢; omega
      have hdef2 : ∀ k a, i + 1 ≤ k → (args.set i r.val)[k]? = some a →
          base_resolves env a.data_type = true := by
        intro k a hk ha
        rw [List.getElem?_set_ne (by omega)] at ha
        exact hdef k a (by omega) ha
      obtain ⟨res, hres, hl, hframe, hrule⟩ := ih (i + 1) (args.set i r.val) hlen2 hdef2
      refine ⟨⟨res.val, r.log ++ res.log, res.halted⟩, ?_, ?_, ?_, ?_⟩
      · simp [typecheck_call_loop, hrec, hpass, hh, hres]
      · simpa using hl
      · intro k hk
        have := hframe k (by simp only [List.length_cons] at hk; omega)
        rw [this]
        apply List.getElem?_set_ne
        simp only [List.length_cons] at hk; omega
      · intro k p a hp ha hguard
        cases k with
        | zero =>
          simp only [List.getElem?_cons_zero, Option.some.injEq] at hp
          simp only [Nat.add_zero] at ha ⊢
          rw [hrec] at ha
          cases ha; subst hp
          have hslot : res.val[i]? = some r.val := by
            rw [hframe i (Or.inl (Nat.lt_succ_self i))]
            exact List.getElem?_set_self hi
          rw [hslot]
          apply arg_pass_rule_mono env _ received _ r.log _ _ (by simpa using hrule0)
          intro d hd
          exact List.mem_append_left _ hd
        | succ k =>
          simp only [List.getElem?_cons_succ] at hp
          have hidx : i + (k + 1) = (i + 1) + k := by omega
          rw [hidx] at ha ⊢
          have ha2 : (args.set i r.val)[i + 1 + k]? = some a := by
            rw [List.getElem?_set_ne (by omega)]; exact ha
          have := hrule k p a hp ha2 (by
            rcases hguard with h | h
            · exact Or.inl h
            · right
              intro j pj aj hj hpj haj rj hrj
              have haj2 : args[i + (j + 1)]? = some aj := by
                rw [List.getElem?_set_ne (by omega)] at haj
                rw [show i + (j + 1) = i + 1 + j by omega]; exact haj
              exact h (j + 1) pj aj (by omega) (by simpa using hpj) haj2 rj hrj)
          apply arg_pass_rule_mono env p a _ res.log _ _ this
          intro d hd
          exact List.mem_append_right _ hd

/-! ## Claims on types_equal -/

/-- C1: `types_equal` is reflexive: for every non-null, fully built type `t`
of any kind, `types_equal(t, t)` returns true. -/
theorem types_equal_refl (t : ASTType) (h : fully_built t = true) :
    types_equal (some t) (some t) = true := by
  rw [types_equal_some]
  exact types_equal_at_refl t h

theorem types_equal_refl_witness :
    fully_built sample_fn_type = true ∧
      types_equal (some sample_fn_type) (some sample_fn_type) = true :=
  ⟨by decide, types_equal_refl sample_fn_type (by decide)⟩

/-- C2: `types_equal` is symmetric: for all (nullable) types `a` and `b`,
`types_equal(a, b) = types_equal(b, a)`. -/
theorem types_equal_symm (a b : Option ASTType) : types_equal a b = types_equal b a := by
  cases a with
  | none => cases b <;> simp [types_equal]
  | some x =>
    cases b with
    | none => simp [types_equal]
    | some y => rw [types_equal_some, types_equal_some]; exact types_equal_at_symm x y

/-- C3: `types_equal` is transitive: when `types_equal(a, b)` and
`types_equal(b, c)` return true, so does `types_equal(a, c)`. -/
theorem types_equal_trans (a b c : Option ASTType)
    (h1 : types_equal a b = true) (h2 : types_equal b c = true) :
    types_equal a c = true := by
  cases a with
  | none => simp [types_equal] at h1
  | some x =>
    cases b with
    | none => simp [types_equal] at h1
    | some y =>
      cases c with
      | none => simp [types_equal] at h2
      | some z =>
        rw [types_equal_some] at h1 h2 ⊢
        exact types_equal_at_trans x y z h1 h2

theorem types_equal_trans_witness :
    types_equal (some sample_fn_type) (some sample_fn_type_variadic) = true ∧
      types_equal (some sample_fn_type_variadic) (some sample_fn_type) = true ∧
      types_equal (some sample_fn_type) (some sample_fn_type) = true :=
  ⟨by decide, by decide,
    types_equal_trans (some sample_fn_type) (some sample_fn_type_variadic) (some sample_fn_type)
      (by decide) (by decide)⟩

/-- C4, evaluated: two sized arrays (and two VLAs) of the same constness
compare equal although their element types `i32` and `f64` do not: the switch
of `types_equal` follows `base` for `TY_C_ARRAY` and `TY_PTR` only. -/
theorem types_equal_skips_array_base :
    types_equal (some array_of_i32) (some array_of_f64) = true ∧
      types_equal array_of_i32.base array_of_f64.base = false ∧
      types_equal (some vla_of_i32) (some vla_of_f64) = true ∧
      types_equal vla_of_i32.base vla_of_f64.base = false := by
  decide

/-! ## Claims on implicit casts -/

/-- C5: `implicitly_castable(from, to)` returns true exactly when, after
peeling named references from both, one of the listed rules applies, and false
in every other case (a missing type included).  The pointer rule reads the
peeled base of `from`, hence the premise that this base is present. -/
theorem implicitly_castable_iff (env : Helpers) (tok : Option Token)
    (from_ to_ : Option ASTType)
    (hbase : base_resolves env from_ = true) :
    ∃ r log, implicitly_castable env tok from_ to_ = some (r, log) ∧
      (r = true ↔ ∃ f t, unpack_ptr env from_ = some f ∧ unpack_ptr env to_ = some t ∧
        ((env.is_integer f = true ∧ env.is_integer t = true) ∨
         (env.is_flonum f = true ∧ env.is_flonum t = true) ∨
         (env.is_integer f = true ∧ env.is_flonum t = true) ∨
         (env.is_flonum f = true ∧ env.is_integer t = true) ∨
         ((f.kind = .TY_PTR ∨ f.kind = .TY_C_ARRAY) ∧ t.kind = .TY_PTR) ∨
         (f.kind = .TY_ARRAY ∧ t.kind = .TY_VLA) ∨
         (f.kind = .TY_PTR ∧ t.kind = .TY_VLA ∧ ∃ fb, unpack_ptr env f.base = some fb ∧
            fb.kind = .TY_ARRAY ∧ types_equal fb.base t.base = true))) := by
  unfold implicitly_castable
  cases hf : unpack_ptr env from_ with
  | none => exact ⟨false, [], rfl, by simp⟩
  | some f =>
    cases ht : unpack_ptr env to_ with
    | none => exact ⟨false, [], rfl, by simp⟩
    | some t =>
      simp only [Option.some.injEq, exists_and_left, exists_eq_left']
      by_cases h5 : (f.kind = .TY_PTR ∨ f.kind = .TY_C_ARRAY) ∧ t.kind = .TY_PTR
      · cases env.is_integer f <;> cases env.is_integer t <;> cases env.is_flonum f <;>
          cases env.is_flonum t <;> simp [h5]
      by_cases h6 : f.kind = .TY_ARRAY ∧ t.kind = .TY_VLA
      · cases env.is_integer f <;> cases env.is_integer t <;> cases env.is_flonum f <;>
          cases env.is_flonum t <;> simp [h5, h6]
      by_cases h7 : f.kind = .TY_PTR
      · cases hb : unpack_ptr env f.base with
        | none => exact absurd hb (base_resolves_some env from_ f hbase hf h7)
        | some fb =>
          have h5b : ¬ t.kind = .TY_PTR := fun h => h5 ⟨Or.inl h7, h⟩
          by_cases h8 : fb.kind = .TY_ARRAY ∧ t.kind = .TY_VLA
          · cases env.is_integer f <;> cases env.is_integer t <;> cases env.is_flonum f <;>
              cases env.is_flonum t <;> simp [h5b, h7, h8]
          · have h8b : fb.kind = .TY_ARRAY → ¬ t.kind = .TY_VLA := fun a b => h8 ⟨a, b⟩
            cases env.is_integer f <;> cases env.is_integer t <;> cases env.is_flonum f <;>
              cases env.is_flonum t <;> simp [h5b, h7, h8] <;> intro a b <;>
              exact absurd a (h8b b)
      · have h5b : ¬ (f.kind = .TY_C_ARRAY ∧ t.kind = .TY_PTR) := fun h => h5 ⟨Or.inr h.1, h.2⟩
        cases env.is_integer f <;> cases env.is_integer t <;> cases env.is_flonum f <;>
          cases env.is_flonum t <;> simp [h5b, h6, h7]

theorem implicitly_castable_iff_witness :
    base_resolves sample_helpers (some ptr_to_array_of_i32) = true ∧
    ∃ r log, implicitly_castable sample_helpers none (some ptr_to_array_of_i32)
        (some vla_of_i32) = some (r, log) ∧
      (r = true ↔ ∃ f t, unpack_ptr sample_helpers (some ptr_to_array_of_i32) = some f ∧
        unpack_ptr sample_helpers (some vla_of_i32) = some t ∧
        ((sample_helpers.is_integer f = true ∧ sample_helpers.is_integer t = true) ∨
         (sample_helpers.is_flonum f = true ∧ sample_helpers.is_flonum t = true) ∨
         (sample_helpers.is_integer f = true ∧ sample_helpers.is_flonum t = true) ∨
         (sample_helpers.is_flonum f = true ∧ sample_helpers.is_integer t = true) ∨
         ((f.kind = .TY_PTR ∨ f.kind = .TY_C_ARRAY) ∧ t.kind = .TY_PTR) ∨
         (f.kind = .TY_ARRAY ∧ t.kind = .TY_VLA) ∨
         (f.kind = .TY_PTR ∧ t.kind = .TY_VLA ∧
            ∃ fb, unpack_ptr sample_helpers f.base = some fb ∧
              fb.kind = .TY_ARRAY ∧ types_equal fb.base t.base = true))) :=
  ⟨by decide,
    implicitly_castable_iff sample_helpers none (some ptr_to_array_of_i32) (some vla_of_i32)
      (by decide)⟩

/-- C6: `implicitly_castable` reports a type-cast warning exactly when, after
peeling named references, `from` is a float type and `to` an integer type, and
then exactly one; it never reports an error, and int to int, float to float
and int to float report nothing.  Integer and float types are disjoint. -/
theorem implicitly_castable_warns (env : Helpers)
    (hdisj : ∀ t, ¬ (env.is_integer t = true ∧ env.is_flonum t = true))
    (tok : Option Token) (from_ to_ : Option ASTType) :
    (∀ f t, unpack_ptr env from_ = some f → unpack_ptr env to_ = some t →
      (env.is_flonum f = true ∧ env.is_integer t = true →
        implicitly_castable env tok from_ to_ = some (true, [⟨.ERR_TYPE_CAST_WARN, tok⟩])) ∧
      (env.is_integer f = true ∧ env.is_integer t = true →
        implicitly_castable env tok from_ to_ = some (true, [])) ∧
      (env.is_flonum f = true ∧ env.is_flonum t = true →
        implicitly_castable env tok from_ to_ = some (true, [])) ∧
      (env.is_integer f = true ∧ env.is_flonum t = true →
        implicitly_castable env tok from_ to_ = some (true, []))) ∧
    (∀ r log, implicitly_castable env tok from_ to_ = some (r, log) →
      (log = [⟨.ERR_TYPE_CAST_WARN, tok⟩] ∧
        ∃ f t, unpack_ptr env from_ = some f ∧ unpack_ptr env to_ = some t ∧
          env.is_flonum f = true ∧ env.is_integer t = true) ∨
      (log = [] ∧
        ¬ ∃ f t, unpack_ptr env from_ = some f ∧ unpack_ptr env to_ = some t ∧
          env.is_flonum f = true ∧ env.is_integer t = true)) := by
  constructor
  · intro f t hf ht
    have hf1 := hdisj f
    have ht1 := hdisj t
    unfold implicitly_castable
    rw [hf, ht]
    cases hif : env.is_integer f <;> cases hit : env.is_integer t <;>
      cases hff : env.is_flonum f <;> cases hft : env.is_flonum t <;> simp_all
  · intro r log h
    unfold implicitly_castable at h
    split at h
    · rename_i f t hf ht
      have hf1 := hdisj f
      have ht1 := hdisj t
      simp only [hf, ht, Option.some.injEq, exists_and_left, exists_eq_left']
      repeat' split at h
      all_goals cases h
      all_goals simp_all
      all_goals
        have hit := hdisj t
        cases hi : env.is_integer t <;> simp_all
    · rename_i hno
      cases h
      right
      refine ⟨rfl, ?_⟩
      rintro ⟨f, t, hf, ht, -⟩
      exact hno f t hf ht

theorem implicitly_castable_warns_witness :
    (∀ t, ¬ (sample_helpers.is_integer t = true ∧ sample_helpers.is_flonum t = true)) ∧
    implicitly_castable sample_helpers (sample_tok "x") (some (primitive .TY_F64))
        (some (primitive .TY_I32)) =
      some (true, [⟨.ERR_TYPE_CAST_WARN, sample_tok "x"⟩]) ∧
    implicitly_castable sample_helpers (sample_tok "x") (some (primitive .TY_I64))
        (some (primitive .TY_I8)) = some (true, []) :=
  have hdisj : ∀ t, ¬ (sample_helpers.is_integer t = true ∧ sample_helpers.is_flonum t = true) := by
    intro t
    simp only [sample_helpers]
    cases t.kind <;> simp
  ⟨hdisj,
    ((implicitly_castable_warns sample_helpers hdisj (sample_tok "x") (some (primitive .TY_F64))
      (some (primitive .TY_I32))).1 (primitive .TY_F64) (primitive .TY_I32) rfl rfl).1 ⟨rfl, rfl⟩,
    ((implicitly_castable_warns sample_helpers hdisj (sample_tok "x") (some (primitive .TY_I64))
      (some (primitive .TY_I8))).1 (primitive .TY_I64) (primitive .TY_I8) rfl rfl).2.1 ⟨rfl, rfl⟩⟩

/-- C7: `implicit_cast(expr, to)` returns a new node whose `data_type` is
`to`: an `ND_REF` node whose right operand is `expr` when the type of `expr`
peels to a sized array and `to` is a VLA, and in every other case an `ND_CAST`
node whose left operand is `expr`; `expr` is handed on as it is. -/
theorem implicit_cast_spec (env : Helpers) (tok : Option Token) (expr : ASTNode)
    (et t : ASTType) (h : unpack_ptr env expr.data_type = some et) :
    ∃ n, implicit_cast env tok expr (some t) = some n ∧ n.data_type = some t ∧
      ((et.kind = .TY_ARRAY ∧ t.kind = .TY_VLA) → n.kind = .ND_REF ∧ n.right = some expr) ∧
      (¬ (et.kind = .TY_ARRAY ∧ t.kind = .TY_VLA) → n.kind = .ND_CAST ∧ n.left = some expr) := by
  unfold implicit_cast
  rw [h]
  by_cases h1 : et.kind = .TY_ARRAY
  · by_cases h2 : t.kind = .TY_VLA
    · exact ⟨_, by simp [h1, h2]; rfl, rfl, fun _ => ⟨rfl, rfl⟩, fun hn => absurd ⟨h1, h2⟩ hn⟩
    · exact ⟨_, by simp [h1, h2]; rfl, rfl, fun hp => absurd hp.2 h2, fun _ => ⟨rfl, rfl⟩⟩
  · exact ⟨_, by simp [h1]; rfl, rfl, fun hp => absurd hp.1 h1, fun _ => ⟨rfl, rfl⟩⟩

theorem implicit_cast_spec_witness :
    unpack_ptr sample_helpers (id_node "a" array_of_i32).data_type = some array_of_i32 ∧
    ∃ n, implicit_cast sample_helpers (sample_tok "=") (id_node "a" array_of_i32)
        (some vla_of_i32) = some n ∧ n.data_type = some vla_of_i32 ∧
      ((array_of_i32.kind = .TY_ARRAY ∧ vla_of_i32.kind = .TY_VLA) →
        n.kind = .ND_REF ∧ n.right = some (id_node "a" array_of_i32)) ∧
      (¬ (array_of_i32.kind = .TY_ARRAY ∧ vla_of_i32.kind = .TY_VLA) →
        n.kind = .ND_CAST ∧ n.left = some (id_node "a" array_of_i32)) :=
  ⟨rfl, implicit_cast_spec sample_helpers (sample_tok "=") (id_node "a" array_of_i32)
    array_of_i32 vla_of_i32 rfl⟩

/-! ## Claims on the node-level rules -/

/-- C8: `typecheck_assignment`: when the types of both sides are
`types_equal` the node stays as it is and nothing is reported; otherwise, when
the right type is implicitly castable to the left type, the right operand
becomes `implicit_cast(right, left type)` and the rest of the node (the left
operand included) stays; otherwise `ERR_TYPE_ERROR_UNCR` is reported and the
node stays as it is. -/
theorem typecheck_assignment_spec (env : Helpers) (a l r : ASTNode)
    (hl : a.left = some l) (hr : a.right = some r) :
    (types_equal l.data_type r.data_type = true →
      typecheck_assignment env a = some ⟨a, [], false⟩) ∧
    (types_equal l.data_type r.data_type = false →
      ∀ w, implicitly_castable env a.tok r.data_type l.data_type = some (true, w) →
        ∃ c, implicit_cast env a.tok r l.data_type = some c ∧
          typecheck_assignment env a = some ⟨{ a with right := some c }, w, false⟩) ∧
    (types_equal l.data_type r.data_type = false →
      ∀ w, implicitly_castable env a.tok r.data_type l.data_type = some (false, w) →
        (unpack_ptr env r.data_type).isSome = true →
        (unpack_ptr env l.data_type).isSome = true →
        typecheck_assignment env a =
          some ⟨a, w ++ [⟨.ERR_TYPE_ERROR_UNCR, a.tok⟩],
            throw_error_halts env .ERR_TYPE_ERROR_UNCR⟩) := by
  refine ⟨?_, ?_, ?_⟩
  · intro heq
    simp [typecheck_assignment, hl, hr, heq]
  · intro hne w hc
    obtain ⟨c, hcast⟩ := implicit_cast_defined env a.tok a.tok r l.data_type w hc
    exact ⟨c, hcast, by simp [typecheck_assignment, hl, hr, hne, hc, hcast]⟩
  · intro hne w hc hur hul
    cases hrt : unpack_ptr env r.data_type with
    | none => rw [hrt] at hur; cases hur
    | some rt =>
      cases hlt : unpack_ptr env l.data_type with
      | none => rw [hlt] at hul; cases hul
      | some lt => simp [typecheck_assignment, hl, hr, hne, hc, hrt, hlt]

theorem typecheck_assignment_spec_witness :
    typecheck_assignment sample_helpers
        (assign_node (id_node "x" (primitive .TY_I32)) (id_node "y" (primitive .TY_I32))) =
      some ⟨assign_node (id_node "x" (primitive .TY_I32)) (id_node "y" (primitive .TY_I32)),
        [], false⟩ ∧
    (∃ c, implicit_cast sample_helpers (sample_tok "=") (id_node "y" (primitive .TY_F64))
        (some (primitive .TY_I32)) = some c ∧
      typecheck_assignment sample_helpers
          (assign_node (id_node "x" (primitive .TY_I32)) (id_node "y" (primitive .TY_F64))) =
        some ⟨{ assign_node (id_node "x" (primitive .TY_I32))
                  (id_node "y" (primitive .TY_F64)) with right := some c },
          [⟨.ERR_TYPE_CAST_WARN, sample_tok "="⟩], false⟩) ∧
    typecheck_assignment sample_helpers
        (assign_node (id_node "x" (primitive .TY_I32)) (id_node "s" sample_struct)) =
      some ⟨assign_node (id_node "x" (primitive .TY_I32)) (id_node "s" sample_struct),
        [] ++ [⟨.ERR_TYPE_ERROR_UNCR, sample_tok "="⟩], false⟩ :=
  ⟨(typecheck_assignment_spec sample_helpers
      (assign_node (id_node "x" (primitive .TY_I32)) (id_node "y" (primitive .TY_I32)))
      (id_node "x" (primitive .TY_I32)) (id_node "y" (primitive .TY_I32)) rfl rfl).1 (by decide),
   (typecheck_assignment_spec sample_helpers
      (assign_node (id_node "x" (primitive .TY_I32)) (id_node "y" (primitive .TY_F64)))
      (id_node "x" (primitive .TY_I32)) (id_node "y" (primitive .TY_F64)) rfl rfl).2.1
      (by decide) [⟨.ERR_TYPE_CAST_WARN, sample_tok "="⟩] rfl,
   (typecheck_assignment_spec sample_helpers
      (assign_node (id_node "x" (primitive .TY_I32)) (id_node "s" sample_struct))
      (id_node "x" (primitive .TY_I32)) (id_node "s" sample_struct) rfl rfl).2.2
      (by decide) [] rfl (by decide) (by decide)⟩

/-- C9, as the code has it: an assignment whose right-hand side has a sized
array type and whose left-hand side has a VLA type, each written as such or
through a named reference, is accepted without an error, and its right
operand is replaced by a new node of the left type that holds the former
right operand: an `ND_REF` node when the left type is itself of kind
`TY_VLA`, and an `ND_CAST` node when it is a named reference to a VLA type,
since `implicit_cast` reads the kind of the left type without peeling it.
The rest of the node stays.  The two types differ under `types_equal`, as an
array type and a VLA type do. -/
theorem typecheck_assignment_array_to_vla (env : Helpers) (a l r : ASTNode)
    (lt rt lu ru : ASTType)
    (hl : a.left = some l) (hr : a.right = some r)
    (hlt : l.data_type = some lt) (hlu : env.unpack lt = some lu) (hlk : lu.kind = .TY_VLA)
    (hrt : r.data_type = some rt) (hru : env.unpack rt = some ru) (hrk : ru.kind = .TY_ARRAY)
    (hne : types_equal (some lt) (some rt) = false) :
    ∃ w, (∀ d ∈ w, d.kind = .ERR_TYPE_CAST_WARN) ∧
      (lt.kind = .TY_VLA →
        typecheck_assignment env a =
          some ⟨{ a with right := some { init_ast_node .ND_REF a.tok with
                    data_type := some lt, right := some r } }, w, false⟩) ∧
      (lt.kind ≠ .TY_VLA →
        typecheck_assignment env a =
          some ⟨{ a with right := some { init_ast_node .ND_CAST a.tok with
                    data_type := some lt, left := some r } }, w, false⟩) := by
  obtain ⟨w, hw, hwarn⟩ := castable_array_to_vla env a.tok rt lt ru lu hru hrk hlu hlk
  refine ⟨w, hwarn, ?_, ?_⟩
  · intro hk
    have hcast : implicit_cast env a.tok r (some lt) =
        some { init_ast_node .ND_REF a.tok with data_type := some lt, right := some r } := by
      simp [implicit_cast, hrt, unpack_ptr, hru, hrk, hk]
    simp [typecheck_assignment, hl, hr, hlt, hrt, hne, hw, hcast]
  · intro hk
    have hcast : implicit_cast env a.tok r (some lt) =
        some { init_ast_node .ND_CAST a.tok with data_type := some lt, left := some r } := by
      simp [implicit_cast, hrt, unpack_ptr, hru, hrk, hk]
    simp [typecheck_assignment, hl, hr, hlt, hrt, hne, hw, hcast]

/-- The assignment `v = a` for `v: i32[]` and `a: i32[2]`, and for `v: V` and
`a: A` where `V` names the type `i32[]` and `A` the type `i32[2]`. -/
theorem typecheck_assignment_array_to_vla_witness :
    (∃ w, (∀ d ∈ w, d.kind = .ERR_TYPE_CAST_WARN) ∧
      (vla_of_i32.kind = .TY_VLA →
        typecheck_assignment sample_helpers
            (assign_node (id_node "v" vla_of_i32) (id_node "a" array_of_i32)) =
          some ⟨{ assign_node (id_node "v" vla_of_i32) (id_node "a" array_of_i32) with
                  right := some { init_ast_node .ND_REF (sample_tok "=") with
                    data_type := some vla_of_i32,
                    right := some (id_node "a" array_of_i32) } }, w, false⟩) ∧
      (vla_of_i32.kind ≠ .TY_VLA →
        typecheck_assignment sample_helpers
            (assign_node (id_node "v" vla_of_i32) (id_node "a" array_of_i32)) =
          some ⟨{ assign_node (id_node "v" vla_of_i32) (id_node "a" array_of_i32) with
                  right := some { init_ast_node .ND_CAST (sample_tok "=") with
                    data_type := some vla_of_i32,
                    left := some (id_node "a" array_of_i32) } }, w, false⟩))
    ∧ (∃ w, (∀ d ∈ w, d.kind = .ERR_TYPE_CAST_WARN) ∧
      (named_vla_of_i32.kind = .TY_VLA →
        typecheck_assignment sample_helpers
            (assign_node (id_node "v" named_vla_of_i32) (id_node "a" named_array_of_i32)) =
          some ⟨{ assign_node (id_node "v" named_vla_of_i32)
                    (id_node "a" named_array_of_i32) with
                  right := some { init_ast_node .ND_REF (sample_tok "=") with
                    data_type := some named_vla_of_i32,
                    right := some (id_node "a" named_array_of_i32) } }, w, false⟩) ∧
      (named_vla_of_i32.kind ≠ .TY_VLA →
        typecheck_assignment sample_helpers
            (assign_node (id_node "v" named_vla_of_i32) (id_node "a" named_array_of_i32)) =
          some ⟨{ assign_node (id_node "v" named_vla_of_i32)
                    (id_node "a" named_array_of_i32) with
                  right := some { init_ast_node .ND_CAST (sample_tok "=") with
                    data_type := some named_vla_of_i32,
                    left := some (id_node "a" named_array_of_i32) } }, w, false⟩)) :=
  ⟨typecheck_assignment_array_to_vla sample_helpers
      (assign_node (id_node "v" vla_of_i32) (id_node "a" array_of_i32))
      (id_node "v" vla_of_i32) (id_node "a" array_of_i32) vla_of_i32 array_of_i32
      vla_of_i32 array_of_i32 rfl rfl rfl rfl rfl rfl rfl rfl (by decide),
   typecheck_assignment_array_to_vla sample_helpers
      (assign_node (id_node "v" named_vla_of_i32) (id_node "a" named_array_of_i32))
      (id_node "v" named_vla_of_i32) (id_node "a" named_array_of_i32)
      named_vla_of_i32 named_array_of_i32 vla_of_i32 array_of_i32
      rfl rfl rfl rfl rfl rfl rfl rfl (by decide)⟩

/-- The shapes of the two rewrites: for `v: i32[]` the right operand becomes
`ND_REF` with the former operand as `right`; for `v: V`, a named reference to
`i32[]`, it becomes `ND_CAST` with the former operand as `left`.  Neither
assignment reports anything. -/
theorem typecheck_assignment_array_to_vla_shapes :
    (typecheck_assignment sample_helpers
        (assign_node (id_node "v" vla_of_i32) (id_node "a" array_of_i32))).map
        (fun res => (res.log, res.halted, res.val.right.map fun c =>
          (c.kind, c.data_type.map ASTType.kind, c.left.map ASTNode.kind,
            c.right.map ASTNode.kind)))
      = some ([], false, some (.ND_REF, some .TY_VLA, none, some .ND_ID))
    ∧ (typecheck_assignment sample_helpers
        (assign_node (id_node "v" named_vla_of_i32) (id_node "a" array_of_i32))).map
        (fun res => (res.log, res.halted, res.val.right.map fun c =>
          (c.kind, c.data_type.map ASTType.kind, c.left.map ASTNode.kind,
            c.right.map ASTNode.kind)))
      = some ([], false, some (.ND_CAST, some .TY_UNDEF, some .ND_ID, none))
    ∧ (typecheck_assignment sample_helpers
        (assign_node (id_node "v" named_vla_of_i32) (id_node "a" named_array_of_i32))).map
        (fun res => (res.log, res.halted, res.val.right.map fun c =>
          (c.kind, c.data_type.map ASTType.kind, c.left.map ASTNode.kind,
            c.right.map ASTNode.kind)))
      = some ([], false, some (.ND_CAST, some .TY_UNDEF, some .ND_ID, none)) := by
  exact ⟨rfl, rfl, rfl⟩

/-- C9 refuted as stated: checking `v = a` with `v: i32[]` (VLA) and
`a: i32[2]` (sized array) reports nothing, but the right operand afterwards is
an `ND_REF` node, not the `ND_ID` node it was. -/
theorem typecheck_assignment_array_to_vla_rewrites :
    ∃ res, typecheck_assignment sample_helpers
        (assign_node (id_node "v" vla_of_i32) (id_node "a" array_of_i32)) = some res ∧
      res.log = [] ∧
      res.val.right.map ASTNode.kind = some .ND_REF ∧
      (assign_node (id_node "v" vla_of_i32) (id_node "a" array_of_i32)).right.map ASTNode.kind
        = some .ND_ID ∧
      res.val.right ≠
        (assign_node (id_node "v" vla_of_i32) (id_node "a" array_of_i32)).right := by
  refine ⟨_, rfl, rfl, rfl, rfl, ?_⟩
  intro h
  have hk := congrArg (Option.map ASTNode.kind) h
  exact absurd hk (by decide)

/-- C10: for a call with at least as many arguments as the callee has
parameters (`n`), `typecheck_call` keeps the number of arguments and every
argument at an index from `n` on, and for each `i < n`: keeps argument `i`
when `types_equal(parameter i, type of argument i)`; replaces it by
`implicit_cast(argument i, parameter i)` when the types differ but the
argument type is implicitly castable to the parameter type; and otherwise
reports `ERR_TYPE_ERROR_UNCR` at that argument and keeps it.  The rule for
argument `i` holds as long as the loop gets there: `throw_error` returns after
this kind of error, or no earlier argument made it leave the compilation. -/
theorem typecheck_call_spec (env : Helpers) (call callee : ASTNode) (call_type : ASTType)
    (hexpr : call.expr = some callee)
    (hty : unpack_ptr env callee.data_type = some call_type)
    (hn : call_type.arg_types.length ≤ call.args.length)
    (hdef : ∀ a ∈ call.args, base_resolves env a.data_type = true) :
    ∃ res : Checked ASTNode, typecheck_call env call = some res ∧
      res.val = { call with args := res.val.args } ∧
      res.val.args.length = call.args.length ∧
      (∀ i, call_type.arg_types.length ≤ i → res.val.args[i]? = call.args[i]?) ∧
      (∀ (i : Nat) (p : ASTType) (a : ASTNode),
        call_type.arg_types[i]? = some p → call.args[i]? = some a →
        (throw_error_halts env .ERR_TYPE_ERROR_UNCR = false ∨
          ∀ j pj aj, j < i → call_type.arg_types[j]? = some pj → call.args[j]? = some aj →
            ∀ rj, typecheck_arg_pass env (some pj) aj = some rj → rj.halted = false) →
        (types_equal (some p) a.data_type = true → res.val.args[i]? = some a) ∧
        (types_equal (some p) a.data_type = false →
          ∀ w, implicitly_castable env a.tok a.data_type (some p) = some (true, w) →
            (res.val.args[i]?).isSome = true ∧
              res.val.args[i]? = implicit_cast env a.tok a (some p)) ∧
        (types_equal (some p) a.data_type = false →
          ∀ w, implicitly_castable env a.tok a.data_type (some p) = some (false, w) →
            res.val.args[i]? = some a ∧
              (⟨.ERR_TYPE_ERROR_UNCR, a.tok⟩ : Diagnostic) ∈ res.log)) := by
  have hdef2 : ∀ k a, 0 ≤ k → call.args[k]? = some a →
      base_resolves env a.data_type = true := by
    intro k a _ ha
    exact hdef a (List.getElem?_mem ha)
  obtain ⟨res, hres, hl, hframe, hrule⟩ :=
    typecheck_call_loop_spec env call_type.arg_types 0 call.args (by simpa using hn) hdef2
  refine ⟨⟨{ call with args := res.val }, res.log, res.halted⟩, ?_, rfl, hl, ?_, ?_⟩
  · simp [typecheck_call, hexpr, hty, hres]
  · intro i hi
    exact hframe i (Or.inr (by simpa using hi))
  · intro i p a hp ha hguard
    have ha0 : call.args[0 + i]? = some a := by simpa using ha
    have := hrule i p a hp ha0 (by
      rcases hguard with h | h
      · exact Or.inl h
      · right
        intro j pj aj hj hpj haj rj hrj
        exact h j pj aj hj hpj (by simpa using haj) rj hrj)
    simpa [arg_pass_rule] using this

theorem typecheck_call_spec_witness :
    sample_call.expr = some (id_node "f" sample_callee_type) ∧
    sample_callee_type.arg_types.length ≤ sample_call.args.length ∧
    ∃ res : Checked ASTNode, typecheck_call sample_helpers sample_call = some res ∧
      res.val.args.length = 3 ∧
      res.val.args[0]? = some (id_node "x" (primitive .TY_I32)) ∧
      res.val.args[1]? =
        implicit_cast sample_helpers (sample_tok "a") (id_node "a" array_of_f64)
          (some vla_of_f64) ∧
      res.val.args[2]? = some (id_node "s" sample_struct) := by
  refine ⟨rfl, by decide, ?_⟩
  obtain ⟨res, hres, -, hl, hframe, hrule⟩ :=
    typecheck_call_spec sample_helpers sample_call (id_node "f" sample_callee_type)
      sample_callee_type rfl rfl (by decide) (by decide)
  refine ⟨res, hres, hl, ?_, ?_, ?_⟩
  · exact (hrule 0 (primitive .TY_I32) (id_node "x" (primitive .TY_I32)) rfl rfl
      (Or.inl rfl)).1 (by decide)
  · exact ((hrule 1 vla_of_f64 (id_node "a" array_of_f64) rfl rfl (Or.inl rfl)).2.1
      (by decide) [] rfl).2
  · exact hframe 2 (by decide)

/-! ## Claims on explicit casts and array literals -/

/-- C11, as the code has it: an explicit cast whose source or target type
peels to `void` is reported as `ERR_TYPE_ERROR_UNCR` at the token of the cast,
unless the two types are `types_equal`; the node stays as it is. -/
theorem typecheck_explicit_cast_void (env : Helpers) (cast l : ASTNode) (f t : ASTType)
    (hl : cast.left = some l)
    (hne : types_equal l.data_type cast.data_type = false)
    (hf : unpack_ptr env l.data_type = some f) (ht : unpack_ptr env cast.data_type = some t)
    (hvoid : f.kind = .TY_VOID ∨ t.kind = .TY_VOID) :
    ∃ r, typecheck_explicit_cast env cast = some r ∧ r.val = cast ∧
      (⟨.ERR_TYPE_ERROR_UNCR, cast.tok⟩ : Diagnostic) ∈ r.log ∧
      ∀ d ∈ r.log, d = ⟨.ERR_TYPE_ERROR_UNCR, cast.tok⟩ := by
  unfold typecheck_explicit_cast
  rw [hl]
  simp only [hne, hf, ht]
  by_cases h1 : f.kind = .TY_VOID
  · by_cases hh : throw_error_halts env .ERR_TYPE_ERROR_UNCR = true
    · exact ⟨_, by simp [h1, hh]; rfl, rfl, by simp, by simp⟩
    · by_cases h2 : t.kind = .TY_VOID
      · exact ⟨_, by simp [h1, hh, h2]; rfl, rfl, by simp, by simp⟩
      · exact ⟨_, by simp [h1, hh, h2]; rfl, rfl, by simp, by simp⟩
  · have h2 : t.kind = .TY_VOID := hvoid.resolve_left h1
    exact ⟨_, by simp [h1, h2]; rfl, rfl, by simp [h1], by simp [h1]⟩

/-- The cast of the `i32` variable `x` to `void`. -/
theorem typecheck_explicit_cast_void_witness :
    ∃ r, typecheck_explicit_cast sample_helpers i32_to_void_cast = some r ∧
      r.val = i32_to_void_cast ∧
      (⟨.ERR_TYPE_ERROR_UNCR, i32_to_void_cast.tok⟩ : Diagnostic) ∈ r.log ∧
      ∀ d ∈ r.log, d = ⟨.ERR_TYPE_ERROR_UNCR, i32_to_void_cast.tok⟩ :=
  typecheck_explicit_cast_void sample_helpers i32_to_void_cast
    (id_node "x" (primitive .TY_I32)) (primitive .TY_I32) (primitive .TY_VOID)
    rfl (by decide) rfl rfl (Or.inr rfl)

/-- C11 refuted as stated: the cast of a `void` expression to `void` is
reported as an unnecessary cast (a warning) and as nothing else. -/
theorem typecheck_explicit_cast_void_to_void :
    typecheck_explicit_cast sample_helpers void_to_void_cast =
      some ⟨void_to_void_cast, [⟨.ERR_TYPE_CAST_WARN, void_to_void_cast.tok⟩], false⟩ ∧
    unpack_ptr sample_helpers void_to_void_cast.data_type = some (primitive .TY_VOID) ∧
    (primitive .TY_VOID).kind = .TY_VOID := by
  refine ⟨?_, rfl, rfl⟩
  rfl

/-- Whatever `implicit_cast` builds has the target type and wraps the
expression. -/
theorem implicit_cast_wraps (env : Helpers) (tok : Option Token) (expr c : ASTNode)
    (to_ : Option ASTType) (h : implicit_cast env tok expr to_ = some c) :
    c.data_type = to_ ∧
      ((c.kind = .ND_CAST ∧ c.left = some expr) ∨ (c.kind = .ND_REF ∧ c.right = some expr)) := by
  unfold implicit_cast at h
  repeat' split at h
  all_goals cases h
  all_goals first
    | exact ⟨rfl, Or.inl ⟨rfl, rfl⟩⟩
    | exact ⟨rfl, Or.inr ⟨rfl, rfl⟩⟩

theorem typecheck_array_lit_loop_spec (env : Helpers) (base_ty : Option ASTType) :
    ∀ (n i : Nat) (args : List ASTNode) (r : Checked (List ASTNode)),
      typecheck_array_lit_loop env base_ty n i args = some r →
      (∀ d ∈ r.log, d.kind ≠ .ERR_TYPE_ERROR_UNCR) →
      r.val.length = args.length ∧
      (∀ k, k < i ∨ i + n ≤ k → r.val[k]? = args[k]?) ∧
      (∀ k arg, i ≤ k → k < i + n → args[k]? = some arg →
        ∃ c, r.val[k]? = some c ∧ implicit_cast env arg.tok arg base_ty = some c) := by
  intro n
  induction n with
  | zero =>
    intro i args r h _
    simp only [typecheck_array_lit_loop, Option.some.injEq] at h
    subst h
    exact ⟨rfl, fun _ _ => rfl, fun k arg h1 h2 => by omega⟩
  | succ n ih =>
    intro i args r h hok
    unfold typecheck_array_lit_loop at h
    cases harg : args[i]? with
    | none => rw [harg] at h; cases h
    | some arg =>
      rw [harg] at h
      simp only at h
      have hi : i < args.length := by
        rcases List.getElem?_eq_some.mp harg with ⟨hlt, -⟩
        exact hlt
      cases hc : implicitly_castable env arg.tok arg.data_type base_ty with
      | none => rw [hc] at h; cases h
      | some v =>
        obtain ⟨b, w⟩ := v
        rw [hc] at h
        cases b with
        | true =>
          simp only at h
          cases hcast : implicit_cast env arg.tok arg base_ty with
          | none => rw [hcast] at h; cases h
          | some c =>
            rw [hcast] at h
            simp only at h
            cases hrest : typecheck_array_lit_loop env base_ty n (i + 1) (args.set i c) with
            | none => rw [hrest] at h; cases h
            | some rest =>
              rw [hrest] at h
              simp only [Option.some.injEq] at h
              subst h
              have hok2 : ∀ d ∈ rest.log, d.kind ≠ .ERR_TYPE_ERROR_UNCR :=
                fun d hd => hok d (List.mem_append_right _ hd)
              obtain ⟨hl, hframe, hrule⟩ := ih (i + 1) (args.set i c) rest hrest hok2
              refine ⟨by simpa using hl, ?_, ?_⟩
              · intro k hk
                rw [hframe k (by omega)]
                exact List.getElem?_set_ne (by omega)
              · intro k a hk1 hk2 ha
                by_cases hki : k = i
                · subst hki
                  rw [harg] at ha
                  cases ha
                  refine ⟨c, ?_, hcast⟩
                  show rest.val[k]? = some c
                  rw [hframe k (Or.inl (Nat.lt_succ_self k))]
                  exact List.getElem?_set_self hi
                · have ha2 : (args.set i c)[k]? = some a := by
                    rw [List.getElem?_set_ne (by omega)]; exact ha
                  exact hrule k a (by omega) (by omega) ha2
        | false =>
          simp only at h
          exfalso
          split at h
          · simp only [Option.some.injEq] at h
            subst h
            exact hok ⟨.ERR_TYPE_ERROR_UNCR, arg.tok⟩ (by simp) rfl
          · cases hrest : typecheck_array_lit_loop env base_ty n (i + 1) args with
            | none => rw [hrest] at h; cases h
            | some rest =>
              rw [hrest] at h
              simp only [Option.some.injEq] at h
              subst h
              exact hok ⟨.ERR_TYPE_ERROR_UNCR, arg.tok⟩ (by simp) rfl

/-- C12: when `typecheck_array_lit` completes without reporting an error, the
literal has the same number of elements in the same order, and every element
is a node whose `data_type` is the peeled base type of the literal and which
wraps the original element (as the left operand of an `ND_CAST`, or as the
right operand of an `ND_REF`). -/
theorem typecheck_array_lit_spec (env : Helpers) (a : ASTNode) (ty : ASTType)
    (r : Checked ASTNode) (hty : a.data_type = some ty)
    (hr : typecheck_array_lit env a = some r)
    (hok : ∀ d ∈ r.log, d.kind ≠ .ERR_TYPE_ERROR_UNCR) :
    r.val = { a with args := r.val.args } ∧
    r.val.args.length = a.args.length ∧
    ∀ (i : Nat) (arg : ASTNode), a.args[i]? = some arg →
      ∃ c, r.val.args[i]? = some c ∧ c.data_type = unpack_ptr env ty.base ∧
        ((c.kind = .ND_CAST ∧ c.left = some arg) ∨ (c.kind = .ND_REF ∧ c.right = some arg)) := by
  unfold typecheck_array_lit at hr
  rw [hty] at hr
  simp only at hr
  cases hloop : typecheck_array_lit_loop env (unpack_ptr env ty.base) a.args.length 0 a.args with
  | none => rw [hloop] at hr; cases hr
  | some res =>
    rw [hloop] at hr
    simp only [Option.some.injEq] at hr
    subst hr
    obtain ⟨hl, -, hrule⟩ :=
      typecheck_array_lit_loop_spec env _ _ _ _ res hloop hok
    refine ⟨by simp [hty], hl, ?_⟩
    intro i arg harg
    have hi : i < a.args.length := by
      rcases List.getElem?_eq_some.mp harg with ⟨hlt, -⟩
      exact hlt
    obtain ⟨c, hc, hcast⟩ := hrule i arg (Nat.zero_le i) (by omega) harg
    obtain ⟨hd, hw⟩ := implicit_cast_wraps env arg.tok arg c _ hcast
    exact ⟨c, hc, hd, hw⟩

/-- The array literal `[1]` of type `i32[2]`. -/
theorem typecheck_array_lit_spec_witness :
    ∃ r, typecheck_array_lit sample_helpers sample_array_lit = some r ∧
      r.val.args.length = sample_array_lit.args.length ∧
      ∀ (i : Nat) (arg : ASTNode), sample_array_lit.args[i]? = some arg →
        ∃ c, r.val.args[i]? = some c ∧
          c.data_type = unpack_ptr sample_helpers array_of_i32.base ∧
          ((c.kind = .ND_CAST ∧ c.left = some arg) ∨
            (c.kind = .ND_REF ∧ c.right = some arg)) :=
  ⟨_, rfl,
    (typecheck_array_lit_spec sample_helpers sample_array_lit array_of_i32 _ rfl rfl
      (by decide)).2⟩

/-- C13, evaluated: checking the array literal `[1]` of type `i32[2]` a
second time changes it again.  The first run wraps the element `1` in an
`ND_CAST` node, the second run wraps that node in a further `ND_CAST` node;
neither run reports anything. -/
theorem typecheck_array_lit_twice :
    ∃ r1 r2, typecheck_array_lit sample_helpers sample_array_lit = some r1 ∧
      typecheck_array_lit sample_helpers r1.val = some r2 ∧
      r1.log = [] ∧ r2.log = [] ∧
      r1.val.args.map (fun c => c.left.map ASTNode.kind) = [some .ND_INT] ∧
      r2.val.args.map (fun c => c.left.map ASTNode.kind) = [some .ND_CAST] ∧
      r2.val.args ≠ r1.val.args := by
  refine ⟨_, _, rfl, rfl, rfl, rfl, rfl, rfl, ?_⟩
  intro h
  have hk := congrArg (List.map (fun c => c.left.map ASTNode.kind)) h
  exact absurd hk (by decide)

/-! ## Lemmas on the parser monad -/

theorem PM.bind_ok {α β : Type} {m : PM α} {f : α → PM β} {p q : Parser} {v : α}
    (h : m p = .ok v q) : (m >>= f) p = f v q := by
  show PM.bind m f p = _
  simp [PM.bind, h]

theorem PM.bind_aborted {α β : Type} {m : PM α} {f : α → PM β} {p q : Parser}
    (h : m p = .aborted q) : (m >>= f) p = .aborted q := by
  show PM.bind m f p = _
  simp [PM.bind, h]

theorem PM.bind_inv {α β : Type} {m : PM α} {f : α → PM β} {p q : Parser} {v : β}
    (h : (m >>= f) p = .ok v q) : ∃ a p1, m p = .ok a p1 ∧ f a p1 = .ok v q := by
  change PM.bind m f p = _ at h
  unfold PM.bind at h
  split at h
  · next a p1 hm => exact ⟨a, p1, hm, h⟩
  all_goals cases h

theorem PM.pure_apply {α : Type} (v : α) (p : Parser) : (pure v : PM α) p = .ok v p := rfl

theorem get_state_apply (p : Parser) : get_state p = .ok p p := rfl

theorem PM.bind_get_state {β : Type} (f : Parser → PM β) (p : Parser) :
    (get_state >>= f) p = f p p := rfl

theorem PM.bind_pure {α β : Type} (v : α) (f : α → PM β) (p : Parser) :
    ((pure v : PM α) >>= f) p = f v p := rfl

theorem PM.when_false {α : Type} (m : PM α) (p : Parser) : PM.when false m p = .ok () p := rfl

theorem PM.when_true_ok {α : Type} {m : PM α} {p q : Parser} {v : α} (h : m p = .ok v q) :
    PM.when true m p = .ok () q := by
  show (m >>= fun _ => pure ()) p = _
  rw [PM.bind_ok h]; rfl

theorem throw_error_warning (env : ParserEnv) (tok : Option Token) (p : Parser) :
    throw_error env .ERR_SYNTAX_WARNING tok p
      = .ok () { p with log := p.log ++ [⟨.ERR_SYNTAX_WARNING, tok⟩] } := by
  simp [throw_error, throw_error_halts, is_warning]

theorem parser_advance_at (env : ParserEnv) {ts : List Token} {i : Nat} {t t1 : Token}
    {p : Parser} (h : At ts i t p) (h1 : ts[i + 1]? = some t1) :
    ∃ q, parser_advance env p = .ok t1 q ∧ At ts (i + 1) t1 q := by
  obtain ⟨hts, hi, _⟩ := h
  unfold parser_advance
  rw [hts, hi, h1]
  dsimp only
  split
  · rw [PM.bind_ok (throw_error_warning env _ _)]
    exact ⟨_, rfl, rfl, rfl, rfl⟩
  · exact ⟨_, rfl, rfl, rfl, rfl⟩

theorem parser_consume_at (env : ParserEnv) {ts : List Token} {i : Nat} {t t1 : Token}
    {p : Parser} (type : TokenType) (h : At ts i t p) (hty : t.type = type)
    (h1 : ts[i + 1]? = some t1) :
    ∃ q, parser_consume env type p = .ok t1 q ∧ At ts (i + 1) t1 q := by
  unfold parser_consume
  rw [PM.bind_get_state]
  have hc : (!tok_is p type) = false := by simp [tok_is, h.2.2, hty]
  rw [hc, PM.bind_ok (PM.when_false _ _)]
  exact parser_advance_at env h h1

/-! ## The generated names are injective -/

theorem digit_value_digitChar (d : Nat) (h : d < 10) : (Nat.digitChar d).toNat - 48 = d := by
  interval_cases d <;> rfl

theorem digits_value_toDigitsCore (fuel : Nat) : ∀ (n : Nat) (ds : List Char), n < fuel →
    (Nat.toDigitsCore 10 fuel n ds).foldl (fun a c => 10 * a + (c.toNat - 48)) 0
      = ds.foldl (fun a c => 10 * a + (c.toNat - 48)) n := by
  induction fuel with
  | zero => intro n ds h; exact absurd h (Nat.not_lt_zero _)
  | succ fuel ih =>
    intro n ds h
    rw [Nat.toDigitsCore]
    split
    · next h0 =>
      have hn : n < 10 := by omega
      rw [List.foldl_cons, Nat.mod_eq_of_lt hn, digit_value_digitChar n hn]
      simp
    · next h0 =>
      rw [ih (n / 10) _ (by omega), List.foldl_cons,
        digit_value_digitChar (n % 10) (Nat.mod_lt _ (by decide))]
      congr 1
      omega

theorem nat_repr_injective {n m : Nat} (h : Nat.repr n = Nat.repr m) : n = m := by
  have h1 : Nat.toDigits 10 n = Nat.toDigits 10 m := by
    have := congrArg String.data h
    simpa [Nat.repr, List.asString] using this
  have h2 := congrArg (List.foldl (fun a c => 10 * a + (c.toNat - 48)) 0) h1
  simp only [Nat.toDigits] at h2
  rw [digits_value_toDigitsCore (n + 1) n [] (Nat.lt_succ_self n),
    digits_value_toDigitsCore (m + 1) m [] (Nat.lt_succ_self m)] at h2
  simpa using h2

theorem lambda_callee_injective {n m : Nat} (h : lambda_callee n = lambda_callee m) : n = m := by
  unfold lambda_callee at h
  have h1 := congrArg String.data h
  simp only [String.data_append, List.append_assoc] at h1
  have h2 := List.append_cancel_left h1
  have h3 := List.append_cancel_right h2
  apply nat_repr_injective
  exact String.ext h3

theorem tuple_callee_injective {n m : Nat} (h : tuple_callee n = tuple_callee m) : n = m := by
  unfold tuple_callee at h
  have h1 := congrArg String.data h
  simp only [String.data_append, List.append_assoc] at h1
  have h2 := List.append_cancel_left h1
  have h3 := List.append_cancel_right h2
  apply nat_repr_injective
  exact String.ext h3

theorem parse_identifier_at (env : ParserEnv) {ts : List Token} {i n : Nat} {t t1 : Token}
    {p : Parser} (h : At ts i t p) (hty : t.type = .TOKEN_ID) (h1 : ts[i + 1]? = some t1)
    (hn : t1.type ≠ .TOKEN_STATIC_MEMBER) :
    ∃ q, parse_identifier env (n + 1) p = .ok (plain_id t.value) q ∧ At ts (i + 1) t1 q := by
  unfold parse_identifier __parse_identifier
  rw [PM.bind_get_state]
  have hc : tok_is p .TOKEN_STATIC_MEMBER = false := by simp [tok_is, h.2.2, hty]
  simp only [hc, Bool.false_eq_true, if_false]
  rw [PM.bind_pure, PM.bind_get_state]
  obtain ⟨q, hq, hat⟩ := parser_consume_at env .TOKEN_ID h hty h1
  rw [PM.bind_ok hq, PM.bind_get_state]
  have hc2 : tok_is q .TOKEN_STATIC_MEMBER = false := by simp [tok_is, hat.2.2, hn]
  simp only [hc2, Bool.false_and, Bool.false_eq_true, if_false]
  exact ⟨q, by simp [PM.pure_apply, init_ast_identifier, plain_id, h.2.2], hat⟩

theorem parse_id_at (env : ParserEnv) (fs : ParseFns) {ts : List Token} {i n : Nat}
    {t t1 : Token} {p : Parser} (hf : fs.fuel = n + 1) (h : At ts i t p)
    (hty : t.type = .TOKEN_ID) (h1 : ts[i + 1]? = some t1)
    (hn : t1.type ≠ .TOKEN_STATIC_MEMBER) (hl : t1.type ≠ .TOKEN_LPAREN) :
    ∃ q, parse_id env fs p = .ok (atom_node env t) q ∧ At ts (i + 1) t1 q := by
  unfold parse_id
  rw [PM.bind_get_state, hf]
  obtain ⟨q, hq, hat⟩ := parse_identifier_at env (n := n) h hty h1 hn
  rw [PM.bind_ok hq, PM.bind_get_state, hat.2.2]
  refine ⟨q, ?_, hat⟩
  simp [hl, hn, PM.pure_apply, atom_node, hty, h.2.2]

theorem parse_int_lit_at (env : ParserEnv) {ts : List Token} {i : Nat}
    {t t1 : Token} {p : Parser} (h : At ts i t p)
    (hty : t.type = .TOKEN_INT) (h1 : ts[i + 1]? = some t1) :
    ∃ q, parse_int_lit env p = .ok (atom_node env t) q ∧ At ts (i + 1) t1 q := by
  unfold parse_int_lit
  rw [PM.bind_get_state]
  obtain ⟨q, hq, hat⟩ := parser_consume_at env .TOKEN_INT h hty h1
  rw [PM.bind_ok hq]
  refine ⟨q, ?_, hat⟩
  simp only [atom_node, hty, int_lit_node, h.2.2]
  split
  · rfl
  · split <;> rfl

theorem parse_atom_at (env : ParserEnv) (fs : ParseFns) {ts : List Token} {i n : Nat}
    {t t1 : Token} {p : Parser} (hf : fs.fuel = n + 1) (h : At ts i t p)
    (hty : is_atom t.type = true) (h1 : ts[i + 1]? = some t1)
    (hn : t1.type ≠ .TOKEN_STATIC_MEMBER) (hl : t1.type ≠ .TOKEN_LPAREN) :
    ∃ pfn, get_PrefixParseFn_T t.type = some pfn ∧
      ∃ q, call_PrefixParseFn_T env fs pfn p = .ok (atom_node env t) q ∧ At ts (i + 1) t1 q := by
  simp only [is_atom, Bool.or_eq_true, beq_iff_eq] at hty
  rcases hty with hty | hty
  · exact ⟨.parse_id, by rw [hty]; rfl,
      parse_id_at env fs hf h hty h1 hn hl⟩
  · exact ⟨.parse_int_lit, by rw [hty]; rfl,
      parse_int_lit_at env h hty h1⟩

theorem parse_expr_loop_stop (env : ParserEnv) (fs : ParseFns) (prec : Precedence_T)
    (end_tok : TokenType) (n : Nat) (left : ASTNode) {p : Parser}
    (hstop : (!tok_is p end_tok && decide (prec.val < (get_precedence p.tok.type).val)) = false) :
    parse_expr_loop env fs prec end_tok (n + 1) left p = .ok left p := by
  unfold parse_expr_loop
  rw [PM.bind_get_state, hstop]
  rfl

theorem parse_expr_loop_step (env : ParserEnv) (fs : ParseFns) (prec : Precedence_T)
    (end_tok : TokenType) (n : Nat) {left l1 : ASTNode} {p q : Parser} {ifn : InfixParseFn_T}
    (hgo : (!tok_is p end_tok && decide (prec.val < (get_precedence p.tok.type).val)) = true)
    (hifn : get_InfixParseFn_T p.tok.type = some ifn)
    (hcall : call_InfixParseFn_T env fs ifn left p = .ok l1 q) :
    parse_expr_loop env fs prec end_tok (n + 1) left p
      = parse_expr_loop env fs prec end_tok n l1 q := by
  conv => lhs; unfold parse_expr_loop
  rw [PM.bind_get_state, hgo]
  simp only [if_true, hifn]
  rw [PM.bind_ok hcall]

theorem parse_expr_body_eq (env : ParserEnv) (fs : ParseFns) (prec : Precedence_T)
    (end_tok : TokenType) {l : ASTNode} {p q : Parser} {pfn : PrefixParseFn_T}
    (hpfn : get_PrefixParseFn_T p.tok.type = some pfn)
    (hcall : call_PrefixParseFn_T env fs pfn p = .ok l q) :
    parse_expr_body env fs prec end_tok p = parse_expr_loop env fs prec end_tok fs.fuel l q := by
  unfold parse_expr_body
  rw [PM.bind_get_state]
  simp only [hpfn]
  rw [PM.bind_ok hcall]

theorem parse_num_op_at (env : ParserEnv) (fs : ParseFns) (left : ASTNode)
    (kind : ASTNodeKind) {ts : List Token} {i j : Nat} {o t1 tj : Token} {p : Parser}
    {r : ASTNode}
    (h : At ts i o p) (hkind : infix_ops o.type = some kind) (h1 : ts[i + 1]? = some t1)
    (hsub : ∀ q1, At ts (i + 1) t1 q1 →
      ∃ q2, fs.parse_expr (get_precedence o.type) .TOKEN_EOF q1 = .ok r q2 ∧ At ts j tj q2) :
    ∃ q2, parse_num_op env fs left p
        = .ok { init_ast_node kind (some o) with left := some left, right := some r } q2
      ∧ At ts j tj q2 := by
  unfold parse_num_op
  rw [PM.bind_get_state, h.2.2]
  simp only [hkind]
  obtain ⟨q1, ha, hat⟩ := parser_advance_at env h h1
  rw [PM.bind_ok ha]
  obtain ⟨q2, hb, hat2⟩ := hsub q1 hat
  rw [get_precedence] at hb
  rw [PM.bind_ok hb]
  exact ⟨q2, rfl, hat2⟩

theorem parse_bool_op_at (env : ParserEnv) (fs : ParseFns) (left : ASTNode)
    (kind : ASTNodeKind) {ts : List Token} {i j : Nat} {o t1 tj : Token} {p : Parser}
    {r : ASTNode}
    (h : At ts i o p) (hkind : infix_ops o.type = some kind) (h1 : ts[i + 1]? = some t1)
    (hsub : ∀ q1, At ts (i + 1) t1 q1 →
      ∃ q2, fs.parse_expr (get_precedence o.type) .TOKEN_EOF q1 = .ok r q2 ∧ At ts j tj q2) :
    ∃ q2, parse_bool_op env fs left p
        = .ok { init_ast_node kind (some o) with
                left := some left, right := some r,
                data_type := some (env.primitives .TY_BOOL) } q2
      ∧ At ts j tj q2 := by
  unfold parse_bool_op
  rw [PM.bind_get_state, h.2.2]
  simp only [hkind]
  obtain ⟨q1, ha, hat⟩ := parser_advance_at env h h1
  rw [PM.bind_ok ha]
  obtain ⟨q2, hb, hat2⟩ := hsub q1 hat
  rw [get_precedence] at hb
  rw [PM.bind_ok hb]
  exact ⟨q2, rfl, hat2⟩

theorem binary_op_cases {type : TokenType} (hk : (binary_op_kind type).isSome = true) :
    type = .TOKEN_PLUS ∨ type = .TOKEN_MINUS ∨ type = .TOKEN_STAR ∨ type = .TOKEN_SLASH
    ∨ type = .TOKEN_PERCENT ∨ type = .TOKEN_LSHIFT ∨ type = .TOKEN_RSHIFT ∨ type = .TOKEN_REF
    ∨ type = .TOKEN_BIT_OR ∨ type = .TOKEN_XOR ∨ type = .TOKEN_EQ ∨ type = .TOKEN_NOT_EQ
    ∨ type = .TOKEN_LT ∨ type = .TOKEN_LT_EQ ∨ type = .TOKEN_GT ∨ type = .TOKEN_GT_EQ
    ∨ type = .TOKEN_AND ∨ type = .TOKEN_OR := by
  cases type <;> first | (exact absurd hk (by decide)) | decide

theorem call_binary_op_at (env : ParserEnv) (fs : ParseFns) (left : ASTNode)
    {ts : List Token} {i j : Nat} {o t1 tj : Token} {p : Parser} {r : ASTNode}
    (h : At ts i o p) (hk : (binary_op_kind o.type).isSome = true) (h1 : ts[i + 1]? = some t1)
    (hsub : ∀ q1, At ts (i + 1) t1 q1 →
      ∃ q2, fs.parse_expr (get_precedence o.type) .TOKEN_EOF q1 = .ok r q2 ∧ At ts j tj q2) :
    ∃ ifn, get_InfixParseFn_T o.type = some ifn ∧
      ∃ q2, call_InfixParseFn_T env fs ifn left p = .ok (binary_node env o left r) q2
        ∧ At ts j tj q2 := by
  have hnum := fun kind hkind =>
    parse_num_op_at env fs left kind h hkind h1 hsub
  have hbool := fun kind hkind =>
    parse_bool_op_at env fs left kind h hkind h1 hsub
  rcases binary_op_cases hk with ho | ho | ho | ho | ho | ho | ho | ho | ho | ho | ho | ho
      | ho | ho | ho | ho | ho | ho
  all_goals
    first
    | exact ⟨.parse_num_op, by rw [ho]; rfl, by
        obtain ⟨q2, hq, hat⟩ := hnum _ (by rw [ho]; rfl)
        exact ⟨q2, by rw [call_InfixParseFn_T, hq, binary_node, ho]; rfl, hat⟩⟩
    | exact ⟨.parse_bit_op, by rw [ho]; rfl, by
        obtain ⟨q2, hq, hat⟩ := hnum _ (by rw [ho]; rfl)
        exact ⟨q2, by rw [call_InfixParseFn_T, parse_bit_op, hq, binary_node, ho]; rfl, hat⟩⟩
    | exact ⟨.parse_bool_op, by rw [ho]; rfl, by
        obtain ⟨q2, hq, hat⟩ := hbool _ (by rw [ho]; rfl)
        exact ⟨q2, by rw [call_InfixParseFn_T, hq, binary_node, ho]; rfl, hat⟩⟩

theorem binary_op_precedence {type : TokenType} (hk : (binary_op_kind type).isSome = true) :
    0 < (get_precedence type).val ∧ type ≠ .TOKEN_EOF := by
  rcases binary_op_cases hk with ho | ho | ho | ho | ho | ho | ho | ho | ho | ho | ho | ho
      | ho | ho | ho | ho | ho | ho
  all_goals (subst ho; exact ⟨by decide, by decide⟩)

theorem parse_expr_loop_binary (env : ParserEnv) (fs : ParseFns) (prec : Precedence_T)
    (end_tok : TokenType) (n : Nat) (left : ASTNode) {ts : List Token} {i j : Nat}
    {o t1 tj : Token} {p : Parser} {r : ASTNode}
    (h : At ts i o p) (hk : (binary_op_kind o.type).isSome = true) (h1 : ts[i + 1]? = some t1)
    (hend : o.type ≠ end_tok) (hprec : prec.val < (get_precedence o.type).val)
    (hsub : ∀ q1, At ts (i + 1) t1 q1 →
      ∃ q2, fs.parse_expr (get_precedence o.type) .TOKEN_EOF q1 = .ok r q2 ∧ At ts j tj q2) :
    ∃ q2, parse_expr_loop env fs prec end_tok (n + 1) left p
        = parse_expr_loop env fs prec end_tok n (binary_node env o left r) q2
      ∧ At ts j tj q2 := by
  obtain ⟨ifn, hifn, q2, hcall, hat⟩ := call_binary_op_at env fs left h hk h1 hsub
  refine ⟨q2, ?_, hat⟩
  apply parse_expr_loop_step env fs prec end_tok n _ _ hcall
  · simp [tok_is, h.2.2, hend, hprec]
  · rw [h.2.2]; exact hifn

theorem parse_expr_loop_stop_at (env : ParserEnv) (fs : ParseFns) (prec : Precedence_T)
    (end_tok : TokenType) (n : Nat) (left : ASTNode) {ts : List Token} {i : Nat} {t : Token}
    {p : Parser} (h : At ts i t p)
    (hstop : t.type = end_tok ∨ ¬ prec.val < (get_precedence t.type).val) :
    parse_expr_loop env fs prec end_tok (n + 1) left p = .ok left p := by
  apply parse_expr_loop_stop
  rw [tok_is, h.2.2]
  rcases hstop with hs | hs <;> simp [hs]

theorem parse_expr_atom_at (env : ParserEnv) (m : Nat) (prec : Precedence_T)
    (end_tok : TokenType) {ts : List Token} {i : Nat} {t t1 : Token} {p : Parser}
    (h : At ts i t p) (hty : is_atom t.type = true) (h1 : ts[i + 1]? = some t1)
    (hn : t1.type ≠ .TOKEN_STATIC_MEMBER) (hl : t1.type ≠ .TOKEN_LPAREN)
    (hstop : t1.type = end_tok ∨ ¬ prec.val < (get_precedence t1.type).val) :
    ∃ q, (parse_fns env (m + 3)).parse_expr prec end_tok p = .ok (atom_node env t) q
      ∧ At ts (i + 1) t1 q := by
  show ∃ q, parse_expr_body env (parse_fns env (m + 2)) prec end_tok p = _ ∧ _
  obtain ⟨pfn, hpfn, q, hcall, hat⟩ :=
    parse_atom_at env (parse_fns env (m + 2)) (n := m) rfl h hty h1 hn hl
  rw [← h.2.2] at hpfn
  rw [parse_expr_body_eq env _ prec end_tok hpfn hcall]
  exact ⟨q, parse_expr_loop_stop_at env _ prec end_tok m _ hat hstop, hat⟩

/-- The parse of `x o1 y o2 z` followed by a token `te` of precedence
`LOWEST`: the tree is `o1(x, o2(y, z))` when `o2` binds more tightly than `o1`,
else `o2(o1(x, y), z)`. -/
theorem parse_expr_two_ops (env : ParserEnv) (k : Nat) (end_tok : TokenType)
    (x o1 y o2 z te : Token) (ts : List Token) (i : Nat) (p : Parser)
    (h : At ts i x p)
    (h1 : ts[i + 1]? = some o1) (h2 : ts[i + 2]? = some y) (h3 : ts[i + 3]? = some o2)
    (h4 : ts[i + 4]? = some z) (h5 : ts[i + 5]? = some te)
    (hx : is_atom x.type = true) (hy : is_atom y.type = true) (hz : is_atom z.type = true)
    (ho1 : (binary_op_kind o1.type).isSome = true) (ho2 : (binary_op_kind o2.type).isSome = true)
    (he1 : o1.type ≠ end_tok) (he2 : o2.type ≠ end_tok)
    (hte : get_precedence te.type = .LOWEST) (hte2 : te.type ≠ .TOKEN_STATIC_MEMBER) :
    ∃ q, parse_expr env (k + 5) .LOWEST end_tok p
        = .ok (if (get_precedence o1.type).val < (get_precedence o2.type).val
               then binary_node env o1 (atom_node env x)
                      (binary_node env o2 (atom_node env y) (atom_node env z))
               else binary_node env o2
                      (binary_node env o1 (atom_node env x) (atom_node env y))
                      (atom_node env z)) q
      ∧ At ts (i + 5) te q := by
  have hp1 := binary_op_precedence ho1
  have hp2 := binary_op_precedence ho2
  have hstop : ∀ (prec : Precedence_T) (e : TokenType),
      te.type = e ∨ ¬ prec.val < (get_precedence te.type).val := by
    intro prec e; right; rw [hte]; exact Nat.not_lt_zero _
  have hteL : te.type ≠ .TOKEN_LPAREN := by
    intro hc; rw [hc] at hte; exact absurd hte (by decide)
  have hnotL : ∀ {type : TokenType}, (binary_op_kind type).isSome = true →
      type ≠ .TOKEN_STATIC_MEMBER ∧ type ≠ .TOKEN_LPAREN := by
    intro type hk
    constructor <;> (intro hc; rw [hc] at hk; exact absurd hk (by decide))
  -- the first atom
  show ∃ q, parse_expr_body env (parse_fns env (k + 4)) .LOWEST end_tok p = _ ∧ _
  obtain ⟨pfn, hpfn, q1, hcall, hat1⟩ :=
    parse_atom_at env (parse_fns env (k + 4)) (n := k + 2) rfl h hx h1 (hnotL ho1).1 (hnotL ho1).2
  rw [← h.2.2] at hpfn
  rw [parse_expr_body_eq env _ .LOWEST end_tok hpfn hcall]
  show ∃ q, parse_expr_loop env (parse_fns env (k + 4)) .LOWEST end_tok (k + 2 + 1) _ q1 = _ ∧ _
  by_cases hlt : (get_precedence o1.type).val < (get_precedence o2.type).val
  · rw [if_pos hlt]
    -- the right operand of `o1` is `y o2 z`
    have hsub1 : ∀ q, At ts (i + 1 + 1) y q →
        ∃ q2, (parse_fns env (k + 4)).parse_expr (get_precedence o1.type) .TOKEN_EOF q
            = .ok (binary_node env o2 (atom_node env y) (atom_node env z)) q2
          ∧ At ts (i + 5) te q2 := by
      intro q hq
      show ∃ q2, parse_expr_body env (parse_fns env (k + 3)) _ _ q = _ ∧ _
      obtain ⟨pfn2, hpfn2, q3, hcall2, hat3⟩ :=
        parse_atom_at env (parse_fns env (k + 3)) (n := k + 1) rfl hq hy h3
          (hnotL ho2).1 (hnotL ho2).2
      rw [← hq.2.2] at hpfn2
      rw [parse_expr_body_eq env _ _ _ hpfn2 hcall2]
      show ∃ q2, parse_expr_loop env (parse_fns env (k + 3)) _ _ (k + 1 + 1) _ q3 = _ ∧ _
      have hsub2 : ∀ q, At ts (i + 1 + 1 + 1 + 1) z q →
          ∃ q2, (parse_fns env (k + 3)).parse_expr (get_precedence o2.type) .TOKEN_EOF q
              = .ok (atom_node env z) q2 ∧ At ts (i + 5) te q2 := by
        intro q hq
        exact parse_expr_atom_at env k _ _ hq hz h5 hte2 hteL (hstop _ _)
      obtain ⟨q4, hloop, hat4⟩ :=
        parse_expr_loop_binary env (parse_fns env (k + 3)) (get_precedence o1.type) .TOKEN_EOF
          (k + 1) (atom_node env y) hat3 ho2 h4 hp2.2 hlt hsub2
      rw [hloop]
      exact ⟨q4, parse_expr_loop_stop_at env _ _ _ k _ hat4 (hstop _ _), hat4⟩
    obtain ⟨q5, hloop, hat5⟩ :=
      parse_expr_loop_binary env (parse_fns env (k + 4)) .LOWEST end_tok (k + 2)
        (atom_node env x) hat1 ho1 h2 he1 hp1.1 hsub1
    rw [hloop]
    exact ⟨q5, parse_expr_loop_stop_at env _ _ _ (k + 1) _ hat5 (hstop _ _), hat5⟩
  · rw [if_neg hlt]
    -- the right operand of `o1` is `y`
    have hsub1 : ∀ q, At ts (i + 1 + 1) y q →
        ∃ q2, (parse_fns env (k + 4)).parse_expr (get_precedence o1.type) .TOKEN_EOF q
            = .ok (atom_node env y) q2 ∧ At ts (i + 3) o2 q2 := by
      intro q hq
      exact parse_expr_atom_at env (k + 1) _ _ hq hy h3 (hnotL ho2).1 (hnotL ho2).2 (Or.inr hlt)
    obtain ⟨q3, hloop, hat3⟩ :=
      parse_expr_loop_binary env (parse_fns env (k + 4)) .LOWEST end_tok (k + 2)
        (atom_node env x) hat1 ho1 h2 he1 hp1.1 hsub1
    rw [hloop]
    have hsub2 : ∀ q, At ts (i + 3 + 1) z q →
        ∃ q2, (parse_fns env (k + 4)).parse_expr (get_precedence o2.type) .TOKEN_EOF q
            = .ok (atom_node env z) q2 ∧ At ts (i + 5) te q2 := by
      intro q hq
      exact parse_expr_atom_at env (k + 1) _ _ hq hz h5 hte2 hteL (hstop _ _)
    obtain ⟨q4, hloop2, hat4⟩ :=
      parse_expr_loop_binary env (parse_fns env (k + 4)) .LOWEST end_tok (k + 1)
        (binary_node env o1 (atom_node env x) (atom_node env y)) hat3 ho2 h4 he2 hp2.1 hsub2
    rw [hloop2]
    exact ⟨q4, parse_expr_loop_stop_at env _ _ _ k _ hat4 (hstop _ _), hat4⟩

/-! ## Frame lemmas -/

theorem range_split {a b c : Nat} (h1 : a ≤ b) (h2 : b ≤ c) :
    List.range' a (c - a) = List.range' a (b - a) ++ List.range' b (c - b) := by
  obtain ⟨x, rfl⟩ := Nat.exists_eq_add_of_le h1
  obtain ⟨y, rfl⟩ := Nat.exists_eq_add_of_le h2
  have e1 : a + x + y - a = x + y := by omega
  have e2 : a + x - a = x := by omega
  have e3 : a + x + y - (a + x) = y := by omega
  rw [e1, e2, e3]
  have := List.range'_append a x y 1
  rw [Nat.one_mul] at this
  rw [this, Nat.add_comm]

theorem Frame.refl (p : Parser) : Frame p p :=
  ⟨id, rfl, Nat.le_refl _, [], [], by simp, rfl, by simp⟩

theorem Frame.trans {p q r : Parser} (h1 : Frame p q) (h2 : Frame q r) : Frame p r := by
  obtain ⟨l1, ks1, ho1, hi1, hp1⟩ := h1.objs
  obtain ⟨l2, ks2, ho2, hi2, hp2⟩ := h2.objs
  refine ⟨fun h => h1.holes (h2.holes h), h2.cur_fn.trans h1.cur_fn,
    Nat.le_trans h1.lambda_le h2.lambda_le, l1 ++ l2, ks1 ++ ks2, ?_, ?_, ?_⟩
  · rw [ho2, ho1, List.append_assoc]
  · simp [lambda_ids] at hi1 hi2 ⊢
    rw [hi1, hi2]
  · rw [range_split h1.lambda_le h2.lambda_le]
    exact List.Perm.append hp1 hp2

/-- A state change that leaves the hole flag, the current function, the lambda
counter and the objects alone. -/
theorem Frame.of_eq {p q : Parser} (h1 : q.holes_enabled = p.holes_enabled)
    (h2 : q.cur_fn = p.cur_fn) (h3 : q.cur_lambda_id = p.cur_lambda_id) (h4 : q.objs = p.objs) :
    Frame p q :=
  ⟨fun h => h1 ▸ h, h2, Nat.le_of_eq h3.symm, [], [], by simp [h4], rfl, by simp [h3]⟩

theorem step_pure {α : Type} (v : α) : Step (pure v : PM α) := by
  intro p v1 q h
  cases h
  exact Frame.refl p

theorem step_bind {α β : Type} {m : PM α} {f : α → PM β} (hm : Step m) (hf : ∀ a, Step (f a)) :
    Step (m >>= f) := by
  intro p v q h
  obtain ⟨a, p1, h1, h2⟩ := PM.bind_inv h
  exact Frame.trans (hm p a p1 h1) (hf a p1 v q h2)

theorem step_get_state : Step get_state := by
  intro p v q h
  cases h
  exact Frame.refl p

theorem step_get_state_bind {β : Type} {f : Parser → PM β} (hf : ∀ p, Step (f p)) :
    Step (get_state >>= f) :=
  step_bind step_get_state hf

theorem step_unsupported {α : Type} : Step (PM.unsupported : PM α) := by
  intro p v q h; cases h

theorem step_undefined {α : Type} : Step (PM.undefined : PM α) := by
  intro p v q h; cases h

theorem step_out_of_fuel {α : Type} : Step (PM.out_of_fuel : PM α) := by
  intro p v q h; cases h

theorem step_ite {α : Type} {c : Prop} [Decidable c] {a b : PM α} (ha : Step a) (hb : Step b) :
    Step (if c then a else b) := by
  split
  · exact ha
  · exact hb

theorem step_when {α : Type} (c : Bool) {m : PM α} (hm : Step m) : Step (PM.when c m) := by
  unfold PM.when
  exact step_ite (step_bind hm fun _ => step_pure _) (step_pure _)

theorem step_throw_error (env : ParserEnv) (kind : ErrorType) (tok : Option Token) :
    Step (throw_error env kind tok) := by
  intro p v q h
  unfold throw_error at h
  split at h
  · cases h
  · cases h
    exact Frame.of_eq rfl rfl rfl rfl

theorem step_parser_advance (env : ParserEnv) : Step (parser_advance env) := by
  intro p v q h
  unfold parser_advance at h
  split at h
  · cases h
  · next t ht =>
    have hf : Frame p { p with token_i := p.token_i + 1, tok := t } :=
      Frame.of_eq rfl rfl rfl rfl
    split at h
    · exact Frame.trans hf
        (step_bind (step_throw_error env _ _) (fun _ => step_pure _) _ _ _ h)
    · cases h
      exact hf

theorem step_parser_consume (env : ParserEnv) (type : TokenType) :
    Step (parser_consume env type) := by
  unfold parser_consume
  exact step_get_state_bind fun p =>
    step_bind (step_when _ (step_throw_error env _ _)) fun _ => step_parser_advance env

theorem step_set_cur_block (block : Option ASTNode) : Step (set_cur_block block) := by
  intro p v q h
  cases h
  exact Frame.of_eq rfl rfl rfl rfl

theorem lambda_ids_append (l1 l2 : List ASTObj) :
    lambda_ids (l1 ++ l2) = lambda_ids l1 ++ lambda_ids l2 := by
  simp [lambda_ids]

theorem step_parser_generate_tuple_type (tuple : ASTType) (tuple_tok : Option Token) :
    Step (parser_generate_tuple_type tuple tuple_tok) := by
  intro p v q h
  unfold parser_generate_tuple_type at h
  split at h
  · cases h
  · split at h
    · cases h
    · cases h
      exact Frame.refl p
  · cases h
    refine ⟨id, rfl, Nat.le_refl _, _, [], rfl, ?_, by simp⟩
    simp [lambda_ids, init_ast_obj]

/-- The hole flag around the right-hand side of a pipe: whatever happens in
between, the flag is off afterwards. -/
theorem step_holes_bracket {α β : Type} {m : PM α} {f : α → PM β} (hm : Step m)
    (hf : ∀ a, Step (f a)) :
    Step (parser_enable_holes >>= fun _ => m >>= fun a => parser_disable_holes >>= fun _ => f a) := by
  intro p v q h
  obtain ⟨_, p1, h1, h⟩ := PM.bind_inv h
  obtain ⟨a, p2, h2, h⟩ := PM.bind_inv h
  obtain ⟨_, p3, h3, h⟩ := PM.bind_inv h
  cases h1
  cases h3
  have hm2 := hm _ _ _ h2
  have hp3 : Frame p { p2 with holes_enabled := false } :=
    ⟨fun hc => (by cases hc), hm2.cur_fn, hm2.lambda_le, hm2.objs⟩
  exact Frame.trans hp3 (hf a _ _ _ h)

/-- The body of a lambda literal: the counter is read and advanced, the
current function is set for the body and put back, and the function object is
appended. -/
theorem step_lambda_core {α β : Type} {m : PM α} (hm : Step m) (lam : Nat → ASTObj)
    (obj : Nat → α → ASTObj) (res : Nat → α → β)
    (hobj : ∀ n a, (obj n a).kind = .OBJ_FUNCTION ∧ (obj n a).id = some (plain_id (lambda_callee n))) :
    Step (next_lambda_id >>= fun n => get_state >>= fun p => set_cur_fn (some (lam n)) >>= fun _ =>
      m >>= fun a => set_cur_fn p.cur_fn >>= fun _ => push_obj (obj n a) >>= fun _ =>
      pure (res n a)) := by
  intro p v q h
  obtain ⟨n, p1, h1, h⟩ := PM.bind_inv h
  obtain ⟨p1c, p1b, h1b, h⟩ := PM.bind_inv h
  obtain ⟨_, p2, h2, h⟩ := PM.bind_inv h
  obtain ⟨a, p3, h3, h⟩ := PM.bind_inv h
  obtain ⟨_, p4, h4, h⟩ := PM.bind_inv h
  obtain ⟨_, p5, h5, h⟩ := PM.bind_inv h
  cases h1
  cases h1b
  cases h2
  cases h4
  cases h5
  cases h
  have hm3 := hm _ _ _ h3
  obtain ⟨l, ks, ho, hi, hp⟩ := hm3.objs
  have hle := hm3.lambda_le
  simp only at hle ho hp
  refine ⟨hm3.holes, rfl, by simp only; omega, l ++ [obj p.cur_lambda_id a],
    ks ++ [p.cur_lambda_id], ?_, ?_, ?_⟩
  · simp only [ho, List.append_assoc]
  · rw [lambda_ids_append, hi]
    simp [lambda_ids, (hobj p.cur_lambda_id a).1, (hobj p.cur_lambda_id a).2]
  · simp only
    have e : List.range' p.cur_lambda_id (p3.cur_lambda_id - p.cur_lambda_id)
        = p.cur_lambda_id
          :: List.range' (p.cur_lambda_id + 1) (p3.cur_lambda_id - (p.cur_lambda_id + 1)) := by
      have : p3.cur_lambda_id - p.cur_lambda_id
          = (p3.cur_lambda_id - (p.cur_lambda_id + 1)) + 1 := by omega
      rw [this, List.range'_succ]
    rw [e]
    exact (List.perm_append_singleton _ _).trans (List.Perm.cons _ hp)

theorem step_parse_identifier_aux (env : ParserEnv) :
    ∀ (n : Nat) (outer : Option ASTIdentifier) (is_simple : Bool),
      Step (__parse_identifier env n outer is_simple) := by
  intro n
  induction n with
  | zero => intro _ _; exact step_out_of_fuel
  | succ n ih =>
    intro outer is_simple
    unfold __parse_identifier
    repeat' with_reducible first
      | exact ih _ _
      | exact step_parser_advance env
      | exact step_parser_consume env _
      | exact step_pure _
      | exact step_undefined
      | apply step_get_state_bind
      | apply step_bind
      | apply step_ite
      | intro _
      | split

theorem step_parse_identifier (env : ParserEnv) (n : Nat) : Step (parse_identifier env n) :=
  step_parse_identifier_aux env n none false

theorem step_parse_simple_identifier (env : ParserEnv) (n : Nat) :
    Step (parse_simple_identifier env n) :=
  step_parse_identifier_aux env n none true

/-! ## Every modelled parse function respects `Frame` -/

theorem step_parse_struct_members (env : ParserEnv) (fs : ParseFns) (hfs : Good fs) :
    ∀ (n : Nat) (members : List (ASTMember ASTType)), Step (parse_struct_members env fs n members) := by
  intro n
  induction n with
  | zero => intro _; exact step_out_of_fuel
  | succ n ih =>
    intro members
    unfold parse_struct_members
    repeat' with_reducible first
      | exact ih _
      | exact step_pure _
      | exact step_parser_consume env _
      | exact step_parse_simple_identifier env _
      | exact hfs.type
      | apply step_when
      | apply step_get_state_bind
      | apply step_bind
      | apply step_ite
      | intro _

theorem step_parse_struct_type (env : ParserEnv) (fs : ParseFns) (hfs : Good fs) :
    Step (parse_struct_type env fs) := by
  unfold parse_struct_type
  repeat' with_reducible first
    | exact step_parse_struct_members env fs hfs _ _
    | exact step_pure _
    | exact step_parser_consume env _
    | apply step_get_state_bind
    | apply step_bind
    | apply step_ite
    | intro _

theorem step_parse_lambda_arg_types (env : ParserEnv) (fs : ParseFns) (hfs : Good fs) :
    ∀ (n : Nat) (arg_types : List ASTType), Step (parse_lambda_arg_types env fs n arg_types) := by
  intro n
  induction n with
  | zero => intro _; exact step_out_of_fuel
  | succ n ih =>
    intro arg_types
    unfold parse_lambda_arg_types
    repeat' with_reducible first
      | exact ih _
      | exact step_pure _
      | exact step_parser_consume env _
      | exact hfs.type
      | apply step_when
      | apply step_get_state_bind
      | apply step_bind
      | apply step_ite
      | intro _

theorem step_parse_lambda_type (env : ParserEnv) (fs : ParseFns) (hfs : Good fs) :
    Step (parse_lambda_type env fs) := by
  unfold parse_lambda_type
  repeat' with_reducible first
    | exact step_parse_lambda_arg_types env fs hfs _ _
    | exact step_pure _
    | exact step_parser_consume env _
    | exact hfs.type
    | apply step_get_state_bind
    | apply step_bind
    | apply step_ite
    | intro _

theorem step_parse_tuple_members (env : ParserEnv) (fs : ParseFns) (hfs : Good fs) :
    ∀ (n : Nat) (i : Nat) (members : List (ASTMember ASTType)), Step (parse_tuple_members env fs n i members) := by
  intro n
  induction n with
  | zero => intro _ _; exact step_out_of_fuel
  | succ n ih =>
    intro i members
    unfold parse_tuple_members
    repeat' with_reducible first
      | exact ih _ _
      | exact step_pure _
      | exact step_parser_consume env _
      | exact hfs.type
      | apply step_when
      | apply step_get_state_bind
      | apply step_bind
      | apply step_ite
      | intro _

theorem step_parse_array_ty (env : ParserEnv) (fs : ParseFns) (hfs : Good fs) :
    ∀ (n : Nat) (type : ASTType), Step (parse_array_ty env fs n type) := by
  intro n
  induction n with
  | zero => intro _; exact step_out_of_fuel
  | succ n ih =>
    intro type
    unfold parse_array_ty
    repeat' with_reducible first
      | exact ih _
      | exact step_pure _
      | exact step_parser_advance env
      | exact step_parser_consume env _
      | exact hfs.expr _ _
      | apply step_when
      | apply step_get_state_bind
      | apply step_bind
      | apply step_ite
      | intro _

theorem step_parse_type_switch (env : ParserEnv) (fs : ParseFns) (hfs : Good fs) :
    Step (parse_type_switch env fs) := by
  unfold parse_type_switch
  repeat' with_reducible first
    | exact step_parse_lambda_type env fs hfs
    | exact step_parse_struct_type env fs hfs
    | exact step_parse_tuple_members env fs hfs _ _ _
    | exact step_pure _
    | exact step_unsupported
    | exact step_parser_advance env
    | exact step_parser_consume env _
    | exact step_parse_identifier env _
    | exact step_parser_generate_tuple_type _ _
    | exact hfs.expr _ _
    | exact hfs.type
    | apply step_get_state_bind
    | apply step_bind
    | intro _
    | split

theorem step_parse_type_body (env : ParserEnv) (fs : ParseFns) (hfs : Good fs) :
    Step (parse_type_body env fs) := by
  unfold parse_type_body
  repeat' with_reducible first
    | exact step_parse_type_switch env fs hfs
    | exact step_parse_array_ty env fs hfs _ _
    | exact step_pure _
    | exact step_parser_advance env
    | apply step_get_state_bind
    | apply step_bind
    | intro _
    | split

theorem step_parse_expr_list (env : ParserEnv) (fs : ParseFns) (hfs : Good fs) (end_tok : TokenType) :
    ∀ (n : Nat) (list : List ASTNode), Step (parse_expr_list env fs end_tok n list) := by
  intro n
  induction n with
  | zero => intro _; exact step_out_of_fuel
  | succ n ih =>
    intro list
    unfold parse_expr_list
    repeat' with_reducible first
      | exact ih _
      | exact step_pure _
      | exact step_parser_consume env _
      | exact hfs.expr _ _
      | apply step_when
      | apply step_get_state_bind
      | apply step_bind
      | apply step_ite
      | intro _

theorem step_parse_call (env : ParserEnv) (fs : ParseFns) (hfs : Good fs) (left : ASTNode) :
    Step (parse_call env fs left) := by
  unfold parse_call
  repeat' with_reducible first
    | exact step_parse_expr_list env fs hfs _ _ _
    | exact step_pure _
    | exact step_throw_error env _ _
    | exact step_parser_consume env _
    | apply step_when
    | apply step_get_state_bind
    | apply step_bind
    | intro _

theorem step_parse_struct_lit (env : ParserEnv) (fs : ParseFns) (hfs : Good fs) (id : ASTNode) :
    Step (parse_struct_lit env fs id) := by
  unfold parse_struct_lit
  repeat' with_reducible first
    | exact step_parse_expr_list env fs hfs _ _ _
    | exact step_pure _
    | exact step_undefined
    | exact step_parser_consume env _
    | apply step_get_state_bind
    | apply step_bind
    | intro _
    | split

theorem step_parse_id (env : ParserEnv) (fs : ParseFns) (hfs : Good fs) :
    Step (parse_id env fs) := by
  unfold parse_id
  repeat' with_reducible first
    | exact step_parse_call env fs hfs _
    | exact step_parse_struct_lit env fs hfs _
    | exact step_pure _
    | exact step_undefined
    | exact step_parse_identifier env _
    | apply step_get_state_bind
    | apply step_bind
    | apply step_ite
    | intro _
    | split

theorem step_parse_int_lit (env : ParserEnv) :
    Step (parse_int_lit env) := by
  unfold parse_int_lit
  repeat' with_reducible first
    | exact step_pure _
    | exact step_parser_consume env _
    | apply step_get_state_bind
    | apply step_bind
    | apply step_ite
    | intro _

theorem step_parse_array_lit (env : ParserEnv) (fs : ParseFns) (hfs : Good fs) :
    Step (parse_array_lit env fs) := by
  unfold parse_array_lit
  repeat' with_reducible first
    | exact step_parse_expr_list env fs hfs _ _ _
    | exact step_pure _
    | exact step_parser_consume env _
    | apply step_get_state_bind
    | apply step_bind
    | intro _

theorem step_parse_anonymous_struct_lit (env : ParserEnv) (fs : ParseFns) (hfs : Good fs) :
    Step (parse_anonymous_struct_lit env fs) := by
  unfold parse_anonymous_struct_lit
  repeat' with_reducible first
    | exact step_parse_expr_list env fs hfs _ _ _
    | exact step_pure _
    | exact step_parser_consume env _
    | apply step_get_state_bind
    | apply step_bind
    | intro _

theorem step_parse_lambda_args (env : ParserEnv) (fs : ParseFns) (hfs : Good fs) :
    ∀ (n : Nat) (args : List ASTObj), Step (parse_lambda_args env fs n args) := by
  intro n
  induction n with
  | zero => intro _; exact step_out_of_fuel
  | succ n ih =>
    intro args
    unfold parse_lambda_args
    repeat' with_reducible first
      | exact ih _
      | exact step_pure _
      | exact step_parser_consume env _
      | exact step_parse_simple_identifier env _
      | exact hfs.type
      | apply step_when
      | apply step_get_state_bind
      | apply step_bind
      | apply step_ite
      | intro _

theorem step_parse_lambda_signature (env : ParserEnv) (fs : ParseFns) (hfs : Good fs) :
    Step (parse_lambda_signature env fs) := by
  unfold parse_lambda_signature
  repeat' with_reducible first
    | exact step_parse_lambda_args env fs hfs _ _
    | exact step_pure _
    | exact step_throw_error env _ _
    | exact step_parser_advance env
    | exact step_parser_consume env _
    | exact hfs.type
    | apply step_get_state_bind
    | apply step_bind
    | apply step_ite
    | intro _

theorem step_parse_lambda_lit (env : ParserEnv) (fs : ParseFns) (hfs : Good fs) :
    Step (parse_lambda_lit env fs) := by
  unfold parse_lambda_lit
  repeat' with_reducible first
    | exact step_parse_lambda_signature env fs hfs
    | with_unfolding_all exact ⟨rfl, rfl⟩
    | exact hfs.stmt _
    | apply step_lambda_core
    | apply step_get_state_bind
    | apply step_bind
    | intro _

theorem step_parse_if_expr (env : ParserEnv) (fs : ParseFns) (hfs : Good fs) :
    Step (parse_if_expr env fs) := by
  unfold parse_if_expr
  repeat' with_reducible first
    | exact step_pure _
    | exact step_parser_consume env _
    | exact hfs.expr _ _
    | apply step_get_state_bind
    | apply step_bind
    | intro _

theorem step_parse_unary (env : ParserEnv) (fs : ParseFns) (hfs : Good fs) :
    Step (parse_unary env fs) := by
  unfold parse_unary
  repeat' with_reducible first
    | exact step_pure _
    | exact step_unsupported
    | exact step_parser_advance env
    | exact hfs.expr _ _
    | apply step_get_state_bind
    | apply step_bind
    | intro _
    | split

theorem step_parse_num_op (env : ParserEnv) (fs : ParseFns) (hfs : Good fs) (left : ASTNode) :
    Step (parse_num_op env fs left) := by
  unfold parse_num_op
  repeat' with_reducible first
    | exact step_pure _
    | exact step_unsupported
    | exact step_parser_advance env
    | exact hfs.expr _ _
    | apply step_get_state_bind
    | apply step_bind
    | intro _
    | split

theorem step_parse_bit_op (env : ParserEnv) (fs : ParseFns) (hfs : Good fs) (left : ASTNode) :
    Step (parse_bit_op env fs left) :=
  step_parse_num_op env fs hfs left

theorem step_parse_bool_op (env : ParserEnv) (fs : ParseFns) (hfs : Good fs) (left : ASTNode) :
    Step (parse_bool_op env fs left) := by
  unfold parse_bool_op
  repeat' with_reducible first
    | exact step_pure _
    | exact step_unsupported
    | exact step_parser_advance env
    | exact hfs.expr _ _
    | apply step_get_state_bind
    | apply step_bind
    | intro _
    | split

theorem step_generate_assignment_op_rval (env : ParserEnv) (fs : ParseFns) (hfs : Good fs) (left : ASTNode) (op : TokenType) :
    Step (generate_assignment_op_rval env fs left op) := by
  unfold generate_assignment_op_rval
  repeat' with_reducible first
    | exact step_pure _
    | exact step_unsupported
    | exact step_parser_advance env
    | exact hfs.expr _ _
    | apply step_get_state_bind
    | apply step_bind
    | intro _
    | split

theorem step_parse_assignment (env : ParserEnv) (fs : ParseFns) (hfs : Good fs) (left : ASTNode) :
    Step (parse_assignment env fs left) := by
  unfold parse_assignment
  repeat' with_reducible first
    | exact step_generate_assignment_op_rval env fs hfs _ _
    | exact step_pure _
    | exact step_unsupported
    | exact step_parser_advance env
    | exact hfs.expr _ _
    | apply step_get_state_bind
    | apply step_bind
    | intro _
    | split

theorem step_parse_postfix_op (env : ParserEnv) (left : ASTNode) :
    Step (parse_postfix_op env left) := by
  unfold parse_postfix_op
  repeat' with_reducible first
    | exact step_pure _
    | exact step_unsupported
    | exact step_parser_advance env
    | apply step_get_state_bind
    | apply step_bind
    | intro _
    | split

theorem step_parse_index (env : ParserEnv) (fs : ParseFns) (hfs : Good fs) (left : ASTNode) :
    Step (parse_index env fs left) := by
  unfold parse_index
  repeat' with_reducible first
    | exact step_pure _
    | exact step_parser_consume env _
    | exact hfs.expr _ _
    | apply step_get_state_bind
    | apply step_bind
    | intro _

theorem step_parse_pipe (env : ParserEnv) (fs : ParseFns) (hfs : Good fs) (left : ASTNode) :
    Step (parse_pipe env fs left) := by
  unfold parse_pipe
  repeat' with_reducible first
    | exact step_pure _
    | exact step_parser_consume env _
    | exact hfs.expr _ _
    | apply step_holes_bracket
    | apply step_get_state_bind
    | apply step_bind
    | intro _

theorem step_parse_hole (env : ParserEnv) :
    Step (parse_hole env) := by
  unfold parse_hole
  repeat' with_reducible first
    | exact step_pure _
    | exact step_throw_error env _ _
    | exact step_parser_consume env _
    | apply step_when
    | apply step_get_state_bind
    | apply step_bind
    | intro _

theorem step_parse_closure (env : ParserEnv) (fs : ParseFns) (hfs : Good fs) :
    Step (parse_closure env fs) := by
  unfold parse_closure
  repeat' with_reducible first
    | exact step_pure _
    | exact step_undefined
    | exact step_unsupported
    | exact step_parser_consume env _
    | exact hfs.expr _ _
    | apply step_get_state_bind
    | apply step_bind
    | apply step_ite
    | intro _
    | split

theorem step_parse_cast (env : ParserEnv) (fs : ParseFns) (hfs : Good fs) (left : ASTNode) :
    Step (parse_cast env fs left) := by
  unfold parse_cast
  repeat' with_reducible first
    | exact step_pure _
    | exact step_parser_consume env _
    | exact hfs.type
    | apply step_get_state_bind
    | apply step_bind
    | intro _

theorem step_parse_sizeof (env : ParserEnv) (fs : ParseFns) (hfs : Good fs) :
    Step (parse_sizeof env fs) := by
  unfold parse_sizeof
  repeat' with_reducible first
    | exact step_pure _
    | exact step_parser_consume env _
    | exact hfs.type
    | apply step_get_state_bind
    | apply step_bind
    | intro _

theorem step_parse_alignof (env : ParserEnv) (fs : ParseFns) (hfs : Good fs) :
    Step (parse_alignof env fs) := by
  unfold parse_alignof
  repeat' with_reducible first
    | exact step_pure _
    | exact step_parser_consume env _
    | exact hfs.type
    | apply step_get_state_bind
    | apply step_bind
    | intro _

theorem step_parse_len (env : ParserEnv) (fs : ParseFns) (hfs : Good fs) :
    Step (parse_len env fs) := by
  unfold parse_len
  repeat' with_reducible first
    | exact step_pure _
    | exact step_parser_consume env _
    | exact hfs.expr _ _
    | apply step_get_state_bind
    | apply step_bind
    | intro _

theorem step_parse_member (env : ParserEnv) (fs : ParseFns) (hfs : Good fs) (left : ASTNode) :
    Step (parse_member env fs left) := by
  unfold parse_member
  repeat' with_reducible first
    | exact step_pure _
    | exact step_throw_error env _ _
    | exact step_parser_consume env _
    | exact hfs.expr _ _
    | apply step_when
    | apply step_get_state_bind
    | apply step_bind
    | intro _

theorem step_parse_infix_call_expr (env : ParserEnv) (fs : ParseFns) :
    Step (parse_infix_call_expr env fs) := by
  unfold parse_infix_call_expr
  repeat' with_reducible first
    | exact step_pure _
    | exact step_parser_consume env _
    | exact step_parse_identifier env _
    | apply step_get_state_bind
    | apply step_bind
    | intro _

theorem step_parse_infix_call (env : ParserEnv) (fs : ParseFns) (hfs : Good fs) (left : ASTNode) :
    Step (parse_infix_call env fs left) := by
  unfold parse_infix_call
  repeat' with_reducible first
    | exact step_parse_infix_call_expr env fs
    | exact step_pure _
    | exact hfs.expr _ _
    | apply step_get_state_bind
    | apply step_bind
    | intro _

theorem step_parse_pow_2 (env : ParserEnv) (left : ASTNode) :
    Step (parse_pow_2 env left) := by
  unfold parse_pow_2
  repeat' with_reducible first
    | exact step_pure _
    | exact step_parser_consume env _
    | apply step_get_state_bind
    | apply step_bind
    | apply step_ite
    | intro _

theorem step_parse_pow_3 (env : ParserEnv) (left : ASTNode) :
    Step (parse_pow_3 env left) := by
  unfold parse_pow_3
  repeat' with_reducible first
    | exact step_pure _
    | exact step_parser_consume env _
    | apply step_get_state_bind
    | apply step_bind
    | apply step_ite
    | intro _

theorem step_call_PrefixParseFn_T (env : ParserEnv) (fs : ParseFns) (hfs : Good fs) (pfn : PrefixParseFn_T) :
    Step (call_PrefixParseFn_T env fs pfn) := by
  cases pfn <;> unfold call_PrefixParseFn_T
  all_goals repeat' with_reducible first
    | exact step_parse_id env fs hfs
    | exact step_parse_int_lit env
    | exact step_parse_unary env fs hfs
    | exact step_parse_closure env fs hfs
    | exact step_parse_array_lit env fs hfs
    | exact step_parse_anonymous_struct_lit env fs hfs
    | exact step_parse_lambda_lit env fs hfs
    | exact step_parse_if_expr env fs hfs
    | exact step_parse_sizeof env fs hfs
    | exact step_parse_alignof env fs hfs
    | exact step_parse_len env fs hfs
    | exact step_parse_hole env
    | exact step_unsupported

theorem step_call_InfixParseFn_T (env : ParserEnv) (fs : ParseFns) (hfs : Good fs) (ifn : InfixParseFn_T) (left : ASTNode) :
    Step (call_InfixParseFn_T env fs ifn left) := by
  cases ifn <;> unfold call_InfixParseFn_T
  all_goals repeat' with_reducible first
    | exact step_parse_num_op env fs hfs _
    | exact step_parse_bit_op env fs hfs _
    | exact step_parse_bool_op env fs hfs _
    | exact step_parse_assignment env fs hfs _
    | exact step_parse_postfix_op env _
    | exact step_parse_index env fs hfs _
    | exact step_parse_infix_call env fs hfs _
    | exact step_parse_cast env fs hfs _
    | exact step_parse_member env fs hfs _
    | exact step_parse_pipe env fs hfs _
    | exact step_parse_pow_2 env _
    | exact step_parse_pow_3 env _

theorem step_parse_expr_loop (env : ParserEnv) (fs : ParseFns) (hfs : Good fs) (prec : Precedence_T) (end_tok : TokenType) :
    ∀ (n : Nat) (left_expr : ASTNode), Step (parse_expr_loop env fs prec end_tok n left_expr) := by
  intro n
  induction n with
  | zero => intro _; exact step_out_of_fuel
  | succ n ih =>
    intro left_expr
    unfold parse_expr_loop
    repeat' with_reducible first
      | exact ih _
      | exact step_call_InfixParseFn_T env fs hfs _ _
      | exact step_pure _
      | apply step_get_state_bind
      | apply step_bind
      | apply step_ite
      | intro _
      | split

theorem step_parse_expr_body (env : ParserEnv) (fs : ParseFns) (hfs : Good fs) (prec : Precedence_T) (end_tok : TokenType) :
    Step (parse_expr_body env fs prec end_tok) := by
  unfold parse_expr_body
  repeat' with_reducible first
    | exact step_call_PrefixParseFn_T env fs hfs _
    | exact step_parse_expr_loop env fs hfs _ _ _ _
    | exact step_undefined
    | exact step_throw_error env _ _
    | apply step_get_state_bind
    | apply step_bind
    | intro _
    | split

theorem step_parse_block_stmts (fs : ParseFns) (hfs : Good fs) :
    ∀ (n : Nat) (stmts : List ASTNode), Step (parse_block_stmts fs n stmts) := by
  intro n
  induction n with
  | zero => intro _; exact step_out_of_fuel
  | succ n ih =>
    intro stmts
    unfold parse_block_stmts
    repeat' with_reducible first
      | exact ih _
      | exact step_pure _
      | exact step_unsupported
      | exact hfs.stmt _
      | apply step_get_state_bind
      | apply step_bind
      | apply step_ite
      | intro _

theorem step_parse_block (env : ParserEnv) (fs : ParseFns) (hfs : Good fs) :
    Step (parse_block env fs) := by
  unfold parse_block
  repeat' with_reducible first
    | exact step_parse_block_stmts fs hfs _ _
    | exact step_pure _
    | exact step_parser_consume env _
    | exact step_set_cur_block _
    | apply step_get_state_bind
    | apply step_bind
    | intro _

theorem step_parse_return (env : ParserEnv) (fs : ParseFns) (hfs : Good fs) (needs_semicolon : Bool) :
    Step (parse_return env fs needs_semicolon) := by
  unfold parse_return
  repeat' with_reducible first
    | exact step_pure _
    | exact step_undefined
    | exact step_throw_error env _ _
    | exact step_parser_consume env _
    | exact hfs.expr _ _
    | apply step_when
    | apply step_get_state_bind
    | apply step_bind
    | apply step_ite
    | intro _
    | split

theorem step_parse_if (env : ParserEnv) (fs : ParseFns) (hfs : Good fs) (needs_semicolon : Bool) :
    Step (parse_if env fs needs_semicolon) := by
  unfold parse_if
  repeat' with_reducible first
    | exact step_pure _
    | exact step_parser_advance env
    | exact step_parser_consume env _
    | exact hfs.expr _ _
    | exact hfs.stmt _
    | apply step_get_state_bind
    | apply step_bind
    | apply step_ite
    | intro _

theorem step_parse_loop (env : ParserEnv) (fs : ParseFns) (hfs : Good fs) (needs_semicolon : Bool) :
    Step (parse_loop env fs needs_semicolon) := by
  unfold parse_loop
  repeat' with_reducible first
    | exact step_pure _
    | exact step_parser_consume env _
    | exact hfs.stmt _
    | apply step_get_state_bind
    | apply step_bind
    | intro _

theorem step_parse_while (env : ParserEnv) (fs : ParseFns) (hfs : Good fs) (needs_semicolon : Bool) :
    Step (parse_while env fs needs_semicolon) := by
  unfold parse_while
  repeat' with_reducible first
    | exact step_pure _
    | exact step_parser_consume env _
    | exact hfs.expr _ _
    | exact hfs.stmt _
    | apply step_get_state_bind
    | apply step_bind
    | intro _

theorem step_parse_expr_stmt (env : ParserEnv) (fs : ParseFns) (hfs : Good fs) (needs_semicolon : Bool) :
    Step (parse_expr_stmt env fs needs_semicolon) := by
  unfold parse_expr_stmt
  repeat' with_reducible first
    | exact step_pure _
    | exact step_undefined
    | exact step_throw_error env _ _
    | exact step_parser_consume env _
    | exact hfs.expr _ _
    | apply step_when
    | apply step_get_state_bind
    | apply step_bind
    | intro _
    | split

theorem step_parse_break (env : ParserEnv) (needs_semicolon : Bool) :
    Step (parse_break env needs_semicolon) := by
  unfold parse_break
  repeat' with_reducible first
    | exact step_pure _
    | exact step_parser_consume env _
    | apply step_when
    | apply step_get_state_bind
    | apply step_bind
    | intro _

theorem step_parse_continue (env : ParserEnv) (needs_semicolon : Bool) :
    Step (parse_continue env needs_semicolon) := by
  unfold parse_continue
  repeat' with_reducible first
    | exact step_pure _
    | exact step_parser_consume env _
    | apply step_when
    | apply step_get_state_bind
    | apply step_bind
    | intro _

theorem step_parse_case (env : ParserEnv) (fs : ParseFns) (hfs : Good fs) :
    Step (parse_case env fs) := by
  unfold parse_case
  repeat' with_reducible first
    | exact step_pure _
    | exact step_parser_advance env
    | exact step_parser_consume env _
    | exact hfs.expr _ _
    | exact hfs.stmt _
    | apply step_get_state_bind
    | apply step_bind
    | apply step_ite
    | intro _

theorem step_parse_type_case (env : ParserEnv) (fs : ParseFns) (hfs : Good fs) :
    Step (parse_type_case env fs) := by
  unfold parse_type_case
  repeat' with_reducible first
    | exact step_pure _
    | exact step_parser_advance env
    | exact step_parser_consume env _
    | exact hfs.type
    | exact hfs.stmt _
    | apply step_get_state_bind
    | apply step_bind
    | apply step_ite
    | intro _

theorem step_parse_match_cases (env : ParserEnv) (parse_one : PM ASTNode)
    (hone : Step parse_one) :
    ∀ (n : Nat) (m : ASTNode), Step (parse_match_cases env parse_one n m) := by
  intro n
  induction n with
  | zero => intro _; exact step_out_of_fuel
  | succ n ih =>
    intro m
    unfold parse_match_cases
    repeat' with_reducible first
      | exact ih _
      | exact hone
      | exact step_pure _
      | exact step_throw_error env _ _
      | apply step_when
      | apply step_get_state_bind
      | apply step_bind
      | apply step_ite
      | intro _

theorem step_parse_type_match (env : ParserEnv) (fs : ParseFns) (hfs : Good fs) (m : ASTNode) :
    Step (parse_type_match env fs m) := by
  unfold parse_type_match
  repeat' with_reducible first
    | exact step_parse_match_cases env _ (step_parse_type_case env fs hfs) _ _
    | exact step_pure _
    | exact step_parser_advance env
    | exact step_parser_consume env _
    | exact hfs.type
    | apply step_bind
    | intro _

theorem step_parse_match (env : ParserEnv) (fs : ParseFns) (hfs : Good fs) :
    Step (parse_match env fs) := by
  unfold parse_match
  repeat' with_reducible first
    | exact step_parse_match_cases env _ (step_parse_case env fs hfs) _ _
    | exact step_parse_type_match env fs hfs _
    | exact step_pure _
    | exact step_undefined
    | exact step_parser_consume env _
    | exact hfs.expr _ _
    | apply step_get_state_bind
    | apply step_bind
    | apply step_ite
    | intro _
    | split

theorem step_parse_stmt_body (env : ParserEnv) (fs : ParseFns) (hfs : Good fs) (needs_semicolon : Bool) :
    Step (parse_stmt_body env fs needs_semicolon) := by
  unfold parse_stmt_body
  repeat' with_reducible first
    | exact step_parse_block env fs hfs
    | exact step_parse_match env fs hfs
    | exact step_parse_return env fs hfs _
    | exact step_parse_if env fs hfs _
    | exact step_parse_loop env fs hfs _
    | exact step_parse_while env fs hfs _
    | exact step_parse_expr_stmt env fs hfs _
    | exact step_parse_break env _
    | exact step_parse_continue env _
    | exact step_pure _
    | exact step_unsupported
    | exact step_parser_advance env
    | exact step_parser_consume env _
    | apply step_when
    | apply step_get_state_bind
    | apply step_bind
    | intro _
    | split

theorem good_parse_fns (env : ParserEnv) : ∀ n, Good (parse_fns env n) := by
  intro n
  induction n with
  | zero =>
    exact ⟨fun _ _ => step_out_of_fuel, fun _ => step_out_of_fuel, step_out_of_fuel⟩
  | succ n ih =>
    exact ⟨fun prec end_tok => step_parse_expr_body env _ ih prec end_tok,
      fun b => step_parse_stmt_body env _ ih b, step_parse_type_body env _ ih⟩

/-! ## Tuple types -/

theorem check_type_refl (t : ASTType) : check_type t t = true := by
  refine ASTType.rec
    (motive_1 := fun t => check_type t t = true)
    (motive_2 := fun o => ∀ t, o = some t → check_type t t = true)
    (motive_3 := fun _ => True)
    (motive_4 := fun _ => True)
    (motive_5 := fun _ => True)
    ?_ ?_ ?_ ?_ ?_ ?_ ?_ ?_ t
  · intro k c p b n m ats u v i hb _ _
    cases b with
    | none => simp [check_type]
    | some x => simp [check_type, hb x rfl]
  · intro t h; cases h
  · intro t ih t2 h; cases h; exact ih
  · trivial
  · intros; trivial
  · trivial
  · intros; trivial
  · intros; trivial

theorem tuple_members_compatible_same :
    ∀ (l1 l2 : List (ASTMember ASTType)),
      l2.map (fun m => m.data_type) = l1.map (fun m => m.data_type) →
      (∀ m ∈ l1, m.data_type.isSome = true) →
      tuple_members_compatible l1 l2 = some true := by
  intro l1
  induction l1 with
  | nil => intro l2 _ _; cases l2 <;> rfl
  | cons m ms ih =>
    intro l2 h hs
    cases l2 with
    | nil => simp at h
    | cons m2 ms2 =>
      simp only [List.map_cons, List.cons.injEq] at h
      have hm := hs m (List.mem_cons_self _ _)
      cases hd : m.data_type with
      | none => rw [hd] at hm; cases hm
      | some a =>
        have hd2 : m2.data_type = some a := by rw [h.1, hd]
        unfold tuple_members_compatible
        simp only [hd, hd2, check_type_refl, Bool.not_true, Bool.false_eq_true, if_false]
        exact ih ms2 h.2 (fun x hx => hs x (List.mem_cons_of_mem _ hx))

/-- The scan of `get_compatible_tuple` depends on the tuple only through the
number of its members and their types. -/
theorem tuple_members_compatible_congr (om : List (ASTMember ASTType)) :
    ∀ (l1 l2 : List (ASTMember ASTType)),
      l2.map (fun m => m.data_type) = l1.map (fun m => m.data_type) →
      tuple_members_compatible om l2 = tuple_members_compatible om l1 := by
  induction om with
  | nil => intro l1 l2 _; cases l1 <;> cases l2 <;> rfl
  | cons o os ih =>
    intro l1 l2 h
    cases l1 with
    | nil => cases l2 with
      | nil => rfl
      | cons _ _ => simp at h
    | cons m ms =>
      cases l2 with
      | nil => simp at h
      | cons m2 ms2 =>
        simp only [List.map_cons, List.cons.injEq] at h
        unfold tuple_members_compatible
        rw [h.1, ih ms ms2 h.2]

theorem get_compatible_tuple_congr (t1 t2 : ASTType)
    (h : t2.members.map (fun m => m.data_type) = t1.members.map (fun m => m.data_type)) :
    ∀ (objs : List ASTObj), get_compatible_tuple objs t2 = get_compatible_tuple objs t1 := by
  have hlen : t2.members.length = t1.members.length := by
    have := congrArg List.length h
    simpa using this
  intro objs
  induction objs with
  | nil => rfl
  | cons o os ih =>
    unfold get_compatible_tuple
    rw [ih, hlen]
    split
    · split
      · rfl
      · split
        · split
          · rfl
          · rw [tuple_members_compatible_congr _ _ _ h]
        · rfl
    · rfl

theorem get_compatible_tuple_cons (obj : ASTObj) (objs : List ASTObj) (tuple : ASTType) :
    get_compatible_tuple (obj :: objs) tuple =
      if obj.kind == .OBJ_TYPEDEF then
        match obj.id with
        | none => none
        | some id =>
          if str_starts_with id.callee "__csp_tuple_" then
            match obj.data_type with
            | none => none
            | some ty =>
              if ty.members.length == tuple.members.length then
                match tuple_members_compatible ty.members tuple.members with
                | none => none
                | some true => some (some obj)
                | some false => get_compatible_tuple objs tuple
              else get_compatible_tuple objs tuple
          else get_compatible_tuple objs tuple
      else get_compatible_tuple objs tuple := rfl

theorem get_compatible_tuple_append (t : ASTType) (ys : List ASTObj) :
    ∀ (xs : List ASTObj), get_compatible_tuple xs t = some none →
      get_compatible_tuple (xs ++ ys) t = get_compatible_tuple ys t := by
  intro xs
  induction xs with
  | nil => intro _; rfl
  | cons o os ih =>
    intro h
    rw [List.cons_append, get_compatible_tuple_cons]
    rw [get_compatible_tuple_cons] at h
    repeat' split at h
    all_goals first | cases h | skip
    all_goals simp_all

theorem is_start_of_append (l r : List Char) : l.isPrefixOf (l ++ r) = true := by
  induction l with
  | nil => simp
  | cons c cs ih => simp [List.isPrefixOf, ih]

theorem str_starts_with_tuple_callee (n : Nat) :
    str_starts_with (tuple_callee n) "__csp_tuple_" = true := by
  unfold str_starts_with tuple_callee
  simp only [String.data_append, List.append_assoc]
  exact is_start_of_append _ _

theorem parse_tuple_members_names (env : ParserEnv) (fs : ParseFns) :
    ∀ (n i : Nat) (members res : List (ASTMember ASTType)) (p q : Parser),
      parse_tuple_members env fs n i members p = .ok res q →
      ∃ new : List (ASTMember ASTType), res = members ++ new ∧
        ∀ (j : Nat) (m : ASTMember ASTType), new[j]? = some m →
          m.id.callee = tuple_member_name (i + j) ∧ m.data_type.isSome = true := by
  intro n
  induction n with
  | zero => intro i members res p q h; cases h
  | succ n ih =>
    intro i members res p q h
    unfold parse_tuple_members at h
    rw [PM.bind_get_state] at h
    split at h
    · obtain ⟨ty, p1, _, h⟩ := PM.bind_inv h
      rw [PM.bind_get_state] at h
      obtain ⟨_, p2, _, h⟩ := PM.bind_inv h
      obtain ⟨new, hres, hnew⟩ := ih _ _ _ _ _ h
      refine ⟨_ :: new, by rw [hres, List.append_assoc]; rfl, ?_⟩
      intro j m hj
      cases j with
      | zero =>
        simp only [List.getElem?_cons_zero, Option.some.injEq] at hj
        subst hj
        exact ⟨rfl, rfl⟩
      | succ j =>
        simp only [List.getElem?_cons_succ] at hj
        have := hnew j m hj
        rw [show i + (j + 1) = i + 1 + j by omega]
        exact this
    · cases h
      exact ⟨[], by simp, by intro j m hj; simp at hj⟩

/-- C17: the members that the tuple loop of `parse_type` produces are named
`_0`, `_1`, ... in source order; for such a tuple type without compatible
typedef among the objects of the program, `parser_generate_tuple_type` appends
exactly one typedef, named `__csp_tuple_<N>__` by the tuple counter and holding
the tuple type, and turns the tuple into a named reference carrying that
identifier; for a later tuple type with as many members of pairwise identical
types, in any state whose objects start with those objects, it appends nothing
and turns the tuple into a named reference carrying the same identifier. -/
theorem tuple_type_dedup (env : ParserEnv) (fs : ParseFns) (n : Nat) (p0 p1 p : Parser)
    (members1 members2 : List (ASTMember ASTType)) (tok1 tok2 : Option Token)
    (hm1 : parse_tuple_members env fs n 0 [] p0 = .ok members1 p1)
    (hsame : members2.map (fun m => m.data_type) = members1.map (fun m => m.data_type))
    (hnew : get_compatible_tuple p.objs
      { init_ast_type .TY_STRUCT tok1 with members := members1 } = some none) :
    (∀ (j : Nat) (m : ASTMember ASTType), members1[j]? = some m →
      m.id.callee = tuple_member_name j)
    ∧ ∃ (tydef : ASTObj) (id : ASTIdentifier),
        parser_generate_tuple_type
            { init_ast_type .TY_STRUCT tok1 with members := members1 } tok1 p
          = .ok (tydef, { init_ast_type .TY_STRUCT tok1 with
                          members := members1, kind := .TY_UNDEF, id := id })
              { p with cur_tuple_id := p.cur_tuple_id + 1, objs := p.objs ++ [tydef] }
        ∧ tydef.kind = .OBJ_TYPEDEF ∧ tydef.id = some id
        ∧ id.callee = tuple_callee p.cur_tuple_id
        ∧ tydef.data_type = some { init_ast_type .TY_STRUCT tok1 with members := members1 }
        ∧ ∀ (q : Parser) (more : List ASTObj), q.objs = p.objs ++ [tydef] ++ more →
            parser_generate_tuple_type
                { init_ast_type .TY_STRUCT tok2 with members := members2 } tok2 q
              = .ok (tydef, { init_ast_type .TY_STRUCT tok2 with
                              members := members2, kind := .TY_UNDEF, id := id }) q := by
  obtain ⟨new, hres, hnames⟩ := parse_tuple_members_names env fs n 0 [] members1 p0 p1 hm1
  rw [List.nil_append] at hres
  subst hres
  constructor
  · intro j m hj
    have := (hnames j m hj).1
    rwa [Nat.zero_add] at this
  · refine ⟨{ init_ast_obj .OBJ_TYPEDEF tok1 with
        data_type := some { init_ast_type .TY_STRUCT tok1 with members := members1 },
        id := some { init_ast_identifier tok1 "" with callee := tuple_callee p.cur_tuple_id } },
      { init_ast_identifier tok1 "" with callee := tuple_callee p.cur_tuple_id },
      ?_, rfl, rfl, rfl, rfl, ?_⟩
    · unfold parser_generate_tuple_type
      rw [hnew]
    · intro q more hq
      have hsome : ∀ m ∈ members1, m.data_type.isSome = true := by
        intro m hm
        obtain ⟨j, hj⟩ := List.getElem?_of_mem hm
        exact (hnames j m hj).2
      have hlen : members2.length = members1.length := by
        have := congrArg List.length hsame
        simpa using this
      have hscan : get_compatible_tuple q.objs
          { init_ast_type .TY_STRUCT tok2 with members := members2 }
          = some (some { init_ast_obj .OBJ_TYPEDEF tok1 with
              data_type := some { init_ast_type .TY_STRUCT tok1 with members := members1 },
              id := some { init_ast_identifier tok1 "" with
                callee := tuple_callee p.cur_tuple_id } }) := by
        rw [get_compatible_tuple_congr
          { init_ast_type .TY_STRUCT tok1 with members := members1 } _ hsame, hq,
          List.append_assoc, get_compatible_tuple_append _ _ _ hnew, List.cons_append,
          get_compatible_tuple_cons]
        simp only [init_ast_obj, beq_self_eq_true, if_true, str_starts_with_tuple_callee]
        rw [tuple_members_compatible_same _ _ rfl hsome]
      unfold parser_generate_tuple_type
      rw [hscan]

/-- C14: `x op1 y op2 z`, followed by a token of precedence `LOWEST`, parses
at minimum precedence `LOWEST` to `op1(x, op2(y, z))` when the precedence that
the table gives `op2` is strictly higher than that of `op1`, and to
`op2(op1(x, y), z)` otherwise, for all atoms and all binary operators of the
arithmetic, shift, bitwise, comparison and logical classes, with every fuel
from 5 on; the aliased pairs have one precedence each. -/
theorem parse_expr_precedence (env : ParserEnv) (k : Nat) (end_tok : TokenType)
    (x o1 y o2 z te : Token) (p : Parser)
    (hx : p.tok = x)
    (h1 : p.tokens[p.token_i + 1]? = some o1) (h2 : p.tokens[p.token_i + 2]? = some y)
    (h3 : p.tokens[p.token_i + 3]? = some o2) (h4 : p.tokens[p.token_i + 4]? = some z)
    (h5 : p.tokens[p.token_i + 5]? = some te)
    (hax : is_atom x.type = true) (hay : is_atom y.type = true) (haz : is_atom z.type = true)
    (ho1 : (binary_op_kind o1.type).isSome = true) (ho2 : (binary_op_kind o2.type).isSome = true)
    (he1 : o1.type ≠ end_tok) (he2 : o2.type ≠ end_tok)
    (hte : get_precedence te.type = .LOWEST) (hte2 : te.type ≠ .TOKEN_STATIC_MEMBER) :
    (∃ q, parse_expr env (k + 5) .LOWEST end_tok p
        = .ok (if (get_precedence o1.type).val < (get_precedence o2.type).val
               then binary_node env o1 (atom_node env x)
                      (binary_node env o2 (atom_node env y) (atom_node env z))
               else binary_node env o2
                      (binary_node env o1 (atom_node env x) (atom_node env y))
                      (atom_node env z)) q
      ∧ q.token_i = p.token_i + 5 ∧ q.tok = te)
    ∧ get_precedence .TOKEN_LT = get_precedence .TOKEN_GT
    ∧ get_precedence .TOKEN_PLUS = get_precedence .TOKEN_MINUS
    ∧ get_precedence .TOKEN_STAR = get_precedence .TOKEN_SLASH := by
  obtain ⟨q, hq, hat⟩ :=
    parse_expr_two_ops env k end_tok x o1 y o2 z te p.tokens p.token_i p ⟨rfl, rfl, hx⟩
      h1 h2 h3 h4 h5 hax hay haz ho1 ho2 he1 he2 hte hte2
  exact ⟨⟨q, hq, hat.2.1, hat.2.2⟩, rfl, rfl, rfl⟩

/-- The expression `a + b * c` parses to ADD(a, MUL(b, c)). -/
theorem parse_expr_precedence_witness :
    (∃ q, parse_expr sample_env 5 .LOWEST .TOKEN_SEMICOLON
          (start_state (mk_tok .TOKEN_ID "a") precedence_toks)
        = .ok (if (get_precedence (mk_tok .TOKEN_PLUS "+").type).val
                  < (get_precedence (mk_tok .TOKEN_STAR "*").type).val
               then binary_node sample_env (mk_tok .TOKEN_PLUS "+")
                      (atom_node sample_env (mk_tok .TOKEN_ID "a"))
                      (binary_node sample_env (mk_tok .TOKEN_STAR "*")
                        (atom_node sample_env (mk_tok .TOKEN_ID "b"))
                        (atom_node sample_env (mk_tok .TOKEN_ID "c")))
               else binary_node sample_env (mk_tok .TOKEN_STAR "*")
                      (binary_node sample_env (mk_tok .TOKEN_PLUS "+")
                        (atom_node sample_env (mk_tok .TOKEN_ID "a"))
                        (atom_node sample_env (mk_tok .TOKEN_ID "b")))
                      (atom_node sample_env (mk_tok .TOKEN_ID "c"))) q
      ∧ q.token_i = (start_state (mk_tok .TOKEN_ID "a") precedence_toks).token_i + 5
      ∧ q.tok = mk_tok .TOKEN_SEMICOLON ";")
    ∧ get_precedence .TOKEN_LT = get_precedence .TOKEN_GT
    ∧ get_precedence .TOKEN_PLUS = get_precedence .TOKEN_MINUS
    ∧ get_precedence .TOKEN_STAR = get_precedence .TOKEN_SLASH :=
  parse_expr_precedence sample_env 0 .TOKEN_SEMICOLON (mk_tok .TOKEN_ID "a")
    (mk_tok .TOKEN_PLUS "+") (mk_tok .TOKEN_ID "b") (mk_tok .TOKEN_STAR "*")
    (mk_tok .TOKEN_ID "c") (mk_tok .TOKEN_SEMICOLON ";")
    (start_state (mk_tok .TOKEN_ID "a") precedence_toks)
    rfl rfl rfl rfl rfl rfl rfl rfl rfl rfl rfl (by decide) (by decide) rfl (by decide)

/-- C15: the table gives `%` the precedence `DIV`, the class of `*` and `/`,
and gives the class `MOD` to no token; so `a * b % c`, followed by a token of
precedence `LOWEST`, parses to MOD(MUL(a, b), c) for all atoms `a`, `b`, `c`. -/
theorem parse_expr_percent_precedence (env : ParserEnv) (k : Nat) (end_tok : TokenType)
    (a star b pct c te : Token) (p : Parser)
    (ha : p.tok = a)
    (h1 : p.tokens[p.token_i + 1]? = some star) (h2 : p.tokens[p.token_i + 2]? = some b)
    (h3 : p.tokens[p.token_i + 3]? = some pct) (h4 : p.tokens[p.token_i + 4]? = some c)
    (h5 : p.tokens[p.token_i + 5]? = some te)
    (haa : is_atom a.type = true) (hab : is_atom b.type = true) (hac : is_atom c.type = true)
    (hstar : star.type = .TOKEN_STAR) (hpct : pct.type = .TOKEN_PERCENT)
    (he1 : end_tok ≠ .TOKEN_STAR) (he2 : end_tok ≠ .TOKEN_PERCENT)
    (hte : get_precedence te.type = .LOWEST) (hte2 : te.type ≠ .TOKEN_STATIC_MEMBER) :
    get_precedence .TOKEN_PERCENT = get_precedence .TOKEN_STAR
    ∧ (∀ tt : TokenType, get_precedence tt ≠ .MOD)
    ∧ ∃ q, parse_expr env (k + 5) .LOWEST end_tok p
        = .ok (binary_node env pct
                (binary_node env star (atom_node env a) (atom_node env b))
                (atom_node env c)) q
      ∧ q.token_i = p.token_i + 5 ∧ q.tok = te := by
  refine ⟨rfl, ?_, ?_⟩
  · intro tt
    cases tt <;> decide
  · obtain ⟨q, hq, hat⟩ :=
      parse_expr_two_ops env k end_tok a star b pct c te p.tokens p.token_i p ⟨rfl, rfl, ha⟩
        h1 h2 h3 h4 h5 haa hab hac (by rw [hstar]; rfl) (by rw [hpct]; rfl)
        (by rw [hstar]; exact fun h => he1 h.symm) (by rw [hpct]; exact fun h => he2 h.symm)
        hte hte2
    have hlt : ¬ (get_precedence star.type).val < (get_precedence pct.type).val := by
      rw [hstar, hpct]; decide
    rw [if_neg hlt] at hq
    exact ⟨q, hq, hat.2.1, hat.2.2⟩

/-- The expression `a * b % c` parses to MOD(MUL(a, b), c). -/
theorem parse_expr_percent_precedence_witness :
    get_precedence .TOKEN_PERCENT = get_precedence .TOKEN_STAR
    ∧ (∀ tt : TokenType, get_precedence tt ≠ .MOD)
    ∧ ∃ q, parse_expr sample_env 5 .LOWEST .TOKEN_SEMICOLON
          (start_state (mk_tok .TOKEN_ID "a") percent_toks)
        = .ok (binary_node sample_env (mk_tok .TOKEN_PERCENT "%")
                (binary_node sample_env (mk_tok .TOKEN_STAR "*")
                  (atom_node sample_env (mk_tok .TOKEN_ID "a"))
                  (atom_node sample_env (mk_tok .TOKEN_ID "b")))
                (atom_node sample_env (mk_tok .TOKEN_ID "c"))) q
      ∧ q.token_i = (start_state (mk_tok .TOKEN_ID "a") percent_toks).token_i + 5
      ∧ q.tok = mk_tok .TOKEN_SEMICOLON ";" :=
  parse_expr_percent_precedence sample_env 0 .TOKEN_SEMICOLON (mk_tok .TOKEN_ID "a")
    (mk_tok .TOKEN_STAR "*") (mk_tok .TOKEN_ID "b") (mk_tok .TOKEN_PERCENT "%")
    (mk_tok .TOKEN_ID "c") (mk_tok .TOKEN_SEMICOLON ";")
    (start_state (mk_tok .TOKEN_ID "a") percent_toks)
    rfl rfl rfl rfl rfl rfl rfl rfl rfl rfl rfl (by decide) (by decide) rfl (by decide)

/-- The tuple type `{i32, bool}` in an empty program. -/
theorem tuple_type_dedup_witness :
    (∀ (j : Nat) (m : ASTMember ASTType), sample_tuple_members[j]? = some m →
      m.id.callee = tuple_member_name j)
    ∧ ∃ (tydef : ASTObj) (id : ASTIdentifier),
        parser_generate_tuple_type
            { init_ast_type .TY_STRUCT (some (mk_tok .TOKEN_LBRACE "\x7b")) with
              members := sample_tuple_members }
            (some (mk_tok .TOKEN_LBRACE "\x7b")) (tuple_state 4 (mk_tok .TOKEN_RBRACE "\x7d"))
          = .ok (tydef, { init_ast_type .TY_STRUCT (some (mk_tok .TOKEN_LBRACE "\x7b")) with
                          members := sample_tuple_members, kind := .TY_UNDEF, id := id })
              { tuple_state 4 (mk_tok .TOKEN_RBRACE "\x7d") with
                cur_tuple_id := (tuple_state 4 (mk_tok .TOKEN_RBRACE "\x7d")).cur_tuple_id + 1,
                objs := (tuple_state 4 (mk_tok .TOKEN_RBRACE "\x7d")).objs ++ [tydef] }
        ∧ tydef.kind = .OBJ_TYPEDEF ∧ tydef.id = some id
        ∧ id.callee = tuple_callee (tuple_state 4 (mk_tok .TOKEN_RBRACE "\x7d")).cur_tuple_id
        ∧ tydef.data_type = some
            { init_ast_type .TY_STRUCT (some (mk_tok .TOKEN_LBRACE "\x7b")) with
              members := sample_tuple_members }
        ∧ ∀ (q : Parser) (more : List ASTObj),
            q.objs = (tuple_state 4 (mk_tok .TOKEN_RBRACE "\x7d")).objs ++ [tydef] ++ more →
            parser_generate_tuple_type
                { init_ast_type .TY_STRUCT (some (mk_tok .TOKEN_LBRACE "\x7b")) with
                  members := sample_tuple_members }
                (some (mk_tok .TOKEN_LBRACE "\x7b")) q
              = .ok (tydef, { init_ast_type .TY_STRUCT (some (mk_tok .TOKEN_LBRACE "\x7b")) with
                              members := sample_tuple_members, kind := .TY_UNDEF, id := id }) q :=
  tuple_type_dedup sample_env (parse_fns sample_env 3) 3
    (tuple_state 1 (mk_tok .TOKEN_ID "i32")) (tuple_state 4 (mk_tok .TOKEN_RBRACE "\x7d"))
    (tuple_state 4 (mk_tok .TOKEN_RBRACE "\x7d")) sample_tuple_members sample_tuple_members
    (some (mk_tok .TOKEN_LBRACE "\x7b")) (some (mk_tok .TOKEN_LBRACE "\x7b")) rfl rfl rfl

theorem lambda_ids_nodup {ks : List Nat} {lo n : Nat} (h : ks.Perm (List.range' lo n)) :
    (ks.map (fun k => some (plain_id (lambda_callee k)))).Nodup := by
  have hnd : ks.Nodup := (List.Perm.nodup_iff h).2 (List.nodup_range' lo n)
  apply List.Nodup.map _ hnd
  intro a b hab
  have h1 : plain_id (lambda_callee a) = plain_id (lambda_callee b) := Option.some.inj hab
  have h2 : lambda_callee a = lambda_callee b := congrArg ASTIdentifier.callee h1
  exact lambda_callee_injective h2

/-- C18, as the code has it: a completed `parse_lambda_lit` has appended a
function object `lam` named `__csp_lambda_lit_<N>__` as the last object of the
program, after the objects `l1` that the argument and return types added and
the objects `l2` that the body added; the result is an identifier node
carrying the identifier of `lam`; `N` is the value of the lambda counter when
the `=>` has been consumed, so the lambda literals inside the argument and
return types carry the numbers from the old counter value up to `N`, those of
the body the numbers from `N + 1` up to the new counter value, each number
once; the identifiers of the new function objects are pairwise distinct, and
the current function is the same as before. -/
theorem parse_lambda_lit_hoists (env : ParserEnv) (fuel : Nat) (p q : Parser) (v : ASTNode)
    (h : parse_lambda_lit env (parse_fns env fuel) p = .ok v q) :
    ∃ (lam : ASTObj) (N : Nat) (l1 l2 : List ASTObj) (ks1 ks2 : List Nat),
      q.objs = p.objs ++ l1 ++ l2 ++ [lam]
      ∧ lam.kind = .OBJ_FUNCTION
      ∧ lam.id = some (plain_id (lambda_callee N))
      ∧ v.kind = .ND_ID ∧ v.id = lam.id
      ∧ p.cur_lambda_id ≤ N ∧ N < q.cur_lambda_id
      ∧ lambda_ids l1 = ks1.map (fun k => some (plain_id (lambda_callee k)))
      ∧ ks1.Perm (List.range' p.cur_lambda_id (N - p.cur_lambda_id))
      ∧ lambda_ids l2 = ks2.map (fun k => some (plain_id (lambda_callee k)))
      ∧ ks2.Perm (List.range' (N + 1) (q.cur_lambda_id - (N + 1)))
      ∧ (lambda_ids (l1 ++ l2 ++ [lam])).Nodup
      ∧ q.cur_fn = p.cur_fn := by
  have hgood := good_parse_fns env fuel
  unfold parse_lambda_lit at h
  rw [PM.bind_get_state] at h
  obtain ⟨sig, p1, hsig, h⟩ := PM.bind_inv h
  obtain ⟨n, p2, hn, h⟩ := PM.bind_inv h
  obtain ⟨prev, p2b, hprev, h⟩ := PM.bind_inv h
  obtain ⟨_, p3, hset, h⟩ := PM.bind_inv h
  obtain ⟨body, p4, hbody, h⟩ := PM.bind_inv h
  obtain ⟨_, p5, hset2, h⟩ := PM.bind_inv h
  obtain ⟨_, p6, hpush, h⟩ := PM.bind_inv h
  cases hn
  cases hprev
  cases hset
  cases hset2
  cases hpush
  cases h
  have f1 := step_parse_lambda_signature env _ hgood _ _ _ hsig
  have f2 := hgood.stmt false _ _ _ hbody
  obtain ⟨l1, ks1, ho1, hi1, hp1⟩ := f1.objs
  obtain ⟨l2, ks2, ho2, hi2, hp2⟩ := f2.objs
  have hle1 := f1.lambda_le
  have hle2 := f2.lambda_le
  have hfn1 := f1.cur_fn
  simp only at ho2 hp2 hle2
  have hperm : (ks1 ++ (ks2 ++ [p1.cur_lambda_id])).Perm
      (List.range' p.cur_lambda_id (p4.cur_lambda_id - p.cur_lambda_id)) := by
    rw [range_split hle1 (Nat.le_trans (Nat.le_succ _) hle2)]
    apply List.Perm.append hp1
    have e : List.range' p1.cur_lambda_id (p4.cur_lambda_id - p1.cur_lambda_id)
        = p1.cur_lambda_id
          :: List.range' (p1.cur_lambda_id + 1) (p4.cur_lambda_id - (p1.cur_lambda_id + 1)) := by
      have : p4.cur_lambda_id - p1.cur_lambda_id
          = (p4.cur_lambda_id - (p1.cur_lambda_id + 1)) + 1 := by omega
      rw [this, List.range'_succ]
    rw [e]
    exact (List.perm_append_singleton _ _).trans (List.Perm.cons _ hp2)
  refine ⟨{ lambda_obj env (some p.tok) sig p1.cur_lambda_id with body := some body },
    p1.cur_lambda_id, l1, l2, ks1, ks2, ?_, rfl, rfl, rfl, rfl, hle1, ?_, hi1, hp1,
    hi2, hp2, ?_, hfn1⟩
  · simp only [ho2, ho1]
  · simp only; omega
  · rw [lambda_ids_append, lambda_ids_append, hi1, hi2, List.append_assoc]
    have := lambda_ids_nodup hperm
    rw [List.map_append, List.map_append] at this
    exact this

/-- The lambda literal `|| => noop` in the state that `init_parser` leaves. -/
theorem parse_lambda_lit_hoists_witness :
    ∃ (lam : ASTObj) (N : Nat) (l1 l2 : List ASTObj) (ks1 ks2 : List Nat),
      [{ lambda_obj sample_env (some (mk_tok .TOKEN_OR "||")) ([], primitive .TY_VOID) 0 with
          body := some (init_ast_node .ND_NOOP (some (mk_tok .TOKEN_NOOP "noop"))) }]
        = ([] : List ASTObj) ++ l1 ++ l2 ++ [lam]
      ∧ lam.kind = .OBJ_FUNCTION
      ∧ lam.id = some (plain_id (lambda_callee N))
      ∧ ASTNodeKind.ND_ID = .ND_ID
      ∧ some (plain_id (lambda_callee 0)) = lam.id
      ∧ 0 ≤ N ∧ N < 1
      ∧ lambda_ids l1 = ks1.map (fun k => some (plain_id (lambda_callee k)))
      ∧ ks1.Perm (List.range' 0 (N - 0))
      ∧ lambda_ids l2 = ks2.map (fun k => some (plain_id (lambda_callee k)))
      ∧ ks2.Perm (List.range' (N + 1) (1 - (N + 1)))
      ∧ (lambda_ids (l1 ++ l2 ++ [lam])).Nodup
      ∧ (none : Option ASTObj) = none :=
  parse_lambda_lit_hoists sample_env 3
    (start_state (mk_tok .TOKEN_OR "||")
      [mk_tok .TOKEN_ARROW "=>", mk_tok .TOKEN_NOOP "noop", mk_tok .TOKEN_SEMICOLON ";",
       mk_tok .TOKEN_EOF ""])
    { start_state (mk_tok .TOKEN_OR "||")
        [mk_tok .TOKEN_ARROW "=>", mk_tok .TOKEN_NOOP "noop", mk_tok .TOKEN_SEMICOLON ";",
         mk_tok .TOKEN_EOF ""] with
      token_i := 3, tok := mk_tok .TOKEN_SEMICOLON ";", cur_lambda_id := 1,
      objs := [{ lambda_obj sample_env (some (mk_tok .TOKEN_OR "||")) ([], primitive .TY_VOID) 0
                 with body := some (init_ast_node .ND_NOOP (some (mk_tok .TOKEN_NOOP "noop"))) }] }
    { init_ast_node .ND_ID (some (mk_tok .TOKEN_OR "||")) with
      id := some (plain_id (lambda_callee 0)) }
    rfl

theorem parse_pipe_holes_off (env : ParserEnv) (fs : ParseFns) (left : ASTNode) {p q : Parser}
    {v : ASTNode} (h : parse_pipe env fs left p = .ok v q) : q.holes_enabled = false := by
  unfold parse_pipe at h
  obtain ⟨_, _, _, h⟩ := PM.bind_inv h
  obtain ⟨_, _, _, h⟩ := PM.bind_inv h
  obtain ⟨_, _, _, h⟩ := PM.bind_inv h
  obtain ⟨_, _, _, h⟩ := PM.bind_inv h
  obtain ⟨_, _, h1, h⟩ := PM.bind_inv h
  cases h1
  cases h
  rfl

theorem parser_advance_log (env : ParserEnv) {p q : Parser} {t : Token}
    (h : parser_advance env p = .ok t q) : ∃ l, q.log = p.log ++ l := by
  unfold parser_advance at h
  split at h
  · cases h
  · split at h
    · obtain ⟨_, p1, h1, h2⟩ := PM.bind_inv h
      rw [throw_error_warning] at h1
      cases h1
      cases h2
      exact ⟨_, rfl⟩
    · cases h
      exact ⟨[], by simp⟩

theorem parse_hole_error (env : ParserEnv) (p : Parser) (hp : p.holes_enabled = false) :
    (throw_error_halts env.helpers .ERR_SYNTAX_ERROR = true →
      parse_hole env p = .aborted { p with log := p.log ++ [⟨.ERR_SYNTAX_ERROR, some p.tok⟩] })
    ∧ (∀ v q, parse_hole env p = .ok v q →
        (⟨.ERR_SYNTAX_ERROR, some p.tok⟩ : Diagnostic) ∈ q.log) := by
  constructor
  · intro hh
    unfold parse_hole
    rw [PM.bind_get_state]
    apply PM.bind_aborted
    simp only [parser_holes_enabled, hp, Bool.not_false, PM.when, if_true]
    apply PM.bind_aborted
    simp [throw_error, hh, hp]
  · intro v q h
    unfold parse_hole at h
    rw [PM.bind_get_state] at h
    obtain ⟨_, p1, h1, h⟩ := PM.bind_inv h
    obtain ⟨_, p2, h2, h⟩ := PM.bind_inv h
    cases h
    have hlog1 : (⟨.ERR_SYNTAX_ERROR, some p.tok⟩ : Diagnostic) ∈ p1.log := by
      simp only [parser_holes_enabled, hp, Bool.not_false, PM.when, if_true] at h1
      obtain ⟨_, p1b, h1b, h1c⟩ := PM.bind_inv h1
      cases h1c
      unfold throw_error at h1b
      split at h1b
      · cases h1b
      · cases h1b
        simp
    unfold parser_consume at h2
    rw [PM.bind_get_state] at h2
    obtain ⟨_, p3, h3, h4⟩ := PM.bind_inv h2
    have hlog3 : ∃ l, p3.log = p1.log ++ l := by
      unfold PM.when at h3
      split at h3
      · obtain ⟨_, p3b, h3b, h3c⟩ := PM.bind_inv h3
        cases h3c
        unfold throw_error at h3b
        split at h3b
        · cases h3b
        · cases h3b
          exact ⟨_, rfl⟩
      · cases h3
        exact ⟨[], by simp⟩
    obtain ⟨l3, hl3⟩ := hlog3
    obtain ⟨l4, hl4⟩ := parser_advance_log env h4
    rw [hl4, hl3]
    simp [hlog1]

/-- C19: the hole flag is off when parsing starts, a completed call of
`parse_expr`, `parse_stmt` or `parse_type` that is entered with the flag off
returns with the flag off, `parse_pipe` always returns with the flag off, and
with the flag off `parse_hole` reports a syntax error at the `$` token: the
compilation is left there when `throw_error` does not return, and else the
error is in the log of the state that `parse_hole` returns. -/
theorem holes_disabled_outside_pipe (env : ParserEnv) :
    (∀ (tokens : List Token) (objs : List ASTObj) (p : Parser),
        init_parser_state tokens objs = some p → p.holes_enabled = false)
    ∧ (∀ (fuel : Nat) (prec : Precedence_T) (end_tok : TokenType) (p q : Parser) (v : ASTNode),
        parse_expr env fuel prec end_tok p = .ok v q →
        p.holes_enabled = false → q.holes_enabled = false)
    ∧ (∀ (fuel : Nat) (needs_semicolon : Bool) (p q : Parser) (v : ASTNode),
        parse_stmt env fuel needs_semicolon p = .ok v q →
        p.holes_enabled = false → q.holes_enabled = false)
    ∧ (∀ (fuel : Nat) (p q : Parser) (v : ASTType),
        parse_type env fuel p = .ok v q → p.holes_enabled = false → q.holes_enabled = false)
    ∧ (∀ (fs : ParseFns) (left : ASTNode) (p q : Parser) (v : ASTNode),
        parse_pipe env fs left p = .ok v q → q.holes_enabled = false)
    ∧ (∀ (p : Parser), p.holes_enabled = false →
        (throw_error_halts env.helpers .ERR_SYNTAX_ERROR = true →
          parse_hole env p
            = .aborted { p with log := p.log ++ [⟨.ERR_SYNTAX_ERROR, some p.tok⟩] })
        ∧ (∀ v q, parse_hole env p = .ok v q →
            (⟨.ERR_SYNTAX_ERROR, some p.tok⟩ : Diagnostic) ∈ q.log)) := by
  have hoff : ∀ {p q : Parser}, Frame p q → p.holes_enabled = false → q.holes_enabled = false := by
    intro p q hf hp
    cases hq : q.holes_enabled
    · rfl
    · rw [hf.holes hq] at hp
      cases hp
  refine ⟨?_, ?_, ?_, ?_, ?_, ?_⟩
  · intro tokens objs p h
    unfold init_parser_state at h
    split at h
    · cases h
    · cases h
      rfl
  · intro fuel prec end_tok p q v h
    exact hoff ((good_parse_fns env fuel).expr prec end_tok p v q h)
  · intro fuel b p q v h
    exact hoff ((good_parse_fns env fuel).stmt b p v q h)
  · intro fuel p q v h
    exact hoff ((good_parse_fns env fuel).type p v q h)
  · intro fs left p q v h
    exact parse_pipe_holes_off env fs left h
  · intro p hp
    exact parse_hole_error env p hp

/-- The parser state on the single statement `$;`: `parse_hole` leaves the
compilation with the syntax error at the `$` token. -/
theorem holes_disabled_outside_pipe_witness :
    parse_hole sample_env
        (start_state (mk_tok .TOKEN_DOLLAR "$") [mk_tok .TOKEN_SEMICOLON ";", mk_tok .TOKEN_EOF ""])
      = .aborted
        { start_state (mk_tok .TOKEN_DOLLAR "$")
            [mk_tok .TOKEN_SEMICOLON ";", mk_tok .TOKEN_EOF ""] with
          log := [⟨.ERR_SYNTAX_ERROR, some (mk_tok .TOKEN_DOLLAR "$")⟩] } :=
  ((holes_disabled_outside_pipe sample_env).2.2.2.2.2 _ rfl).1 rfl

/-- C16: on `x = (a) + b;` the right-hand side of the assignment is parsed
at the precedence `CALL` of its first token `(`, so it ends after `(a)`:
`parse_expr` returns ADD(ASSIGN(x, CLOSURE(a)), b) and `parse_stmt` leaves the
compilation with a syntax error at `+`; on `x = a + b;`, whose right-hand side
starts with a token of precedence `LOWEST`, the statement is
ASSIGN(x, ADD(a, b)). -/
theorem parse_assignment_rhs_precedence :
    get_precedence .TOKEN_LPAREN = .CALL
    ∧ node_kind (parse_expr sample_env 8 .LOWEST .TOKEN_SEMICOLON
        (start_state (mk_tok .TOKEN_ID "x") assign_paren_toks)).val_of = some .ND_ADD
    ∧ node_kind (node_left (parse_expr sample_env 8 .LOWEST .TOKEN_SEMICOLON
        (start_state (mk_tok .TOKEN_ID "x") assign_paren_toks)).val_of) = some .ND_ASSIGN
    ∧ node_name (node_left (node_left (parse_expr sample_env 8 .LOWEST .TOKEN_SEMICOLON
        (start_state (mk_tok .TOKEN_ID "x") assign_paren_toks)).val_of)) = some "x"
    ∧ node_kind (node_right (node_left (parse_expr sample_env 8 .LOWEST .TOKEN_SEMICOLON
        (start_state (mk_tok .TOKEN_ID "x") assign_paren_toks)).val_of)) = some .ND_CLOSURE
    ∧ node_name (node_expr (node_right (node_left (parse_expr sample_env 8 .LOWEST
        .TOKEN_SEMICOLON (start_state (mk_tok .TOKEN_ID "x") assign_paren_toks)).val_of)))
        = some "a"
    ∧ node_name (node_right (parse_expr sample_env 8 .LOWEST .TOKEN_SEMICOLON
        (start_state (mk_tok .TOKEN_ID "x") assign_paren_toks)).val_of) = some "b"
    ∧ (parse_stmt sample_env 8 true
        (start_state (mk_tok .TOKEN_ID "x") assign_paren_toks)).is_aborted = true
    ∧ (parse_stmt sample_env 8 true
        (start_state (mk_tok .TOKEN_ID "x") assign_paren_toks)).state_of.map (fun q => q.log)
        = some [⟨.ERR_SYNTAX_ERROR, some (mk_tok .TOKEN_PLUS "+")⟩]
    ∧ node_kind (node_expr (parse_stmt sample_env 8 true
        (start_state (mk_tok .TOKEN_ID "x") assign_plain_toks)).val_of) = some .ND_ASSIGN
    ∧ node_kind (node_right (node_expr (parse_stmt sample_env 8 true
        (start_state (mk_tok .TOKEN_ID "x") assign_plain_toks)).val_of)) = some .ND_ADD
    ∧ (parse_stmt sample_env 8 true
        (start_state (mk_tok .TOKEN_ID "x") assign_plain_toks)).state_of.map (fun q => q.log)
        = some [] := by
  decide!

/-- C20: on `a |> f(b |> $, $);` the inner pipe switches the hole flag off
when its right-hand side ends, so the second `$`, still inside the right-hand
side of the outer pipe, is rejected: `parse_stmt` leaves the compilation at
the token of index 8 with a syntax error at `$`; on `a |> f($, $);` both holes
are accepted. -/
theorem parse_pipe_nested_hole_rejected :
    (parse_stmt sample_env 12 true
        (start_state (mk_tok .TOKEN_ID "a") nested_pipe_toks)).is_aborted = true
    ∧ (parse_stmt sample_env 12 true
        (start_state (mk_tok .TOKEN_ID "a") nested_pipe_toks)).state_of.map
          (fun q => (q.token_i, q.holes_enabled, q.log))
        = some (8, false, [⟨.ERR_SYNTAX_ERROR, some (mk_tok .TOKEN_DOLLAR "$")⟩])
    ∧ nested_pipe_toks[7]? = some (mk_tok .TOKEN_DOLLAR "$")
    ∧ node_kind (node_expr (parse_stmt sample_env 12 true
        (start_state (mk_tok .TOKEN_ID "a") single_pipe_toks)).val_of) = some .ND_PIPE
    ∧ (parse_stmt sample_env 12 true
        (start_state (mk_tok .TOKEN_ID "a") single_pipe_toks)).state_of.map (fun q => q.log)
        = some [] := by
  decide!

/-- C18, the numbering: in `|a: i32[|| => noop]| => noop` the literal whose
opening token comes first gets the number 1, and the literal inside its
argument type, whose opening token comes second, gets the number 0 and is
appended first. -/
theorem parse_lambda_lit_numbered_at_arrow :
    node_name (parse_expr sample_env 8 .LOWEST .TOKEN_SEMICOLON
        (start_state (mk_tok .TOKEN_BIT_OR "|") nested_lambda_toks)).val_of
      = some (lambda_callee 1)
    ∧ (parse_expr sample_env 8 .LOWEST .TOKEN_SEMICOLON
        (start_state (mk_tok .TOKEN_BIT_OR "|") nested_lambda_toks)).state_of.map
          (fun q => q.objs.map fun o =>
            (o.tok.map fun t => t.value, o.id.map fun i => i.callee))
      = some [(some "||", some (lambda_callee 0)), (some "|", some (lambda_callee 1))] := by
  decide!

/-- The two occurrences of `{i32, bool}` in `{i32, bool} {i32, bool};`: one
typedef `__csp_tuple_0__` is appended, and both types are named references to
it. -/
theorem parse_type_tuple_twice :
    ((parse_type sample_env 6 >>= fun a => parse_type sample_env 6 >>= fun b =>
        pure (a.kind, a.id.callee, b.kind, b.id.callee))
      (start_state (mk_tok .TOKEN_LBRACE "\x7b") tuple_toks)).val_of
      = some (.TY_UNDEF, tuple_callee 0, .TY_UNDEF, tuple_callee 0)
    ∧ ((parse_type sample_env 6 >>= fun _ => parse_type sample_env 6)
        (start_state (mk_tok .TOKEN_LBRACE "\x7b") tuple_toks)).state_of.map
          (fun q => q.objs.map fun o => (o.kind, o.id.map fun i => i.callee))
      = some [(.OBJ_TYPEDEF, some (tuple_callee 0))] := by
  decide!

/-! ## Integer literals -/

theorem to_i32_of_range (v : Int) (h0 : 0 ≤ v) (h1 : v ≤ 2 ^ 31 - 1) : to_i32 v = v := by
  unfold to_i32
  omega

theorem to_i64_of_range (v : Int) (h0 : 0 ≤ v) (h1 : v ≤ 2 ^ 63 - 1) : to_i64 v = v := by
  unfold to_i64
  omega

/-- C21: at an integer literal token whose text `atoll` reads as `v ≥ 0`,
`parse_int_lit` returns, for `v ≤ 2^31 - 1`, an `ND_INT` node of the type that
`get_primitive_type("i32")` hands out, with `int_val = v`, and for
`2^31 - 1 < v ≤ 2^63 - 1` an `ND_LONG` node of the type of
`get_primitive_type("i64")` with `long_val = v`; in both cases the node is
marked constant and the parser stands on the next token. -/
theorem parse_int_lit_int_long (env : ParserEnv) (ts : List Token) (i : Nat) (t t1 : Token)
    (p : Parser) (v : Int) (h : At ts i t p) (hty : t.type = .TOKEN_INT)
    (h1 : ts[i + 1]? = some t1) (hv : env.atoll t.value = v) (h0 : 0 ≤ v) :
    (v ≤ 2 ^ 31 - 1 →
      ∃ q, parse_int_lit env p
          = .ok { init_ast_node .ND_INT (some t) with
                  int_val := v, data_type := env.get_primitive_type "i32",
                  is_constant := true } q
        ∧ At ts (i + 1) t1 q)
    ∧ (2 ^ 31 - 1 < v → v ≤ 2 ^ 63 - 1 →
      ∃ q, parse_int_lit env p
          = .ok { init_ast_node .ND_LONG (some t) with
                  long_val := v, data_type := env.get_primitive_type "i64",
                  is_constant := true } q
        ∧ At ts (i + 1) t1 q) := by
  obtain ⟨q, hq, hat⟩ := parse_int_lit_at env h hty h1
  have hne : (t.type == .TOKEN_ID) = false := by rw [hty]; rfl
  simp only [atom_node, hne, int_lit_node, hv] at hq
  constructor
  · intro hle
    refine ⟨q, ?_, hat⟩
    rw [hq, if_pos hle, to_i32_of_range v h0 hle]
    rfl
  · intro hgt hle
    refine ⟨q, ?_, hat⟩
    rw [hq, if_neg (not_le.mpr hgt), if_pos hle, to_i64_of_range v h0 hle]
    rfl

/-- The literals `2147483647` and `2147483648`: the first is an `i32`, the
second an `i64`. -/
theorem parse_int_lit_int_long_witness :
    (∃ q, parse_int_lit sample_env (start_state (mk_tok .TOKEN_INT "2147483647") semicolon_eof)
        = .ok { init_ast_node .ND_INT (some (mk_tok .TOKEN_INT "2147483647")) with
                int_val := 2147483647, data_type := sample_env.get_primitive_type "i32",
                is_constant := true } q
      ∧ At (mk_tok .TOKEN_INT "2147483647" :: semicolon_eof) 1 (mk_tok .TOKEN_SEMICOLON ";") q)
    ∧ (∃ q, parse_int_lit sample_env (start_state (mk_tok .TOKEN_INT "2147483648") semicolon_eof)
        = .ok { init_ast_node .ND_LONG (some (mk_tok .TOKEN_INT "2147483648")) with
                long_val := 2147483648, data_type := sample_env.get_primitive_type "i64",
                is_constant := true } q
      ∧ At (mk_tok .TOKEN_INT "2147483648" :: semicolon_eof) 1 (mk_tok .TOKEN_SEMICOLON ";") q) :=
  ⟨(parse_int_lit_int_long sample_env (mk_tok .TOKEN_INT "2147483647" :: semicolon_eof) 0
      (mk_tok .TOKEN_INT "2147483647") (mk_tok .TOKEN_SEMICOLON ";")
      (start_state (mk_tok .TOKEN_INT "2147483647") semicolon_eof) 2147483647
      ⟨rfl, rfl, rfl⟩ rfl rfl (by decide) (by decide)).1 (by decide),
   (parse_int_lit_int_long sample_env (mk_tok .TOKEN_INT "2147483648" :: semicolon_eof) 0
      (mk_tok .TOKEN_INT "2147483648") (mk_tok .TOKEN_SEMICOLON ";")
      (start_state (mk_tok .TOKEN_INT "2147483648") semicolon_eof) 2147483648
      ⟨rfl, rfl, rfl⟩ rfl rfl (by decide) (by decide)).2 (by decide) (by decide)⟩

theorem parse_int_lit_inv (env : ParserEnv) (p q : Parser) (lit : ASTNode)
    (h : parse_int_lit env p = .ok lit q) : lit = int_lit_node env p.tok := by
  unfold parse_int_lit at h
  rw [PM.bind_get_state] at h
  obtain ⟨a, p1, _, h2⟩ := PM.bind_inv h
  unfold int_lit_node
  by_cases c1 : env.atoll p.tok.value ≤ 2 ^ 31 - 1
  · simp only [if_pos c1, PM.pure_apply] at h2 ⊢
    injection h2 with h3 _
    rw [← h3]
    rfl
  · by_cases c2 : env.atoll p.tok.value ≤ 2 ^ 63 - 1
    · simp only [if_neg c1, if_pos c2, PM.pure_apply] at h2 ⊢
      injection h2 with h3 _
      rw [← h3]
      rfl
    · simp only [if_neg c1, if_neg c2, PM.pure_apply] at h2 ⊢
      injection h2 with h3 _
      rw [← h3]
      rfl

/-- C22: `atoll` returns a `long long`; whenever its result on the text of
the literal is in the range of that type, `parse_int_lit` takes one of its
first two branches: the node it returns is an `ND_INT` or an `ND_LONG` node
whose value is at most `2^63 - 1`, and never an `ND_ULONG` node. -/
theorem parse_int_lit_never_ulong (env : ParserEnv) (p q : Parser) (lit : ASTNode)
    (hrange : env.atoll p.tok.value ≤ 2 ^ 63 - 1)
    (h : parse_int_lit env p = .ok lit q) :
    lit.kind ≠ .ND_ULONG ∧ (lit.kind = .ND_INT ∨ lit.kind = .ND_LONG)
      ∧ lit.ulong_val = 0 ∧ lit.long_val ≤ 2 ^ 63 - 1 := by
  rw [parse_int_lit_inv env p q lit h]
  unfold int_lit_node
  by_cases c1 : env.atoll p.tok.value ≤ 2 ^ 31 - 1
  · simp only [if_pos c1]
    exact ⟨by simp [init_ast_node], Or.inl rfl, rfl, by simp [init_ast_node]⟩
  · simp only [if_neg c1, if_pos hrange]
    refine ⟨by simp [init_ast_node], Or.inr rfl, rfl, ?_⟩
    show to_i64 _ ≤ _
    unfold to_i64
    omega

/-- The literal `9223372036854775808` (`2^63`) with the saturating `atoll`:
the node is an `ND_LONG` of value `2^63 - 1`. -/
theorem parse_int_lit_never_ulong_witness :
    parse_int_lit saturating_env
        (start_state (mk_tok .TOKEN_INT "9223372036854775808") semicolon_eof)
      = .ok { init_ast_node .ND_LONG (some (mk_tok .TOKEN_INT "9223372036854775808")) with
              long_val := 9223372036854775807,
              data_type := some (primitive .TY_I64), is_constant := true }
          { start_state (mk_tok .TOKEN_INT "9223372036854775808") semicolon_eof with
            token_i := 1, tok := mk_tok .TOKEN_SEMICOLON ";" }
    ∧ (ASTNodeKind.ND_LONG ≠ .ND_ULONG ∧ (ASTNodeKind.ND_LONG = .ND_INT ∨ ASTNodeKind.ND_LONG = .ND_LONG)
      ∧ (0 : Nat) = 0 ∧ (9223372036854775807 : Int) ≤ 2 ^ 63 - 1) :=
  ⟨rfl, parse_int_lit_never_ulong saturating_env
      (start_state (mk_tok .TOKEN_INT "9223372036854775808") semicolon_eof)
      { start_state (mk_tok .TOKEN_INT "9223372036854775808") semicolon_eof with
        token_i := 1, tok := mk_tok .TOKEN_SEMICOLON ";" }
      { init_ast_node .ND_LONG (some (mk_tok .TOKEN_INT "9223372036854775808")) with
        long_val := 9223372036854775807,
        data_type := some (primitive .TY_I64), is_constant := true }
      (by decide) rfl⟩

/-! ## A value returned from a `void` function -/

theorem throw_error_cast_warn (env : ParserEnv) (tok : Option Token) (p : Parser) :
    throw_error env .ERR_TYPE_CAST_WARN tok p
      = .ok () { p with log := p.log ++ [⟨.ERR_TYPE_CAST_WARN, tok⟩] } := by
  simp [throw_error, throw_error_halts, is_warning]

theorem PM.bind_assoc_apply {α β γ : Type} (m : PM α) (f : α → PM β) (g : β → PM γ)
    (p : Parser) : ((m >>= f) >>= g) p = (m >>= fun a => f a >>= g) p := by
  show PM.bind (PM.bind m f) g p = PM.bind m (fun a => PM.bind (f a) g) p
  unfold PM.bind
  cases m p <;> rfl

theorem parse_return_void_continues (env : ParserEnv) (fs : ParseFns) (needs_semicolon : Bool)
    {ts : List Token} {i : Nat} {t t1 : Token} {p : Parser} {f : ASTObj} {rt : ASTType}
    (h : At ts i t p) (hty : t.type = .TOKEN_RETURN) (h1 : ts[i + 1]? = some t1)
    (hval : t1.type ≠ .TOKEN_SEMICOLON) (hfn : p.cur_fn = some f)
    (hrt : f.return_type = some rt) (hvoid : rt.kind = .TY_VOID) :
    ∃ q, At ts (i + 1) t1 q ∧ q.cur_fn = some f ∧
      parse_return env fs needs_semicolon p
        = (do
            let e ← fs.parse_expr .LOWEST .TOKEN_SEMICOLON
            PM.when needs_semicolon (parser_consume env .TOKEN_SEMICOLON)
            pure { init_ast_node .ND_RETURN (some t) with return_val := some e } : PM ASTNode)
          { q with log := q.log ++ [⟨.ERR_TYPE_CAST_WARN, some t⟩] } := by
  obtain ⟨q, hq, hat⟩ := parser_consume_at env .TOKEN_RETURN h hty h1
  have hcf : q.cur_fn = some f := by
    rw [(step_parser_consume env .TOKEN_RETURN p t1 q hq).cur_fn, hfn]
  refine ⟨q, hat, hcf, ?_⟩
  unfold parse_return
  rw [PM.bind_get_state, PM.bind_ok hq, PM.bind_get_state]
  have hns : (!tok_is q .TOKEN_SEMICOLON) = true := by
    simp [tok_is, hat.2.2, hval]
  simp only [hns, if_true, hcf, hrt, hvoid, h.2.2, beq_self_eq_true]
  rw [PM.bind_assoc_apply,
    PM.bind_ok (PM.when_true_ok (throw_error_cast_warn env (init_ast_node .ND_RETURN (some t)).tok q)),
    PM.bind_assoc_apply]
  simp only [hcf]
  rfl

/-- C23: inside a function whose return type is `void`, `parse_return` reports
a returned value with the kind `ERR_TYPE_CAST_WARN`, after which `throw_error`
returns in every environment, so that the value is parsed next; on `ret 1;` in the function `void_fn` the
statement is parsed to the end, the node returned is the `ND_RETURN` node that
holds the literal `1`, and the only diagnostic is that warning; likewise the
body `ret 1` of the lambda literal `|| => ret 1;`, which has no return type,
becomes the body of the hoisted function object. -/
theorem parse_return_value_in_void_fn :
    (∀ (env : ParserEnv) (tok : Option Token) (p : Parser),
        throw_error env .ERR_TYPE_CAST_WARN tok p
          = .ok () { p with log := p.log ++ [⟨.ERR_TYPE_CAST_WARN, tok⟩] })
    ∧ (∀ (env : ParserEnv) (fs : ParseFns) (needs_semicolon : Bool) (ts : List Token) (i : Nat)
        (t t1 : Token) (p : Parser) (f : ASTObj) (rt : ASTType),
        At ts i t p → t.type = .TOKEN_RETURN → ts[i + 1]? = some t1 →
        t1.type ≠ .TOKEN_SEMICOLON → p.cur_fn = some f → f.return_type = some rt →
        rt.kind = .TY_VOID →
        ∃ q, At ts (i + 1) t1 q ∧ q.cur_fn = some f ∧
          parse_return env fs needs_semicolon p
            = (do
                let e ← fs.parse_expr .LOWEST .TOKEN_SEMICOLON
                PM.when needs_semicolon (parser_consume env .TOKEN_SEMICOLON)
                pure { init_ast_node .ND_RETURN (some t) with return_val := some e } :
                  PM ASTNode)
              { q with log := q.log ++ [⟨.ERR_TYPE_CAST_WARN, some t⟩] })
    ∧ (parse_stmt sample_env 4 true
        { start_state (mk_tok .TOKEN_RETURN "ret") return_value_toks with
          cur_fn := some void_fn }).is_aborted = false
    ∧ node_kind (parse_stmt sample_env 4 true
        { start_state (mk_tok .TOKEN_RETURN "ret") return_value_toks with
          cur_fn := some void_fn }).val_of = some .ND_RETURN
    ∧ (node_return_val (parse_stmt sample_env 4 true
        { start_state (mk_tok .TOKEN_RETURN "ret") return_value_toks with
          cur_fn := some void_fn }).val_of).map (fun n => (n.kind, n.int_val))
        = some (.ND_INT, 1)
    ∧ (parse_stmt sample_env 4 true
        { start_state (mk_tok .TOKEN_RETURN "ret") return_value_toks with
          cur_fn := some void_fn }).state_of.map (fun q => (q.log, q.tok.type))
        = some ([⟨.ERR_TYPE_CAST_WARN, some (mk_tok .TOKEN_RETURN "ret")⟩], .TOKEN_EOF)
    ∧ (parse_expr sample_env 6 .LOWEST .TOKEN_SEMICOLON
        (start_state (mk_tok .TOKEN_OR "||") void_lambda_toks)).is_aborted = false
    ∧ (parse_expr sample_env 6 .LOWEST .TOKEN_SEMICOLON
        (start_state (mk_tok .TOKEN_OR "||") void_lambda_toks)).state_of.map (fun q => q.log)
        = some [⟨.ERR_TYPE_CAST_WARN, some (mk_tok .TOKEN_RETURN "ret")⟩]
    ∧ ((parse_expr sample_env 6 .LOWEST .TOKEN_SEMICOLON
        (start_state (mk_tok .TOKEN_OR "||") void_lambda_toks)).state_of.map
          (fun q => q.objs.map fun o =>
            (o.return_type.map (fun t => t.kind), node_kind o.body,
             (node_return_val o.body).map fun n => (n.kind, n.int_val))))
        = some [(some .TY_VOID, some .ND_RETURN, some (.ND_INT, 1))] := by
  refine ⟨throw_error_cast_warn,
    fun env fs b ts i t t1 p f rt h hty h1 hval hfn hrt hvoid =>
      parse_return_void_continues env fs b h hty h1 hval hfn hrt hvoid, ?_, ?_, ?_, ?_, ?_, ?_, ?_⟩
  · decide!
  · decide!
  · decide!
  · decide!
  · decide!
  · decide!
  · decide!

/-! ## Expression statements -/

theorem is_executable_mk (kind : ASTNodeKind) (tok : Option Token) (data_type : Option ASTType)
    (id : Option ASTIdentifier) (left right expr : Option ASTNode) (args : List ASTNode)
    (is_constant is_assigning : Bool) (int_val long_val : Int) (ulong_val : Nat)
    (the_type : Option ASTType) (condition if_branch else_branch body return_val : Option ASTNode)
    (stmts cases : List ASTNode) (default_case : Option ASTNode) (is_default_case : Bool)
    (init_stmt : Option ASTNode) (exprs : List ASTNode) (str_val : String) (bool_val : Bool) :
    is_executable (⟨kind, tok, data_type, id, left, right, expr, args, is_constant, is_assigning,
        int_val, long_val, ulong_val, the_type, condition, if_branch, else_branch, body,
        return_val, stmts, cases, default_case, is_default_case, init_stmt, exprs, str_val,
        bool_val⟩ : ASTNode)
      = if kind == .ND_CLOSURE then
          match expr with
          | none => none
          | some e => is_executable e
        else if kind == .ND_PIPE then
          match right with
          | none => none
          | some r => is_executable r
        else if kind == .ND_IF_EXPR then
          match if_branch with
          | none => none
          | some a =>
            match is_executable a with
            | none => none
            | some false => some false
            | some true =>
              match else_branch with
              | none => none
              | some b => is_executable b
        else
          some (kind == .ND_CALL || kind == .ND_ASSIGN || kind == .ND_INC || kind == .ND_DEC
            || kind == .ND_CAST || kind == .ND_MEMBER || kind == .ND_ASM) := by
  rcases expr with _ | ⟨⟨⟩⟩ <;> rcases right with _ | ⟨⟨⟩⟩ <;> rcases if_branch with _ | ⟨⟨⟩⟩ <;>
    rcases else_branch with _ | ⟨⟨⟩⟩ <;>
    (delta is_executable; rfl)

theorem executable_by_spec_mk (kind : ASTNodeKind) (tok : Option Token) (data_type : Option ASTType)
    (id : Option ASTIdentifier) (left right expr : Option ASTNode) (args : List ASTNode)
    (is_constant is_assigning : Bool) (int_val long_val : Int) (ulong_val : Nat)
    (the_type : Option ASTType) (condition if_branch else_branch body return_val : Option ASTNode)
    (stmts cases : List ASTNode) (default_case : Option ASTNode) (is_default_case : Bool)
    (init_stmt : Option ASTNode) (exprs : List ASTNode) (str_val : String) (bool_val : Bool) :
    executable_by_spec (⟨kind, tok, data_type, id, left, right, expr, args, is_constant, is_assigning,
        int_val, long_val, ulong_val, the_type, condition, if_branch, else_branch, body,
        return_val, stmts, cases, default_case, is_default_case, init_stmt, exprs, str_val,
        bool_val⟩ : ASTNode)
      = (kind == .ND_CALL || kind == .ND_ASSIGN || kind == .ND_INC || kind == .ND_DEC
        || kind == .ND_CAST || kind == .ND_MEMBER || kind == .ND_ASM
        || (kind == .ND_CLOSURE &&
            match expr with
            | some e => executable_by_spec e
            | none => false)
        || (kind == .ND_PIPE &&
            match right with
            | some r => executable_by_spec r
            | none => false)
        || (kind == .ND_IF_EXPR &&
            (match if_branch with
             | some a => executable_by_spec a
             | none => false) &&
            (match else_branch with
             | some b => executable_by_spec b
             | none => false))) := by
  rcases expr with _ | ⟨⟨⟩⟩ <;> rcases right with _ | ⟨⟨⟩⟩ <;> rcases if_branch with _ | ⟨⟨⟩⟩ <;>
    rcases else_branch with _ | ⟨⟨⟩⟩ <;>
    (delta executable_by_spec; rfl)

theorem is_executable_spec (n : ASTNode) :
    ∀ e, is_executable n = some e → e = executable_by_spec n := by
  refine ASTNode.rec
    (motive_1 := fun n => ∀ e, is_executable n = some e → e = executable_by_spec n)
    (motive_2 := fun o => ∀ x, o = some x →
      ∀ e, is_executable x = some e → e = executable_by_spec x)
    (motive_3 := fun _ => True) ?_ ?_ ?_ ?_ ?_ n
  · intro kind tok data_type id left right expr args is_constant is_assigning int_val long_val
      ulong_val the_type condition if_branch else_branch body return_val stmts cases
      default_case is_default_case init_stmt exprs str_val bool_val
      _ ihright ihexpr _ _ ihif ihelse _ _ _ _ _ _ _ e h
    rw [is_executable_mk] at h
    rw [executable_by_spec_mk]
    by_cases hc : kind = .ND_CLOSURE
    · subst hc
      cases expr with
      | none => simp at h
      | some x =>
        have h' : is_executable x = some e := by simpa using h
        rw [ihexpr x rfl e h']
        simp [beq_eq_decide]
    · by_cases hp : kind = .ND_PIPE
      · subst hp
        cases right with
        | none => simp at h
        | some x =>
          have h' : is_executable x = some e := by simpa using h
          rw [ihright x rfl e h']
          simp [beq_eq_decide]
      · by_cases hi : kind = .ND_IF_EXPR
        · subst hi
          cases if_branch with
          | none => simp at h
          | some a =>
            cases ha : is_executable a with
            | none => simp [ha] at h
            | some ea =>
              have hea := ihif a rfl ea ha
              cases ea with
              | false =>
                have he : e = false := by simpa [ha] using h.symm
                rw [he]
                simp [beq_eq_decide, ← hea]
              | true =>
                cases else_branch with
                | none => simp [ha] at h
                | some b =>
                  have h' : is_executable b = some e := by simpa [ha] using h
                  rw [ihelse b rfl e h']
                  simp [beq_eq_decide, ← hea]
        · have he : e = (kind == .ND_CALL || kind == .ND_ASSIGN || kind == .ND_INC
              || kind == .ND_DEC || kind == .ND_CAST || kind == .ND_MEMBER || kind == .ND_ASM) := by
            simpa [hc, hp, hi] using h.symm
          have c1 : (kind == .ND_CLOSURE) = false := by simpa using hc
          have c2 : (kind == .ND_PIPE) = false := by simpa using hp
          have c3 : (kind == .ND_IF_EXPR) = false := by simpa using hi
          rw [he, c1, c2, c3]
          simp
  · intro x hx
    cases hx
  · intro val ih x hx
    cases hx
    exact ih
  · trivial
  · intros
    trivial

theorem is_executable_plain (n : ASTNode) (hc : n.kind ≠ .ND_CLOSURE) (hp : n.kind ≠ .ND_PIPE)
    (hi : n.kind ≠ .ND_IF_EXPR) :
    is_executable n
      = some (n.kind == .ND_CALL || n.kind == .ND_ASSIGN || n.kind == .ND_INC
          || n.kind == .ND_DEC || n.kind == .ND_CAST || n.kind == .ND_MEMBER
          || n.kind == .ND_ASM) := by
  cases n
  rw [is_executable_mk]
  simp only at hc hp hi
  simp [hc, hp, hi]

theorem is_executable_literal_or_arithmetic (n : ASTNode)
    (h : literal_or_arithmetic n.kind = true) : is_executable n = some false := by
  have hc : n.kind ≠ .ND_CLOSURE := by
    intro hk; rw [hk] at h; revert h; decide
  have hp : n.kind ≠ .ND_PIPE := by
    intro hk; rw [hk] at h; revert h; decide
  have hi : n.kind ≠ .ND_IF_EXPR := by
    intro hk; rw [hk] at h; revert h; decide
  rw [is_executable_plain n hc hp hi]
  revert h
  cases n.kind <;> decide

/-- C24: once `parse_expr` has returned the expression `expr` and
`is_executable` has a verdict `e` on it, (1) the verdict is the one of the
specification's wording: `expr` is a call, assignment, increment, decrement,
cast, member access or asm node, a closure whose inner expression is
executable, a pipe whose right-hand side is executable, or an if-expression
both of whose branches are executable; (2) it is negative for an identifier,
a literal and an arithmetic, comparison or logical operator node; (3) for an
executable expression `parse_expr_stmt` reports nothing: it goes on with the
semicolon and returns the statement node; (4) for an expression that is not
executable it reports a syntax error at the token of the expression, where
the compilation is left when `throw_error` does not return. -/
theorem parse_expr_stmt_executable (env : ParserEnv) (fs : ParseFns) (needs_semicolon : Bool)
    (p q : Parser) (expr : ASTNode) (e : Bool)
    (hparse : fs.parse_expr .LOWEST .TOKEN_SEMICOLON p = .ok expr q)
    (hex : is_executable expr = some e) :
    e = executable_by_spec expr
    ∧ (literal_or_arithmetic expr.kind = true → e = false)
    ∧ (e = true →
        parse_expr_stmt env fs needs_semicolon p
          = (do
              PM.when needs_semicolon (parser_consume env .TOKEN_SEMICOLON)
              pure { init_ast_node .ND_EXPR_STMT (some p.tok) with expr := some expr } :
                PM ASTNode) q)
    ∧ (e = false → throw_error_halts env.helpers .ERR_SYNTAX_ERROR = true →
        parse_expr_stmt env fs needs_semicolon p
          = .aborted { q with log := q.log ++ [⟨.ERR_SYNTAX_ERROR, expr.tok⟩] })
    ∧ (e = false → throw_error_halts env.helpers .ERR_SYNTAX_ERROR = false →
        parse_expr_stmt env fs needs_semicolon p
          = (do
              PM.when needs_semicolon (parser_consume env .TOKEN_SEMICOLON)
              pure { init_ast_node .ND_EXPR_STMT (some p.tok) with expr := some expr } :
                PM ASTNode) { q with log := q.log ++ [⟨.ERR_SYNTAX_ERROR, expr.tok⟩] }) := by
  have hunf : parse_expr_stmt env fs needs_semicolon p
      = (do
          PM.when (!e) (throw_error env .ERR_SYNTAX_ERROR expr.tok)
          PM.when needs_semicolon (parser_consume env .TOKEN_SEMICOLON)
          pure { init_ast_node .ND_EXPR_STMT (some p.tok) with expr := some expr } :
            PM ASTNode) q := by
    unfold parse_expr_stmt
    rw [PM.bind_get_state, PM.bind_ok hparse]
    simp only [hex]
  refine ⟨is_executable_spec expr e hex, ?_, ?_, ?_, ?_⟩
  · intro hk
    have := is_executable_literal_or_arithmetic expr hk
    rw [hex] at this
    exact Option.some.inj this
  · intro he
    subst he
    rw [hunf]
    exact PM.bind_ok (PM.when_false _ _)
  · intro he hh
    subst he
    rw [hunf]
    apply PM.bind_aborted
    show PM.when true _ q = _
    unfold PM.when
    rw [if_pos rfl]
    apply PM.bind_aborted
    simp [throw_error, hh]
  · intro he hh
    subst he
    rw [hunf]
    have ht : throw_error env .ERR_SYNTAX_ERROR expr.tok q
        = .ok () { q with log := q.log ++ [⟨.ERR_SYNTAX_ERROR, expr.tok⟩] } := by
      simp [throw_error, hh]
    exact PM.bind_ok (PM.when_true_ok ht)

/-- The statement `x;`: the bare identifier is not executable, and
`parse_expr_stmt` leaves the compilation with a syntax error at `x`. -/
theorem parse_expr_stmt_executable_witness :
    parse_expr_stmt sample_env (parse_fns sample_env 3) true
        (start_state (mk_tok .TOKEN_ID "x") semicolon_eof)
      = .aborted
          { start_state (mk_tok .TOKEN_ID "x") semicolon_eof with
            token_i := 1, tok := mk_tok .TOKEN_SEMICOLON ";",
            log := [⟨.ERR_SYNTAX_ERROR, some (mk_tok .TOKEN_ID "x")⟩] } :=
  (parse_expr_stmt_executable sample_env (parse_fns sample_env 3) true
    (start_state (mk_tok .TOKEN_ID "x") semicolon_eof)
    { start_state (mk_tok .TOKEN_ID "x") semicolon_eof with
      token_i := 1, tok := mk_tok .TOKEN_SEMICOLON ";" }
    { init_ast_node .ND_ID (some (mk_tok .TOKEN_ID "x")) with id := some (plain_id "x") }
    false rfl rfl).2.2.2.1 rfl rfl

/-! ## The default cases of `match` -/

theorem parse_match_cases_stop (env : ParserEnv) (parse_one : PM ASTNode) (n : Nat)
    (m : ASTNode) {p : Parser}
    (hstop : (!tok_is p .TOKEN_RBRACE && !tok_is p .TOKEN_EOF) = false) :
    parse_match_cases env parse_one (n + 1) m p = .ok m p := by
  unfold parse_match_cases
  rw [PM.bind_get_state, hstop]
  rfl

theorem parse_match_cases_plain (env : ParserEnv) (parse_one : PM ASTNode) (n : Nat)
    (m : ASTNode) {p p1 : Parser} {c : ASTNode}
    (hgo : (!tok_is p .TOKEN_RBRACE && !tok_is p .TOKEN_EOF) = true)
    (hone : parse_one p = .ok c p1) (hc : c.is_default_case = false) :
    parse_match_cases env parse_one (n + 1) m p
      = parse_match_cases env parse_one n { m with cases := m.cases ++ [c] } p1 := by
  rw [parse_match_cases]
  rw [PM.bind_get_state, hgo, if_pos rfl, PM.bind_ok hone, hc]
  rfl

theorem parse_match_cases_first_default (env : ParserEnv) (parse_one : PM ASTNode) (n : Nat)
    (m : ASTNode) {p p1 : Parser} {c : ASTNode}
    (hgo : (!tok_is p .TOKEN_RBRACE && !tok_is p .TOKEN_EOF) = true)
    (hone : parse_one p = .ok c p1) (hc : c.is_default_case = true)
    (hm : m.default_case = none) :
    parse_match_cases env parse_one (n + 1) m p
      = parse_match_cases env parse_one n { m with default_case := some c } p1 := by
  rw [parse_match_cases]
  rw [PM.bind_get_state, hgo, if_pos rfl, PM.bind_ok hone, hc, if_pos rfl, PM.bind_get_state, hm]
  rfl

theorem parse_match_cases_second_default (env : ParserEnv) (parse_one : PM ASTNode) (n : Nat)
    (m : ASTNode) {p p1 : Parser} {c d : ASTNode}
    (hgo : (!tok_is p .TOKEN_RBRACE && !tok_is p .TOKEN_EOF) = true)
    (hone : parse_one p = .ok c p1) (hc : c.is_default_case = true)
    (hm : m.default_case = some d)
    (hh : throw_error_halts env.helpers .ERR_REDEFINITION = true) :
    parse_match_cases env parse_one (n + 1) m p
      = .aborted { p1 with log := p1.log ++ [⟨.ERR_REDEFINITION, some p1.tok⟩] } := by
  rw [parse_match_cases]
  rw [PM.bind_get_state, hgo, if_pos rfl, PM.bind_ok hone, hc, if_pos rfl, PM.bind_get_state, hm]
  apply PM.bind_aborted
  show PM.when true _ p1 = _
  unfold PM.when
  rw [if_pos rfl]
  apply PM.bind_aborted
  simp [throw_error, hh]

/-- The loop over a run of cases none of which is a default case. -/
theorem parse_match_cases_run_plain (env : ParserEnv) (parse_one : PM ASTNode)
    {p q : Parser} {cs : List ASTNode} (hrun : CaseSeq parse_one p cs q) :
    ∀ (k : Nat) (m : ASTNode), default_cases cs = [] →
      parse_match_cases env parse_one (cs.length + k) m p
        = parse_match_cases env parse_one k { m with cases := m.cases ++ cs } q := by
  induction hrun with
  | nil p =>
    intro k m _
    cases m
    simp only [List.length_nil, Nat.zero_add, List.append_nil]
  | @cons p p1 q c cs hgo hone _ ih =>
    intro k m hd
    have hc : c.is_default_case = false := by
      cases h : c.is_default_case
      · rfl
      · simp [default_cases, List.filter, h] at hd
    have hd' : default_cases cs = [] := by
      simpa [default_cases, List.filter, hc] using hd
    have hlen : (c :: cs).length + k = (cs.length + k) + 1 := by
      simp only [List.length_cons]; omega
    rw [hlen, parse_match_cases_plain env parse_one _ m hgo hone hc, ih k _ hd']
    simp only [List.append_assoc, List.singleton_append]

theorem plain_cases_of_no_default (cs : List ASTNode) (h : default_cases cs = []) :
    plain_cases cs = cs := by
  induction cs with
  | nil => rfl
  | cons c cs ih =>
    cases hc : c.is_default_case
    · have hd' : default_cases cs = [] := by
        simpa [default_cases, List.filter, hc] using h
      have h2 := ih hd'
      unfold plain_cases at h2 ⊢
      simp only [List.filter, hc, Bool.not_false]
      rw [h2]
    · simp [default_cases, List.filter, hc] at h

theorem case_seq_nil_inv {parse_one : PM ASTNode} {p q : Parser}
    (h : CaseSeq parse_one p [] q) : q = p := by
  cases h
  rfl

theorem case_seq_cons_inv {parse_one : PM ASTNode} {p q : Parser} {c : ASTNode}
    {cs : List ASTNode} (h : CaseSeq parse_one p (c :: cs) q) :
    (!tok_is p .TOKEN_RBRACE && !tok_is p .TOKEN_EOF) = true
      ∧ ∃ p1, parse_one p = .ok c p1 ∧ CaseSeq parse_one p1 cs q := by
  cases h with
  | cons hgo hone hrest => exact ⟨hgo, _, hone, hrest⟩

/-- The loop over a run of cases with at most one default case. -/
theorem parse_match_cases_run (env : ParserEnv) (parse_one : PM ASTNode)
    {p q : Parser} {cs : List ASTNode} (hrun : CaseSeq parse_one p cs q)
    (hstop : (!tok_is q .TOKEN_RBRACE && !tok_is q .TOKEN_EOF) = false) :
    ∀ (k : Nat) (m : ASTNode), m.default_case = none → (default_cases cs).length ≤ 1 →
      parse_match_cases env parse_one (cs.length + (k + 1)) m p
        = .ok { m with cases := m.cases ++ plain_cases cs,
                       default_case := (default_cases cs).head? } q := by
  induction hrun with
  | nil p =>
    intro k m hm _
    rw [List.length_nil, Nat.zero_add, parse_match_cases_stop env parse_one k m hstop]
    cases m
    simp only at hm
    subst hm
    simp [plain_cases, default_cases]
  | @cons p p1 q c cs hgo hone hrest ih =>
    intro k m hm hcount
    have hlen : (c :: cs).length + (k + 1) = (cs.length + (k + 1)) + 1 := by
      simp only [List.length_cons]; omega
    rw [hlen]
    cases hc : c.is_default_case
    · have hd : default_cases (c :: cs) = default_cases cs := by
        simp [default_cases, List.filter, hc]
      have hp : plain_cases (c :: cs) = c :: plain_cases cs := by
        simp [plain_cases, List.filter, hc]
      rw [parse_match_cases_plain env parse_one _ m hgo hone hc,
        ih hstop k { m with cases := m.cases ++ [c] } hm (by rw [← hd]; exact hcount), hd, hp]
      simp only [List.append_assoc, List.singleton_append]
    · have hd : default_cases (c :: cs) = c :: default_cases cs := by
        simp [default_cases, List.filter, hc]
      have hnone : default_cases cs = [] := by
        rw [hd] at hcount
        simp only [List.length_cons] at hcount
        exact List.eq_nil_of_length_eq_zero (by omega)
      have hp : plain_cases (c :: cs) = cs := by
        rw [← plain_cases_of_no_default cs hnone]
        simp [plain_cases, List.filter, hc]
      rw [parse_match_cases_first_default env parse_one _ m hgo hone hc hm,
        parse_match_cases_run_plain env parse_one hrest (k + 1) _ hnone,
        parse_match_cases_stop env parse_one k _ hstop, hd, hp]
      rfl

/-- The loop reaches a default case while the node already has one. -/
theorem parse_match_cases_dup_after (env : ParserEnv) (parse_one : PM ASTNode)
    (hh : throw_error_halts env.helpers .ERR_REDEFINITION = true) (d : ASTNode)
    (hd : d.is_default_case = true) (k : Nat) :
    ∀ (cs : List ASTNode) (p q : Parser) (m : ASTNode) (d0 : ASTNode),
      CaseSeq parse_one p (cs ++ [d]) q → m.default_case = some d0 → default_cases cs = [] →
      parse_match_cases env parse_one (cs.length + (k + 1)) m p
        = .aborted { q with log := q.log ++ [⟨.ERR_REDEFINITION, some q.tok⟩] } := by
  intro cs
  induction cs with
  | nil =>
    intro p q m d0 hrun hm _
    obtain ⟨hgo, p1, hone, hrest⟩ := case_seq_cons_inv hrun
    rw [case_seq_nil_inv hrest, List.length_nil, Nat.zero_add]
    exact parse_match_cases_second_default env parse_one k m hgo hone hd hm hh
  | cons c cs ih =>
    intro p q m d0 hrun hm hnone
    obtain ⟨hgo, p1, hone, hrest⟩ := case_seq_cons_inv hrun
    have hc : c.is_default_case = false := by
      cases h : c.is_default_case
      · rfl
      · simp [default_cases, List.filter, h] at hnone
    have hnone' : default_cases cs = [] := by
      simpa [default_cases, List.filter, hc] using hnone
    have hlen : (c :: cs).length + (k + 1) = (cs.length + (k + 1)) + 1 := by
      simp only [List.length_cons]; omega
    rw [hlen, parse_match_cases_plain env parse_one _ m hgo hone hc]
    exact ih p1 q _ d0 hrest hm hnone'

/-- The loop reaches a second default case. -/
theorem parse_match_cases_dup (env : ParserEnv) (parse_one : PM ASTNode)
    (hh : throw_error_halts env.helpers .ERR_REDEFINITION = true) (d : ASTNode)
    (hd : d.is_default_case = true) (k : Nat) :
    ∀ (cs : List ASTNode) (p q : Parser) (m : ASTNode),
      CaseSeq parse_one p (cs ++ [d]) q → m.default_case = none →
      (default_cases cs).length = 1 →
      parse_match_cases env parse_one (cs.length + (k + 1)) m p
        = .aborted { q with log := q.log ++ [⟨.ERR_REDEFINITION, some q.tok⟩] } := by
  intro cs
  induction cs with
  | nil =>
    intro p q m _ _ hcount
    simp [default_cases] at hcount
  | cons c cs ih =>
    intro p q m hrun hm hcount
    obtain ⟨hgo, p1, hone, hrest⟩ := case_seq_cons_inv hrun
    have hlen : (c :: cs).length + (k + 1) = (cs.length + (k + 1)) + 1 := by
      simp only [List.length_cons]; omega
    rw [hlen]
    cases hc : c.is_default_case
    · have hcount' : (default_cases cs).length = 1 := by
        simpa [default_cases, List.filter, hc] using hcount
      rw [parse_match_cases_plain env parse_one _ m hgo hone hc]
      exact ih p1 q _ hrest hm hcount'
    · have hnone : default_cases cs = [] := by
        have : (default_cases cs).length = 0 := by
          simpa [default_cases, List.filter, hc] using hcount
        exact List.eq_nil_of_length_eq_zero this
      rw [parse_match_cases_first_default env parse_one _ m hgo hone hc hm]
      exact parse_match_cases_dup_after env parse_one hh d hd k cs p1 q _ c hrest rfl hnone

theorem parse_match_value (env : ParserEnv) (fs : ParseFns) {p p1 p2 p3 : Parser}
    {t1 t3 : Token} {cond : ASTNode}
    (hmatch : parser_consume env .TOKEN_MATCH p = .ok t1 p1)
    (hval : tok_is p1 .TOKEN_LPAREN = false
      ∨ ∃ t, parser_peek p1 1 = some t ∧ t.type ≠ .TOKEN_TYPE)
    (hcond : fs.parse_expr .LOWEST .TOKEN_LBRACE p1 = .ok cond p2)
    (hbrace : parser_consume env .TOKEN_LBRACE p2 = .ok t3 p3) :
    parse_match env fs p
      = (do
          let m ← parse_match_cases env (parse_case env fs) fs.fuel
            { init_ast_node .ND_MATCH (some p.tok) with condition := some cond }
          let _t ← parser_consume env .TOKEN_RBRACE
          pure m : PM ASTNode) p3 := by
  unfold parse_match
  rw [PM.bind_get_state, PM.bind_ok hmatch, PM.bind_get_state]
  have hno : ((if tok_is p1 .TOKEN_LPAREN then
        match parser_peek p1 1 with
        | none => PM.undefined
        | some t => pure (t.type == .TOKEN_TYPE)
      else pure false : PM Bool)) p1 = .ok false p1 := by
    rcases hval with h | ⟨t, ht, hne⟩
    · rw [h]; rfl
    · cases hl : tok_is p1 .TOKEN_LPAREN
      · rfl
      · rw [if_pos rfl, ht]
        simp [PM.pure_apply, hne]
  refine (PM.bind_ok hno).trans ?_
  simp only [Bool.false_eq_true, if_false]
  rw [PM.bind_ok hcond, PM.bind_ok hbrace]
  rfl

theorem parse_match_type (env : ParserEnv) (fs : ParseFns) {p p1 pa pb pc pd p3 : Parser}
    {t1 t ta tb tc t3 : Token} {ty : ASTType}
    (hmatch : parser_consume env .TOKEN_MATCH p = .ok t1 p1)
    (hparen : tok_is p1 .TOKEN_LPAREN = true)
    (hpeek : parser_peek p1 1 = some t) (htype : t.type = .TOKEN_TYPE)
    (ha : parser_advance env p1 = .ok ta pa) (hb : parser_advance env pa = .ok tb pb)
    (hc : parser_consume env .TOKEN_RPAREN pb = .ok tc pc)
    (hty : fs.parse_type pc = .ok ty pd)
    (hbrace : parser_consume env .TOKEN_LBRACE pd = .ok t3 p3) :
    parse_match env fs p
      = (do
          let m ← parse_match_cases env (parse_type_case env fs) fs.fuel
            { init_ast_node .ND_MATCH_TYPE (some p.tok) with data_type := some ty }
          let _t ← parser_consume env .TOKEN_RBRACE
          pure m : PM ASTNode) p3 := by
  unfold parse_match
  rw [PM.bind_get_state, PM.bind_ok hmatch, PM.bind_get_state]
  have hyes : ((if tok_is p1 .TOKEN_LPAREN then
        match parser_peek p1 1 with
        | none => PM.undefined
        | some t => pure (t.type == .TOKEN_TYPE)
      else pure false : PM Bool)) p1 = .ok true p1 := by
    rw [hparen, if_pos rfl, hpeek]
    simp [PM.pure_apply, htype]
  refine (PM.bind_ok hyes).trans ?_
  simp only [if_true]
  unfold parse_type_match
  rw [PM.bind_ok ha, PM.bind_ok hb, PM.bind_ok hc, PM.bind_ok hty, PM.bind_ok hbrace]
  rfl

theorem parse_match_cases_run_lt (env : ParserEnv) (parse_one : PM ASTNode)
    {p q : Parser} {cs : List ASTNode} (hrun : CaseSeq parse_one p cs q)
    (hstop : (!tok_is q .TOKEN_RBRACE && !tok_is q .TOKEN_EOF) = false)
    (n : Nat) (hn : cs.length < n) (m : ASTNode) (hm : m.default_case = none)
    (hcount : (default_cases cs).length ≤ 1) :
    parse_match_cases env parse_one n m p
      = .ok { m with cases := m.cases ++ plain_cases cs,
                     default_case := (default_cases cs).head? } q := by
  obtain ⟨k, rfl⟩ : ∃ k, n = cs.length + (k + 1) := ⟨n - cs.length - 1, by omega⟩
  exact parse_match_cases_run env parse_one hrun hstop k m hm hcount

theorem parse_match_cases_dup_lt (env : ParserEnv) (parse_one : PM ASTNode)
    (hh : throw_error_halts env.helpers .ERR_REDEFINITION = true) {d : ASTNode}
    (hd : d.is_default_case = true) {cs : List ASTNode} {p q : Parser}
    (hrun : CaseSeq parse_one p (cs ++ [d]) q) (n : Nat) (hn : cs.length < n)
    (m : ASTNode) (hm : m.default_case = none) (hcount : (default_cases cs).length = 1) :
    parse_match_cases env parse_one n m p
      = .aborted { q with log := q.log ++ [⟨.ERR_REDEFINITION, some q.tok⟩] } := by
  obtain ⟨k, rfl⟩ : ∃ k, n = cs.length + (k + 1) := ⟨n - cs.length - 1, by omega⟩
  exact parse_match_cases_dup env parse_one hh d hd k cs p q m hrun hm hcount

/-- C25: let the head of a `match` statement be parsed up to the `{`, as a
value match (`match cond {`) or as a type match (`match (type) T {`), and let
the case parser return the cases `cs`, in source order, from there.  (1) If at
most one of them is a default case `_` and the parser then stands on `}`,
`parse_match` reports nothing and returns the node whose `cases` list holds
the other cases in source order and whose `default_case` is the default case,
if there is one.  (2) If the case parser has returned a second default case
`d`, `parse_match` reports a redefinition error at the token it stands on
and, `throw_error` not returning, the compilation is left there. -/
theorem parse_match_default_cases (env : ParserEnv) (fs : ParseFns) :
    (∀ (p p1 p2 p3 : Parser) (t1 t3 : Token) (cond : ASTNode),
      parser_consume env .TOKEN_MATCH p = .ok t1 p1 →
      (tok_is p1 .TOKEN_LPAREN = false
        ∨ ∃ t, parser_peek p1 1 = some t ∧ t.type ≠ .TOKEN_TYPE) →
      fs.parse_expr .LOWEST .TOKEN_LBRACE p1 = .ok cond p2 →
      parser_consume env .TOKEN_LBRACE p2 = .ok t3 p3 →
      (∀ (cs : List ASTNode) (q q1 : Parser) (t : Token),
        CaseSeq (parse_case env fs) p3 cs q → tok_is q .TOKEN_RBRACE = true →
        cs.length < fs.fuel → (default_cases cs).length ≤ 1 →
        parser_consume env .TOKEN_RBRACE q = .ok t q1 →
        parse_match env fs p
          = .ok { init_ast_node .ND_MATCH (some p.tok) with
                  condition := some cond, cases := plain_cases cs,
                  default_case := (default_cases cs).head? } q1)
      ∧ (∀ (cs : List ASTNode) (d : ASTNode) (q : Parser),
        CaseSeq (parse_case env fs) p3 (cs ++ [d]) q → (default_cases cs).length = 1 →
        d.is_default_case = true → cs.length < fs.fuel →
        throw_error_halts env.helpers .ERR_REDEFINITION = true →
        parse_match env fs p
          = .aborted { q with log := q.log ++ [⟨.ERR_REDEFINITION, some q.tok⟩] }))
    ∧ (∀ (p p1 pa pb pc pd p3 : Parser) (t1 t ta tb tc t3 : Token) (ty : ASTType),
      parser_consume env .TOKEN_MATCH p = .ok t1 p1 →
      tok_is p1 .TOKEN_LPAREN = true → parser_peek p1 1 = some t → t.type = .TOKEN_TYPE →
      parser_advance env p1 = .ok ta pa → parser_advance env pa = .ok tb pb →
      parser_consume env .TOKEN_RPAREN pb = .ok tc pc →
      fs.parse_type pc = .ok ty pd →
      parser_consume env .TOKEN_LBRACE pd = .ok t3 p3 →
      (∀ (cs : List ASTNode) (q q1 : Parser) (t : Token),
        CaseSeq (parse_type_case env fs) p3 cs q → tok_is q .TOKEN_RBRACE = true →
        cs.length < fs.fuel → (default_cases cs).length ≤ 1 →
        parser_consume env .TOKEN_RBRACE q = .ok t q1 →
        parse_match env fs p
          = .ok { init_ast_node .ND_MATCH_TYPE (some p.tok) with
                  data_type := some ty, cases := plain_cases cs,
                  default_case := (default_cases cs).head? } q1)
      ∧ (∀ (cs : List ASTNode) (d : ASTNode) (q : Parser),
        CaseSeq (parse_type_case env fs) p3 (cs ++ [d]) q → (default_cases cs).length = 1 →
        d.is_default_case = true → cs.length < fs.fuel →
        throw_error_halts env.helpers .ERR_REDEFINITION = true →
        parse_match env fs p
          = .aborted { q with log := q.log ++ [⟨.ERR_REDEFINITION, some q.tok⟩] })) := by
  constructor
  · intro p p1 p2 p3 t1 t3 cond hmatch hval hcond hbrace
    have hhead := parse_match_value env fs hmatch hval hcond hbrace
    constructor
    · intro cs q q1 t hrun hq hn hcount hclose
      have hstop : (!tok_is q .TOKEN_RBRACE && !tok_is q .TOKEN_EOF) = false := by simp [hq]
      rw [hhead, PM.bind_ok (parse_match_cases_run_lt env _ hrun hstop _ hn _ rfl hcount),
        PM.bind_ok hclose]
      rfl
    · intro cs d q hrun hcount hd hn hh
      rw [hhead]
      exact PM.bind_aborted (parse_match_cases_dup_lt env _ hh hd hrun _ hn _ rfl hcount)
  · intro p p1 pa pb pc pd p3 t1 t ta tb tc t3 ty hmatch hparen hpeek htype ha hb hc hty hbrace
    have hhead := parse_match_type env fs hmatch hparen hpeek htype ha hb hc hty hbrace
    constructor
    · intro cs q q1 t hrun hq hn hcount hclose
      have hstop : (!tok_is q .TOKEN_RBRACE && !tok_is q .TOKEN_EOF) = false := by simp [hq]
      rw [hhead, PM.bind_ok (parse_match_cases_run_lt env _ hrun hstop _ hn _ rfl hcount),
        PM.bind_ok hclose]
      rfl
    · intro cs d q hrun hcount hd hn hh
      rw [hhead]
      exact PM.bind_aborted (parse_match_cases_dup_lt env _ hh hd hrun _ hn _ rfl hcount)

/-- The statement `match x { _ => noop; _ => noop; }`: after the second `_`
case `parse_match` leaves the compilation with a redefinition error at `}`. -/
theorem parse_match_default_cases_witness :
    parse_match sample_env (parse_fns sample_env 4)
        (start_state (mk_tok .TOKEN_MATCH "match") match_only_defaults_toks)
      = .aborted
          { match_state 11 (mk_tok .TOKEN_RBRACE "\x7d") with
            log := [⟨.ERR_REDEFINITION, some (mk_tok .TOKEN_RBRACE "\x7d")⟩] } :=
  ((parse_match_default_cases sample_env (parse_fns sample_env 4)).1
      (start_state (mk_tok .TOKEN_MATCH "match") match_only_defaults_toks)
      (match_state 1 (mk_tok .TOKEN_ID "x")) (match_state 2 (mk_tok .TOKEN_LBRACE "\x7b"))
      (match_state 3 (mk_tok .TOKEN_UNDERSCORE "_")) (mk_tok .TOKEN_ID "x")
      (mk_tok .TOKEN_UNDERSCORE "_")
      { init_ast_node .ND_ID (some (mk_tok .TOKEN_ID "x")) with id := some (plain_id "x") }
      rfl (Or.inl rfl) rfl rfl).2
    [default_noop_case] default_noop_case (match_state 11 (mk_tok .TOKEN_RBRACE "\x7d"))
    (CaseSeq.cons rfl
      (rfl : parse_case sample_env (parse_fns sample_env 4)
          (match_state 3 (mk_tok .TOKEN_UNDERSCORE "_"))
        = .ok default_noop_case (match_state 7 (mk_tok .TOKEN_UNDERSCORE "_")))
      (CaseSeq.cons rfl
        (rfl : parse_case sample_env (parse_fns sample_env 4)
            (match_state 7 (mk_tok .TOKEN_UNDERSCORE "_"))
          = .ok default_noop_case (match_state 11 (mk_tok .TOKEN_RBRACE "\x7d")))
        (CaseSeq.nil _)))
    rfl rfl (by decide) rfl

/-- Whole statements: in `match x { 1 => noop; _ => noop; 2 => noop; }` the
cases list holds the cases `1` and `2` in this order and the default case is
stored apart; `match x { _ => noop; 1 => noop; _ => noop; }` ends with a
redefinition error; the same holds for the type matches
`match (type) i32 { i32 => noop; _ => noop; bool => noop; }` and
`match (type) i32 { _ => noop; _ => noop; }`. -/
theorem parse_match_examples :
    node_kind (parse_stmt sample_env 6 true
        (start_state (mk_tok .TOKEN_MATCH "match") match_toks)).val_of = some .ND_MATCH
    ∧ (node_cases (parse_stmt sample_env 6 true
        (start_state (mk_tok .TOKEN_MATCH "match") match_toks)).val_of).map
          (fun c => (c.kind, c.condition.map (fun x => x.int_val), c.is_default_case))
        = [(.ND_CASE, some 1, false), (.ND_CASE, some 2, false)]
    ∧ (node_default_case (parse_stmt sample_env 6 true
        (start_state (mk_tok .TOKEN_MATCH "match") match_toks)).val_of).map
          (fun c => (c.kind, c.is_default_case)) = some (.ND_CASE, true)
    ∧ (parse_stmt sample_env 6 true
        (start_state (mk_tok .TOKEN_MATCH "match") match_toks)).state_of.map (fun q => q.log)
        = some []
    ∧ (parse_stmt sample_env 6 true
        (start_state (mk_tok .TOKEN_MATCH "match") match_two_defaults_toks)).is_aborted = true
    ∧ (parse_stmt sample_env 6 true
        (start_state (mk_tok .TOKEN_MATCH "match") match_two_defaults_toks)).state_of.map
          (fun q => q.log)
        = some [⟨.ERR_REDEFINITION, some (mk_tok .TOKEN_RBRACE "\x7d")⟩]
    ∧ node_kind (parse_stmt sample_env 6 true
        (start_state (mk_tok .TOKEN_MATCH "match") type_match_toks)).val_of = some .ND_MATCH_TYPE
    ∧ (node_cases (parse_stmt sample_env 6 true
        (start_state (mk_tok .TOKEN_MATCH "match") type_match_toks)).val_of).map
          (fun c => (c.kind, c.data_type.map (fun x => x.kind), c.is_default_case))
        = [(.ND_CASE_TYPE, some .TY_I32, false), (.ND_CASE_TYPE, some .TY_BOOL, false)]
    ∧ (node_default_case (parse_stmt sample_env 6 true
        (start_state (mk_tok .TOKEN_MATCH "match") type_match_toks)).val_of).map
          (fun c => (c.kind, c.is_default_case)) = some (.ND_CASE_TYPE, true)
    ∧ (parse_stmt sample_env 6 true
        (start_state (mk_tok .TOKEN_MATCH "match") type_match_two_defaults_toks)).is_aborted
        = true
    ∧ (parse_stmt sample_env 6 true
        (start_state (mk_tok .TOKEN_MATCH "match") type_match_two_defaults_toks)).state_of.map
          (fun q => q.log)
        = some [⟨.ERR_REDEFINITION, some (mk_tok .TOKEN_RBRACE "\x7d")⟩] := by
  refine ⟨?_, ?_, ?_, ?_, ?_, ?_, ?_, ?_, ?_, ?_, ?_⟩ <;> decide!

/-! ## `import` statements -/

theorem parser_advance_keeps (env : ParserEnv) {ts : List Token} {i : Nat} {t t1 : Token}
    {p : Parser} (h : At ts i t p) (h1 : ts[i + 1]? = some t1) :
    ∃ q, parser_advance env p = .ok t1 q ∧ At ts (i + 1) t1 q ∧ q.objs = p.objs := by
  obtain ⟨hts, hi, _⟩ := h
  unfold parser_advance
  rw [hts, hi, h1]
  dsimp only
  split
  · rw [PM.bind_ok (throw_error_warning env _ _)]
    exact ⟨_, rfl, ⟨rfl, rfl, rfl⟩, rfl⟩
  · exact ⟨_, rfl, ⟨rfl, rfl, rfl⟩, rfl⟩

theorem parser_consume_keeps (env : ParserEnv) {ts : List Token} {i : Nat} {t t1 : Token}
    {p : Parser} (type : TokenType) (h : At ts i t p) (hty : t.type = type)
    (h1 : ts[i + 1]? = some t1) :
    ∃ q, parser_consume env type p = .ok t1 q ∧ At ts (i + 1) t1 q ∧ q.objs = p.objs := by
  unfold parser_consume
  rw [PM.bind_get_state]
  have hc : (!tok_is p type) = false := by simp [tok_is, h.2.2, hty]
  rw [hc, PM.bind_ok (PM.when_false _ _)]
  exact parser_advance_keeps env h h1

theorem parse_top_level_import (env : ParserEnv) (parse_obj : PM Unit) {ts : List Token}
    {i : Nat} {t t1 t2 t3 : Token} {p : Parser} (h : At ts i t p)
    (hty : t.type = .TOKEN_IMPORT) (h1 : ts[i + 1]? = some t1) (hty1 : t1.type = .TOKEN_STRING)
    (h2 : ts[i + 2]? = some t2) (hty2 : t2.type = .TOKEN_SEMICOLON)
    (h3 : ts[i + 3]? = some t3) :
    ∃ q, parse_top_level env parse_obj p = .ok () q ∧ At ts (i + 3) t3 q ∧ q.objs = p.objs := by
  obtain ⟨q1, e1, a1, o1⟩ := parser_advance_keeps env h h1
  obtain ⟨q2, e2, a2, o2⟩ := parser_consume_keeps env .TOKEN_STRING a1 hty1 h2
  obtain ⟨q3, e3, a3, o3⟩ := parser_consume_keeps env .TOKEN_SEMICOLON a2 hty2 h3
  refine ⟨q3, ?_, a3, by rw [o3, o2, o1]⟩
  unfold parse_top_level
  rw [PM.bind_get_state, h.2.2, hty]
  simp only [beq_self_eq_true, if_true]
  rw [PM.bind_ok e1, PM.bind_ok e2, PM.bind_ok e3]
  rfl

/-- C26 (amended): at a top-level `import "<string>";` the loop of `parse`
consumes the three tokens and goes on with the token after the `;`, with the
same objects of the program as before; and the program that `parse` hands on
has the imports list that `init_ast_prog` has made, which is empty, whatever
the token list holds. -/
theorem parse_skips_imports (env : ParserEnv) (parse_obj : PM Unit) :
    (∀ (n : Nat) (ts : List Token) (i : Nat) (t t1 t2 t3 : Token) (p : Parser),
      At ts i t p → t.type = .TOKEN_IMPORT →
      ts[i + 1]? = some t1 → t1.type = .TOKEN_STRING →
      ts[i + 2]? = some t2 → t2.type = .TOKEN_SEMICOLON →
      ts[i + 3]? = some t3 →
      ∃ q, At ts (i + 3) t3 q ∧ q.objs = p.objs
        ∧ parse_top_level_loop env parse_obj (n + 1) p = parse_top_level_loop env parse_obj n q)
    ∧ (∀ (fuel : Nat) (main_file_path : String) (tokens : List Token) (ast : ASTProg)
        (q : Parser),
      parse env parse_obj fuel main_file_path tokens = .ok ast q →
      ast.imports = [] ∧ ast.objs = q.objs) := by
  constructor
  · intro n ts i t t1 t2 t3 p h hty h1 hty1 h2 hty2 h3
    obtain ⟨q, e, a, o⟩ := parse_top_level_import env parse_obj h hty h1 hty1 h2 hty2 h3
    refine ⟨q, a, o, ?_⟩
    rw [parse_top_level_loop, PM.bind_get_state]
    have hne : (!tok_is p .TOKEN_EOF) = true := by simp [tok_is, h.2.2, hty]
    rw [hne, if_pos rfl, PM.bind_ok e]
  · intro fuel path tokens ast q h
    unfold parse at h
    dsimp only at h
    split at h
    · cases h
    · split at h <;> cases h
      exact ⟨rfl, rfl⟩

/-- The first `import` statement of `import "std/io.csp"; import "std/mem.csp";`
is skipped, with no object added. -/
theorem parse_skips_imports_witness :
    ∃ q, At import_toks 3 (mk_tok .TOKEN_IMPORT "import") q
      ∧ q.objs = []
      ∧ parse_top_level_loop sample_env PM.unsupported (2 + 1)
          (start_state (mk_tok .TOKEN_IMPORT "import") import_toks.tail)
        = parse_top_level_loop sample_env PM.unsupported 2 q :=
  (parse_skips_imports sample_env PM.unsupported).1 2 import_toks 0
    (mk_tok .TOKEN_IMPORT "import") (mk_tok .TOKEN_STRING "std/io.csp")
    (mk_tok .TOKEN_SEMICOLON ";") (mk_tok .TOKEN_IMPORT "import")
    (start_state (mk_tok .TOKEN_IMPORT "import") import_toks.tail)
    ⟨rfl, rfl, rfl⟩ rfl rfl rfl rfl rfl rfl

/-- The program parsed from `import "std/io.csp"; import "std/mem.csp";`: the
parser returns, and the imports list of the program is empty: it holds
neither string. -/
theorem parse_imports_not_collected :
    (parse sample_env PM.unsupported 3 "main.csp" import_toks).val_of.map
        (fun ast => (ast.imports, ast.objs.length)) = some ([], 0)
    ∧ (parse sample_env PM.unsupported 3 "main.csp" import_toks).state_of.map
        (fun q => (q.tok.type, q.log)) = some (.TOKEN_EOF, []) := by
  constructor <;> decide!

/-! ## Register names in inline assembly -/

/-- C30: `c_detect_registers` compares only the first `reg_len` characters of
each register name with the sequence, so every sequence that starts a
register name is accepted: the scan goes on to its end without the report of
an unknown register.  `%r1` is accepted and marks `%r10` to `%r15`, a bare
`%` is accepted and marks every register, and so is every non-empty start of
every name of the table; `%rax` marks `%rax` alone, `%foo` and `%raxx` are
reported as unknown registers; and in `%rax%foo` the `%` that directly
follows a sequence is skipped, so that `%foo` is not looked at. -/
theorem c_detect_registers_accepts_prefixes :
    (c_detect_registers "%r1" no_registers).marked.map used_names
      = some ["%r10", "%r11", "%r12", "%r13", "%r14", "%r15"]
    ∧ (c_detect_registers "mov $1, %r1" no_registers).marked.map used_names
      = some ["%r10", "%r11", "%r12", "%r13", "%r14", "%r15"]
    ∧ (c_detect_registers "%" no_registers).marked.map used_names = some reg_names
    ∧ (∀ name ∈ reg_names, ∀ k ∈ List.range 5, 0 < k →
        (c_detect_registers ⟨name.data.take k⟩ no_registers).marked.isSome = true)
    ∧ (c_detect_registers "%rax" no_registers).marked.map used_names = some ["%rax"]
    ∧ c_detect_registers "%foo" no_registers = .unknown_register "%foo"
    ∧ detect_loop "%foo".data 5 0 no_registers 0 = .unknown_register "%foo"
    ∧ c_detect_registers "%raxx" no_registers = .unknown_register "%raxx"
    ∧ (c_detect_registers "%rax%foo" no_registers).marked.map used_names
      = some ["%rax"] := by
  refine ⟨?_, ?_, ?_, ?_, ?_, ?_, ?_, ?_, ?_⟩ <;> decide!

theorem alnum_run_le (str : List Char) :
    ∀ (n i reg_len : Nat), i ≤ (alnum_run str n i reg_len).1 := by
  intro n
  induction n with
  | zero => intro i _; exact Nat.le_refl _
  | succ n ih =>
    intro i reg_len
    unfold alnum_run
    split
    · exact Nat.le_trans (Nat.le_succ i) (ih (i + 1) (reg_len + 1))
    · exact Nat.le_refl _

/-- The fuel that `c_detect_registers` hands to its loop is enough. -/
theorem detect_loop_fuel (str : List Char) :
    ∀ (n i : Nat) (used : List Bool) (k : Nat), str.length < i + (n + 1) →
      detect_loop str (n + 1) i used k ≠ .out_of_fuel := by
  intro n
  induction n with
  | zero =>
    intro i used k h
    unfold detect_loop
    rw [if_neg (by omega)]
    intro hc; cases hc
  | succ n ih =>
    intro i used k h
    unfold detect_loop
    split
    · split
      · exact ih _ _ _ (by omega)
      · dsimp only
        split
        · intro hc; cases hc
        · have := alnum_run_le str str.length (i + 1) 1
          exact ih _ _ _ (by omega)
    · intro hc; cases hc

theorem c_detect_registers_total (str : String) (used : List Bool) :
    detect_loop str.data (str.length + 1) 0 used 0 ≠ .out_of_fuel := by
  have h : str.length = str.data.length := rfl
  exact detect_loop_fuel str.data str.length 0 used 0 (by omega)

/-! ## The generator only appends to the stream -/

theorem cm_bind_ok {α β : Type} {m : CM α} {f : α → CM β} {cg cg1 : CCodegenData} {v : α}
    (h : m cg = .ok v cg1) : (m >>= f) cg = f v cg1 := by
  show CM.bind m f cg = _
  simp [CM.bind, h]

theorem cm_bind_inv {α β : Type} {m : CM α} {f : α → CM β} {cg cg2 : CCodegenData} {v : β}
    (h : (m >>= f) cg = .ok v cg2) : ∃ a cg1, m cg = .ok a cg1 ∧ f a cg1 = .ok v cg2 := by
  change CM.bind m f cg = _ at h
  unfold CM.bind at h
  split at h
  · next a cg1 hm => exact ⟨a, cg1, hm, h⟩
  all_goals cases h

theorem cm_pure_apply {α : Type} (v : α) (cg : CCodegenData) :
    (pure v : CM α) cg = .ok v cg := rfl

theorem write_at_end (cg : CCodegenData) (s : String) (h : cg.pos = cg.buf.length) :
    (cg.write s).buf = cg.buf ++ s ∧ (cg.write s).pos = (cg.write s).buf.length := by
  have hl : cg.buf.length = cg.buf.data.length := rfl
  have hs : s.length = s.data.length := rfl
  have hb : (cg.write s).buf = cg.buf ++ s := by
    apply String.ext
    show cg.buf.data.take cg.pos ++ List.replicate (cg.pos - cg.buf.length) '\x00' ++ s.data
        ++ cg.buf.data.drop (cg.pos + s.length) = (cg.buf ++ s).data
    rw [h, hl, Nat.sub_self, List.take_length, List.replicate_zero, List.append_nil,
      List.drop_eq_nil_of_le (by omega), List.append_nil, String.data_append]
  refine ⟨hb, ?_⟩
  rw [hb]
  show cg.pos + s.length = (cg.buf ++ s).length
  rw [String.length_append, h]

theorem appends_pure {α : Type} (v : α) : Appends (pure v : CM α) := by
  intro cg a cg1 h hr
  cases hr
  exact ⟨h, "", by simp⟩

theorem appends_bind {α β : Type} {m : CM α} {f : α → CM β} (hm : Appends m)
    (hf : ∀ a, Appends (f a)) : Appends (m >>= f) := by
  intro cg v cg2 h hr
  obtain ⟨a, cg1, h1, h2⟩ := cm_bind_inv hr
  obtain ⟨hp1, t1, hb1⟩ := hm cg a cg1 h h1
  obtain ⟨hp2, t2, hb2⟩ := hf a cg1 v cg2 hp1 h2
  exact ⟨hp2, t1 ++ t2, by rw [hb2, hb1, String.append_assoc]⟩

theorem appends_print (s : String) : Appends (c_print s) := by
  intro cg v cg1 h hr
  cases hr
  exact ⟨(write_at_end cg s h).2, s, (write_at_end cg s h).1⟩

theorem appends_println (s : String) : Appends (c_println s) := by
  intro cg v cg1 h hr
  cases hr
  have h1 := write_at_end cg s h
  have h2 := write_at_end (cg.write s) "\n" h1.2
  exact ⟨h2.2, s ++ "\n", by rw [h2.1, h1.1, String.append_assoc]⟩

theorem appends_putc (c : Char) : Appends (c_putc c) := by
  intro cg v cg1 h hr
  cases hr
  exact ⟨(write_at_end cg _ h).2, String.singleton c, (write_at_end cg _ h).1⟩

theorem appends_get : Appends CM.get := by
  intro cg v cg1 h hr
  cases hr
  exact ⟨h, "", by simp⟩

theorem appends_undefined {α : Type} : Appends (CM.undefined : CM α) := by
  intro cg v cg1 _ hr
  cases hr

theorem appends_unsupported {α : Type} : Appends (CM.unsupported : CM α) := by
  intro cg v cg1 _ hr
  cases hr

theorem appends_out_of_fuel {α : Type} : Appends (CM.out_of_fuel : CM α) := by
  intro cg v cg1 _ hr
  cases hr

theorem appends_fatal {α : Type} : Appends (CM.fatal : CM α) := by
  intro cg v cg1 _ hr
  cases hr

theorem appends_when (c : Bool) {m : CM Unit} (hm : Appends m) : Appends (CM.when c m) := by
  unfold CM.when
  split
  · exact hm
  · exact appends_pure _

theorem appends_ite {α : Type} {c : Prop} [Decidable c] {a b : CM α} (ha : Appends a)
    (hb : Appends b) : Appends (if c then a else b) := by
  split
  · exact ha
  · exact hb

theorem appends_next_unique_id : Appends next_unique_id := by
  intro cg v cg1 h hr
  cases hr
  exact ⟨h, "", by simp⟩

theorem appends_set_generated (env : CEnv) (obj : ASTObj) (flag : Bool) :
    Appends (set_generated env obj flag) := by
  intro cg v cg1 h hr
  cases hr
  exact ⟨h, "", by simp⟩

theorem appends_throw_error (env : CEnv) (kind : ErrorType) (tok : Option Token) :
    Appends (c_throw_error env kind tok) := by
  intro cg v cg1 h hr
  unfold c_throw_error at hr
  dsimp only at hr
  split at hr
  · cases hr
  · cases hr
    exact ⟨h, "", by simp⟩

theorem appends_get_bind {β : Type} {f : CCodegenData → CM β} (hf : ∀ a, Appends (f a)) :
    Appends (CM.get >>= f) :=
  appends_bind appends_get hf
theorem appends_rewind_tail {m : CM Unit} (hm : Appends m) (s1 s2 : String)
    (h1 : 0 < s1.length) (h2 : 0 < s2.length) :
    Appends (c_print s1 >>= fun _ => m >>= fun _ => c_rewind (-1) >>= fun _ => c_print s2) := by
  intro cg v cg4 h hr
  obtain ⟨_, cg1, e1, hr⟩ := cm_bind_inv hr
  obtain ⟨_, cg2, e2, hr⟩ := cm_bind_inv hr
  obtain ⟨_, cg3, e3, e4⟩ := cm_bind_inv hr
  cases e1
  obtain ⟨hb1, hp1⟩ := write_at_end cg s1 h
  obtain ⟨hp2, t2, hb2⟩ := hm _ _ cg2 hp1 e2
  have hlen : cg2.buf.length = cg.buf.length + s1.length + t2.length := by
    rw [hb2, hb1, String.length_append, String.length_append]
  have hdata : cg2.buf.data = cg.buf.data ++ (s1.data ++ t2.data) := by
    rw [hb2, hb1, String.data_append, String.data_append, List.append_assoc]
  have hl2 : cg2.buf.length = cg2.buf.data.length := rfl
  have hlc : cg.buf.length = cg.buf.data.length := rfl
  have hs2 : s2.length = s2.data.length := rfl
  have hs1 : s1.length = s1.data.length := rfl
  have ht2l : t2.length = t2.data.length := rfl
  have h3 : cg3 = { cg2 with pos := cg2.buf.length - 1 } := by
    unfold c_rewind at e3
    dsimp only at e3
    rw [if_pos (by omega)] at e3
    cases e3
    congr 1
    omega
  cases e4
  subst h3
  have hbuf : (CCodegenData.write { cg2 with pos := cg2.buf.length - 1 } s2).buf
      = cg.buf ++ ⟨(s1.data ++ t2.data).take (s1.length + t2.length - 1) ++ s2.data⟩ := by
    apply String.ext
    show cg2.buf.data.take (cg2.buf.length - 1)
        ++ List.replicate (cg2.buf.length - 1 - cg2.buf.length) '\x00' ++ s2.data
        ++ cg2.buf.data.drop (cg2.buf.length - 1 + s2.length) = _
    rw [String.data_append, Nat.sub_eq_zero_of_le (Nat.sub_le _ _), List.replicate_zero,
      List.append_nil, List.drop_eq_nil_of_le (by omega), List.append_nil, hdata,
      List.take_append_eq_append_take, List.take_of_length_le (by omega), List.append_assoc]
    congr 3
    omega
  refine ⟨?_, _, hbuf⟩
  rw [hbuf]
  show cg2.buf.length - 1 + s2.length = (cg.buf ++ _).length
  rw [String.length_append]
  show _ = cg.buf.length + (List.take _ _ ++ s2.data).length
  rw [List.length_append, List.length_take, List.length_append]
  omega

theorem appends_c_gen_arg_types (fs : CGFns) (hfs : GoodCG fs) :
    ∀ (l : List ASTType), Appends (c_gen_arg_types fs l) := by
  intro l
  induction l with
  | nil => unfold c_gen_arg_types; exact appends_pure _
  | cons x xs ih =>
    unfold c_gen_arg_types
    repeat' with_reducible first
      | exact ih
      | exact appends_pure _
      | exact appends_undefined
      | exact appends_unsupported
      | exact appends_out_of_fuel
      | exact appends_fatal
      | exact appends_print _
      | exact appends_println _
      | exact appends_putc _
      | exact appends_next_unique_id
      | exact hfs.type _
      | exact hfs.expr _
      | exact hfs.stmt _
      | apply appends_when
      | apply appends_get_bind
      | apply appends_bind
      | apply appends_ite
      | intro _

theorem appends_c_gen_typed_name (env : CEnv) (fs : CGFns) (hfs : GoodCG fs) (id : Option ASTIdentifier) (type : Option ASTType) :
    Appends (c_gen_typed_name env fs id type) := by
  unfold c_gen_typed_name
  repeat' with_reducible first
    | exact appends_c_gen_arg_types fs hfs _
    | exact appends_pure _
    | exact appends_undefined
    | exact appends_unsupported
    | exact appends_out_of_fuel
    | exact appends_fatal
    | exact appends_print _
    | exact appends_println _
    | exact appends_putc _
    | exact appends_next_unique_id
    | exact appends_set_generated env _ _
    | exact appends_throw_error env _ _
    | exact hfs.type _
    | exact hfs.expr _
    | exact hfs.stmt _
    | apply appends_when
    | apply appends_get_bind
    | apply appends_bind
    | apply appends_ite
    | intro _
    | split

theorem appends_c_gen_struct_members (env : CEnv) (fs : CGFns) (hfs : GoodCG fs) :
    ∀ (l : List (ASTMember ASTType)), Appends (c_gen_struct_members env fs l) := by
  intro l
  induction l with
  | nil => unfold c_gen_struct_members; exact appends_pure _
  | cons x xs ih =>
    unfold c_gen_struct_members
    repeat' with_reducible first
      | exact ih
      | exact appends_c_gen_typed_name env fs hfs _ _
      | exact appends_pure _
      | exact appends_undefined
      | exact appends_unsupported
      | exact appends_out_of_fuel
      | exact appends_fatal
      | exact appends_print _
      | exact appends_println _
      | exact appends_putc _
      | exact appends_next_unique_id
      | exact appends_set_generated env _ _
      | exact appends_throw_error env _ _
      | exact hfs.type _
      | exact hfs.expr _
      | exact hfs.stmt _
      | apply appends_when
      | apply appends_get_bind
      | apply appends_bind
      | apply appends_ite
      | intro _

theorem appends_c_gen_struct (env : CEnv) (fs : CGFns) (hfs : GoodCG fs) (type : ASTType) (name : Option String) :
    Appends (c_gen_struct env fs type name) := by
  unfold c_gen_struct
  repeat' with_reducible first
    | exact appends_c_gen_struct_members env fs hfs _
    | exact appends_pure _
    | exact appends_undefined
    | exact appends_unsupported
    | exact appends_out_of_fuel
    | exact appends_fatal
    | exact appends_print _
    | exact appends_println _
    | exact appends_putc _
    | exact appends_next_unique_id
    | exact appends_set_generated env _ _
    | exact appends_throw_error env _ _
    | exact hfs.type _
    | exact hfs.expr _
    | exact hfs.stmt _
    | apply appends_when
    | apply appends_get_bind
    | apply appends_bind
    | apply appends_ite
    | intro _

theorem appends_c_gen_type_body (env : CEnv) (fs : CGFns) (hfs : GoodCG fs) (type : ASTType) :
    Appends (c_gen_type_body env fs type) := by
  unfold c_gen_type_body
  repeat' with_reducible first
    | exact appends_c_gen_arg_types fs hfs _
    | exact appends_c_gen_struct env fs hfs _ _
    | exact appends_pure _
    | exact appends_undefined
    | exact appends_unsupported
    | exact appends_out_of_fuel
    | exact appends_fatal
    | exact appends_print _
    | exact appends_println _
    | exact appends_putc _
    | exact appends_next_unique_id
    | exact appends_set_generated env _ _
    | exact appends_throw_error env _ _
    | exact hfs.type _
    | exact hfs.expr _
    | exact hfs.stmt _
    | apply appends_when
    | apply appends_get_bind
    | apply appends_bind
    | apply appends_ite
    | intro _
    | split

theorem appends_c_gen_expr_list (fs : CGFns) (hfs : GoodCG fs) :
    ∀ (l : List ASTNode), Appends (c_gen_expr_list fs l) := by
  intro l
  induction l with
  | nil => unfold c_gen_expr_list; exact appends_pure _
  | cons x xs ih =>
    unfold c_gen_expr_list
    repeat' with_reducible first
      | exact ih
      | exact appends_pure _
      | exact appends_undefined
      | exact appends_unsupported
      | exact appends_out_of_fuel
      | exact appends_fatal
      | exact appends_print _
      | exact appends_println _
      | exact appends_putc _
      | exact appends_next_unique_id
      | exact hfs.type _
      | exact hfs.expr _
      | exact hfs.stmt _
      | apply appends_when
      | apply appends_get_bind
      | apply appends_bind
      | apply appends_ite
      | intro _

theorem appends_c_gen_expr_list_closed (fs : CGFns) (hfs : GoodCG fs) (last : Char) :
    ∀ (l : List ASTNode), Appends (c_gen_expr_list_closed fs last l) := by
  intro l
  induction l with
  | nil => unfold c_gen_expr_list_closed; exact appends_pure _
  | cons x xs ih =>
    unfold c_gen_expr_list_closed
    repeat' with_reducible first
      | exact ih
      | exact appends_pure _
      | exact appends_undefined
      | exact appends_unsupported
      | exact appends_out_of_fuel
      | exact appends_fatal
      | exact appends_print _
      | exact appends_println _
      | exact appends_putc _
      | exact appends_next_unique_id
      | exact hfs.type _
      | exact hfs.expr _
      | exact hfs.stmt _
      | apply appends_when
      | apply appends_get_bind
      | apply appends_bind
      | apply appends_ite
      | intro _

theorem appends_c_gen_index (env : CEnv) (fs : CGFns) (hfs : GoodCG fs) (node : ASTNode) :
    Appends (c_gen_index env fs node) := by
  unfold c_gen_index
  repeat' with_reducible first
    | exact appends_pure _
    | exact appends_undefined
    | exact appends_unsupported
    | exact appends_out_of_fuel
    | exact appends_fatal
    | exact appends_print _
    | exact appends_println _
    | exact appends_putc _
    | exact appends_next_unique_id
    | exact appends_set_generated env _ _
    | exact appends_throw_error env _ _
    | exact hfs.type _
    | exact hfs.expr _
    | exact hfs.stmt _
    | apply appends_when
    | apply appends_get_bind
    | apply appends_bind
    | apply appends_ite
    | intro _
    | split

theorem appends_c_gen_asm_args :
     ∀ (l : List ASTNode) (used_registers : List Bool) (num_vars : Nat), Appends (c_gen_asm_args used_registers num_vars l) := by
  intro l
  induction l with
  | nil => intro _ _; unfold c_gen_asm_args; exact appends_pure _
  | cons x xs ih =>
    intro used_registers num_vars
    unfold c_gen_asm_args
    repeat' with_reducible first
      | exact ih _ _
      | exact appends_pure _
      | exact appends_undefined
      | exact appends_unsupported
      | exact appends_out_of_fuel
      | exact appends_fatal
      | exact appends_print _
      | exact appends_println _
      | exact appends_putc _
      | exact appends_next_unique_id
      | apply appends_when
      | apply appends_get_bind
      | apply appends_bind
      | apply appends_ite
      | intro _
      | split

theorem appends_c_gen_asm_inputs (env : CEnv) :
     ∀ (l : List ASTNode) (num_vars : Nat), Appends (c_gen_asm_inputs env num_vars l) := by
  intro l
  induction l with
  | nil => intro _; unfold c_gen_asm_inputs; exact appends_pure _
  | cons x xs ih =>
    intro num_vars
    unfold c_gen_asm_inputs
    repeat' with_reducible first
      | exact ih _
      | exact appends_pure _
      | exact appends_undefined
      | exact appends_unsupported
      | exact appends_out_of_fuel
      | exact appends_fatal
      | exact appends_print _
      | exact appends_println _
      | exact appends_putc _
      | exact appends_next_unique_id
      | exact appends_set_generated env _ _
      | exact appends_throw_error env _ _
      | apply appends_when
      | apply appends_get_bind
      | apply appends_bind
      | apply appends_ite
      | intro _

theorem appends_c_gen_asm_clobbers :
    ∀ (l : List (String × Bool)), Appends (c_gen_asm_clobbers l) := by
  intro l
  induction l with
  | nil => unfold c_gen_asm_clobbers; exact appends_pure _
  | cons x xs ih =>
    unfold c_gen_asm_clobbers
    repeat' with_reducible first
      | exact ih
      | exact appends_pure _
      | exact appends_undefined
      | exact appends_unsupported
      | exact appends_out_of_fuel
      | exact appends_fatal
      | exact appends_print _
      | exact appends_println _
      | exact appends_putc _
      | exact appends_next_unique_id
      | apply appends_when
      | apply appends_get_bind
      | apply appends_bind
      | apply appends_ite
      | intro _

theorem appends_c_gen_inline_asm (env : CEnv) (node : ASTNode) :
    Appends (c_gen_inline_asm env node) := by
  unfold c_gen_inline_asm
  refine appends_bind (appends_print _) fun _ => ?_
  refine appends_bind (appends_c_gen_asm_args _ _ _) fun x => ?_
  obtain ⟨used_registers, num_vars⟩ := x
  refine appends_bind (appends_print _) fun _ => ?_
  refine appends_bind (appends_c_gen_asm_inputs env _ _) fun _ => ?_
  exact appends_rewind_tail (appends_c_gen_asm_clobbers _) _ _ (by decide) (by decide)

theorem appends_c_gen_len (env : CEnv) (fs : CGFns) (hfs : GoodCG fs) (node : ASTNode) :
    Appends (c_gen_len env fs node) := by
  unfold c_gen_len
  repeat' with_reducible first
    | exact appends_pure _
    | exact appends_undefined
    | exact appends_unsupported
    | exact appends_out_of_fuel
    | exact appends_fatal
    | exact appends_print _
    | exact appends_println _
    | exact appends_putc _
    | exact appends_next_unique_id
    | exact appends_set_generated env _ _
    | exact appends_throw_error env _ _
    | exact hfs.type _
    | exact hfs.expr _
    | exact hfs.stmt _
    | apply appends_when
    | apply appends_get_bind
    | apply appends_bind
    | apply appends_ite
    | intro _
    | split

theorem appends_c_gen_expr_body (env : CEnv) (fs : CGFns) (hfs : GoodCG fs) (node : ASTNode) :
    Appends (c_gen_expr_body env fs node) := by
  unfold c_gen_expr_body
  repeat' with_reducible first
    | exact appends_c_gen_len env fs hfs _
    | exact appends_c_gen_index env fs hfs _
    | exact appends_c_gen_inline_asm env _
    | exact appends_c_gen_expr_list fs hfs _
    | exact appends_c_gen_expr_list_closed fs hfs _ _
    | exact appends_pure _
    | exact appends_undefined
    | exact appends_unsupported
    | exact appends_out_of_fuel
    | exact appends_fatal
    | exact appends_print _
    | exact appends_println _
    | exact appends_putc _
    | exact appends_next_unique_id
    | exact appends_set_generated env _ _
    | exact appends_throw_error env _ _
    | exact hfs.type _
    | exact hfs.expr _
    | exact hfs.stmt _
    | apply appends_when
    | apply appends_get_bind
    | apply appends_bind
    | apply appends_ite
    | intro _
    | split

theorem appends_c_init_zero (env : CEnv) (var : ASTObj) :
    Appends (c_init_zero env var) := by
  unfold c_init_zero
  repeat' with_reducible first
    | exact appends_pure _
    | exact appends_undefined
    | exact appends_unsupported
    | exact appends_out_of_fuel
    | exact appends_fatal
    | exact appends_print _
    | exact appends_println _
    | exact appends_putc _
    | exact appends_next_unique_id
    | exact appends_set_generated env _ _
    | exact appends_throw_error env _ _
    | apply appends_when
    | apply appends_get_bind
    | apply appends_bind
    | apply appends_ite
    | intro _
    | split

theorem appends_c_gen_local (env : CEnv) (fs : CGFns) (hfs : GoodCG fs) (var : ASTObj) :
    Appends (c_gen_local env fs var) := by
  unfold c_gen_local
  repeat' with_reducible first
    | exact appends_c_gen_typed_name env fs hfs _ _
    | exact appends_c_init_zero env _
    | exact appends_pure _
    | exact appends_undefined
    | exact appends_unsupported
    | exact appends_out_of_fuel
    | exact appends_fatal
    | exact appends_print _
    | exact appends_println _
    | exact appends_putc _
    | exact appends_next_unique_id
    | exact appends_set_generated env _ _
    | exact appends_throw_error env _ _
    | exact hfs.type _
    | exact hfs.expr _
    | exact hfs.stmt _
    | apply appends_when
    | apply appends_get_bind
    | apply appends_bind
    | apply appends_ite
    | intro _

theorem appends_c_gen_locals (env : CEnv) (fs : CGFns) (hfs : GoodCG fs) :
    ∀ (l : List ASTObj), Appends (c_gen_locals env fs l) := by
  intro l
  induction l with
  | nil => unfold c_gen_locals; exact appends_pure _
  | cons x xs ih =>
    unfold c_gen_locals
    repeat' with_reducible first
      | exact ih
      | exact appends_c_gen_local env fs hfs _
      | exact appends_pure _
      | exact appends_undefined
      | exact appends_unsupported
      | exact appends_out_of_fuel
      | exact appends_fatal
      | exact appends_print _
      | exact appends_println _
      | exact appends_putc _
      | exact appends_next_unique_id
      | exact appends_set_generated env _ _
      | exact appends_throw_error env _ _
      | exact hfs.type _
      | exact hfs.expr _
      | exact hfs.stmt _
      | apply appends_when
      | apply appends_get_bind
      | apply appends_bind
      | apply appends_ite
      | intro _

theorem appends_c_gen_stmts (fs : CGFns) (hfs : GoodCG fs) :
    ∀ (l : List ASTNode), Appends (c_gen_stmts fs l) := by
  intro l
  induction l with
  | nil => unfold c_gen_stmts; exact appends_pure _
  | cons x xs ih =>
    unfold c_gen_stmts
    repeat' with_reducible first
      | exact ih
      | exact appends_pure _
      | exact appends_undefined
      | exact appends_unsupported
      | exact appends_out_of_fuel
      | exact appends_fatal
      | exact appends_print _
      | exact appends_println _
      | exact appends_putc _
      | exact appends_next_unique_id
      | exact hfs.type _
      | exact hfs.expr _
      | exact hfs.stmt _
      | apply appends_when
      | apply appends_get_bind
      | apply appends_bind
      | apply appends_ite
      | intro _

theorem appends_c_gen_cases (fs : CGFns) (hfs : GoodCG fs) (uid : Nat) :
     ∀ (l : List ASTNode) (first : Bool), Appends (c_gen_cases fs uid first l) := by
  intro l
  induction l with
  | nil => intro _; unfold c_gen_cases; exact appends_pure _
  | cons x xs ih =>
    intro first
    unfold c_gen_cases
    repeat' with_reducible first
      | exact ih _
      | exact appends_pure _
      | exact appends_undefined
      | exact appends_unsupported
      | exact appends_out_of_fuel
      | exact appends_fatal
      | exact appends_print _
      | exact appends_println _
      | exact appends_putc _
      | exact appends_next_unique_id
      | exact hfs.type _
      | exact hfs.expr _
      | exact hfs.stmt _
      | apply appends_when
      | apply appends_get_bind
      | apply appends_bind
      | apply appends_ite
      | intro _

theorem appends_c_gen_stmt_body (env : CEnv) (fs : CGFns) (hfs : GoodCG fs) (node : ASTNode) :
    Appends (c_gen_stmt_body env fs node) := by
  unfold c_gen_stmt_body
  repeat' with_reducible first
    | exact appends_c_gen_locals env fs hfs _
    | exact appends_c_gen_stmts fs hfs _
    | exact appends_c_gen_cases fs hfs _ _ _
    | exact appends_pure _
    | exact appends_undefined
    | exact appends_unsupported
    | exact appends_out_of_fuel
    | exact appends_fatal
    | exact appends_print _
    | exact appends_println _
    | exact appends_putc _
    | exact appends_next_unique_id
    | exact appends_set_generated env _ _
    | exact appends_throw_error env _ _
    | exact hfs.type _
    | exact hfs.expr _
    | exact hfs.stmt _
    | apply appends_when
    | apply appends_get_bind
    | apply appends_bind
    | apply appends_ite
    | intro _
    | split

theorem good_cg_fns (env : CEnv) : ∀ n, GoodCG (cg_fns env n) := by
  intro n
  induction n with
  | zero =>
    exact ⟨fun _ => appends_out_of_fuel, fun _ => appends_out_of_fuel,
      fun _ => appends_out_of_fuel⟩
  | succ n ih =>
    refine ⟨?_, ?_, ?_⟩
    · intro t
      cases t with
      | none => exact appends_undefined
      | some t => exact appends_c_gen_type_body env _ ih t
    · intro t
      cases t with
      | none => exact appends_undefined
      | some t => exact appends_c_gen_expr_body env _ ih t
    · intro t
      cases t with
      | none => exact appends_undefined
      | some t => exact appends_c_gen_stmt_body env _ ih t

theorem appends_c_for_objs {f : ASTObj → CM Unit} (hf : ∀ obj, Appends (f obj)) :
    ∀ (l : List ASTObj), Appends (c_for_objs f l) := by
  intro l
  induction l with
  | nil => unfold c_for_objs; exact appends_pure _
  | cons x xs ih =>
    unfold c_for_objs
    exact appends_bind (hf x) fun _ => ih

theorem appends_c_predefine_dependant_types (env : CEnv) {gen_typedef : ASTObj → CM Unit}
    (hg : ∀ obj, Appends (gen_typedef obj)) (type : Option ASTType) :
    Appends (c_predefine_dependant_types env gen_typedef type) := by
  unfold c_predefine_dependant_types
  repeat' with_reducible first
    | exact appends_pure _
    | exact appends_undefined
    | exact hg _
    | apply appends_when
    | apply appends_get_bind
    | intro _
    | split

theorem appends_c_gen_typedef (env : CEnv) (fs : CGFns) (hfs : GoodCG fs) :
    ∀ (n : Nat) (obj : ASTObj), Appends (c_gen_typedef env fs n obj) := by
  intro n
  induction n with
  | zero => intro _; exact appends_out_of_fuel
  | succ n ih =>
    intro obj
    unfold c_gen_typedef
    repeat' with_reducible first
      | exact appends_c_predefine_dependant_types env ih _
      | exact appends_c_gen_typed_name env fs hfs _ _
      | exact appends_pure _
      | exact appends_undefined
      | exact appends_print _
      | exact appends_println _
      | exact appends_set_generated env _ _
      | apply appends_get_bind
      | apply appends_bind
      | apply appends_ite
      | intro _
      | split

theorem appends_c_gen_typedefs (env : CEnv) (fs : CGFns) (hfs : GoodCG fs) :
    ∀ (n : Nat) (objs : List ASTObj), Appends (c_gen_typedefs env fs n objs) := by
  intro n
  induction n with
  | zero =>
    intro objs
    cases objs with
    | nil => exact appends_pure _
    | cons _ _ => exact appends_out_of_fuel
  | succ n ih =>
    intro objs
    cases objs with
    | nil => exact appends_pure _
    | cons obj rest =>
      unfold c_gen_typedefs
      apply appends_c_for_objs
      intro o
      repeat' with_reducible first
        | exact ih _
        | exact appends_c_gen_typedef env fs hfs _ _
        | exact appends_pure _
        | split

theorem appends_c_predefine_dependant_members (env : CEnv) (fs : CGFns) (hfs : GoodCG fs) :
    ∀ (l : List (ASTMember ASTType)), Appends (c_predefine_dependant_members env fs l) := by
  intro l
  induction l with
  | nil => unfold c_predefine_dependant_members; exact appends_pure _
  | cons x xs ih =>
    unfold c_predefine_dependant_members
    repeat' with_reducible first
      | exact ih
      | exact appends_c_gen_struct env fs hfs _ _
      | exact appends_pure _
      | exact appends_undefined
      | exact appends_println _
      | exact appends_set_generated env _ _
      | apply appends_get_bind
      | apply appends_bind
      | apply appends_ite
      | intro _
      | split

theorem appends_c_predefine_dependant_structs (env : CEnv) (fs : CGFns) (hfs : GoodCG fs)
    (obj : ASTObj) : Appends (c_predefine_dependant_structs env fs obj) := by
  unfold c_predefine_dependant_structs
  split
  · exact appends_undefined
  · exact appends_c_predefine_dependant_members env fs hfs _

theorem appends_c_gen_structs (env : CEnv) (fs : CGFns) (hfs : GoodCG fs) :
    ∀ (n : Nat) (objs : List ASTObj), Appends (c_gen_structs env fs n objs) := by
  intro n
  induction n with
  | zero =>
    intro objs
    cases objs with
    | nil => exact appends_pure _
    | cons _ _ => exact appends_out_of_fuel
  | succ n ih =>
    intro objs
    cases objs with
    | nil => exact appends_pure _
    | cons obj rest =>
      unfold c_gen_structs
      apply appends_c_for_objs
      intro o
      repeat' with_reducible first
        | exact ih _
        | exact appends_c_predefine_dependant_structs env fs hfs _
        | exact appends_c_gen_struct env fs hfs _ _
        | exact appends_pure _
        | exact appends_undefined
        | exact appends_println _
        | exact appends_set_generated env _ _
        | apply appends_get_bind
        | apply appends_bind
        | apply appends_ite
        | intro _
        | split

theorem appends_c_gen_enum_members (env : CEnv) (fs : CGFns) (hfs : GoodCG fs) :
    ∀ (l : List ASTObj), Appends (c_gen_enum_members env fs l) := by
  intro l
  induction l with
  | nil => unfold c_gen_enum_members; exact appends_pure _
  | cons x xs ih =>
    unfold c_gen_enum_members
    repeat' with_reducible first
      | exact ih
      | exact appends_print _
      | exact appends_println _
      | exact hfs.expr _
      | apply appends_when
      | apply appends_bind
      | intro _

theorem appends_c_gen_globals (env : CEnv) (fs : CGFns) (hfs : GoodCG fs) :
    ∀ (n : Nat) (objs : List ASTObj), Appends (c_gen_globals env fs n objs) := by
  intro n
  induction n with
  | zero =>
    intro objs
    cases objs with
    | nil => exact appends_pure _
    | cons _ _ => exact appends_out_of_fuel
  | succ n ih =>
    intro objs
    cases objs with
    | nil => exact appends_pure _
    | cons obj rest =>
      unfold c_gen_globals
      apply appends_c_for_objs
      intro o
      repeat' with_reducible first
        | exact ih _
        | exact appends_c_gen_enum_members env fs hfs _
        | exact appends_c_gen_typed_name env fs hfs _ _
        | exact appends_pure _
        | exact appends_print _
        | exact appends_println _
        | exact hfs.expr _
        | apply appends_when
        | apply appends_bind
        | apply appends_ite
        | intro _
        | split

theorem appends_c_gen_args (env : CEnv) (fs : CGFns) (hfs : GoodCG fs) :
    ∀ (l : List ASTObj), Appends (c_gen_args env fs l) := by
  intro l
  induction l with
  | nil => unfold c_gen_args; exact appends_pure _
  | cons x xs ih =>
    unfold c_gen_args
    repeat' with_reducible first
      | exact ih
      | exact appends_c_gen_typed_name env fs hfs _ _
      | exact appends_putc _
      | apply appends_when
      | apply appends_bind
      | intro _

theorem appends_c_gen_function_declaration (env : CEnv) (fs : CGFns) (hfs : GoodCG fs)
    (obj : ASTObj) : Appends (c_gen_function_declaration env fs obj) := by
  unfold c_gen_function_declaration
  repeat' with_reducible first
    | exact appends_c_gen_args env fs hfs _
    | exact appends_undefined
    | exact appends_print _
    | exact hfs.type _
    | apply appends_when
    | apply appends_bind
    | apply appends_ite
    | intro _
    | split

theorem appends_c_gen_function_definitions (env : CEnv) (fs : CGFns) (hfs : GoodCG fs) :
    ∀ (n : Nat) (objs : List ASTObj), Appends (c_gen_function_definitions env fs n objs) := by
  intro n
  induction n with
  | zero =>
    intro objs
    cases objs with
    | nil => exact appends_pure _
    | cons _ _ => exact appends_out_of_fuel
  | succ n ih =>
    intro objs
    cases objs with
    | nil => exact appends_pure _
    | cons obj rest =>
      unfold c_gen_function_definitions
      apply appends_c_for_objs
      intro o
      repeat' with_reducible first
        | exact ih _
        | exact appends_c_gen_function_declaration env fs hfs _
        | exact appends_pure _
        | exact appends_println _
        | apply appends_bind
        | apply appends_ite
        | intro _
        | split

theorem appends_c_gen_function (env : CEnv) (fs : CGFns) (hfs : GoodCG fs) (fn : ASTObj) :
    Appends (c_gen_function env fs fn) := by
  unfold c_gen_function
  repeat' with_reducible first
    | exact appends_c_gen_function_declaration env fs hfs _
    | exact appends_println _
    | exact hfs.stmt _
    | apply appends_bind
    | intro _

theorem appends_c_gen_functions (env : CEnv) (fs : CGFns) (hfs : GoodCG fs) :
    ∀ (n : Nat) (objs : List ASTObj), Appends (c_gen_functions env fs n objs) := by
  intro n
  induction n with
  | zero =>
    intro objs
    cases objs with
    | nil => exact appends_pure _
    | cons _ _ => exact appends_out_of_fuel
  | succ n ih =>
    intro objs
    cases objs with
    | nil => exact appends_pure _
    | cons obj rest =>
      unfold c_gen_functions
      apply appends_c_for_objs
      intro o
      repeat' with_reducible first
        | exact ih _
        | exact appends_c_gen_function env fs hfs _
        | exact appends_pure _
        | apply appends_ite
        | split

/-! ## The order of the translation unit -/

theorem text_at_end (cg : CCodegenData) (h : cg.pos = cg.buf.length) : cg.text = cg.buf := by
  apply String.ext
  show cg.buf.data.take cg.pos = cg.buf.data
  rw [h]
  exact List.take_length _

/-- C27: when `c_gen_code` returns, each of the five sections has run in the
state that the one before it has left, in the order typedefs, struct bodies,
globals, function prototypes, function bodies, each has put its text behind
the text that was there, and the text of the translation unit is the header,
these five texts and the `_start` stub of the program's `main` function kind
with a final newline, in this order; for a program without objects
`c_gen_code` returns, with any fuel, and the text is the header followed by
the stub and the newline. -/
theorem c_gen_code_sections (env : CEnv) (fuel : Nat) (ast : ASTProg) :
    (∀ cg, c_gen_code env fuel ast init_c_cg = .ok () cg →
      ∃ (cg1 cg2 cg3 cg4 cg5 : CCodegenData)
        (typedefs structs globals prototypes bodies : String),
        c_gen_typedefs env (cg_fns env fuel) fuel ast.objs (init_c_cg.write c_header_text)
          = .ok () cg1
        ∧ cg1.buf = c_header_text ++ typedefs
        ∧ c_gen_structs env (cg_fns env fuel) fuel ast.objs cg1 = .ok () cg2
        ∧ cg2.buf = cg1.buf ++ structs
        ∧ c_gen_globals env (cg_fns env fuel) fuel ast.objs cg2 = .ok () cg3
        ∧ cg3.buf = cg2.buf ++ globals
        ∧ c_gen_function_definitions env (cg_fns env fuel) fuel ast.objs cg3 = .ok () cg4
        ∧ cg4.buf = cg3.buf ++ prototypes
        ∧ c_gen_functions env (cg_fns env fuel) fuel ast.objs cg4 = .ok () cg5
        ∧ cg5.buf = cg4.buf ++ bodies
        ∧ cg.text = c_header_text ++ typedefs ++ structs ++ globals ++ prototypes ++ bodies
            ++ c_start_text ast.mfk ++ "\n")
    ∧ (ast.objs = [] →
      ∃ cg, c_gen_code env fuel ast init_c_cg = .ok () cg
        ∧ cg.text = c_header_text ++ c_start_text ast.mfk ++ "\n") := by
  have hfs := good_cg_fns env fuel
  have h0 := write_at_end init_c_cg c_header_text rfl
  have hb0 : (init_c_cg.write c_header_text).buf = c_header_text := by
    rw [h0.1]
    exact String.ext (by simp [init_c_cg])
  constructor
  · intro cg h
    unfold c_gen_code at h
    obtain ⟨_, c0, e0, h⟩ := cm_bind_inv h
    cases e0
    obtain ⟨_, cg1, e1, h⟩ := cm_bind_inv h
    obtain ⟨_, cg2, e2, h⟩ := cm_bind_inv h
    obtain ⟨_, cg3, e3, h⟩ := cm_bind_inv h
    obtain ⟨_, cg4, e4, h⟩ := cm_bind_inv h
    obtain ⟨_, cg5, e5, e6⟩ := cm_bind_inv h
    obtain ⟨p1, t1, b1⟩ := appends_c_gen_typedefs env _ hfs fuel ast.objs _ _ _ h0.2 e1
    obtain ⟨p2, t2, b2⟩ := appends_c_gen_structs env _ hfs fuel ast.objs _ _ _ p1 e2
    obtain ⟨p3, t3, b3⟩ := appends_c_gen_globals env _ hfs fuel ast.objs _ _ _ p2 e3
    obtain ⟨p4, t4, b4⟩ := appends_c_gen_function_definitions env _ hfs fuel ast.objs _ _ _ p3 e4
    obtain ⟨p5, t5, b5⟩ := appends_c_gen_functions env _ hfs fuel ast.objs _ _ _ p4 e5
    cases e6
    have w1 := write_at_end cg5 (c_start_text ast.mfk) p5
    have w2 := write_at_end (cg5.write (c_start_text ast.mfk)) "\n" w1.2
    rw [hb0] at b1
    refine ⟨cg1, cg2, cg3, cg4, cg5, t1, t2, t3, t4, t5, e1, b1, e2, b2, e3, b3, e4, b4, e5, b5,
      ?_⟩
    rw [text_at_end _ w2.2, w2.1, w1.1, b5, b4, b3, b2, b1]
  · intro hobjs
    refine ⟨((init_c_cg.write c_header_text).write (c_start_text ast.mfk)).write "\n", ?_, ?_⟩
    · unfold c_gen_code
      rw [hobjs]
      cases fuel <;> rfl
    · have w1 := write_at_end _ (c_start_text ast.mfk) h0.2
      have w2 := write_at_end _ "\n" w1.2
      rw [text_at_end _ w2.2, w2.1, w1.1, hb0]

/-- The program `fn main(): i32 { ret 0; }`: the text is the header, the
prototype and the body of `__csp_main`, and the stub without arguments. -/
theorem c_gen_code_main_prog :
    (c_gen_code sample_cenv 5 main_prog init_c_cg).text_of
      = some (c_header_text ++ "signed int __csp_main();\n"
          ++ "signed int __csp_main()\x7b\n\x7b\nreturn 0;\n\x7d\n\x7d\n"
          ++ c_start_text .MFK_NO_ARGS ++ "\n") := by
  decide!

theorem c_gen_code_main_prog_returns :
    ∃ cg, c_gen_code sample_cenv 5 main_prog init_c_cg = .ok () cg :=
  ⟨_, rfl⟩

/-- The program `fn main(): i32 { ret 0; }` with fuel 5 and the program without
objects with fuel 0: `c_gen_code` returns on both, the first with the five
sections in order, the second with the header and the stub for `argv`. -/
theorem c_gen_code_sections_witness :
    (∃ cg, c_gen_code sample_cenv 5 main_prog init_c_cg = .ok () cg
      ∧ ∃ (cg1 cg2 cg3 cg4 cg5 : CCodegenData)
        (typedefs structs globals prototypes bodies : String),
        c_gen_typedefs sample_cenv (cg_fns sample_cenv 5) 5 main_prog.objs
            (init_c_cg.write c_header_text) = .ok () cg1
        ∧ cg1.buf = c_header_text ++ typedefs
        ∧ c_gen_structs sample_cenv (cg_fns sample_cenv 5) 5 main_prog.objs cg1 = .ok () cg2
        ∧ cg2.buf = cg1.buf ++ structs
        ∧ c_gen_globals sample_cenv (cg_fns sample_cenv 5) 5 main_prog.objs cg2 = .ok () cg3
        ∧ cg3.buf = cg2.buf ++ globals
        ∧ c_gen_function_definitions sample_cenv (cg_fns sample_cenv 5) 5 main_prog.objs cg3
            = .ok () cg4
        ∧ cg4.buf = cg3.buf ++ prototypes
        ∧ c_gen_functions sample_cenv (cg_fns sample_cenv 5) 5 main_prog.objs cg4 = .ok () cg5
        ∧ cg5.buf = cg4.buf ++ bodies
        ∧ cg.text = c_header_text ++ typedefs ++ structs ++ globals ++ prototypes ++ bodies
            ++ c_start_text main_prog.mfk ++ "\n")
    ∧ (∃ cg, c_gen_code sample_cenv 0 (empty_prog .MFK_ARGV_PTR) init_c_cg = .ok () cg
        ∧ cg.text = c_header_text ++ c_start_text (empty_prog .MFK_ARGV_PTR).mfk ++ "\n") := by
  refine ⟨?_, (c_gen_code_sections sample_cenv 0 (empty_prog .MFK_ARGV_PTR)).2 rfl⟩
  obtain ⟨cg, h⟩ := c_gen_code_main_prog_returns
  exact ⟨cg, h, (c_gen_code_sections sample_cenv 5 main_prog).1 cg h⟩

/-! ## The names that the generator makes up -/

theorem unique_id_name_start (id : Nat) :
    str_starts_with (unique_id_name id) "_unique_id_" = true := by
  unfold str_starts_with unique_id_name
  simp only [String.data_append, List.append_assoc]
  exact is_start_of_append _ _

theorem unique_id_name_not_csp (id : Nat) :
    str_starts_with (unique_id_name id) ID_PREFIX = false := by
  unfold str_starts_with unique_id_name
  simp only [String.data_append, List.append_assoc]
  rfl

/-- C28 (amended): the names that the generator makes up are the texts of the
format `_unique_id_%04lux`: each starts with `_unique_id_`, and none with
`__csp_`.  A `for-range` statement declares, as `unsigned long`, the two
variables named by the next two values of the counter; a `match` statement
declares, as `unsigned long`, the variable named by the value of the
counter. -/
theorem synthesised_names_start (env : CEnv) (fs : CGFns) (node : ASTNode) :
    (∀ id, str_starts_with (unique_id_name id) "_unique_id_" = true
      ∧ str_starts_with (unique_id_name id) ID_PREFIX = false)
    ∧ (node.kind = .ND_FOR_RANGE →
      c_gen_stmt_body env fs node
        = (do
            let low_id ← next_unique_id
            let high_id ← next_unique_id
            c_print ("for(" ++ "unsigned long" ++ " " ++ unique_id_name low_id ++ " = ")
            fs.c_gen_expr node.left
            c_print (", " ++ unique_id_name high_id ++ " = (" ++ "unsigned long" ++ ")")
            fs.c_gen_expr node.right
            c_println ("; " ++ unique_id_name low_id ++ " < " ++ unique_id_name high_id ++ "; "
              ++ unique_id_name low_id ++ "++)\x7b")
            fs.c_gen_stmt node.body
            c_println "\x7d" : CM Unit))
    ∧ (node.kind = .ND_MATCH →
      c_gen_stmt_body env fs node
        = (do
            let cg ← CM.get
            c_print ("\x7b\n" ++ "unsigned long" ++ " " ++ unique_id_name cg.unique_id ++ " =")
            fs.c_gen_expr node.condition
            c_println ";"
            c_gen_cases fs cg.unique_id true node.cases
            (match node.default_case with
             | none => pure ()
             | some default_case => do
               c_println "else\x7b"
               fs.c_gen_stmt default_case.body
               c_putc '\x7d')
            c_println "\x7d" : CM Unit)) := by
  refine ⟨fun id => ⟨unique_id_name_start id, unique_id_name_not_csp id⟩, ?_, ?_⟩
  · intro hk
    unfold c_gen_stmt_body
    rw [hk]
    rfl
  · intro hk
    unfold c_gen_stmt_body
    rw [hk]
    rfl

/-- A `for-range` statement over `0 .. 3` with an empty body, at the counter
0: its two variables are `_unique_id_0000x` and `_unique_id_0001x`. -/
theorem synthesised_names_start_witness :
    (c_gen_stmt_body sample_cenv (cg_fns sample_cenv 1)
        (for_range_node (init_ast_node .ND_NOOP none)) init_c_cg).text_of
      = some ("for(unsigned long _unique_id_0000x = 0, _unique_id_0001x = (unsigned long)3; "
          ++ "_unique_id_0000x < _unique_id_0001x; _unique_id_0000x++)\x7b\n\x7d\n") := by
  rw [(synthesised_names_start sample_cenv (cg_fns sample_cenv 1)
    (for_range_node (init_ast_node .ND_NOOP none))).2.1 rfl]
  decide!

/-- The variable that the generator makes up for the `match` statement
`match x { 1 => noop; }` at the counter 0 is `_unique_id_0000x`, which does not
start with `__csp_`. -/
theorem synthesised_name_without_csp :
    (c_gen_stmt sample_cenv 2 (some (match_node "x")) init_c_cg).text_of
      = some ("\x7b\nunsigned long _unique_id_0000x =__csp_x;\n"
          ++ "if(_unique_id_0000x == (1))\x7b\n\x7d\n\x7d\n")
    ∧ unique_id_name 0 = "_unique_id_0000x"
    ∧ str_starts_with "_unique_id_0000x" "__csp_" = false := by
  refine ⟨?_, ?_, ?_⟩ <;> decide!

/-- C29: the case `ND_MATCH` reads the counter and does not advance it: the
two `match` statements of the block `two_matches` both get the name
`_unique_id_0000x` and leave the counter at 0, and in the block
`match_then_for_range` the first variable of the `for-range` statement gets
the name of the `match` statement before it; two `for-range` statements, one
in the other, get the four names of the counter values 0 to 3. -/
theorem c_gen_stmt_match_reuses_name :
    (c_gen_stmt sample_cenv 3 (some two_matches) init_c_cg).text_of
      = some ("\x7b\n"
          ++ "\x7b\nunsigned long _unique_id_0000x =__csp_x;\n"
          ++ "if(_unique_id_0000x == (1))\x7b\n\x7d\n\x7d\n"
          ++ "\x7b\nunsigned long _unique_id_0000x =__csp_y;\n"
          ++ "if(_unique_id_0000x == (1))\x7b\n\x7d\n\x7d\n"
          ++ "\x7d\n")
    ∧ (c_gen_stmt sample_cenv 3 (some two_matches) init_c_cg).state_of.map
        (fun cg => cg.unique_id) = some 0
    ∧ (c_gen_stmt sample_cenv 3 (some match_then_for_range) init_c_cg).text_of
      = some ("\x7b\n"
          ++ "\x7b\nunsigned long _unique_id_0000x =__csp_x;\n"
          ++ "if(_unique_id_0000x == (1))\x7b\n\x7d\n\x7d\n"
          ++ "for(unsigned long _unique_id_0000x = 0, _unique_id_0001x = (unsigned long)3; "
          ++ "_unique_id_0000x < _unique_id_0001x; _unique_id_0000x++)\x7b\n\x7d\n"
          ++ "\x7d\n")
    ∧ (c_gen_stmt sample_cenv 3
        (some (for_range_node (for_range_node (init_ast_node .ND_NOOP none)))) init_c_cg).text_of
      = some ("for(unsigned long _unique_id_0000x = 0, _unique_id_0001x = (unsigned long)3; "
          ++ "_unique_id_0000x < _unique_id_0001x; _unique_id_0000x++)\x7b\n"
          ++ "for(unsigned long _unique_id_0002x = 0, _unique_id_0003x = (unsigned long)3; "
          ++ "_unique_id_0002x < _unique_id_0003x; _unique_id_0002x++)\x7b\n\x7d\n"
          ++ "\x7d\n") := by
  refine ⟨?_, ?_, ?_, ?_⟩ <;> decide!


/-! ## The token API -/

theorem c_str_of_no_nul (s : String) (h : ∀ c ∈ s.data, c ≠ '\x00') : c_str s = s := by
  unfold c_str
  apply String.ext
  show s.data.takeWhile (fun c => c != '\x00') = s.data
  rw [List.takeWhile_eq_self_iff]
  intro c hc
  simpa using h c hc

/-- C40: for every token type `t`, every line `l` and position `p` of 32 bits
and every C string `v` that fits, with its terminating NUL, the buffer `value`
of a token, `csp_new_token(t, l, p, v)` returns a token on which the accessors
give `t`, `l`, `p`, `v` and the empty file name; on a null token the accessors
give `CSPYDR_TOKEN_ERROR`, 0, 0, `"(null)"` and the empty file name. -/
theorem csp_token_round_trip (value_size : Nat) (t : TokenType) (l p : Nat) (v : String)
    (hl : l < 2 ^ 32) (hp : p < 2 ^ 32) (hv : ∀ c ∈ v.data, c ≠ '\x00')
    (hfit : v.utf8ByteSize + 1 ≤ value_size) :
    (∃ tok, csp_new_token value_size t l p v = some tok
      ∧ csp_token_get_type (some tok) = t
      ∧ csp_token_get_line (some tok) = l
      ∧ csp_token_get_position (some tok) = p
      ∧ csp_token_get_value (some tok) = v
      ∧ csp_token_get_file (some tok) = some "")
    ∧ csp_token_get_type none = CSPYDR_TOKEN_ERROR
    ∧ csp_token_get_line none = 0
    ∧ csp_token_get_position none = 0
    ∧ csp_token_get_value none = "(null)"
    ∧ csp_token_get_file none = some "" := by
  refine ⟨⟨⟨t, v, l, p, none⟩, ?_, rfl, rfl, rfl, rfl, rfl⟩, rfl, rfl, rfl, rfl, rfl⟩
  unfold csp_new_token init_token strcpy
  rw [c_str_of_no_nul v hv, if_pos hfit]
  simp only [Nat.mod_eq_of_lt hl, Nat.mod_eq_of_lt hp]

/-- The token `csp_new_token(TOKEN_ID, 3, 7, "main")` with a buffer of 128
bytes (`__CSP_MAX_TOKEN_SIZE`). -/
theorem csp_token_round_trip_witness :
    (∃ tok, csp_new_token 128 .TOKEN_ID 3 7 "main" = some tok
      ∧ csp_token_get_type (some tok) = .TOKEN_ID
      ∧ csp_token_get_line (some tok) = 3
      ∧ csp_token_get_position (some tok) = 7
      ∧ csp_token_get_value (some tok) = "main"
      ∧ csp_token_get_file (some tok) = some "")
    ∧ csp_token_get_type none = CSPYDR_TOKEN_ERROR
    ∧ csp_token_get_line none = 0
    ∧ csp_token_get_position none = 0
    ∧ csp_token_get_value none = "(null)"
    ∧ csp_token_get_file none = some "" :=
  csp_token_round_trip 128 .TOKEN_ID 3 7 "main" (by decide) (by decide) (by decide) (by decide)

/-- The value `main` and its NUL need five bytes: with a buffer of four bytes
`strcpy` writes past the buffer and the model has no token. -/
theorem csp_new_token_examples :
    csp_new_token 4 .TOKEN_ID 3 7 "main" = none
    ∧ csp_new_token 5 .TOKEN_ID 3 7 "main"
        = some ⟨.TOKEN_ID, "main", 3, 7, none⟩ := by
  constructor <;> decide

/-! ## Array literals whose elements have the base type -/

theorem node_ne_left (n : ASTNode) : n.left ≠ some n := by
  intro h
  have hs := congrArg sizeOf h
  cases n
  simp at hs
  omega

theorem node_ne_right (n : ASTNode) : n.right ≠ some n := by
  intro h
  have hs := congrArg sizeOf h
  cases n
  simp at hs
  omega

theorem implicit_cast_ne (env : Helpers) (tok : Option Token) (expr c : ASTNode)
    (to_ : Option ASTType) (h : implicit_cast env tok expr to_ = some c) : c ≠ expr := by
  intro hc
  subst hc
  rcases (implicit_cast_wraps env tok c c to_ h).2 with ⟨-, h1⟩ | ⟨-, h1⟩
  · exact node_ne_left c h1
  · exact node_ne_right c h1

/-- C37: `typecheck_array_lit` never compares the type of an element with the
base type.  Whenever it completes without an error, every element of the
literal has been replaced by a new node that wraps it, whatever the types
are; the literal `[1, 1]` of type `i32[2]`, whose elements have the base type
`i32`, comes back with both elements wrapped in `ND_CAST` nodes; and for the
literal `[s]` of type `S[1]` with `s` of the struct type `S` an error
`ERR_TYPE_ERROR_UNCR` is reported at `s`. -/
theorem typecheck_array_lit_equal_types :
    (∀ (env : Helpers) (a : ASTNode) (r : Checked ASTNode),
      typecheck_array_lit env a = some r →
      (∀ d ∈ r.log, d.kind ≠ .ERR_TYPE_ERROR_UNCR) →
      ∀ (i : Nat) (arg : ASTNode), a.args[i]? = some arg →
        ∃ c, r.val.args[i]? = some c ∧ c ≠ arg)
    ∧ full_array_lit.args.all
        (fun arg => types_equal arg.data_type
          (unpack_ptr sample_helpers (full_array_lit.data_type.bind fun t => t.base))) = true
    ∧ (typecheck_array_lit sample_helpers full_array_lit).map
        (fun r => (r.log, r.halted, r.val.args.map fun c => (c.kind, c.left.map ASTNode.kind)))
        = some ([], false, [(.ND_CAST, some .ND_INT), (.ND_CAST, some .ND_INT)])
    ∧ struct_array_lit.args.all
        (fun arg => types_equal arg.data_type
          (unpack_ptr sample_helpers (struct_array_lit.data_type.bind fun t => t.base))) = true
    ∧ (typecheck_array_lit sample_helpers struct_array_lit).map
        (fun r => (r.log, r.val.args.map fun c => c.kind))
        = some ([⟨.ERR_TYPE_ERROR_UNCR, sample_tok "s"⟩], [.ND_ID]) := by
  refine ⟨?_, by decide, by decide, by decide, by decide⟩
  intro env a r hr hok i arg harg
  unfold typecheck_array_lit at hr
  cases hty : a.data_type with
  | none => rw [hty] at hr; cases hr
  | some ty =>
    rw [hty] at hr
    simp only at hr
    cases hloop : typecheck_array_lit_loop env (unpack_ptr env ty.base) a.args.length 0 a.args with
    | none => rw [hloop] at hr; cases hr
    | some res =>
      rw [hloop] at hr
      simp only [Option.some.injEq] at hr
      subst hr
      obtain ⟨-, -, hrule⟩ := typecheck_array_lit_loop_spec env _ _ _ _ res hloop hok
      have hi : i < a.args.length := by
        rcases Nat.lt_or_ge i a.args.length with h | h
        · exact h
        · rw [List.getElem?_eq_none h] at harg; cases harg
      obtain ⟨c, hc, hcast⟩ := hrule i arg (Nat.zero_le _) (by omega) harg
      exact ⟨c, hc, implicit_cast_ne env _ _ _ _ hcast⟩

/-! ## What types_equal does not look at -/

theorem arg_types_equal_of_params_equal :
    ∀ (as bs : List ASTType), params_equal as bs = true → arg_types_equal as bs = true
  | [], [], _ => by simp [arg_types_equal]
  | [], _ :: _, h => by simp [params_equal] at h
  | _ :: _, [], h => by simp [params_equal] at h
  | a :: as, b :: bs, h => by
    simp only [params_equal, Bool.and_eq_true, types_equal_some] at h
    exact (arg_types_equal_cons a b as bs).2 ⟨h.1, arg_types_equal_of_params_equal as bs h.2⟩

theorem params_equal_length :
    ∀ (as bs : List ASTType), params_equal as bs = true → as.length = bs.length
  | [], [], _ => rfl
  | [], _ :: _, h => by simp [params_equal] at h
  | _ :: _, [], h => by simp [params_equal] at h
  | a :: as, b :: bs, h => by
    simp only [params_equal, Bool.and_eq_true] at h
    simp [params_equal_length as bs h.2]

/-- C38 (amended): `types_equal` reads neither `num_indices` nor the variadic
flag.  Two C-array types with the same `is_constant` flag whose element types
are equal under `types_equal` compare equal whatever their `num_indices`; two
sized-array types with the same `is_constant` flag compare equal whatever
their `num_indices`; and two function types with the same `is_constant` flag
whose return types and parameter types are equal under `types_equal` compare
equal whatever their variadic flags. -/
theorem types_equal_ignores_length_and_variadic (a b : ASTType)
    (hc : a.is_constant = b.is_constant) :
    (a.kind = .TY_C_ARRAY → b.kind = .TY_C_ARRAY → types_equal a.base b.base = true →
      ∀ n m : Nat,
        types_equal (some { a with num_indices := n }) (some { b with num_indices := m }) = true)
    ∧ (a.kind = .TY_ARRAY → b.kind = .TY_ARRAY →
      ∀ n m : Nat,
        types_equal (some { a with num_indices := n }) (some { b with num_indices := m }) = true)
    ∧ (a.kind = .TY_FN → b.kind = .TY_FN → types_equal a.base b.base = true →
      params_equal a.arg_types b.arg_types = true →
      ∀ v w : Bool,
        types_equal (some { a with is_variadic := v }) (some { b with is_variadic := w }) = true)
    := by
  refine ⟨?_, ?_, ?_⟩
  · intro ha hb hbase n m
    rw [types_equal_some, types_equal_at_iff]
    refine ⟨by rw [ha, hb], hc, ?_⟩
    show (match a.kind with
      | .TY_C_ARRAY | .TY_PTR => types_equal a.base b.base = true
      | .TY_STRUCT => _ | .TY_ENUM => _ | .TY_UNDEF => _ | .TY_FN => _ | _ => True)
    rw [ha]
    exact hbase
  · intro ha hb n m
    rw [types_equal_some, types_equal_at_iff]
    refine ⟨by rw [ha, hb], hc, ?_⟩
    show (match a.kind with
      | .TY_C_ARRAY | .TY_PTR => _
      | .TY_STRUCT => _ | .TY_ENUM => _ | .TY_UNDEF => _ | .TY_FN => _ | _ => True)
    rw [ha]
    trivial
  · intro ha hb hbase hparams v w
    rw [types_equal_some, types_equal_at_iff]
    refine ⟨by rw [ha, hb], hc, ?_⟩
    show (match a.kind with
      | .TY_C_ARRAY | .TY_PTR => _
      | .TY_STRUCT => _ | .TY_ENUM => _ | .TY_UNDEF => _
      | .TY_FN => a.arg_types.length = b.arg_types.length ∧
            types_equal a.base b.base = true ∧ arg_types_equal a.arg_types b.arg_types = true
      | _ => True)
    rw [ha]
    exact ⟨params_equal_length _ _ hparams, hbase,
      arg_types_equal_of_params_equal _ _ hparams⟩

/-- The function type `fn(i32, struct { .. }): &i32` and the same type marked
variadic compare equal. -/
theorem types_equal_ignores_length_and_variadic_witness :
    types_equal (some { sample_fn_type with is_variadic := false })
      (some { sample_fn_type with is_variadic := true }) = true :=
  (types_equal_ignores_length_and_variadic sample_fn_type sample_fn_type rfl).2.2
    rfl rfl (by decide) (by decide) false true

/-- The function type `fn(i32, struct { .. }): &i32` and the same type with
the `const` flag have equal return and parameter types and do not compare
equal. -/
theorem types_equal_fn_const_differs :
    sample_fn_type.kind = .TY_FN ∧ sample_fn_type_const.kind = .TY_FN
    ∧ types_equal sample_fn_type.base sample_fn_type_const.base = true
    ∧ params_equal sample_fn_type.arg_types sample_fn_type_const.arg_types = true
    ∧ sample_fn_type.is_variadic = sample_fn_type_const.is_variadic
    ∧ types_equal (some sample_fn_type) (some sample_fn_type_const) = false := by
  decide

/-! ## One binary operator between two atoms -/

/-- The parse of `x o y` followed by a token `te` of precedence `LOWEST`, at a
precedence below the one of `o`: the tree is `o(x, y)`. -/
theorem parse_expr_one_op (env : ParserEnv) (m : Nat) (prec : Precedence_T)
    (end_tok : TokenType) {x o y te : Token} {ts : List Token} {i : Nat} {p : Parser}
    (h : At ts i x p)
    (h1 : ts[i + 1]? = some o) (h2 : ts[i + 2]? = some y) (h3 : ts[i + 3]? = some te)
    (hx : is_atom x.type = true) (hy : is_atom y.type = true)
    (ho : (binary_op_kind o.type).isSome = true) (he : o.type ≠ end_tok)
    (hprec : prec.val < (get_precedence o.type).val)
    (hte : get_precedence te.type = .LOWEST) (hte2 : te.type ≠ .TOKEN_STATIC_MEMBER) :
    ∃ q, (parse_fns env (m + 4)).parse_expr prec end_tok p
        = .ok (binary_node env o (atom_node env x) (atom_node env y)) q
      ∧ At ts (i + 3) te q := by
  have hstop : ∀ (prec : Precedence_T) (e : TokenType),
      te.type = e ∨ ¬ prec.val < (get_precedence te.type).val := by
    intro prec e; right; rw [hte]; exact Nat.not_lt_zero _
  have hteL : te.type ≠ .TOKEN_LPAREN := by
    intro hc; rw [hc] at hte; exact absurd hte (by decide)
  have hnotL : o.type ≠ .TOKEN_STATIC_MEMBER ∧ o.type ≠ .TOKEN_LPAREN := by
    constructor <;> (intro hc; rw [hc] at ho; exact absurd ho (by decide))
  show ∃ q, parse_expr_body env (parse_fns env (m + 3)) prec end_tok p = _ ∧ _
  obtain ⟨pfn, hpfn, q1, hcall, hat1⟩ :=
    parse_atom_at env (parse_fns env (m + 3)) (n := m + 1) rfl h hx h1 hnotL.1 hnotL.2
  rw [← h.2.2] at hpfn
  rw [parse_expr_body_eq env _ prec end_tok hpfn hcall]
  show ∃ q, parse_expr_loop env (parse_fns env (m + 3)) prec end_tok (m + 1 + 1) _ q1 = _ ∧ _
  have hsub : ∀ q, At ts (i + 1 + 1) y q →
      ∃ q2, (parse_fns env (m + 3)).parse_expr (get_precedence o.type) .TOKEN_EOF q
          = .ok (atom_node env y) q2 ∧ At ts (i + 3) te q2 := by
    intro q hq
    exact parse_expr_atom_at env m _ _ hq hy h3 hte2 hteL (hstop _ _)
  obtain ⟨q2, hloop, hat2⟩ :=
    parse_expr_loop_binary env (parse_fns env (m + 3)) prec end_tok (m + 1)
      (atom_node env x) hat1 ho h2 he hprec hsub
  rw [hloop]
  exact ⟨q2, parse_expr_loop_stop_at env _ _ _ m _ hat2 (hstop _ _), hat2⟩

theorem parse_unary_at (env : ParserEnv) (fs : ParseFns) (kind : ASTNodeKind)
    {ts : List Token} {i j : Nat} {u t1 tj : Token} {p : Parser} {r : ASTNode}
    (h : At ts i u p) (hkind : unary_ops u.type = some kind) (h1 : ts[i + 1]? = some t1)
    (hsub : ∀ q1, At ts (i + 1) t1 q1 →
      ∃ q2, fs.parse_expr .LOWEST .TOKEN_ASSIGN q1 = .ok r q2 ∧ At ts j tj q2) :
    ∃ q2, parse_unary env fs p = .ok (unary_node kind u r) q2 ∧ At ts j tj q2 := by
  unfold parse_unary
  rw [PM.bind_get_state, h.2.2]
  simp only [hkind]
  obtain ⟨q1, ha, hat⟩ := parser_advance_at env h h1
  rw [PM.bind_ok ha]
  obtain ⟨q2, hb, hat2⟩ := hsub q1 hat
  rw [PM.bind_ok hb]
  exact ⟨q2, rfl, hat2⟩

theorem unary_prefix_fn {type : TokenType} {kind : ASTNodeKind}
    (h : unary_ops type = some kind) : get_PrefixParseFn_T type = some .parse_unary := by
  cases type <;> first | rfl | (exact absurd h (by simp [unary_ops]))

/-- C36: `parse_unary` parses its operand with `parse_expr(p, LOWEST,
TOKEN_ASSIGN)`, so that the operand goes on over every binary operator: for
every prefix operator token `u` of the table `unary_ops`, all atoms `a` and
`b` and every binary infix operator `o`, the tokens `u a o b` parse as
`u(o(a, b))`, and not as `o(u(a), b)`. -/
theorem parse_unary_operand (env : ParserEnv) (k : Nat) (end_tok : TokenType)
    (kind : ASTNodeKind) (u a o b te : Token) (ts : List Token) (i : Nat) (p : Parser)
    (h : At ts i u p)
    (h1 : ts[i + 1]? = some a) (h2 : ts[i + 2]? = some o) (h3 : ts[i + 3]? = some b)
    (h4 : ts[i + 4]? = some te)
    (hu : unary_ops u.type = some kind)
    (ha : is_atom a.type = true) (hb : is_atom b.type = true)
    (ho : (binary_op_kind o.type).isSome = true)
    (hte : get_precedence te.type = .LOWEST) (hte2 : te.type ≠ .TOKEN_STATIC_MEMBER) :
    ∃ q, parse_expr env (k + 5) .LOWEST end_tok p
        = .ok (unary_node kind u (binary_node env o (atom_node env a) (atom_node env b))) q
      ∧ At ts (i + 4) te q
      ∧ unary_node kind u (binary_node env o (atom_node env a) (atom_node env b))
        ≠ binary_node env o (unary_node kind u (atom_node env a)) (atom_node env b) := by
  have hoa : o.type ≠ .TOKEN_ASSIGN := by
    intro hc; rw [hc] at ho; exact absurd ho (by decide)
  show ∃ q, parse_expr_body env (parse_fns env (k + 4)) .LOWEST end_tok p = _ ∧ _
  have hsub : ∀ q1, At ts (i + 1) a q1 →
      ∃ q2, (parse_fns env (k + 4)).parse_expr .LOWEST .TOKEN_ASSIGN q1
          = .ok (binary_node env o (atom_node env a) (atom_node env b)) q2
        ∧ At ts (i + 1 + 3) te q2 := by
    intro q1 hq1
    exact parse_expr_one_op env k .LOWEST .TOKEN_ASSIGN hq1 h2 h3 h4 ha hb ho hoa
      (binary_op_precedence ho).1 hte hte2
  obtain ⟨q2, hcall, hat2⟩ := parse_unary_at env (parse_fns env (k + 4)) kind h hu h1 hsub
  have hpfn := unary_prefix_fn hu
  rw [← h.2.2] at hpfn
  rw [parse_expr_body_eq env _ .LOWEST end_tok hpfn hcall]
  refine ⟨q2, ?_, hat2, ?_⟩
  · exact parse_expr_loop_stop_at env _ _ _ (k + 2) _ hat2
      (Or.inr (by rw [hte]; exact Nat.not_lt_zero _))
  · intro hc
    have hl := congrArg ASTNode.left hc
    simp [unary_node, binary_node, init_ast_node] at hl

/-- The tokens `- a + b ;`: the tree is NEG(ADD(a, b)). -/
theorem parse_unary_operand_witness :
    ∃ q, parse_expr sample_env 5 .LOWEST .TOKEN_SEMICOLON
        (start_state (mk_tok .TOKEN_MINUS "-") unary_operand_toks)
        = .ok (unary_node .ND_NEG (mk_tok .TOKEN_MINUS "-")
            (binary_node sample_env (mk_tok .TOKEN_PLUS "+")
              (atom_node sample_env (mk_tok .TOKEN_ID "a"))
              (atom_node sample_env (mk_tok .TOKEN_ID "b")))) q
      ∧ At (mk_tok .TOKEN_MINUS "-" :: unary_operand_toks) 4 (mk_tok .TOKEN_SEMICOLON ";") q
      ∧ unary_node .ND_NEG (mk_tok .TOKEN_MINUS "-")
            (binary_node sample_env (mk_tok .TOKEN_PLUS "+")
              (atom_node sample_env (mk_tok .TOKEN_ID "a"))
              (atom_node sample_env (mk_tok .TOKEN_ID "b")))
        ≠ binary_node sample_env (mk_tok .TOKEN_PLUS "+")
            (unary_node .ND_NEG (mk_tok .TOKEN_MINUS "-")
              (atom_node sample_env (mk_tok .TOKEN_ID "a")))
            (atom_node sample_env (mk_tok .TOKEN_ID "b")) :=
  parse_unary_operand sample_env 0 .TOKEN_SEMICOLON .ND_NEG (mk_tok .TOKEN_MINUS "-")
    (mk_tok .TOKEN_ID "a") (mk_tok .TOKEN_PLUS "+") (mk_tok .TOKEN_ID "b")
    (mk_tok .TOKEN_SEMICOLON ";") (mk_tok .TOKEN_MINUS "-" :: unary_operand_toks) 0
    (start_state (mk_tok .TOKEN_MINUS "-") unary_operand_toks)
    ⟨rfl, rfl, rfl⟩ rfl rfl rfl rfl rfl rfl rfl rfl rfl (by decide)

/-- The five prefix operators before `a + b;`, and the statements `*p += 1;`
and `*p = 1;`: only the plain assignment, at whose token the operand ends,
has the dereference as its target. -/
theorem parse_unary_examples :
    unary_toks.map (fun u => node_shape 4
        (parse_expr sample_env 6 .LOWEST .TOKEN_SEMICOLON
          (start_state u unary_operand_toks)).val_of)
      = ["NEG(ADD(a, b))", "NOT(ADD(a, b))", "BIT_NEG(ADD(a, b))", "REF(ADD(a, b))",
         "DEREF(ADD(a, b))"]
    ∧ node_shape 5 (parse_expr sample_env 6 .LOWEST .TOKEN_SEMICOLON
        (start_state (mk_tok .TOKEN_STAR "*") deref_add_toks)).val_of
      = "DEREF(ASSIGN(p, ADD(p, 1)))"
    ∧ (parse_stmt sample_env 7 true
        (start_state (mk_tok .TOKEN_STAR "*") deref_add_toks)).is_aborted = true
    ∧ (parse_stmt sample_env 7 true
        (start_state (mk_tok .TOKEN_STAR "*") deref_add_toks)).state_of.map (fun q => q.log)
      = some [⟨.ERR_SYNTAX_ERROR, some (mk_tok .TOKEN_STAR "*")⟩]
    ∧ node_shape 5 (parse_stmt sample_env 7 true
        (start_state (mk_tok .TOKEN_STAR "*") deref_assign_toks)).val_of
      = "EXPR_STMT(ASSIGN(DEREF(p), 1))" := by
  refine ⟨?_, ?_, ?_, ?_, ?_⟩ <;> decide!

/-! ## Compound assignments -/

theorem assign_token_facts {type op : TokenType} (h : assign_to_op type = some op) :
    type ≠ .TOKEN_STATIC_MEMBER ∧ type ≠ .TOKEN_LPAREN ∧ type ≠ .TOKEN_ASSIGN
    ∧ get_InfixParseFn_T type = some .parse_assignment
    ∧ (get_precedence type).val = 1 := by
  cases type <;> first
    | exact ⟨by decide, by decide, by decide, rfl, rfl⟩
    | (exact absurd h (by simp [assign_to_op]))

theorem generate_assignment_op_rval_at (env : ParserEnv) (fs : ParseFns) (left : ASTNode)
    (op : TokenType) (kind : ASTNodeKind) {ts : List Token} {i j : Nat} {c t1 tj : Token}
    {p : Parser} {r : ASTNode}
    (h : At ts i c p) (hkind : infix_ops op = some kind) (h1 : ts[i + 1]? = some t1)
    (hsub : ∀ q1, At ts (i + 1) t1 q1 →
      ∃ q2, fs.parse_expr (get_precedence op) .TOKEN_EOF q1 = .ok r q2 ∧ At ts j tj q2) :
    ∃ q2, generate_assignment_op_rval env fs left op p
        = .ok { init_ast_node kind (some c) with left := some left, right := some r } q2
      ∧ At ts j tj q2 := by
  unfold generate_assignment_op_rval
  rw [PM.bind_get_state, h.2.2]
  simp only [hkind]
  obtain ⟨q1, ha, hat⟩ := parser_advance_at env h h1
  rw [PM.bind_ok ha]
  obtain ⟨q2, hb, hat2⟩ := hsub q1 hat
  rw [get_precedence] at hb
  rw [PM.bind_ok hb]
  exact ⟨q2, rfl, hat2⟩

theorem parse_assignment_eq (env : ParserEnv) (fs : ParseFns) (left : ASTNode)
    (op : TokenType) (p : Parser) (hop : assign_to_op p.tok.type = some op) :
    parse_assignment env fs left p
      = (generate_assignment_op_rval env fs left op >>= fun right =>
          (pure { init_ast_node .ND_ASSIGN (some p.tok) with
                  left := some left, right := some right } : PM ASTNode)) p := by
  unfold parse_assignment
  rw [PM.bind_get_state]
  revert hop
  generalize p.tok.type = t
  intro hop
  cases t <;> first
    | (simp only [assign_to_op] at hop; cases hop; rfl)
    | (exact absurd hop (by simp [assign_to_op]))

theorem parse_assignment_compound_at (env : ParserEnv) (fs : ParseFns) (left : ASTNode)
    (op : TokenType) (kind : ASTNodeKind) {ts : List Token} {i j : Nat} {c t1 tj : Token}
    {p : Parser} {r : ASTNode}
    (h : At ts i c p) (hop : assign_to_op c.type = some op) (hkind : infix_ops op = some kind)
    (h1 : ts[i + 1]? = some t1)
    (hsub : ∀ q1, At ts (i + 1) t1 q1 →
      ∃ q2, fs.parse_expr (get_precedence op) .TOKEN_EOF q1 = .ok r q2 ∧ At ts j tj q2) :
    ∃ q2, parse_assignment env fs left p = .ok (compound_node kind c left r) q2
      ∧ At ts j tj q2 := by
  obtain ⟨q2, hg, hat2⟩ := generate_assignment_op_rval_at env fs left op kind h hkind h1 hsub
  refine ⟨q2, ?_, hat2⟩
  rw [parse_assignment_eq env fs left op p (by rw [h.2.2]; exact hop), PM.bind_ok hg, h.2.2]
  rfl

/-- C35: `generate_assignment_op_rval` parses the right-hand side of a
compound assignment at the precedence of the operator, so that the right-hand
side ends before the first operator that does not bind tighter: for every
compound assignment token `c` with operator `op`, all atoms `x`, `b`, `z` and
every binary operator `o` whose precedence is not above the one of `op`, the
tokens `x c b o z` parse as `o(ASSIGN(x, op(x, b)), z)`, and not as
`ASSIGN(x, op(x, o(b, z)))`. -/
theorem parse_compound_assignment (env : ParserEnv) (k : Nat) (end_tok op : TokenType)
    (kind : ASTNodeKind) (x c b o z te : Token) (ts : List Token) (i : Nat) (p : Parser)
    (h : At ts i x p)
    (h1 : ts[i + 1]? = some c) (h2 : ts[i + 2]? = some b) (h3 : ts[i + 3]? = some o)
    (h4 : ts[i + 4]? = some z) (h5 : ts[i + 5]? = some te)
    (hx : is_atom x.type = true) (hb : is_atom b.type = true) (hz : is_atom z.type = true)
    (hop : assign_to_op c.type = some op) (hkind : infix_ops op = some kind)
    (ho : (binary_op_kind o.type).isSome = true)
    (hprec : ¬ (get_precedence op).val < (get_precedence o.type).val)
    (hce : c.type ≠ end_tok) (hoe : o.type ≠ end_tok)
    (hte : get_precedence te.type = .LOWEST) (hte2 : te.type ≠ .TOKEN_STATIC_MEMBER) :
    ∃ q, parse_expr env (k + 5) .LOWEST end_tok p
        = .ok (binary_node env o
            (compound_node kind c (atom_node env x) (atom_node env b)) (atom_node env z)) q
      ∧ At ts (i + 5) te q
      ∧ binary_node env o
            (compound_node kind c (atom_node env x) (atom_node env b)) (atom_node env z)
        ≠ compound_node kind c (atom_node env x)
            (binary_node env o (atom_node env b) (atom_node env z)) := by
  obtain ⟨hc1, hc2, -, hcifn, hcprec⟩ := assign_token_facts hop
  have hstop : ∀ (prec : Precedence_T) (e : TokenType),
      te.type = e ∨ ¬ prec.val < (get_precedence te.type).val := by
    intro prec e; right; rw [hte]; exact Nat.not_lt_zero _
  have hteL : te.type ≠ .TOKEN_LPAREN := by
    intro hc; rw [hc] at hte; exact absurd hte (by decide)
  have hnotL : o.type ≠ .TOKEN_STATIC_MEMBER ∧ o.type ≠ .TOKEN_LPAREN := by
    constructor <;> (intro hc; rw [hc] at ho; exact absurd ho (by decide))
  show ∃ q, parse_expr_body env (parse_fns env (k + 4)) .LOWEST end_tok p = _ ∧ _
  -- the target
  obtain ⟨pfn, hpfn, q1, hcall, hat1⟩ :=
    parse_atom_at env (parse_fns env (k + 4)) (n := k + 2) rfl h hx h1 hc1 hc2
  rw [← h.2.2] at hpfn
  rw [parse_expr_body_eq env _ .LOWEST end_tok hpfn hcall]
  show ∃ q, parse_expr_loop env (parse_fns env (k + 4)) .LOWEST end_tok (k + 2 + 1) _ q1 = _ ∧ _
  -- the compound assignment, whose right-hand side is `b`
  have hsub1 : ∀ q, At ts (i + 1 + 1) b q →
      ∃ q2, (parse_fns env (k + 4)).parse_expr (get_precedence op) .TOKEN_EOF q
          = .ok (atom_node env b) q2 ∧ At ts (i + 3) o q2 := by
    intro q hq
    exact parse_expr_atom_at env (k + 1) _ _ hq hb h3 hnotL.1 hnotL.2 (Or.inr hprec)
  obtain ⟨q3, hassign, hat3⟩ :=
    parse_assignment_compound_at env (parse_fns env (k + 4)) (atom_node env x) op kind hat1 hop
      hkind h2 hsub1
  have hgo : (!tok_is q1 end_tok
      && decide (Precedence_T.LOWEST.val < (get_precedence q1.tok.type).val)) = true := by
    rw [tok_is, hat1.2.2, hcprec]
    simp [hce, Precedence_T.val]
  have hifn : get_InfixParseFn_T q1.tok.type = some .parse_assignment := by
    rw [hat1.2.2]; exact hcifn
  rw [parse_expr_loop_step env _ .LOWEST end_tok (k + 2) hgo hifn
    (show call_InfixParseFn_T env _ .parse_assignment _ q1 = _ from hassign)]
  -- the operator `o`, whose left operand is the assignment
  have hsub2 : ∀ q, At ts (i + 3 + 1) z q →
      ∃ q2, (parse_fns env (k + 4)).parse_expr (get_precedence o.type) .TOKEN_EOF q
          = .ok (atom_node env z) q2 ∧ At ts (i + 5) te q2 := by
    intro q hq
    exact parse_expr_atom_at env (k + 1) _ _ hq hz h5 hte2 hteL (hstop _ _)
  obtain ⟨q4, hloop, hat4⟩ :=
    parse_expr_loop_binary env (parse_fns env (k + 4)) .LOWEST end_tok (k + 1)
      (compound_node kind c (atom_node env x) (atom_node env b)) hat3 ho h4 hoe
      (binary_op_precedence ho).1 hsub2
  rw [hloop]
  refine ⟨q4, parse_expr_loop_stop_at env _ _ _ k _ hat4 (hstop _ _), hat4, ?_⟩
  intro hc
  have hl := congrArg ASTNode.tok hc
  have hne : o ≠ c := by
    intro hoc
    rw [hoc] at ho
    rcases binary_op_cases ho with e | e | e | e | e | e | e | e | e | e | e | e | e | e | e
        | e | e | e <;> (rw [e] at hop; exact absurd hop (by simp [assign_to_op]))
  simp [compound_node, binary_node, init_ast_node] at hl
  exact hne hl

/-- The tokens `a *= b + z ;`: the tree is ADD(ASSIGN(a, MUL(a, b)), z). -/
theorem parse_compound_assignment_witness :
    ∃ q, parse_expr sample_env 5 .LOWEST .TOKEN_SEMICOLON
        (start_state (mk_tok .TOKEN_ID "a")
          (compound_toks (mk_tok .TOKEN_MULT "*=") (mk_tok .TOKEN_PLUS "+")))
        = .ok (binary_node sample_env (mk_tok .TOKEN_PLUS "+")
            (compound_node .ND_MUL (mk_tok .TOKEN_MULT "*=")
              (atom_node sample_env (mk_tok .TOKEN_ID "a"))
              (atom_node sample_env (mk_tok .TOKEN_ID "b")))
            (atom_node sample_env (mk_tok .TOKEN_ID "z"))) q
      ∧ At (mk_tok .TOKEN_ID "a"
          :: compound_toks (mk_tok .TOKEN_MULT "*=") (mk_tok .TOKEN_PLUS "+")) 5
          (mk_tok .TOKEN_SEMICOLON ";") q
      ∧ binary_node sample_env (mk_tok .TOKEN_PLUS "+")
            (compound_node .ND_MUL (mk_tok .TOKEN_MULT "*=")
              (atom_node sample_env (mk_tok .TOKEN_ID "a"))
              (atom_node sample_env (mk_tok .TOKEN_ID "b")))
            (atom_node sample_env (mk_tok .TOKEN_ID "z"))
        ≠ compound_node .ND_MUL (mk_tok .TOKEN_MULT "*=")
            (atom_node sample_env (mk_tok .TOKEN_ID "a"))
            (binary_node sample_env (mk_tok .TOKEN_PLUS "+")
              (atom_node sample_env (mk_tok .TOKEN_ID "b"))
              (atom_node sample_env (mk_tok .TOKEN_ID "z"))) :=
  parse_compound_assignment sample_env 0 .TOKEN_SEMICOLON .TOKEN_STAR .ND_MUL
    (mk_tok .TOKEN_ID "a") (mk_tok .TOKEN_MULT "*=") (mk_tok .TOKEN_ID "b")
    (mk_tok .TOKEN_PLUS "+") (mk_tok .TOKEN_ID "z") (mk_tok .TOKEN_SEMICOLON ";")
    (mk_tok .TOKEN_ID "a" :: compound_toks (mk_tok .TOKEN_MULT "*=") (mk_tok .TOKEN_PLUS "+")) 0
    (start_state (mk_tok .TOKEN_ID "a")
      (compound_toks (mk_tok .TOKEN_MULT "*=") (mk_tok .TOKEN_PLUS "+")))
    ⟨rfl, rfl, rfl⟩ rfl rfl rfl rfl rfl rfl rfl rfl rfl rfl rfl (by decide) (by decide)
    (by decide) rfl (by decide)

/-- Every compound assignment with its own operator on the right-hand side,
`a c b o z;`; the statement `a *= b + z;`, which is rejected as not
executable; and `a += b * z;`, whose right-hand side binds tighter than the
operator. -/
theorem parse_compound_assignment_examples :
    compound_ops.map (fun co => node_shape 5
        (parse_expr sample_env 6 .LOWEST .TOKEN_SEMICOLON
          (start_state (mk_tok .TOKEN_ID "a") (compound_toks co.1 co.2))).val_of)
      = ["ADD(ASSIGN(a, ADD(a, b)), z)", "SUB(ASSIGN(a, SUB(a, b)), z)",
         "MUL(ASSIGN(a, MUL(a, b)), z)", "DIV(ASSIGN(a, DIV(a, b)), z)",
         "MOD(ASSIGN(a, MOD(a, b)), z)", "LSHIFT(ASSIGN(a, LSHIFT(a, b)), z)",
         "RSHIFT(ASSIGN(a, RSHIFT(a, b)), z)", "BIT_AND(ASSIGN(a, BIT_AND(a, b)), z)",
         "BIT_OR(ASSIGN(a, BIT_OR(a, b)), z)", "XOR(ASSIGN(a, XOR(a, b)), z)"]
    ∧ node_shape 5 (parse_expr sample_env 6 .LOWEST .TOKEN_SEMICOLON
        (start_state (mk_tok .TOKEN_ID "a")
          (compound_toks (mk_tok .TOKEN_MULT "*=") (mk_tok .TOKEN_PLUS "+")))).val_of
      = "ADD(ASSIGN(a, MUL(a, b)), z)"
    ∧ (parse_stmt sample_env 7 true
        (start_state (mk_tok .TOKEN_ID "a")
          (compound_toks (mk_tok .TOKEN_MULT "*=") (mk_tok .TOKEN_PLUS "+")))).is_aborted = true
    ∧ (parse_stmt sample_env 7 true
        (start_state (mk_tok .TOKEN_ID "a")
          (compound_toks (mk_tok .TOKEN_MULT "*=") (mk_tok .TOKEN_PLUS "+")))).state_of.map
          (fun q => q.log)
      = some [⟨.ERR_SYNTAX_ERROR, some (mk_tok .TOKEN_PLUS "+")⟩]
    ∧ node_shape 5 (parse_stmt sample_env 7 true
        (start_state (mk_tok .TOKEN_ID "a")
          (compound_toks (mk_tok .TOKEN_ADD "+=") (mk_tok .TOKEN_STAR "*")))).val_of
      = "EXPR_STMT(ASSIGN(a, ADD(a, MUL(b, z))))" := by
  refine ⟨?_, ?_, ?_, ?_, ?_⟩ <;> decide!

/-! ## Tuple types that share a typedef -/

theorem check_type_outline (a b : ASTType) (hk : a.kind = b.kind)
    (hp : a.is_primitive = b.is_primitive) (ha : a.base = none) (hb : b.base = none) :
    check_type a b = true := by
  obtain ⟨ka, ca, pa, ba, na, ma, ata, ua, va, ia⟩ := a
  simp only at hk hp ha
  subst ha
  unfold check_type
  simp [hk, hp, hb]

theorem check_type_reads (a b : ASTType) (c : Bool) (n : Nat) (i : ASTIdentifier)
    (m : List (ASTMember ASTType)) :
    check_type { a with is_constant := c, num_indices := n, id := i, members := m } b
      = check_type a b := by
  obtain ⟨ka, ca, pa, ba, na, ma, ata, ua, va, ia⟩ := a
  cases ba <;> (unfold check_type; rfl)

/-- C34: `check_type` compares the kind, the flag `is_primitive` and the
chain of base types, and nothing else: two types of the same kind without
base type (two named types, whatever their names) pass it, and the flag
`is_constant`, the array length, the identifier and the members of a type are
not read.  Two one-member tuple types whose member types pass `check_type`
are mapped to the same typedef: the second gets the identifier of the typedef
that was made for the first.  So `{Foo}` and `{Bar}` both become
`__csp_tuple_0__`, with a single typedef in the program, though `Foo` and
`Bar` are not equal under `types_equal`; likewise `{Foo}` and `{const Foo}`;
`{i32}` and `{bool}` get two typedefs. -/
theorem tuple_dedup_by_outline :
    (∀ a b : ASTType, a.kind = b.kind → a.is_primitive = b.is_primitive →
      a.base = none → b.base = none → check_type a b = true)
    ∧ (∀ (a b : ASTType) (c : Bool) (n : Nat) (i : ASTIdentifier)
        (m : List (ASTMember ASTType)),
      check_type { a with is_constant := c, num_indices := n, id := i, members := m } b
        = check_type a b)
    ∧ (∀ (p : Parser) (A B : ASTType) (tok1 tok2 : Option Token),
      check_type A B = true →
      get_compatible_tuple p.objs (tuple_of A) = some none →
      get_compatible_tuple p.objs (tuple_of B) = some none →
      ∃ (tydef : ASTObj) (id : ASTIdentifier) (p1 : Parser) (t1 : ASTType),
        parser_generate_tuple_type (tuple_of A) tok1 p = .ok (tydef, t1) p1
        ∧ tydef.id = some id ∧ id.callee = tuple_callee p.cur_tuple_id
        ∧ t1.id = id
        ∧ parser_generate_tuple_type (tuple_of B) tok2 p1
          = .ok (tydef, { tuple_of B with kind := .TY_UNDEF, id := id }) p1)
    ∧ ((parse_type sample_env 6 >>= fun a => parse_type sample_env 6 >>= fun b =>
        pure (a.kind, a.id.callee, b.kind, b.id.callee))
      (start_state (mk_tok .TOKEN_LBRACE "\x7b") named_tuple_toks)).val_of
      = some (.TY_UNDEF, "__csp_tuple_0__", .TY_UNDEF, "__csp_tuple_0__")
    ∧ ((parse_type sample_env 6 >>= fun _ => parse_type sample_env 6)
        (start_state (mk_tok .TOKEN_LBRACE "\x7b") named_tuple_toks)).state_of.map
          (fun q => q.objs.map fun o =>
            (o.id.map fun i => i.callee,
             o.data_type.map fun t => t.members.map fun m =>
               m.data_type.map fun x => x.id.callee))
      = some [(some "__csp_tuple_0__", some [some "Foo"])]
    ∧ types_equal (some (named_type "Foo")) (some (named_type "Bar")) = false
    ∧ tuple_typedefs (tuple_of (named_type "Foo")) (tuple_of (named_type "Bar"))
      = some ("__csp_tuple_0__", "__csp_tuple_0__", 1)
    ∧ types_equal (some (named_type "Foo"))
        (some { named_type "Foo" with is_constant := true }) = false
    ∧ tuple_typedefs (tuple_of (named_type "Foo"))
        (tuple_of { named_type "Foo" with is_constant := true })
      = some ("__csp_tuple_0__", "__csp_tuple_0__", 1)
    ∧ tuple_typedefs
        (tuple_of { type_of_kind .TY_ARR (some (primitive .TY_I32)) with num_indices := 2 })
        (tuple_of { type_of_kind .TY_ARR (some (primitive .TY_I32)) with num_indices := 3 })
      = some ("__csp_tuple_0__", "__csp_tuple_0__", 1)
    ∧ ((parse_type sample_env 6 >>= fun a => parse_type sample_env 6 >>= fun b =>
        pure (a.id.callee, b.id.callee))
      (start_state (mk_tok .TOKEN_LBRACE "\x7b") primitive_tuple_toks)).val_of
      = some ("__csp_tuple_0__", "__csp_tuple_1__") := by
  refine ⟨check_type_outline, check_type_reads, ?_, by decide!, by decide!, by decide!,
    by decide!, by decide!, by decide!, by decide!, by decide!⟩
  intro p A B tok1 tok2 hcheck hnew1 hnew2
  refine ⟨{ init_ast_obj .OBJ_TYPEDEF tok1 with
      data_type := some (tuple_of A),
      id := some { init_ast_identifier tok1 "" with callee := tuple_callee p.cur_tuple_id } },
    { init_ast_identifier tok1 "" with callee := tuple_callee p.cur_tuple_id },
    { p with
      cur_tuple_id := p.cur_tuple_id + 1,
      objs := p.objs ++ [{ init_ast_obj .OBJ_TYPEDEF tok1 with
        data_type := some (tuple_of A),
        id := some { init_ast_identifier tok1 "" with
          callee := tuple_callee p.cur_tuple_id } }] },
    { tuple_of A with
      kind := .TY_UNDEF,
      id := { init_ast_identifier tok1 "" with callee := tuple_callee p.cur_tuple_id } },
    ?_, rfl, rfl, rfl, ?_⟩
  · unfold parser_generate_tuple_type
    rw [hnew1]
  · have hscan : get_compatible_tuple
        (p.objs ++ [{ init_ast_obj .OBJ_TYPEDEF tok1 with
          data_type := some (tuple_of A),
          id := some { init_ast_identifier tok1 "" with
            callee := tuple_callee p.cur_tuple_id } }]) (tuple_of B)
        = some (some { init_ast_obj .OBJ_TYPEDEF tok1 with
          data_type := some (tuple_of A),
          id := some { init_ast_identifier tok1 "" with
            callee := tuple_callee p.cur_tuple_id } }) := by
      rw [get_compatible_tuple_append _ _ _ hnew2, get_compatible_tuple_cons]
      simp [init_ast_obj, init_ast_identifier, str_starts_with_tuple_callee, tuple_of,
        tuple_members_compatible, hcheck]
    unfold parser_generate_tuple_type
    simp only [hscan]

/-! ## Lookahead past the end of the token list -/

theorem parser_peek_past_end (p : Parser) (level : Nat)
    (h : p.tokens.length ≤ p.token_i + level) (hsize : p.token_i + level < 2 ^ 64) :
    parser_peek p level = none := by
  unfold parser_peek
  have e : (((p.token_i : Int) + (level : Int)) % (2 ^ 64 : Int)).toNat = p.token_i + level := by
    have h1 : ((p.token_i : Int) + (level : Int)) = ((p.token_i + level : Nat) : Int) := by
      push_cast; rfl
    rw [h1]
    have h2 : (((p.token_i + level : Nat) : Int) % (2 ^ 64 : Int))
        = ((p.token_i + level : Nat) : Int) := by
      apply Int.emod_eq_of_lt
      · exact Int.ofNat_nonneg _
      · exact_mod_cast hsize
    rw [h2]
    exact Int.toNat_ofNat _
  simp only [e]
  rw [if_pos]
  simp
  left
  exact h

/-- C39: `parse_argument_list` reads `parser_peek(p, 2)->type` at every
argument; `parser_peek` returns a null pointer for an index outside the list,
and the null pointer is dereferenced.  So whenever the current token is not
the end token and fewer than two tokens follow it, the call has no defined
result, whatever the fuel; this is the case for the truncated inputs `fn f(`
and `fn f(a`, on which `parse` gets as far as the argument list without any
diagnostic; `fn f(a: i32`, whose lookahead stays inside the list, ends with a
syntax error, and `fn f(a: i32) noop;` gives the function `f`. -/
theorem parse_argument_list_peeks_past_end :
    (∀ (env : ParserEnv) (fs : ParseFns) (end_tok : TokenType) (n : Nat)
        (arg_list : List ASTObj) (variadic_id : Option ASTIdentifier) (p : Parser),
      p.tok.type ≠ end_tok → p.tokens.length ≤ p.token_i + 2 → p.token_i + 2 < 2 ^ 64 →
      parse_argument_list env fs end_tok (n + 1) arg_list variadic_id p = .undefined)
    ∧ ((do
          let _t ← parser_consume sample_env .TOKEN_FN
          let _id ← parse_simple_identifier sample_env 5
          let _t ← parser_consume sample_env .TOKEN_LPAREN
          pure () : PM Unit)
        (start_state (mk_tok .TOKEN_FN "fn") truncated_fn_toks.tail)).state_of.map
          (fun q => (q.token_i, q.tok.type, q.tokens.length, q.log, parser_peek q 2))
        = some (3, .TOKEN_EOF, 4, [], none)
    ∧ (parse_program sample_env 6 truncated_fn_toks).is_undefined = true
    ∧ (parse_program sample_env 6 truncated_arg_toks).is_undefined = true
    ∧ (parse_program sample_env 6 truncated_type_toks).state_of.map
          (fun q => (q.token_i, q.log))
        = some (6, [⟨.ERR_SYNTAX_ERROR, some (mk_tok .TOKEN_EOF "")⟩])
    ∧ (parse_program sample_env 6 complete_fn_toks).val_of.map
          (fun ast => ast.objs.map fun o =>
            (o.kind, o.id.map fun i => i.callee,
             o.args.map fun a => a.id.map fun i => i.callee))
        = some [(.OBJ_FUNCTION, some "f", [some "a"])] := by
  refine ⟨?_, by decide!, by decide!, by decide!, by decide!, by decide!⟩
  intro env fs end_tok n arg_list variadic_id p htok hlen hsize
  unfold parse_argument_list
  rw [PM.bind_get_state]
  have hne : (p.tok.type != end_tok) = true := by simpa using htok
  simp only [hne, if_true]
  have hp := parser_peek_past_end p 2 hlen hsize
  simp only [Nat.cast_ofNat] at hp
  rw [hp]
  rfl
/-! ## The buffer of `c_detect_registers` -/

theorem escape_percent_length (str : String) :
    (escape_percent str).length = str.length + str.data.count '%' := by
  show (str.data.flatMap _).length = str.data.length + _
  induction str.data with
  | nil => rfl
  | cons c cs ih =>
    rw [List.flatMap_cons, List.length_append, ih, List.count_cons]
    by_cases h : c = '%'
    · subst h
      simp +arith
    · have hb : (c == '%') = false := by simpa using h
      simp +arith [hb]

/-- The counter `num_percent` counts no more than the `%` characters of the
string. -/
theorem detect_loop_percent (str : List Char) :
    ∀ (n i : Nat) (used : List Bool) (k : Nat) (u : List Bool) (k1 : Nat),
      detect_loop str n i used k = .ok u k1 → k1 ≤ k + (str.drop i).count '%' := by
  intro n
  induction n with
  | zero =>
    intro i used k u k1 h
    unfold detect_loop at h
    cases h
  | succ n ih =>
    intro i used k u k1 h
    unfold detect_loop at h
    split at h
    · next hi =>
      have hdrop : str.drop i = char_at str i :: str.drop (i + 1) := by
        unfold char_at
        rw [List.getD_eq_getElem _ _ hi]
        exact List.drop_eq_getElem_cons hi
      split at h
      · have := ih _ _ _ _ _ h
        rw [hdrop, List.count_cons]
        omega
      · next hc =>
        dsimp only at h
        split at h
        · cases h
        · have hb := ih _ _ _ _ _ h
          have hle := alnum_run_le str str.length (i + 1) 1
          have hsub : (str.drop ((alnum_run str str.length (i + 1) 1).1 + 1)).count '%'
              ≤ (str.drop (i + 1)).count '%' :=
            (List.drop_sublist_drop_left str (by omega)).count_le _
          have hpc : char_at str i = '%' := by simpa using hc
          rw [hdrop, List.count_cons, hpc]
          simp only [beq_self_eq_true, if_true]
          omega
    · cases h
      omega

/-- The buffer `copy` of `c_detect_registers` is too short for the escaped
text and its terminating NUL, whatever the string: the function never
returns. -/
theorem c_detect_registers_not_ok (str : String) (used u : List Bool) (s : String) :
    c_detect_registers str used ≠ .ok u s := by
  unfold c_detect_registers
  split
  · next u1 k hd =>
    have hb := detect_loop_percent str.data _ 0 used 0 u1 k hd
    rw [List.drop_zero, Nat.zero_add] at hb
    have hl := escape_percent_length str
    dsimp only
    rw [if_neg (by omega)]
    intro h
    cases h
  · intro h
    cases h
  · intro h
    cases h

/-- When the first loop of `c_gen_inline_asm` returns, no string argument
holds a `%`. -/
theorem c_gen_asm_args_ok :
    ∀ (args : List ASTNode) (used : List Bool) (k : Nat) (cg cg1 : CCodegenData)
      (r : List Bool × Nat),
      c_gen_asm_args used k args cg = .ok r cg1 →
      ∀ arg ∈ args, arg.kind = .ND_STR → arg.str_val.data.contains '%' = false
  | [], _, _, _, _, _, _ => by
    intro arg h
    cases h
  | arg :: rest, used, k, cg, cg1, r, h => by
    unfold c_gen_asm_args at h
    obtain ⟨⟨u1, k1⟩, cg2, h1, h2⟩ := cm_bind_inv h
    obtain ⟨_, cg3, _, h3⟩ := cm_bind_inv h2
    have ih := c_gen_asm_args_ok rest _ _ _ _ _ h3
    intro a ha hk
    rcases List.mem_cons.mp ha with rfl | ha
    · cases hc : a.str_val.data.contains '%' with
      | false => rfl
      | true =>
        simp only [hk, hc, if_true] at h1
        cases hd : c_detect_registers a.str_val used with
        | ok u s => exact absurd hd (c_detect_registers_not_ok _ _ _ _)
        | unknown_register name => rw [hd] at h1; cases h1
        | overflow u => rw [hd] at h1; cases h1
        | out_of_fuel => rw [hd] at h1; cases h1
    · exact ih a ha hk

/-- When `c_gen_inline_asm` returns, no string argument of the node holds a
`%`. -/
theorem c_gen_inline_asm_ok (env : CEnv) (node : ASTNode) (cg cg1 : CCodegenData)
    (h : c_gen_inline_asm env node cg = .ok () cg1) :
    ∀ arg ∈ node.args, arg.kind = .ND_STR → arg.str_val.data.contains '%' = false := by
  unfold c_gen_inline_asm at h
  obtain ⟨_, cg2, _, h2⟩ := cm_bind_inv h
  obtain ⟨r, cg3, h3, _⟩ := cm_bind_inv h2
  exact c_gen_asm_args_ok _ _ _ _ _ _ h3

/-! ## Generator functions that append a known text -/

theorem append_at_end (cg : CCodegenData) (t : String) :
    (cg.append t).pos = (cg.append t).buf.length := rfl

theorem write_eq_append (cg : CCodegenData) (s : String) (h : cg.pos = cg.buf.length) :
    cg.write s = cg.append s := by
  obtain ⟨hb, hp⟩ := write_at_end cg s h
  calc cg.write s
      = { cg with buf := (cg.write s).buf, pos := (cg.write s).pos } := rfl
    _ = cg.append s := by rw [hp, hb]; rfl

theorem append_append (cg : CCodegenData) (a b : String) :
    (cg.append a).append b = cg.append (a ++ b) := by
  unfold CCodegenData.append
  simp only [String.append_assoc]

theorem append_empty (cg : CCodegenData) (h : cg.pos = cg.buf.length) : cg.append "" = cg := by
  unfold CCodegenData.append
  simp only [String.append_empty, ← h]

theorem emits_pure {α : Type} (v : α) : Emits (pure v : CM α) v "" := by
  intro cg h
  rw [append_empty cg h]
  rfl

theorem emits_print (s : String) : Emits (c_print s) () s := by
  intro cg h
  show CRes.ok () (cg.write s) = _
  rw [write_eq_append cg s h]

theorem emits_putc (c : Char) : Emits (c_putc c) () (String.singleton c) := by
  intro cg h
  show CRes.ok () (cg.write (String.singleton c)) = _
  rw [write_eq_append cg _ h]

theorem emits_bind {α β : Type} {m : CM α} {f : α → CM β} {v : α} {w : β} {t1 t2 : String}
    (hm : Emits m v t1) (hf : Emits (f v) w t2) : Emits (m >>= f) w (t1 ++ t2) := by
  intro cg h
  rw [cm_bind_ok (hm cg h), hf _ (append_at_end cg t1), append_append]

theorem emits_congr {α : Type} {m : CM α} {v : α} {t1 t2 : String} (hm : Emits m v t1)
    (h : t1 = t2) : Emits m v t2 := h ▸ hm

theorem emits_c_gen_asm_args :
    ∀ (args : List ASTNode) (used_registers u : List Bool) (k : Nat),
      asm_scan used_registers args = some u →
      k + (asm_id_args args).length < 2 ^ 64 →
      Emits (c_gen_asm_args used_registers k args) (u, k + (asm_id_args args).length)
        (asm_args_text k args)
  | [], used_registers, u, k, hscan, _ => by
    simp only [asm_scan, Option.some.injEq] at hscan
    subst hscan
    exact emits_pure _
  | arg :: rest, used_registers, u, k, hscan, hk => by
    unfold c_gen_asm_args
    unfold asm_scan at hscan
    unfold asm_args_text asm_arg_text
    have hids : (asm_id_args (arg :: rest)).length
        = (if arg.kind == .ND_ID then 1 else 0) + (asm_id_args rest).length := by
      unfold asm_id_args
      rw [List.filter_cons]
      split <;> simp +arith
    split at hscan
    · -- a string
      next hkind =>
      have hnid : (arg.kind == ASTNodeKind.ND_ID) = false := by rw [hkind]; rfl
      rw [hnid] at hids
      simp only [Bool.false_eq_true, if_false, Nat.zero_add] at hids
      simp only [hkind, hids, hnid, Bool.false_eq_true, if_false]
      by_cases hc : arg.str_val.data.contains '%' = true
      · simp only [hc, if_true] at hscan ⊢
        cases hd : c_detect_registers arg.str_val used_registers with
        | ok u1 new => exact absurd hd (c_detect_registers_not_ok _ _ _ _)
        | unknown_register name => rw [hd] at hscan; cases hscan
        | overflow u1 => rw [hd] at hscan; cases hscan
        | out_of_fuel => rw [hd] at hscan; cases hscan
      · have hc2 : arg.str_val.data.contains '%' = false := by simpa using hc
        simp only [hc2, Bool.false_eq_true, if_false] at hscan ⊢
        have ih := emits_c_gen_asm_args rest used_registers u k hscan
          (by rw [hids] at hk; exact hk)
        refine emits_congr
          (emits_bind (emits_bind (emits_print _) (emits_pure (used_registers, k)))
            (emits_bind (emits_putc ' ') ih)) ?_
        simp only [String.append_empty, String.append_assoc]
        rfl
    · next hkind =>
      have hnid : (arg.kind == ASTNodeKind.ND_ID) = false := by rw [hkind]; rfl
      rw [hnid] at hids
      simp only [Bool.false_eq_true, if_false, Nat.zero_add] at hids
      simp only [hkind, hids, hnid, Bool.false_eq_true, if_false]
      have ih := emits_c_gen_asm_args rest used_registers u k hscan
        (by rw [hids] at hk; exact hk)
      refine emits_congr
        (emits_bind (emits_bind (emits_print _) (emits_pure (used_registers, k)))
          (emits_bind (emits_putc ' ') ih)) ?_
      simp only [String.append_empty, String.append_assoc]
      rfl
    · next hkind =>
      have hnid : (arg.kind == ASTNodeKind.ND_ID) = false := by rw [hkind]; rfl
      rw [hnid] at hids
      simp only [Bool.false_eq_true, if_false, Nat.zero_add] at hids
      simp only [hkind, hids, hnid, Bool.false_eq_true, if_false]
      have ih := emits_c_gen_asm_args rest used_registers u k hscan
        (by rw [hids] at hk; exact hk)
      refine emits_congr
        (emits_bind (emits_bind (emits_print _) (emits_pure (used_registers, k)))
          (emits_bind (emits_putc ' ') ih)) ?_
      simp only [String.append_empty, String.append_assoc]
      rfl
    · next hkind =>
      have hnid : (arg.kind == ASTNodeKind.ND_ID) = false := by rw [hkind]; rfl
      rw [hnid] at hids
      simp only [Bool.false_eq_true, if_false, Nat.zero_add] at hids
      simp only [hkind, hids, hnid, Bool.false_eq_true, if_false]
      have ih := emits_c_gen_asm_args rest used_registers u k hscan
        (by rw [hids] at hk; exact hk)
      refine emits_congr
        (emits_bind (emits_bind (emits_print _) (emits_pure (used_registers, k)))
          (emits_bind (emits_putc ' ') ih)) ?_
      simp only [String.append_empty, String.append_assoc]
      rfl
    · -- an identifier
      next hkind =>
      have hid : (arg.kind == ASTNodeKind.ND_ID) = true := by rw [hkind]; rfl
      rw [hid] at hids
      simp only [if_true] at hids
      have hk1 : (k + 1) % 2 ^ 64 = k + 1 := Nat.mod_eq_of_lt (by omega)
      have hk0 : fmt_lu k = Nat.repr k := by
        unfold fmt_lu
        rw [Nat.mod_eq_of_lt (by omega)]
      simp only [hkind, hid, if_true, hk1, hk0]
      have ih := emits_c_gen_asm_args rest used_registers u (k + 1) hscan (by omega)
      have e : k + 1 + (asm_id_args rest).length = k + (asm_id_args (arg :: rest)).length := by
        omega
      rw [e] at ih
      refine emits_congr
        (emits_bind (emits_bind (emits_print _) (emits_pure (used_registers, k + 1)))
          (emits_bind (emits_putc ' ') ih)) ?_
      simp only [String.append_empty, String.append_assoc, asm_placeholder, beq_self_eq_true,
        if_true]
      rfl
    · cases hscan

theorem emits_c_gen_asm_inputs (env : CEnv) :
    ∀ (args : List ASTNode), (asm_id_args args).length < 2 ^ 64 →
      Emits (c_gen_asm_inputs env (asm_id_args args).length args) ()
        (asm_inputs_text env (asm_id_args args))
  | [], _ => emits_pure ()
  | arg :: rest, hk => by
    unfold c_gen_asm_inputs
    by_cases hid : (arg.kind == ASTNodeKind.ND_ID) = true
    · have hids : asm_id_args (arg :: rest) = arg :: asm_id_args rest := by
        unfold asm_id_args
        rw [List.filter_cons, if_pos hid]
      have hne : (arg.kind != ASTNodeKind.ND_ID) = false := by simp [bne, hid]
      rw [hids] at hk ⊢
      simp only [List.length_cons] at hk ⊢
      have hdec : ((asm_id_args rest).length + 1 + 2 ^ 64 - 1) % 2 ^ 64
          = (asm_id_args rest).length := by
        rw [show (asm_id_args rest).length + 1 + 2 ^ 64 - 1
          = (asm_id_args rest).length + 2 ^ 64 by omega, Nat.add_mod_right]
        exact Nat.mod_eq_of_lt (by omega)
      simp only [hne, Bool.false_eq_true, if_false, hdec]
      have ih := emits_c_gen_asm_inputs env rest (by omega)
      refine emits_congr (emits_bind (emits_print _) ih) ?_
      cases hrest : asm_id_args rest with
      | nil =>
        simp only [List.length_nil, bne_self_eq_false, Bool.false_eq_true, if_false,
          asm_inputs_text, String.append_empty, asm_input_entry]
      | cons next more =>
        have hnz : ((next :: more).length != 0) = true := by simp
        simp only [hnz, if_true, asm_inputs_text, asm_input_entry, String.append_assoc]
    · have hid2 : (arg.kind == ASTNodeKind.ND_ID) = false := by simpa using hid
      have hids : asm_id_args (arg :: rest) = asm_id_args rest := by
        unfold asm_id_args
        rw [List.filter_cons, if_neg hid]
      have hne : (arg.kind != ASTNodeKind.ND_ID) = true := by simp [bne, hid2]
      rw [hids] at hk ⊢
      simp only [hne, if_true]
      exact emits_c_gen_asm_inputs env rest hk

theorem emits_c_gen_asm_clobbers :
    ∀ (l : List (String × Bool)), Emits (c_gen_asm_clobbers l) () (asm_clobbers_raw l)
  | [] => emits_pure ()
  | (name, used) :: rest => by
    unfold c_gen_asm_clobbers asm_clobbers_raw
    cases used
    · exact emits_congr (emits_bind (emits_pure ()) (emits_c_gen_asm_clobbers rest)) rfl
    · exact emits_bind (emits_print _) (emits_c_gen_asm_clobbers rest)

theorem list_rewind (a t s : List Char) (c : Char) (ht : 0 < t.length) (hs : 0 < s.length) :
    (a ++ t).take ((a ++ t).length - 1)
        ++ List.replicate ((a ++ t).length - 1 - (a ++ t).length) c ++ s
        ++ (a ++ t).drop ((a ++ t).length - 1 + s.length)
      = a ++ (t.dropLast ++ s) := by
  have hne : t ≠ [] := by intro h; rw [h] at ht; exact Nat.lt_irrefl _ ht
  have hl : (a ++ t).length = a.length + t.length := List.length_append _ _
  rw [← List.dropLast_eq_take, List.dropLast_append_of_ne_nil _ hne,
    Nat.sub_eq_zero_of_le (Nat.sub_le _ _), List.replicate_zero, List.append_nil,
    List.drop_eq_nil_of_le (by omega), List.append_nil, List.append_assoc]

/-- The call `c_rewind(cg, -1)` followed by a write takes back the last
character of the text appended so far and appends the new text. -/
theorem rewind_print (cg : CCodegenData) (t s : String) (ht : 0 < t.length)
    (hs : 0 < s.length) :
    (c_rewind (-1) >>= fun _ => c_print s) (cg.append t) = .ok () (cg.append (drop_last t ++ s))
    := by
  have hlen : (cg.buf ++ t).length = cg.buf.length + t.length := String.length_append _ _
  have e1 : c_rewind (-1) (cg.append t)
      = .ok () { cg.append t with pos := (cg.buf ++ t).length - 1 } := by
    unfold c_rewind
    dsimp only
    have hb : (cg.append t).buf = cg.buf ++ t := rfl
    rw [hb, if_pos (by omega)]
    congr 2
    omega
  rw [cm_bind_ok e1]
  show CRes.ok () (CCodegenData.write _ s) = _
  congr 1
  have hbuf : (CCodegenData.write { cg.append t with pos := (cg.buf ++ t).length - 1 } s).buf
      = cg.buf ++ (drop_last t ++ s) := by
    apply String.ext
    show (cg.buf ++ t).data.take ((cg.buf ++ t).data.length - 1)
        ++ List.replicate ((cg.buf ++ t).data.length - 1 - (cg.buf ++ t).data.length) '\x00'
        ++ s.data ++ (cg.buf ++ t).data.drop ((cg.buf ++ t).data.length - 1 + s.data.length)
      = (cg.buf ++ (drop_last t ++ s)).data
    rw [String.data_append, String.data_append, String.data_append]
    exact list_rewind _ _ _ _ ht hs
  have hpos : (CCodegenData.write { cg.append t with pos := (cg.buf ++ t).length - 1 } s).pos
      = (cg.buf ++ (drop_last t ++ s)).length := by
    show (cg.buf ++ t).length - 1 + s.length = _
    simp only [String.length_append]
    have : (drop_last t).length = t.length - 1 := by
      show t.data.dropLast.length = _
      rw [List.length_dropLast]
      rfl
    omega
  calc CCodegenData.write { cg.append t with pos := (cg.buf ++ t).length - 1 } s
      = { cg with
          buf := (CCodegenData.write
            { cg.append t with pos := (cg.buf ++ t).length - 1 } s).buf,
          pos := (CCodegenData.write
            { cg.append t with pos := (cg.buf ++ t).length - 1 } s).pos } := rfl
    _ = cg.append (drop_last t ++ s) := by rw [hbuf, hpos]; rfl

/-- The text of an inline assembly statement whose arguments are strings
without `%`, integers and identifiers. -/
theorem emits_c_gen_inline_asm (env : CEnv) (node : ASTNode) (u : List Bool)
    (hscan : asm_scan no_registers node.args = some u)
    (hk : (asm_id_args node.args).length < 2 ^ 64) :
    Emits (c_gen_inline_asm env node) () (asm_text env node.args u) := by
  intro cg h
  have h1 := emits_c_gen_asm_args node.args no_registers u 0 hscan (by omega)
  rw [Nat.zero_add] at h1
  have h2 := emits_c_gen_asm_inputs env node.args hk
  have h3 := emits_c_gen_asm_clobbers (reg_names.zip u)
  unfold c_gen_inline_asm
  refine (cm_bind_ok (emits_print _ cg h)).trans ?_
  refine (cm_bind_ok (h1 _ (append_at_end _ _))).trans ?_
  dsimp only
  refine (cm_bind_ok (emits_print _ _ (append_at_end _ _))).trans ?_
  refine (cm_bind_ok (h2 _ (append_at_end _ _))).trans ?_
  refine (cm_bind_ok (emits_print _ _ (append_at_end _ _))).trans ?_
  refine (cm_bind_ok (h3 _ (append_at_end _ _))).trans ?_
  simp only [append_append]
  rw [rewind_print cg _ _ (by
      rw [String.length_append, String.length_append]
      exact Nat.add_pos_left (Nat.add_pos_right _ (by decide)) _)
    (by decide)]
  unfold asm_text
  simp only [String.append_assoc]

/-! ## The slots of the identifier arguments of an inline assembly statement -/

theorem asm_id_args_append (pre post : List ASTNode) :
    asm_id_args (pre ++ post) = asm_id_args pre ++ asm_id_args post := by
  unfold asm_id_args
  exact List.filter_append _ _

theorem asm_args_text_append :
    ∀ (pre post : List ASTNode) (k : Nat),
      asm_args_text k (pre ++ post)
        = asm_args_text k pre ++ asm_args_text (k + (asm_id_args pre).length) post
  | [], post, k => by
    show asm_args_text k post = "" ++ asm_args_text (k + 0) post
    rw [String.empty_append, Nat.add_zero]
  | arg :: pre, post, k => by
    have hidx : k + (asm_id_args (arg :: pre)).length
        = (if arg.kind == .ND_ID then k + 1 else k) + (asm_id_args pre).length := by
      unfold asm_id_args
      rw [List.filter_cons]
      cases arg.kind == ASTNodeKind.ND_ID
      · rfl
      · simp only [if_true, List.length_cons]
        omega
    rw [hidx]
    show asm_arg_text k arg ++ " "
        ++ asm_args_text (if arg.kind == .ND_ID then k + 1 else k) (pre ++ post)
      = asm_arg_text k arg ++ " " ++ asm_args_text (if arg.kind == .ND_ID then k + 1 else k) pre
        ++ asm_args_text ((if arg.kind == .ND_ID then k + 1 else k) + (asm_id_args pre).length)
          post
    rw [asm_args_text_append pre post]
    simp only [String.append_assoc]

theorem intercalate_go_append (s x : String) :
    ∀ (l : List String) (acc : String),
      String.intercalate.go (x ++ acc) s l = x ++ String.intercalate.go acc s l
  | [], _ => rfl
  | a :: l, acc => by
    show String.intercalate.go (x ++ acc ++ s ++ a) s l
      = x ++ String.intercalate.go (acc ++ s ++ a) s l
    rw [String.append_assoc, String.append_assoc, intercalate_go_append s x l,
      String.append_assoc]

theorem intercalate_cons_cons (s a b : String) (l : List String) :
    s.intercalate (a :: b :: l) = a ++ s ++ s.intercalate (b :: l) := by
  show String.intercalate.go (a ++ s ++ b) s l = a ++ s ++ String.intercalate.go b s l
  rw [intercalate_go_append s (a ++ s) l b]

theorem asm_inputs_text_eq (env : CEnv) :
    ∀ (arg : ASTNode) (rest : List ASTNode),
      asm_inputs_text env (arg :: rest)
        = ",".intercalate ((arg :: rest).map (asm_input_entry env)) ++ "\n"
  | _, [] => rfl
  | arg, next :: rest => by
    show asm_input_entry env arg ++ "," ++ asm_inputs_text env (next :: rest) = _
    rw [asm_inputs_text_eq env next rest]
    show _ = ",".intercalate
      (asm_input_entry env arg :: asm_input_entry env next :: rest.map (asm_input_entry env))
      ++ "\n"
    rw [intercalate_cons_cons]
    simp only [String.append_assoc, List.map]

theorem asm_scan_plain :
    ∀ (args : List ASTNode) (used u : List Bool), asm_scan used args = some u →
      u = used ∧ ∀ arg ∈ args, arg.kind = .ND_STR → arg.str_val.data.contains '%' = false
  | [], used, u, h => by
    simp only [asm_scan, Option.some.injEq] at h
    exact ⟨h.symm, fun arg ha => by cases ha⟩
  | arg :: rest, used, u, h => by
    unfold asm_scan at h
    have hrest : ∀ (hs : asm_scan used rest = some u)
        (_ : arg.kind = .ND_STR → arg.str_val.data.contains '%' = false),
        u = used ∧ ∀ a ∈ arg :: rest, a.kind = .ND_STR → a.str_val.data.contains '%' = false := by
      intro hs harg
      obtain ⟨hu, hall⟩ := asm_scan_plain rest used u hs
      refine ⟨hu, fun a ha hk => ?_⟩
      rcases List.mem_cons.mp ha with rfl | ha
      · exact harg hk
      · exact hall a ha hk
    split at h
    · cases hc : arg.str_val.data.contains '%' with
      | false =>
        simp only [hc, Bool.false_eq_true, if_false] at h
        exact hrest h (fun _ => hc)
      | true =>
        simp only [hc, if_true] at h
        cases hd : c_detect_registers arg.str_val used with
        | ok u1 new => exact absurd hd (c_detect_registers_not_ok _ _ _ _)
        | unknown_register name => rw [hd] at h; cases h
        | overflow u1 => rw [hd] at h; cases h
        | out_of_fuel => rw [hd] at h; cases h
    · next hk => exact hrest h (fun hs => by rw [hk] at hs; cases hs)
    · next hk => exact hrest h (fun hs => by rw [hk] at hs; cases hs)
    · next hk => exact hrest h (fun hs => by rw [hk] at hs; cases hs)
    · next hk => exact hrest h (fun hs => by rw [hk] at hs; cases hs)
    · cases h

theorem c_detect_registers_outcome (str : String) (used : List Bool) :
    (∃ name, c_detect_registers str used = .unknown_register name)
    ∨ (∃ u, c_detect_registers str used = .overflow u) := by
  cases hd : c_detect_registers str used with
  | ok u s => exact absurd hd (c_detect_registers_not_ok _ _ _ _)
  | unknown_register name => exact Or.inl ⟨name, rfl⟩
  | overflow u => exact Or.inr ⟨u, rfl⟩
  | out_of_fuel =>
    unfold c_detect_registers at hd
    split at hd
    · dsimp only at hd
      split at hd <;> cases hd
    · cases hd
    · next hf => exact absurd hf (c_detect_registers_total str used)

/-- C32: for an `asm` node whose arguments are strings without `%`, integers
and identifiers, `c_gen_inline_asm` returns and appends the text `asm_text`:
in the assembly text an identifier argument that stands after `i` identifier
arguments is the placeholder `"%i"`, and it is the entry of index `i` of the
list of input operands; this list holds, in argument order, one entry
`"r"((unsigned long)<name>)` for each of the `k` identifier arguments,
separated by commas, with a newline and no comma after the last one.  For a
string argument that holds a `%` the code calls `c_detect_registers`, whose
buffer `copy` of `strlen(str) + num_percent` bytes is too short for the
escaped text and its NUL: every call that reports no unknown register writes
past the end of the buffer, and so `c_gen_inline_asm` returns for no node
that has such an argument, as for `asm "mov " x ", %rax; add " 1 ", " y`. -/
theorem c_gen_inline_asm_slots :
    (∀ (env : CEnv) (node : ASTNode) (u : List Bool) (cg : CCodegenData),
      asm_scan no_registers node.args = some u →
      (asm_id_args node.args).length < 2 ^ 64 →
      cg.pos = cg.buf.length →
      c_gen_inline_asm env node cg = .ok () (cg.append (asm_text env node.args u))
      ∧ asm_text env node.args u
        = drop_last ("__asm__ volatile(\n  " ++ asm_args_text 0 node.args ++ "\n  ::"
            ++ asm_inputs_text env (asm_id_args node.args) ++ "  :"
            ++ asm_clobbers_raw (reg_names.zip u)) ++ "\n)"
      ∧ (∀ (pre post : List ASTNode) (arg : ASTNode),
          node.args = pre ++ arg :: post → arg.kind = .ND_ID →
          asm_args_text 0 node.args
            = asm_args_text 0 pre ++ (asm_placeholder (asm_id_args pre).length ++ " "
              ++ asm_args_text ((asm_id_args pre).length + 1) post)
          ∧ (asm_id_args node.args)[(asm_id_args pre).length]? = some arg
          ∧ ((asm_id_args node.args).map (asm_input_entry env))[(asm_id_args pre).length]?
            = some ("\"r\"((unsigned long)" ++ c_gen_identifier env arg.id ++ ")"))
      ∧ (asm_id_args node.args = [] → asm_inputs_text env (asm_id_args node.args) = "")
      ∧ (asm_id_args node.args ≠ [] →
          asm_inputs_text env (asm_id_args node.args)
            = ",".intercalate ((asm_id_args node.args).map (asm_input_entry env)) ++ "\n"))
    ∧ (∀ (args : List ASTNode) (used u : List Bool), asm_scan used args = some u →
        u = used
        ∧ ∀ arg ∈ args, arg.kind = .ND_STR → arg.str_val.data.contains '%' = false)
    ∧ (∀ (str : String) (used : List Bool),
        (∃ name, c_detect_registers str used = .unknown_register name)
        ∨ (∃ u, c_detect_registers str used = .overflow u))
    ∧ (∀ (env : CEnv) (node : ASTNode) (cg cg1 : CCodegenData),
        (∃ arg ∈ node.args, arg.kind = .ND_STR ∧ arg.str_val.data.contains '%' = true) →
        c_gen_inline_asm env node cg ≠ .ok () cg1)
    ∧ c_detect_registers ", %rax; add " no_registers
        = .overflow (true :: List.replicate 16 false)
    ∧ c_gen_inline_asm sample_cenv (asm_node sample_asm_args) init_c_cg = .undefined
    ∧ (c_gen_inline_asm sample_cenv (asm_node plain_asm_args) init_c_cg).text_of
        = some ("__asm__ volatile(\n  \"mov \" \"%0\" \", \" \"%1\" \"; add \" \"$1\" "
            ++ "\", \" \"%2\" \n  ::\"r\"((unsigned long)__csp_x),"
            ++ "\"r\"((unsigned long)__csp_y),\"r\"((unsigned long)__csp_y)\n  \n)") := by
  refine ⟨?_, asm_scan_plain, c_detect_registers_outcome, ?_, by decide!, rfl, by decide!⟩
  · intro env node u cg hscan hk hcg
    refine ⟨emits_c_gen_inline_asm env node u hscan hk cg hcg, rfl, ?_, ?_, ?_⟩
    · intro pre post arg hargs hid
      have hidb : (arg.kind == ASTNodeKind.ND_ID) = true := by rw [hid]; rfl
      have hids : asm_id_args node.args = asm_id_args pre ++ arg :: asm_id_args post := by
        rw [hargs, asm_id_args_append]
        congr 1
        unfold asm_id_args
        rw [List.filter_cons, if_pos hidb]
      have hget : (asm_id_args node.args)[(asm_id_args pre).length]? = some arg := by
        rw [hids, List.getElem?_append_right (Nat.le_refl _), Nat.sub_self,
          List.getElem?_cons_zero]
      refine ⟨?_, hget, ?_⟩
      · rw [hargs, asm_args_text_append, Nat.zero_add]
        congr 1
        show asm_arg_text _ arg ++ " " ++ asm_args_text _ post = _
        unfold asm_arg_text
        simp only [hid, beq_self_eq_true, if_true]
      · rw [List.getElem?_map, hget]
        rfl
    · intro h
      rw [h]
      rfl
    · intro h
      cases hl : asm_id_args node.args with
      | nil => exact absurd hl h
      | cons arg rest => exact asm_inputs_text_eq env arg rest
  · rintro env node cg cg1 ⟨arg, harg, hkind, hc⟩ h
    have := c_gen_inline_asm_ok env node cg cg1 h arg harg hkind
    rw [hc] at this
    cases this

/-! ## The clobber list of an inline assembly statement -/

theorem drop_last_comma (x : String) : drop_last (x ++ ",") = x := by
  apply String.ext
  show (x ++ ",").data.dropLast = x.data
  rw [String.data_append]
  exact List.dropLast_concat

theorem drop_last_append (a b : String) (hb : b.data ≠ []) :
    drop_last (a ++ b) = a ++ drop_last b := by
  apply String.ext
  show (a ++ b).data.dropLast = (a ++ drop_last b).data
  rw [String.data_append, String.data_append, List.dropLast_append_of_ne_nil _ hb]
  rfl

theorem asm_clobbers_text_cons (name : String) (names : List String) :
    asm_clobbers_text (name :: names) ++ ","
      = "\"" ++ name ++ "\"," ++
        (match names with
         | [] => ""
         | next :: rest => asm_clobbers_text (next :: rest) ++ ",") := by
  cases names with
  | nil =>
    show "\"" ++ name ++ "\"" ++ "," = "\"" ++ name ++ "\"," ++ ""
    rw [String.append_empty, String.append_assoc]
    rfl
  | cons next rest =>
    show "\"" ++ name ++ "\"," ++ asm_clobbers_text (next :: rest) ++ "," = _
    rw [String.append_assoc]

theorem asm_clobbers_raw_eq :
    ∀ (l : List (String × Bool)),
      asm_clobbers_raw l
        = (match l.filterMap (fun x => if x.2 then some x.1 else none) with
           | [] => ""
           | name :: names => asm_clobbers_text (name :: names) ++ ",")
  | [] => rfl
  | (name, used) :: rest => by
    unfold asm_clobbers_raw
    rw [asm_clobbers_raw_eq rest]
    cases used
    · simp only [Bool.false_eq_true, if_false, List.filterMap_cons, String.empty_append]
    · simp only [if_true, List.filterMap_cons]
      rw [asm_clobbers_text_cons]

theorem asm_clobber_section (pre : String) (used_registers : List Bool) :
    drop_last (pre ++ "  :" ++ asm_clobbers_raw (reg_names.zip used_registers))
      = pre ++ (if used_names used_registers = [] then "  "
          else "  :" ++ asm_clobbers_text (used_names used_registers)) := by
  rw [asm_clobbers_raw_eq]
  unfold used_names
  cases h : (reg_names.zip used_registers).filterMap
      (fun x => if x.2 then some x.1 else none) with
  | nil =>
    simp only [String.append_empty, if_true]
    rw [drop_last_append pre "  :" (by decide)]
    rfl
  | cons name names =>
    simp only [reduceCtorEq, if_false]
    rw [← String.append_assoc, drop_last_comma, String.append_assoc]

/-- The last statements of `c_gen_inline_asm`, entered with the registers
`used_registers` marked: the clobber list. -/
theorem emits_asm_clobber_list (used_registers : List Bool) :
    Emits (do
        c_print "  :"
        c_gen_asm_clobbers (reg_names.zip used_registers)
        c_rewind (-1)
        c_print "\n)" : CM Unit) ()
      ((if used_names used_registers = [] then "  "
          else "  :" ++ asm_clobbers_text (used_names used_registers)) ++ "\n)") := by
  intro cg h
  have h3 := emits_c_gen_asm_clobbers (reg_names.zip used_registers)
  refine (cm_bind_ok (emits_print _ cg h)).trans ?_
  refine (cm_bind_ok (h3 _ (append_at_end _ _))).trans ?_
  simp only [append_append]
  rw [rewind_print cg _ _ (by
      rw [String.length_append]
      exact Nat.add_pos_left (by decide) _)
    (by decide)]
  have hsec := asm_clobber_section "" used_registers
  rw [String.empty_append, String.empty_append] at hsec
  rw [hsec]

/-- C31: the last statements of `c_gen_inline_asm` write every marked
register once, in table order, and take back the comma after the last one;
but the scan of `c_detect_registers` steps over the character that ends a
register name without looking at it: in `xchg %rax%rbx` the second `%` is
that character, `%rbx` is not detected and `%rax` is the only register
marked.  Registers that a character other than `%` separates are all
detected: `%rbx, %rax` marks `%rax` and `%rbx`, and `%rax %rax` marks `%rax`;
the marks of the strings of a node add up.  After the scan of a string the
copy made of it does not fit its buffer, so that the statement itself is
written only for a node without `%`, as for `asm "nop"`. -/
theorem c_gen_inline_asm_clobbers :
    (∀ (used_registers : List Bool) (cg : CCodegenData), cg.pos = cg.buf.length →
      (do
        c_print "  :"
        c_gen_asm_clobbers (reg_names.zip used_registers)
        c_rewind (-1)
        c_print "\n)" : CM Unit) cg
        = .ok () (cg.append
            ((if used_names used_registers = [] then "  "
              else "  :" ++ asm_clobbers_text (used_names used_registers)) ++ "\n)")))
    ∧ (∀ (env : CEnv) (args : List ASTNode) (used_registers : List Bool),
      asm_text env args used_registers
        = "__asm__ volatile(\n  " ++ asm_args_text 0 args ++ "\n  ::"
          ++ asm_inputs_text env (asm_id_args args)
          ++ (if used_names used_registers = [] then "  "
              else "  :" ++ asm_clobbers_text (used_names used_registers))
          ++ "\n)")
    ∧ (c_detect_registers "xchg %rax%rbx" no_registers).marked.map used_names
        = some ["%rax"]
    ∧ (c_detect_registers "xchg %rax,%rbx" no_registers).marked.map used_names
        = some ["%rax", "%rbx"]
    ∧ (c_detect_registers "mov %rbx, %rax" no_registers).marked.map used_names
        = some ["%rax", "%rbx"]
    ∧ (c_detect_registers "mov %rax, %rax" no_registers).marked.map used_names
        = some ["%rax"]
    ∧ ((c_detect_registers "mov %r15, %rax;" no_registers).marked.bind fun used_registers =>
          (c_detect_registers "add %rbx, %rax" used_registers).marked).map used_names
        = some ["%rax", "%rbx", "%r15"]
    ∧ asm_clobbers_text ["%rax", "%rbx", "%r15"] = "\"%rax\",\"%rbx\",\"%r15\""
    ∧ c_gen_inline_asm sample_cenv (asm_node [str_node "xchg %rax%rbx"]) init_c_cg
        = .undefined
    ∧ (c_gen_inline_asm sample_cenv (asm_node [str_node "nop"]) init_c_cg).text_of
        = some "__asm__ volatile(\n  \"nop\" \n  ::  \n)" := by
  refine ⟨emits_asm_clobber_list, ?_, by decide!, by decide!, by decide!, by decide!,
    by decide!, by decide!, rfl, by decide!⟩
  intro env args used_registers
  unfold asm_text
  rw [asm_clobber_section]

/-! ## The typedef section -/

theorem decls_text_append (decl : ASTObj → String) :
    ∀ (l1 l2 : List ASTObj), decls_text decl (l1 ++ l2) = decls_text decl l1 ++ decls_text decl l2
  | [], l2 => by
    show decls_text decl l2 = "" ++ decls_text decl l2
    rw [String.empty_append]
  | o :: l1, l2 => by
    show decl o ++ decls_text decl (l1 ++ l2) = decl o ++ decls_text decl l1 ++ decls_text decl l2
    rw [decls_text_append decl l1 l2, String.append_assoc]

theorem is_generated_mark (env : CEnv) (cg : CCodegenData) (obj o : ASTObj) :
    is_generated env { cg with generated := env.addr obj :: cg.generated } o
      = (env.addr o == env.addr obj || is_generated env cg o) := by
  unfold is_generated
  exact List.contains_cons

theorem is_generated_append (env : CEnv) (cg : CCodegenData) (t : String) (o : ASTObj) :
    is_generated env (cg.append t) o = is_generated env cg o := rfl

theorem c_gen_typedef_succ (env : CEnv) (fs : CGFns) (n : Nat) (obj : ASTObj) :
    c_gen_typedef env fs (n + 1) obj
      = (do
          let cg ← CM.get
          if is_generated env cg obj then pure ()
          else do
            set_generated env obj true
            c_predefine_dependant_types env (c_gen_typedef env fs n) obj.data_type
            typedef_decl env fs obj : CM Unit) := rfl

theorem c_predefine_dependant_types_eq (env : CEnv) (g : ASTObj → CM Unit) (obj : ASTObj)
    (t : ASTType) (ht : obj.data_type = some t) :
    c_predefine_dependant_types env g obj.data_type
      = (match typedef_dep env obj with
         | none => pure ()
         | some r => do
           let cg ← CM.get
           CM.when (!is_generated env cg r) (g r) : CM Unit) := by
  unfold c_predefine_dependant_types typedef_dep
  rw [ht]
  dsimp only
  by_cases hk : t.kind = .TY_UNDEF
  · rw [hk]
    cases env.referenced_obj t <;> rfl
  · have hb : (t.kind == ASTTypeKind.TY_UNDEF) = false := by simpa using hk
    rw [hb]
    simp only [Bool.false_eq_true, if_false]

theorem typedef_decl_needs_type (env : CEnv) (fs : CGFns) (obj : ASTObj) (t : String)
    (h : Emits (typedef_decl env fs obj) () t) : ∃ ty, obj.data_type = some ty := by
  cases hty : obj.data_type with
  | some ty => exact ⟨ty, rfl⟩
  | none =>
    have h0 := h init_c_cg rfl
    unfold typedef_decl at h0
    rw [hty] at h0
    cases h0

theorem pending_le (env : CEnv) (objs : List ASTObj) (cg : CCodegenData) :
    pending env objs cg ≤ objs.length := List.length_filter_le _ _

theorem pending_mark_lt (env : CEnv) (objs : List ASTObj) (cg : CCodegenData) (obj : ASTObj)
    (hmem : obj ∈ objs) (hgen : is_generated env cg obj = false) :
    pending env objs { cg with generated := env.addr obj :: cg.generated }
      < pending env objs cg := by
  unfold pending
  have hsub : objs.filter (fun o =>
        !is_generated env { cg with generated := env.addr obj :: cg.generated } o)
      = (objs.filter fun o => !is_generated env cg o).filter
          (fun o => !(env.addr o == env.addr obj)) := by
    rw [List.filter_filter]
    congr 1
    funext o
    rw [is_generated_mark]
    cases (env.addr o == env.addr obj) <;> cases is_generated env cg o <;> rfl
  rw [hsub]
  apply List.length_filter_lt_length_iff_exists.2
  exact ⟨obj, List.mem_filter.2 ⟨hmem, by simp [hgen]⟩, by simp⟩

theorem pending_mono (env : CEnv) (objs : List ASTObj) (cg cg1 : CCodegenData)
    (h : ∀ o ∈ objs, is_generated env cg o = true → is_generated env cg1 o = true) :
    pending env objs cg1 ≤ pending env objs cg := by
  unfold pending
  induction objs with
  | nil => exact Nat.le_refl _
  | cons o rest ih =>
    have ih := ih fun x hx => h x (List.mem_cons_of_mem _ hx)
    have ho := h o (List.mem_cons_self _ _)
    rw [List.filter_cons, List.filter_cons]
    cases h1 : is_generated env cg1 o <;> cases h0 : is_generated env cg o
    · simp only [Bool.not_false, if_true, List.length_cons]; omega
    · simp only [Bool.not_false, Bool.not_true, if_true, Bool.false_eq_true, if_false,
        List.length_cons]
      rw [h0] at ho
      rw [ho rfl] at h1
      cases h1
    · simp only [Bool.not_false, Bool.not_true, if_true, Bool.false_eq_true, if_false,
        List.length_cons]
      omega
    · simp only [Bool.not_true, Bool.false_eq_true, if_false]; omega

theorem typedef_run_refl (env : CEnv) (decl : ASTObj → String) (objs : List ASTObj)
    (cg : CCodegenData) (h : cg.pos = cg.buf.length) : TypedefRun env decl objs cg cg [] :=
  ⟨h, by show cg.buf = cg.buf ++ ""; rw [String.append_empty], by simp, List.nodup_nil,
    by simp, by simp⟩

theorem typedef_run_trans {env : CEnv} {decl : ASTObj → String} {objs : List ASTObj}
    {cg cg1 cg2 : CCodegenData} {o1 o2 : List ASTObj}
    (h1 : TypedefRun env decl objs cg cg1 o1) (h2 : TypedefRun env decl objs cg1 cg2 o2) :
    TypedefRun env decl objs cg cg2 (o1 ++ o2) := by
  refine ⟨h2.at_end, ?_, ?_, ?_, ?_, ?_⟩
  · rw [h2.text, h1.text, decls_text_append, String.append_assoc]
  · intro o ho
    rcases List.mem_append.1 ho with h | h
    · exact h1.known o h
    · exact h2.known o h
  · refine List.Nodup.append h1.once h2.once ?_
    intro o ha hb
    have hf := h2.fresh o hb
    have hg := (h1.marked o (h1.known o ha)).2 (Or.inr ha)
    rw [hg] at hf
    cases hf
  · intro o ho
    rcases List.mem_append.1 ho with h | h
    · exact h1.fresh o h
    · have hf := h2.fresh o h
      cases hg : is_generated env cg o with
      | false => rfl
      | true =>
        have := (h1.marked o (h2.known o h)).2 (Or.inl hg)
        rw [this] at hf
        cases hf
  · intro o ho
    rw [h2.marked o ho, h1.marked o ho, List.mem_append, or_assoc]

theorem typedef_run_pending {env : CEnv} {decl : ASTObj → String} {objs : List ASTObj}
    {cg cg1 : CCodegenData} {order : List ASTObj} (h : TypedefRun env decl objs cg cg1 order) :
    pending env objs cg1 ≤ pending env objs cg :=
  pending_mono env objs cg cg1 fun o ho hg => (h.marked o ho).2 (Or.inl hg)

theorem typedef_run_mark {env : CEnv} {decl : ASTObj → String} {objs : List ASTObj}
    (hinj : ∀ a ∈ objs, ∀ b ∈ objs, env.addr a = env.addr b → a = b)
    {cg cg2 : CCodegenData} {order : List ASTObj} (obj : ASTObj) (hmem : obj ∈ objs)
    (hgen : is_generated env cg obj = false)
    (h : TypedefRun env decl objs { cg with generated := env.addr obj :: cg.generated } cg2
      order) :
    TypedefRun env decl objs cg (cg2.append (decl obj)) (order ++ [obj]) := by
  have hself : is_generated env { cg with generated := env.addr obj :: cg.generated } obj
      = true := by
    rw [is_generated_mark]; simp
  refine ⟨append_at_end _ _, ?_, ?_, ?_, ?_, ?_⟩
  · show cg2.buf ++ decl obj = _
    rw [h.text, decls_text_append, String.append_assoc]
    show _ = cg.buf ++ (decls_text decl order ++ (decl obj ++ ""))
    rw [String.append_empty]
  · intro o ho
    rcases List.mem_append.1 ho with h1 | h1
    · exact h.known o h1
    · rw [List.mem_singleton.1 h1]; exact hmem
  · refine List.Nodup.append h.once (List.nodup_singleton _) ?_
    intro o ha hb
    rw [List.mem_singleton.1 hb] at ha
    have := h.fresh obj ha
    rw [hself] at this
    cases this
  · intro o ho
    rcases List.mem_append.1 ho with h1 | h1
    · have hf := h.fresh o h1
      rw [is_generated_mark] at hf
      cases hg : is_generated env cg o with
      | false => rfl
      | true => rw [hg, Bool.or_true] at hf; cases hf
    · rw [List.mem_singleton.1 h1]; exact hgen
  · intro o ho
    rw [is_generated_append, h.marked o ho, is_generated_mark, List.mem_append,
      List.mem_singleton, Bool.or_eq_true, beq_iff_eq]
    constructor
    · rintro ((h1 | h1) | h1)
      · exact Or.inr (Or.inr (hinj o ho obj hmem h1))
      · exact Or.inl h1
      · exact Or.inr (Or.inl h1)
    · rintro (h1 | h1 | h1)
      · exact Or.inl (Or.inr h1)
      · exact Or.inr h1
      · exact Or.inl (Or.inl (by rw [h1]))

/-- One call of `c_gen_typedef` with enough fuel: it returns; for an object
whose flag is set it writes nothing; for an object whose flag is not set it
writes the declaration of the object last, and right before it the
declaration of the object that its type refers to, when the flag of that
object is not set either. -/
theorem c_gen_typedef_run (env : CEnv) (fs : CGFns) (decl : ASTObj → String)
    (objs : List ASTObj)
    (hdecl : ∀ o ∈ objs, Emits (typedef_decl env fs o) () (decl o))
    (hclosed : ∀ o ∈ objs, ∀ r, typedef_dep env o = some r → r ∈ objs)
    (hinj : ∀ a ∈ objs, ∀ b ∈ objs, env.addr a = env.addr b → a = b) :
    ∀ (n : Nat) (obj : ASTObj) (cg : CCodegenData), obj ∈ objs → cg.pos = cg.buf.length →
      pending env objs cg < n →
      ∃ order cg1, c_gen_typedef env fs n obj cg = .ok () cg1
        ∧ TypedefRun env decl objs cg cg1 order
        ∧ (is_generated env cg obj = true → order = [])
        ∧ (is_generated env cg obj = false →
            ∃ pre, order = pre ++ [obj]
              ∧ ∀ r, typedef_dep env obj = some r → r ≠ obj →
                  is_generated env cg r = false → ∃ pre1, pre = pre1 ++ [r]) := by
  intro n
  induction n with
  | zero => intro obj cg _ _ h; exact absurd h (Nat.not_lt_zero _)
  | succ n ih =>
    intro obj cg hmem hend hpend
    rw [c_gen_typedef_succ]
    show ∃ order cg1,
      ((if is_generated env cg obj = true then pure ()
        else do
          set_generated env obj true
          c_predefine_dependant_types env (c_gen_typedef env fs n) obj.data_type
          typedef_decl env fs obj : CM Unit) cg) = .ok () cg1 ∧ _
    cases hgen : is_generated env cg obj with
    | true =>
      refine ⟨[], cg, ?_, typedef_run_refl env decl objs cg hend, fun _ => rfl, ?_⟩
      · simp only [if_true]
        rfl
      · intro h; cases h
    | false =>
      simp only [Bool.false_eq_true, if_false]
      obtain ⟨ty, hty⟩ := typedef_decl_needs_type env fs obj _ (hdecl obj hmem)
      have hmark : set_generated env obj true cg
          = .ok () { cg with generated := env.addr obj :: cg.generated } := rfl
      have hendm : ({ cg with generated := env.addr obj :: cg.generated } : CCodegenData).pos
          = ({ cg with generated := env.addr obj :: cg.generated } : CCodegenData).buf.length :=
        hend
      -- the run of the object that the type refers to
      have hdep : ∃ ord cg2,
          c_predefine_dependant_types env (c_gen_typedef env fs n) obj.data_type
            { cg with generated := env.addr obj :: cg.generated } = .ok () cg2
          ∧ TypedefRun env decl objs { cg with generated := env.addr obj :: cg.generated } cg2
              ord
          ∧ ∀ r, typedef_dep env obj = some r → r ≠ obj → is_generated env cg r = false →
              ∃ pre1, ord = pre1 ++ [r] := by
        rw [c_predefine_dependant_types_eq env _ obj ty hty]
        cases hd : typedef_dep env obj with
        | none =>
          exact ⟨[], _, rfl, typedef_run_refl env decl objs _ hendm, fun r h => by cases h⟩
        | some r =>
          have hr := hclosed obj hmem r hd
          show ∃ ord cg2,
            (CM.when (!is_generated env { cg with generated := env.addr obj :: cg.generated } r)
              (c_gen_typedef env fs n r)) { cg with generated := env.addr obj :: cg.generated }
              = .ok () cg2 ∧ _
          cases hgr : is_generated env { cg with generated := env.addr obj :: cg.generated } r
            with
          | true =>
            refine ⟨[], _, rfl, typedef_run_refl env decl objs _ hendm, ?_⟩
            intro r1 h1 hne hfresh
            cases h1
            rw [is_generated_mark, hfresh, Bool.or_false, beq_iff_eq] at hgr
            exact absurd (hinj r hr obj hmem hgr) hne
          | false =>
            have hlt := pending_mark_lt env objs cg obj hmem hgen
            obtain ⟨ord, cg2, hrun, hR, -, hlast⟩ := ih r _ hr hendm (by omega)
            refine ⟨ord, cg2, hrun, hR, ?_⟩
            intro r1 h1 _ _
            cases h1
            obtain ⟨pre, hpre, -⟩ := hlast hgr
            exact ⟨pre, hpre⟩
      obtain ⟨ord, cg2, hrun, hR, hlast⟩ := hdep
      exact ⟨ord ++ [obj], cg2.append (decl obj),
        (cm_bind_ok hmark).trans ((cm_bind_ok hrun).trans (hdecl obj hmem cg2 hR.at_end)),
        typedef_run_mark hinj obj hmem hgen hR, (fun h => by cases h), fun _ => ⟨ord, rfl, hlast⟩⟩

theorem typedef_objs_cons (d : Nat) (obj : ASTObj) (rest : List ASTObj) :
    typedef_objs (d + 1) (obj :: rest)
      = (match obj.kind with
         | .OBJ_NAMESPACE => typedef_objs d obj.objs
         | .OBJ_TYPEDEF => [obj]
         | _ => []) ++ typedef_objs (d + 1) rest := by
  show List.flatMap _ _ = _ ++ List.flatMap _ _
  rw [List.flatMap_cons]
  try rfl

theorem typedef_run_keeps {env : CEnv} {decl : ASTObj → String} {objs : List ASTObj}
    {cg cg1 : CCodegenData} {order : List ASTObj} (h : TypedefRun env decl objs cg cg1 order)
    (o : ASTObj) (ho : o ∈ objs) (hg : is_generated env cg o = true) :
    is_generated env cg1 o = true :=
  (h.marked o ho).2 (Or.inl hg)

/-- The loop of `c_gen_typedefs` over a list of objects whose namespaces nest
within the depth `d`, with enough fuel: it returns, and the flag of every
typedef object of the list is set afterwards. -/
theorem c_gen_typedefs_run (env : CEnv) (fs : CGFns) (decl : ASTObj → String)
    (objs : List ASTObj)
    (hdecl : ∀ o ∈ objs, Emits (typedef_decl env fs o) () (decl o))
    (hclosed : ∀ o ∈ objs, ∀ r, typedef_dep env o = some r → r ∈ objs)
    (hinj : ∀ a ∈ objs, ∀ b ∈ objs, env.addr a = env.addr b → a = b) :
    ∀ (d : Nat) (l : List ASTObj) (fuel : Nat) (cg : CCodegenData),
      nests_within d l = true → (∀ o ∈ typedef_objs d l, o ∈ objs) →
      cg.pos = cg.buf.length → d + objs.length ≤ fuel →
      ∃ order cg1, c_gen_typedefs env fs fuel l cg = .ok () cg1
        ∧ TypedefRun env decl objs cg cg1 order
        ∧ ∀ o ∈ typedef_objs d l, is_generated env cg1 o = true := by
  intro d
  induction d with
  | zero =>
    intro l fuel cg hnest _ hend _
    cases l with
    | nil =>
      refine ⟨[], cg, ?_, typedef_run_refl env decl objs cg hend, by simp [typedef_objs]⟩
      cases fuel <;> rfl
    | cons obj rest => cases hnest
  | succ d ih =>
    intro l fuel cg hnest hsub hend hfuel
    cases l with
    | nil =>
      refine ⟨[], cg, ?_, typedef_run_refl env decl objs cg hend, by simp [typedef_objs]⟩
      cases fuel <;> rfl
    | cons obj rest =>
      obtain ⟨n, rfl⟩ : ∃ n, fuel = n + 1 := ⟨fuel - 1, by omega⟩
      have hall : ∀ o ∈ obj :: rest,
          (o.kind != ASTObjKind.OBJ_NAMESPACE || nests_within d o.objs) = true :=
        List.all_eq_true.1 hnest
      show ∃ order cg1,
        c_for_objs (fun obj =>
          match obj.kind with
          | .OBJ_NAMESPACE => c_gen_typedefs env fs n obj.objs
          | .OBJ_TYPEDEF => c_gen_typedef env fs (n + 1) obj
          | _ => pure ()) (obj :: rest) cg = .ok () cg1 ∧ _
      generalize obj :: rest = l at hall hsub
      induction l generalizing cg with
      | nil =>
        exact ⟨[], cg, rfl, typedef_run_refl env decl objs cg hend, by simp [typedef_objs]⟩
      | cons o r ihl =>
        rw [typedef_objs_cons] at hsub ⊢
        have ho := hall o (List.mem_cons_self _ _)
        -- the object `o`
        have hstep : ∃ ord cg1,
            (match o.kind with
              | .OBJ_NAMESPACE => c_gen_typedefs env fs n o.objs
              | .OBJ_TYPEDEF => c_gen_typedef env fs (n + 1) o
              | _ => pure () : CM Unit) cg = .ok () cg1
            ∧ TypedefRun env decl objs cg cg1 ord
            ∧ ∀ x ∈ (match o.kind with
                | .OBJ_NAMESPACE => typedef_objs d o.objs
                | .OBJ_TYPEDEF => [o]
                | _ => []), is_generated env cg1 x = true := by
          have hsub1 := fun x hx => hsub x (List.mem_append_left _ hx)
          cases hk : o.kind
          case OBJ_NAMESPACE =>
            rw [hk] at ho hsub1
            simp only [bne_self_eq_false, Bool.false_or] at ho
            exact ih o.objs n cg ho hsub1 hend (by omega)
          case OBJ_TYPEDEF =>
            rw [hk] at hsub1
            have hmem : o ∈ objs := hsub1 o (List.mem_singleton.2 rfl)
            obtain ⟨ord, cg1, hrun, hR, hgen, hnew⟩ :=
              c_gen_typedef_run env fs decl objs hdecl hclosed hinj (n + 1) o cg hmem hend
                (by have := pending_le env objs cg; omega)
            refine ⟨ord, cg1, hrun, hR, ?_⟩
            intro x hx
            rw [List.mem_singleton.1 hx]
            cases hg : is_generated env cg o with
            | true => exact typedef_run_keeps hR o hmem hg
            | false =>
              obtain ⟨pre, hpre, -⟩ := hnew hg
              exact (hR.marked o hmem).2 (Or.inr (by rw [hpre]; simp))
          all_goals
            exact ⟨[], cg, rfl, typedef_run_refl env decl objs cg hend, by simp⟩
        obtain ⟨ord1, cg1, hrun1, hR1, hgen1⟩ := hstep
        obtain ⟨ord2, cg2, hrun2, hR2, hgen2⟩ :=
          ihl cg1 hR1.at_end (fun x hx => hall x (List.mem_cons_of_mem _ hx))
            (fun x hx => hsub x (List.mem_append_right _ hx))
        refine ⟨ord1 ++ ord2, cg2, ?_, typedef_run_trans hR1 hR2, ?_⟩
        · show (_ >>= fun _ => c_for_objs _ r) cg = _
          rw [cm_bind_ok hrun1]
          exact hrun2
        · intro x hx
          rcases List.mem_append.1 hx with h1 | h1
          · exact typedef_run_keeps hR2 x (hsub x hx) (hgen1 x h1)
          · exact hgen2 x h1

theorem emits_println (s : String) : Emits (c_println s) () (s ++ "\n") := by
  intro cg h
  show CRes.ok () ((cg.write s).write "\n") = _
  rw [write_eq_append cg s h, write_eq_append _ "\n" (append_at_end cg s), append_append]

theorem emits_when_print (c : Bool) (s : String) :
    Emits (CM.when c (c_print s)) () (if c then s else "") := by
  cases c
  · exact emits_pure ()
  · exact emits_print s

/-- The declaration of a typedef of a struct or union type. -/
theorem typedef_decl_struct (env : CEnv) (fs : CGFns) (obj : ASTObj) (t : ASTType)
    (ht : obj.data_type = some t) (hk : t.kind = .TY_STRUCT) :
    Emits (typedef_decl env fs obj) () (struct_decl env obj) := by
  unfold typedef_decl struct_decl
  rw [ht]
  simp only [hk, beq_self_eq_true, if_true]
  refine emits_congr (emits_bind (emits_print _) (emits_println _)) ?_
  simp only [String.append_assoc]
  rfl

/-- The declaration of a typedef whose type is a name. -/
theorem typedef_decl_alias (env : CEnv) (k : Nat) (obj : ASTObj) (t : ASTType)
    (ht : obj.data_type = some t) (hk : t.kind = .TY_UNDEF) (hp : t.is_primitive = false) :
    Emits (typedef_decl env (cg_fns env (k + 1)) obj) () (alias_decl env obj) := by
  unfold typedef_decl alias_decl
  rw [ht]
  have hns : (t.kind == ASTTypeKind.TY_STRUCT) = false := by rw [hk]; rfl
  simp only [hns, Bool.false_eq_true, if_false]
  have htype : Emits ((cg_fns env (k + 1)).c_gen_type (some t)) ()
      ((if t.is_constant then "const " else "") ++ c_gen_identifier env (some t.id)) := by
    show Emits (c_gen_type_body env (cg_fns env k) t) () _
    unfold c_gen_type_body
    simp only [hp, Bool.false_and, Bool.false_eq_true, if_false, hk]
    exact emits_bind (emits_when_print _ _) (emits_print _)
  have hname : Emits (c_gen_typed_name env (cg_fns env (k + 1)) obj.id (some t)) ()
      ((if t.is_constant then "const " else "") ++ c_gen_identifier env (some t.id)
        ++ " " ++ c_gen_identifier env obj.id) := by
    unfold c_gen_typed_name
    simp only [hk]
    refine emits_congr (emits_bind htype (emits_bind (emits_putc ' ') (emits_print _))) ?_
    simp only [String.append_assoc]
    rfl
  refine emits_congr (emits_bind (emits_print _) (emits_bind hname (emits_println _))) ?_
  simp only [String.append_assoc]
  rfl

/-- C33, as the code has it: let the namespaces of the program nest within
the depth `d`, let the names in the types of its typedef objects refer to
typedef objects of the program, let distinct typedef objects have distinct
addresses, and let the declaration of each typedef object be written as the
text `decl o`.  Started with the flag `generated` of every typedef object
unset and with fuel for the depth and the number of typedef objects,
`c_gen_typedefs` returns, whether or not the references form a cycle; it has
written the declarations of the objects `order`, a list without repetition of
exactly the typedef objects of the program, and the flag of every typedef
object is set.  And a call of `c_gen_typedef` for an object `A` whose flag is
unset and whose type refers to another object `B` whose flag is unset at that
moment writes the declaration of `B` right before the declaration of `A`,
which is the last one.  The flag of an object is set before its dependency is
looked at, so that an object reached a second time through a cycle is
skipped: its declaration follows. -/
theorem c_gen_typedefs_once (env : CEnv) (fs : CGFns) (decl : ASTObj → String)
    (d fuel : Nat) (objs : List ASTObj) (cg : CCodegenData)
    (hnest : nests_within d objs = true)
    (hdecl : ∀ o ∈ typedef_objs d objs, Emits (typedef_decl env fs o) () (decl o))
    (hclosed : ∀ o ∈ typedef_objs d objs, ∀ r, typedef_dep env o = some r →
      r ∈ typedef_objs d objs)
    (hinj : ∀ a ∈ typedef_objs d objs, ∀ b ∈ typedef_objs d objs,
      env.addr a = env.addr b → a = b)
    (hfresh : ∀ o ∈ typedef_objs d objs, is_generated env cg o = false)
    (hend : cg.pos = cg.buf.length)
    (hfuel : d + (typedef_objs d objs).length ≤ fuel) :
    (∃ order cg1, c_gen_typedefs env fs fuel objs cg = .ok () cg1
      ∧ cg1.text = cg.text ++ decls_text decl order
      ∧ order.Nodup
      ∧ (∀ o, o ∈ order ↔ o ∈ typedef_objs d objs)
      ∧ ∀ o ∈ typedef_objs d objs, is_generated env cg1 o = true)
    ∧ (∀ (A B : ASTObj) (cg0 : CCodegenData) (n : Nat),
        A ∈ typedef_objs d objs → typedef_dep env A = some B → B ≠ A →
        is_generated env cg0 A = false → is_generated env cg0 B = false →
        cg0.pos = cg0.buf.length → (typedef_objs d objs).length < n →
        ∃ pre cg1, c_gen_typedef env fs n A cg0 = .ok () cg1
          ∧ cg1.text = cg0.text ++ decls_text decl (pre ++ [B, A])) := by
  constructor
  · obtain ⟨order, cg1, hrun, hR, hgen⟩ :=
      c_gen_typedefs_run env fs decl (typedef_objs d objs) hdecl hclosed hinj d objs fuel cg
        hnest (fun _ h => h) hend hfuel
    refine ⟨order, cg1, hrun, ?_, hR.once, ?_, hgen⟩
    · rw [text_at_end _ hR.at_end, text_at_end _ hend, hR.text]
    · intro o
      constructor
      · exact hR.known o
      · intro ho
        rcases (hR.marked o ho).1 (hgen o ho) with h | h
        · rw [hfresh o ho] at h; cases h
        · exact h
  · intro A B cg0 n hA hdep hne hgA hgB hend0 hn
    obtain ⟨order, cg1, hrun, hR, -, hnew⟩ :=
      c_gen_typedef_run env fs decl (typedef_objs d objs) hdecl hclosed hinj n A cg0 hA hend0
        (by have := pending_le env (typedef_objs d objs) cg0; omega)
    obtain ⟨pre, hpre, hlast⟩ := hnew hgA
    obtain ⟨pre1, hpre1⟩ := hlast B hdep hne hgB
    refine ⟨pre1, cg1, hrun, ?_⟩
    rw [text_at_end _ hR.at_end, text_at_end _ hend0, hR.text, hpre, hpre1, List.append_assoc]
    rfl

theorem cyclic_typedefs_eq : typedef_objs 2 cyclic_objs = cyclic_typedefs := rfl

theorem cyclic_decl : ∀ o ∈ cyclic_typedefs,
    Emits (typedef_decl cyclic_cenv (cg_fns cyclic_cenv 1) o) () (sample_decl cyclic_cenv o) := by
  intro o ho
  simp only [cyclic_typedefs, List.mem_cons, List.mem_singleton, List.not_mem_nil,
    or_false] at ho
  rcases ho with rfl | rfl | rfl | rfl
  · exact typedef_decl_alias cyclic_cenv 0 _ _ rfl rfl rfl
  · exact typedef_decl_alias cyclic_cenv 0 _ _ rfl rfl rfl
  · exact typedef_decl_struct cyclic_cenv _ _ _ rfl rfl
  · exact typedef_decl_alias cyclic_cenv 0 _ _ rfl rfl rfl

theorem cyclic_closed : ∀ o ∈ cyclic_typedefs, ∀ r, typedef_dep cyclic_cenv o = some r →
    r ∈ cyclic_typedefs := by
  intro o ho r hr
  simp only [cyclic_typedefs, List.mem_cons, List.mem_singleton, List.not_mem_nil,
    or_false] at ho ⊢
  rcases ho with rfl | rfl | rfl | rfl
  · have h : typedef_dep cyclic_cenv (alias_obj "a" "bb") = some (alias_obj "bb" "a") := rfl
    rw [h] at hr; cases hr; simp
  · have h : typedef_dep cyclic_cenv (alias_obj "bb" "a") = some (alias_obj "a" "bb") := rfl
    rw [h] at hr; cases hr; simp
  · have h : typedef_dep cyclic_cenv (struct_obj "ccc") = none := rfl
    rw [h] at hr; cases hr
  · have h : typedef_dep cyclic_cenv (alias_obj "dddd" "ccc") = some (struct_obj "ccc") := rfl
    rw [h] at hr; cases hr; simp

theorem cyclic_addr : ∀ a ∈ cyclic_typedefs, ∀ b ∈ cyclic_typedefs,
    cyclic_cenv.addr a = cyclic_cenv.addr b → a = b := by
  intro a ha b hb h
  simp only [cyclic_typedefs, List.mem_cons, List.mem_singleton, List.not_mem_nil,
    or_false] at ha hb
  rcases ha with rfl | rfl | rfl | rfl <;> rcases hb with rfl | rfl | rfl | rfl <;>
    first
    | rfl
    | exact absurd h (by decide)

/-- The program `type a: bb; type bb: a; type ccc: struct {}; namespace n {
type dddd: ccc; }`, whose first two typedefs refer to each other, with fuel
6. -/
theorem c_gen_typedefs_once_witness :
    (∃ order cg1,
      c_gen_typedefs cyclic_cenv (cg_fns cyclic_cenv 1) 6 cyclic_objs init_c_cg = .ok () cg1
      ∧ cg1.text = init_c_cg.text ++ decls_text (sample_decl cyclic_cenv) order
      ∧ order.Nodup
      ∧ (∀ o, o ∈ order ↔ o ∈ typedef_objs 2 cyclic_objs)
      ∧ ∀ o ∈ typedef_objs 2 cyclic_objs, is_generated cyclic_cenv cg1 o = true)
    ∧ (∀ (A B : ASTObj) (cg0 : CCodegenData) (n : Nat),
        A ∈ typedef_objs 2 cyclic_objs → typedef_dep cyclic_cenv A = some B → B ≠ A →
        is_generated cyclic_cenv cg0 A = false → is_generated cyclic_cenv cg0 B = false →
        cg0.pos = cg0.buf.length → (typedef_objs 2 cyclic_objs).length < n →
        ∃ pre cg1, c_gen_typedef cyclic_cenv (cg_fns cyclic_cenv 1) n A cg0 = .ok () cg1
          ∧ cg1.text = cg0.text ++ decls_text (sample_decl cyclic_cenv) (pre ++ [B, A])) :=
  c_gen_typedefs_once cyclic_cenv (cg_fns cyclic_cenv 1) (sample_decl cyclic_cenv) 2 6
    cyclic_objs init_c_cg rfl (cyclic_typedefs_eq ▸ cyclic_decl)
    (cyclic_typedefs_eq ▸ cyclic_closed) (cyclic_typedefs_eq ▸ cyclic_addr)
    (fun _ _ => rfl) rfl (by decide)

/-- The text of the typedef section of that program: the declaration of `bb`
comes before the one of `a`, whose type refers to it, and every typedef is
declared once. -/
theorem c_gen_typedefs_cyclic :
    (c_gen_typedefs cyclic_cenv (cg_fns cyclic_cenv 1) 6 cyclic_objs init_c_cg).text_of
      = some ("typedef __csp_a __csp_bb;\n" ++ "typedef __csp_bb __csp_a;\n"
          ++ "typedef struct __csp_ccc __csp_ccc;\n" ++ "typedef __csp_ccc __csp_dddd;\n")
    ∧ (c_gen_typedefs cyclic_cenv (cg_fns cyclic_cenv 1) 6 cyclic_objs init_c_cg).state_of.map
        (fun cg => cg.generated) = some [4, 3, 2, 1]
    ∧ (c_gen_typedefs cyclic_cenv (cg_fns cyclic_cenv 1) 1 cyclic_objs init_c_cg).text_of
      = none := by
  refine ⟨?_, ?_, ?_⟩ <;> decide!

/-- C33 refuted as stated: in the program `type a: bb; type bb: a; ...` the
type of `bb` is a named reference resolved to the typedef `a`, and the
declaration of `bb` is the first text that `c_gen_typedefs` writes: the
declaration of `a` has not been emitted at that moment, and it is emitted
after the one of `bb`, not before it.  The call for `a` sets the flag of `a`,
goes to `bb`, whose call finds the flag of `a` set and writes `bb`. -/
theorem c_gen_typedefs_cycle_order :
    typedef_dep cyclic_cenv (alias_obj "bb" "a") = some (alias_obj "a" "bb")
    ∧ typedef_dep cyclic_cenv (alias_obj "a" "bb") = some (alias_obj "bb" "a")
    ∧ init_c_cg.text = ""
    ∧ (c_gen_typedefs cyclic_cenv (cg_fns cyclic_cenv 1) 6 cyclic_objs init_c_cg).text_of
      = some (decls_text (sample_decl cyclic_cenv)
          [alias_obj "bb" "a", alias_obj "a" "bb", struct_obj "ccc", alias_obj "dddd" "ccc"])
    ∧ sample_decl cyclic_cenv (alias_obj "bb" "a") = "typedef __csp_a __csp_bb;\n"
    ∧ sample_decl cyclic_cenv (alias_obj "a" "bb") = "typedef __csp_bb __csp_a;\n"
    ∧ ((c_gen_typedef cyclic_cenv (cg_fns cyclic_cenv 1) 6 (alias_obj "bb" "a")
          { init_c_cg with generated := [cyclic_cenv.addr (alias_obj "a" "bb")] }).text_of
      = some "typedef __csp_a __csp_bb;\n") := by
  refine ⟨rfl, rfl, rfl, ?_, ?_, ?_, ?_⟩ <;> decide!

end CSpydr
